import Mathlib

/-!
# yara-python: scan callback bridge, result model, externals, streams, compile

A shallow embedding of parts of `yara-python.c` (the CPython extension that
bridges the YARA engine to Python), followed by theorems about it.

Conventions of the embedding

* Python 3 build (`PY_MAJOR_VERSION >= 3`), LP64 platform (`int` is 32 bits,
  `long` and `long long` are 64 bits).
* C strings are Lean strings (valid UTF-8, no embedded NUL), so the decoding
  done by `PY_STRING` is the identity.
* A `PyObject*` that may be `NULL` is an `Option`; `none` is `NULL`.
* Python objects are immutable values: a list or dictionary that the C code
  mutates in place is threaded through as the updated value.
* Host callbacks are functions of the history of host-visible effects so far
  and of their argument; they answer `none` when they raise.
* Every allocation whose result the C code tests against `NULL` is decided by
  an `Alloc` record handed to the function, one answer per tested site.
* Where the C code goes on with an exception pending (after
  `PyLong_AsLongLong` in the externals marshallers, after the callbacks of a
  compilation), the error indicator of the host is threaded through as an
  `Option PyErr`.
* Reference counting and the GIL are not represented.
-/

namespace YaraPython

/-! ## Machine integers -/

/-- Conversion of an integer to C `int` (two's complement, 32 bits). -/
def to_int32 (v : Int) : Int := (v + 2 ^ 31) % 2 ^ 32 - 2 ^ 31

/-- Conversion of an integer to C `long long` / `int64_t`. -/
def to_int64 (v : Int) : Int := (v + 2 ^ 63) % 2 ^ 64 - 2 ^ 63

/-- Conversion of an integer to `uint64_t`. -/
def to_uint64 (v : Int) : Nat := (v % 2 ^ 64).toNat

/-- Conversion of a natural number to `uint8_t`. -/
def to_uint8 (v : Nat) : Nat := v % 2 ^ 8

/-- The C expression `a & mask` for an `int` `a` and a non-negative constant
`mask`, computed on the 32-bit two's complement pattern of `a`. -/
def int_and (a : Int) (mask : Nat) : Nat := (a % 2 ^ 32).toNat &&& mask

/-- A byte of a buffer. -/
abbrev Byte := Fin 256

/-! ## Constants

The dispositions CONTINUE and ABORT and the three mask constants are defined
in the source file. The other constants come from `yara.h`, which is not part
of the source: they carry the values of the engine's headers, and nothing
below depends on more than their being pairwise distinct within each group. -/

/-- Disposition CONTINUE (the module constant `CALLBACK_CONTINUE`). -/
def CALLBACK_CONTINUE : Int := 0
/-- Disposition ABORT (the module constant `CALLBACK_ABORT`). -/
def CALLBACK_ABORT : Int := 1
/-- Modelled from the spec: the disposition ERROR, `CALLBACK_ERROR` of
`yara.h`. -/
def CALLBACK_ERROR : Int := 2

/-- Modelled from the spec: the code of the event RULE_MATCHING. -/
def CALLBACK_MSG_RULE_MATCHING : Int := 1
/-- Modelled from the spec: the code of the event RULE_NOT_MATCHING. -/
def CALLBACK_MSG_RULE_NOT_MATCHING : Int := 2
/-- Modelled from the spec: the code of the event SCAN_FINISHED. -/
def CALLBACK_MSG_SCAN_FINISHED : Int := 3
/-- Modelled from the spec: the code of the event IMPORT_MODULE. -/
def CALLBACK_MSG_IMPORT_MODULE : Int := 4
/-- Modelled from the spec: the code of the event MODULE_IMPORTED. -/
def CALLBACK_MSG_MODULE_IMPORTED : Int := 5
/-- Modelled from the spec: the code of the event TOO_MANY_MATCHES. -/
def CALLBACK_MSG_TOO_MANY_MATCHES : Int := 6
/-- Modelled from the spec: the code of the event CONSOLE_LOG. -/
def CALLBACK_MSG_CONSOLE_LOG : Int := 7

/-- Mask bit `CALLBACK_MATCHES`. -/
def CALLBACK_MATCHES : Nat := 0x01
/-- Mask bit `CALLBACK_NON_MATCHES`. -/
def CALLBACK_NON_MATCHES : Nat := 0x02
/-- Mask `CALLBACK_ALL`. -/
def CALLBACK_ALL : Nat := CALLBACK_MATCHES ||| CALLBACK_NON_MATCHES

/-- Modelled from the spec: the type tag of an integer meta entry. -/
def META_TYPE_INTEGER : Int := 1
/-- Modelled from the spec: the type tag of a string meta entry. -/
def META_TYPE_STRING : Int := 2
/-- Modelled from the spec: the type tag of a boolean meta entry. -/
def META_TYPE_BOOLEAN : Int := 3

/-- Modelled from the spec: the engine code for success; the definitions that
follow are the other engine codes that the source file names. -/
def ERROR_SUCCESS : Int := 0
def ERROR_INSUFFICIENT_MEMORY : Int := 1
def ERROR_COULD_NOT_ATTACH_TO_PROCESS : Int := 2
def ERROR_COULD_NOT_OPEN_FILE : Int := 3
def ERROR_COULD_NOT_MAP_FILE : Int := 4
def ERROR_INVALID_FILE : Int := 6
def ERROR_CORRUPT_FILE : Int := 7
def ERROR_UNSUPPORTED_FILE_VERSION : Int := 8
def ERROR_SCAN_TIMEOUT : Int := 26
def ERROR_CALLBACK_ERROR : Int := 28
def ERROR_INVALID_ARGUMENT : Int := 29
def ERROR_INVALID_EXTERNAL_VARIABLE_TYPE : Int := 48

/-- Modelled from the spec: the scanner flag of the fast-match mode. -/
def SCAN_FLAGS_FAST_MODE : Nat := 1

/-- Modelled from the spec: the sentinel `YR_UNDEFINED` (`0xFFFABADAFABADAFF` read as `int64_t`). -/
def YR_UNDEFINED : Int := to_int64 0xFFFABADAFABADAFF

/-! ## Python values -/

/-- Hashable scalar objects, the keys of the dictionaries that occur here. -/
inductive PyKey
  | None
  | Bool (b : Bool)
  | Long (v : Int)
  | Str (s : String)
  | Bytes (b : List Byte)
  | Other (tag : Nat)
deriving DecidableEq, Inhabited

/-- Python objects as far as the extension inspects them. `Float` carries the
IEEE-754 binary64 bit pattern; `Other` stands for any object of another type. -/
inductive PyObject
  | None
  | Bool (b : Bool)
  | Long (v : Int)
  | Float (bits : Nat)
  | Str (s : String)
  | Bytes (b : List Byte)
  | List (xs : List PyObject)
  | Dict (items : List (PyKey × PyObject))
  | Other (tag : Nat)
deriving Inhabited

/-- Items of a Python dictionary in insertion order, keys pairwise distinct. -/
abbrev PyDict := List (PyKey × PyObject)

/-- The macro `PY_STRING` (`PyUnicode_DecodeUTF8` with errors ignored). -/
def PY_STRING (x : String) : PyObject := PyObject.Str x

/-- CPython `PyLong_Check`: true for `int` and for its subclass `bool`. -/
def PyLong_Check : PyObject → Bool
  | PyObject.Long _ => true
  | PyObject.Bool _ => true
  | _ => false

/-- CPython `PyLong_AsLong` on a 64-bit `long`: the value, or `-1` when it does
not fit (an `OverflowError` is then pending) or the object is no integer. -/
def PyLong_AsLong : PyObject → Int
  | PyObject.Long v => if -(2 ^ 63) ≤ v ∧ v < 2 ^ 63 then v else -1
  | PyObject.Bool b => if b then 1 else 0
  | _ => -1

/-- CPython `PyBool_FromLong`. -/
def PyBool_FromLong (v : Int) : PyObject := PyObject.Bool (decide (v ≠ 0))

/-- CPython `PyDict_GetItemString`: the value stored under the string key, or
`NULL`. -/
def PyDict_GetItemString (d : PyDict) (key : String) : Option PyObject :=
  match d with
  | [] => none
  | (k, v) :: rest => if k = PyKey.Str key then some v else PyDict_GetItemString rest key

/-- CPython `PyDict_SetItemString`: replaces the value of an existing key in
place, inserts a new key at the end. -/
def PyDict_SetItemString (d : PyDict) (key : String) (val : PyObject) : PyDict :=
  match d with
  | [] => [(PyKey.Str key, val)]
  | (k, v) :: rest =>
    if k = PyKey.Str key then (k, val) :: rest
    else (k, v) :: PyDict_SetItemString rest key val

/-- CPython `PyList_Append` on the object `list`: the list with `item` added at
its end; an object that is not a list is left as it is (the call fails). -/
def PyList_Append (list : PyObject) (item : PyObject) : PyObject :=
  match list with
  | PyObject.List xs => PyObject.List (xs ++ [item])
  | o => o

/-- CPython `PyBytes_FromStringAndSize`: the first `len` bytes of the buffer. -/
def PyBytes_FromStringAndSize (v : List Byte) (len : Nat) : List Byte := v.take len

/-- CPython `PyLong_AsUnsignedLongLong` on the value of a Python integer;
`(unsigned long long) -1` on overflow. -/
def PyLong_AsUnsignedLongLong (v : Int) : Nat :=
  if 0 ≤ v ∧ v < 2 ^ 64 then v.toNat else 2 ^ 64 - 1

/-! ## Engine data

The structures of `yara.h`, which is not part of the source, with the fields
that the source file reads. -/

/-- Modelled from the spec: a meta entry of a rule. -/
structure YR_META where
  identifier : String
  type : Int
  integer : Int
  string : String
deriving Inhabited

/-- Modelled from the spec: a string declared in a rule; `idx` indexes the
match table of the scan context, `rule_idx` the rule table. -/
structure YR_STRING where
  identifier : String
  flags : Nat
  idx : Nat
  rule_idx : Nat
deriving Inhabited

/-- Modelled from the spec: a namespace. -/
structure YR_NAMESPACE where
  name : String
deriving Inhabited

/-- Modelled from the spec: a compiled rule, with its tags, meta entries and
strings in declaration order. -/
structure YR_RULE where
  identifier : String
  ns : YR_NAMESPACE
  tags : List String
  metas : List YR_META
  strings : List YR_STRING
  flags : Nat
deriving Inhabited

/-- Modelled from the spec: one match found by the engine (`base` and `offset`
are 64-bit, `match_length` and `data_length` 32-bit, `xor_key` 8-bit). -/
structure YR_MATCH where
  base : Int
  offset : Int
  match_length : Int
  data_length : Nat
  data : List Byte
  xor_key : Nat
deriving Inhabited

/-- Modelled from the spec: a compiled rule set with its rule table. -/
structure YR_RULES where
  rules_table : List YR_RULE
deriving Inhabited

/-- Modelled from the spec: the scan context. `matches_ idx` is the linked
list of matches of the string with index `idx`, from `head` along `next`, in
discovery order; the empty list is `head == NULL`. -/
structure YR_SCAN_CONTEXT where
  rules : YR_RULES
  matches_ : Nat → List YR_MATCH

/-- Modelled from the spec: the record of an IMPORT_MODULE event. -/
structure YR_MODULE_IMPORT where
  module_name : String
deriving Inhabited

/-- Modelled from the spec: the macro `yr_rule_tags_foreach` of `yara.h`,
which is not part of the source: the tags of the rule in declaration order. -/
abbrev yr_rule_tags_foreach (rule : YR_RULE) : List String := rule.tags

/-- Modelled from the spec: the macro `yr_rule_metas_foreach` of `yara.h`,
which is not part of the source: the meta entries of the rule in declaration
order. -/
abbrev yr_rule_metas_foreach (rule : YR_RULE) : List YR_META := rule.metas

/-- Modelled from the spec: the macro `yr_rule_strings_foreach` of `yara.h`,
which is not part of the source: the strings of the rule in declaration
order. -/
abbrev yr_rule_strings_foreach (rule : YR_RULE) : List YR_STRING := rule.strings

/-- Modelled from the spec: the macro `yr_string_matches_foreach` of `yara.h`,
which is not part of the source: every match of the string in the scan
context, in the order in which the engine discovered them. -/
abbrev yr_string_matches_foreach (context : YR_SCAN_CONTEXT) (string : YR_STRING) :
    List YR_MATCH :=
  context.matches_ string.idx

/-- Modelled from the spec: a value of a module's structured data
(`YR_OBJECT` of `yara.h`), by `object->type`.
An absent `SIZED_STRING*`, an absent `items` table and an absent element of a
table are `none`; `FLOAT` carries the binary64 bit pattern of the double;
`OTHER` is a type tag outside the listed ones. -/
inductive YR_OBJECT
  | INTEGER (identifier : String) (i : Int)
  | STRING (identifier : String) (ss : Option (List Byte))
  | STRUCTURE (identifier : String) (members : List YR_OBJECT)
  | ARRAY (identifier : String) (items : Option (List (Option YR_OBJECT)))
  | FUNCTION (identifier : String)
  | DICTIONARY (identifier : String) (items : Option (List (String × Option YR_OBJECT)))
  | FLOAT (identifier : String) (d : Nat)
  | OTHER (identifier : String) (type : Int)
deriving Inhabited

/-- Field `object->identifier`. -/
def YR_OBJECT.identifier : YR_OBJECT → String
  | INTEGER s _ => s
  | STRING s _ => s
  | STRUCTURE s _ => s
  | ARRAY s _ => s
  | FUNCTION s => s
  | DICTIONARY s _ => s
  | FLOAT s _ => s
  | OTHER s _ => s

/-- The C `isnan` on a binary64 bit pattern: exponent all ones, fraction not
zero. -/
def isnan (d : Nat) : Bool := (d / 2 ^ 52) % 2 ^ 11 == 2047 && d % 2 ^ 52 != 0

/-! ## Result model -/

/-- Object `StringMatchInstance`; the three integer attributes hold the value
of the Python integer stored in them. -/
structure StringMatchInstance where
  offset : Int
  matched_data : List Byte
  matched_length : Int
  xor_key : Int

/-- Object `StringMatch`. -/
structure StringMatch where
  identifier : String
  flags : Nat
  instances : List StringMatchInstance

/-- Object `Match`. -/
structure Match where
  rule : String
  ns : String
  tags : List String
  meta : PyDict
  strings : List StringMatch

/-- The named tuple `RuleString` handed to the warnings callback. -/
structure RuleString where
  ns : String
  rule : String
  string : String

/-- The dictionary handed to the match callback, by key. -/
structure CallbackDict where
  matches_ : Bool
  rule : String
  ns : String
  tags : List String
  meta : PyDict
  strings : List StringMatch

/-- Outcome of the allocations that the C code tests against `NULL`, one
answer per tested site; the sites inside the loop over a rule's strings are
asked per string index, and per position of the match in the string's list. -/
structure Alloc where
  callback_lists : Bool
  string_instance_list : Nat → Bool
  string_match_instance : Nat → Nat → Bool
  string_match : Nat → Bool
  match_new : Bool
  structure_dict : Bool
  array_list : Bool
  dictionary_dict : Bool
  string_identifier : Bool
  rule_identifier : Bool
  namespace_identifier : Bool
  rule_string : Bool
  warning_type : Bool
  plaintext_buf : Bool

/-- The allocator that never fails. -/
def Alloc.healthy : Alloc :=
  { callback_lists := true
    string_instance_list := fun _ => true
    string_match_instance := fun _ _ => true
    string_match := fun _ => true
    match_new := true
    structure_dict := true
    array_list := true
    dictionary_dict := true
    string_identifier := true
    rule_identifier := true
    namespace_identifier := true
    rule_string := true
    warning_type := true
    plaintext_buf := true }

/-- What the host runtime decides during one call into the extension: the
allocations, and whether `PyErr_WarnEx` turns the warning into an exception. -/
structure Runtime where
  alloc : Alloc
  warn_raises : Bool

/-- Host-visible effects, logged in program order. -/
inductive Effect
  | append_match (m : Match)
  | call_callback (callback_dict : CallbackDict)
  | call_modules_callback (module_info_dict : PyDict)
  | call_warnings_callback (warning_type : Int) (rule_string : RuleString)
  | call_console_callback (log_string : String)
  | write_stdout (text : String)
  | warn (message : String)
  | set_module_data (module_name : String) (module_data : List Byte)

/-- A callable host object: given the effects so far and its argument it
returns an object, or raises (`none`). -/
abbrev Callable (α : Type) := List Effect → α → Option PyObject

/-- Struct `CALLBACK_DATA`. Field `matches_` holds the items of the list
object `matches`. -/
structure CALLBACK_DATA where
  matches_ : List Match
  callback : Option (Callable CallbackDict)
  modules_data : Option PyDict
  modules_callback : Option (Callable PyDict)
  warnings_callback : Option (Callable (Int × RuleString))
  console_callback : Option (Callable String)
  which : Int
  allow_duplicate_metadata : Bool

/-! ## Conversion of module data -/

mutual

/-- Function `convert_object_to_python` on an object that is not `NULL`; its
first test, `object == NULL`, is made where the possibly absent element of a
table is at hand, in `convert_items` and `convert_entries`. The bodies of
`convert_structure_to_python`, `convert_array_to_python` and
`convert_dictionary_to_python` stand in place of their calls. -/
def convert_object_to_python (a : Alloc) : YR_OBJECT → Option PyObject
  | YR_OBJECT.INTEGER _ i =>
    if i ≠ YR_UNDEFINED then some (PyObject.Long i) else none
  | YR_OBJECT.STRING _ none => none
  | YR_OBJECT.STRING _ (some bytes) =>
    some (PyObject.Bytes (PyBytes_FromStringAndSize bytes bytes.length))
  | YR_OBJECT.STRUCTURE _ members =>
    if a.structure_dict then some (PyObject.Dict (convert_members a members [])) else none
  | YR_OBJECT.ARRAY _ none =>
    if a.array_list then some (PyObject.List []) else none
  | YR_OBJECT.ARRAY _ (some objects) =>
    if a.array_list then some (PyObject.List (convert_items a objects [])) else none
  | YR_OBJECT.FUNCTION _ => none
  | YR_OBJECT.DICTIONARY _ none =>
    if a.dictionary_dict then some (PyObject.Dict []) else none
  | YR_OBJECT.DICTIONARY _ (some objects) =>
    if a.dictionary_dict then some (PyObject.Dict (convert_entries a objects [])) else none
  | YR_OBJECT.FLOAT _ d =>
    if !isnan d then some (PyObject.Float d) else none
  | YR_OBJECT.OTHER _ _ => none

/-- The loop over `structure->members` in `convert_structure_to_python`. -/
def convert_members (a : Alloc) : List YR_OBJECT → PyDict → PyDict
  | [], py_dict => py_dict
  | member :: next, py_dict =>
    match convert_object_to_python a member with
    | some py_object =>
      convert_members a next (PyDict_SetItemString py_dict member.identifier py_object)
    | none => convert_members a next py_dict

/-- The loop over `array->items->objects` in `convert_array_to_python`. -/
def convert_items (a : Alloc) : List (Option YR_OBJECT) → List PyObject → List PyObject
  | [], py_list => py_list
  | none :: rest, py_list => convert_items a rest py_list
  | some object :: rest, py_list =>
    match convert_object_to_python a object with
    | some py_object => convert_items a rest (py_list ++ [py_object])
    | none => convert_items a rest py_list

/-- The loop over `dictionary->items->objects` in
`convert_dictionary_to_python`. -/
def convert_entries (a : Alloc) : List (String × Option YR_OBJECT) → PyDict → PyDict
  | [], py_dict => py_dict
  | (_, none) :: rest, py_dict => convert_entries a rest py_dict
  | (key, some obj) :: rest, py_dict =>
    match convert_object_to_python a obj with
    | some py_object => convert_entries a rest (PyDict_SetItemString py_dict key py_object)
    | none => convert_entries a rest py_dict

end

/-- Function `convert_structure_to_python` on the members of the structure. -/
def convert_structure_to_python (a : Alloc) (members : List YR_OBJECT) : Option PyDict :=
  if a.structure_dict then some (convert_members a members []) else none

/-- Function `convert_array_to_python` on `array->items`. -/
def convert_array_to_python (a : Alloc) (items : Option (List (Option YR_OBJECT))) :
    Option (List PyObject) :=
  if a.array_list then
    match items with
    | none => some []
    | some objects => some (convert_items a objects [])
  else none

/-- Function `convert_dictionary_to_python` on `dictionary->items`. -/
def convert_dictionary_to_python (a : Alloc)
    (items : Option (List (String × Option YR_OBJECT))) : Option PyDict :=
  if a.dictionary_dict then
    match items with
    | none => some []
    | some objects => some (convert_entries a objects [])
  else none

/-! ## Constructors of the result model -/

/-- Function `Match_NEW`; `ok` is the outcome of `PyObject_NEW`. -/
def Match_NEW (ok : Bool) (rule : String) (ns : String) (tags : List String)
    (meta : PyDict) (strings : List StringMatch) : Option Match :=
  if ok then some { rule := rule, ns := ns, tags := tags, meta := meta, strings := strings }
  else none

/-- Function `StringMatch_NEW`; `ok` is the outcome of `PyObject_NEW`. -/
def StringMatch_NEW (ok : Bool) (identifier : String) (flags : Nat)
    (instance_list : List StringMatchInstance) : Option StringMatch :=
  if ok then some { identifier := identifier, flags := flags, instances := instance_list }
  else none

/-- Function `StringMatchInstance_NEW`; `ok` is the outcome of `PyObject_NEW`.
The parameters are `uint64_t offset`, `int32_t match_length` and
`uint8_t xor_key`; `offset` goes through `PyLong_FromLongLong`. -/
def StringMatchInstance_NEW (ok : Bool) (offset : Int) (matched_data : List Byte)
    (match_length : Int) (xor_key : Nat) : Option StringMatchInstance :=
  if ok then
    some { offset := to_int64 (to_uint64 offset)
           matched_data := matched_data
           matched_length := to_int32 match_length
           xor_key := (to_uint8 xor_key : Nat) }
  else none

/-- The C `calloc(length, sizeof(uint8_t))` when it succeeds: `length` zero
bytes. -/
def calloc (length : Nat) : List Byte := List.replicate length 0

/-- The C `memcpy(dst, src, n)`: the first `n` bytes of `dst` become those of
`src`. -/
def memcpy (dst src : List Byte) (n : Nat) : List Byte := src.take n ++ dst.drop n

/-- The loop `for (i = 0; i < length; i++) buf[i] = ((uint8_t) pb[i]) ^ xor_key`
of `StringMatchInstance_plaintext`, with `todo` iterations left. -/
def plaintext_loop (pb : List Byte) (xor_key : Nat) : Nat → Nat → List Byte → List Byte
  | 0, _, buf => buf
  | todo + 1, i, buf =>
    plaintext_loop pb xor_key todo (i + 1)
      (buf.set i (Fin.ofNat (((pb.getD i 0).val ^^^ xor_key) % 2 ^ 8)))

/-- Function `StringMatchInstance_plaintext`: the returned bytes object (`none`
when `calloc` fails) and the instance after the call. -/
def StringMatchInstance_plaintext (a : Alloc) (inst : StringMatchInstance) :
    Option (List Byte) × StringMatchInstance :=
  let xor_key := PyLong_AsUnsignedLongLong inst.xor_key
  if xor_key = 0 then (some inst.matched_data, inst)
  else
    let pb := inst.matched_data
    let length := pb.length
    if !a.plaintext_buf then (none, inst)
    else
      let buf : List Byte := calloc length
      let buf := memcpy buf pb length
      let buf := plaintext_loop pb xor_key length 0 buf
      (some (PyBytes_FromStringAndSize buf length), inst)

/-! ## Event handlers -/

/-- Function `handle_import_module`: the disposition and the effects. -/
def handle_import_module (module_import : YR_MODULE_IMPORT) (data : CALLBACK_DATA)
    (trace : List Effect) : Int × List Effect :=
  match data.modules_data with
  | none => (CALLBACK_CONTINUE, trace)
  | some modules_data =>
    match PyDict_GetItemString modules_data module_import.module_name with
    | some (PyObject.Bytes module_data) =>
      (CALLBACK_CONTINUE,
        trace ++ [Effect.set_module_data module_import.module_name module_data])
    | _ => (CALLBACK_CONTINUE, trace)

/-- Function `handle_module_imported`; `identifier` and `members` are those of
the structure behind `message_data`. -/
def handle_module_imported (rt : Runtime) (identifier : String) (members : List YR_OBJECT)
    (data : CALLBACK_DATA) (trace : List Effect) : Int × List Effect :=
  match data.modules_callback with
  | none => (CALLBACK_CONTINUE, trace)
  | some modules_callback =>
    match convert_structure_to_python rt.alloc members with
    | none => (CALLBACK_CONTINUE, trace)
    | some module_info_dict =>
      let object := PY_STRING identifier
      let module_info_dict := PyDict_SetItemString module_info_dict "module" object
      let callback_result := modules_callback trace module_info_dict
      let trace := trace ++ [Effect.call_modules_callback module_info_dict]
      let result := CALLBACK_CONTINUE
      match callback_result with
      | some callback_result =>
        if PyLong_Check callback_result then
          (to_int32 (PyLong_AsLong callback_result), trace)
        else (result, trace)
      | none => (CALLBACK_ERROR, trace)

/-- CPython `PySys_WriteStdout`, on the text that its format and arguments
give: what goes to `sys.stdout`. A text of more than 1000 bytes is cut to its
first 1000 bytes, and `... truncated` is written after them. -/
def PySys_WriteStdout (formatted : String) : String :=
  if formatted.length > 1000 then formatted.take 1000 ++ "... truncated" else formatted

/-- Function `handle_console_log`. The format `%.1000s\n` gives at most 1000
bytes of the message and a newline. -/
def handle_console_log (message_data : String) (data : CALLBACK_DATA)
    (trace : List Effect) : Int × List Effect :=
  let result := CALLBACK_CONTINUE
  match data.console_callback with
  | none =>
    (result, trace ++ [Effect.write_stdout (PySys_WriteStdout (message_data.take 1000 ++ "\n"))])
  | some console_callback =>
    let log_string := message_data
    let callback_result := console_callback trace log_string
    let trace := trace ++ [Effect.call_console_callback log_string]
    match callback_result with
    | some callback_result =>
      if PyLong_Check callback_result then
        (to_int32 (PyLong_AsLong callback_result), trace)
      else (result, trace)
    | none => (CALLBACK_ERROR, trace)

/-- Function `handle_too_many_matches`. -/
def handle_too_many_matches (rt : Runtime) (context : YR_SCAN_CONTEXT) (string : YR_STRING)
    (data : CALLBACK_DATA) (trace : List Effect) : Int × List Effect :=
  let result := CALLBACK_CONTINUE
  match data.warnings_callback with
  | none =>
    let message := ("too many matches for string " ++ string.identifier ++ " in rule \""
      ++ (context.rules.rules_table.getD string.rule_idx default).identifier ++ "\"").take 199
    if rt.warn_raises then (CALLBACK_ERROR, trace ++ [Effect.warn message])
    else (result, trace ++ [Effect.warn message])
  | some warnings_callback =>
    if !rt.alloc.string_identifier then (CALLBACK_ERROR, trace) else
    let string_identifier := string.identifier
    let rule := context.rules.rules_table.getD string.rule_idx default
    if !rt.alloc.rule_identifier then (CALLBACK_ERROR, trace) else
    let rule_identifier := rule.identifier
    if !rt.alloc.namespace_identifier then (CALLBACK_ERROR, trace) else
    let namespace_identifier := rule.ns.name
    if !rt.alloc.rule_string then (CALLBACK_ERROR, trace) else
    let rule_string : RuleString :=
      { ns := namespace_identifier, rule := rule_identifier, string := string_identifier }
    if !rt.alloc.warning_type then (CALLBACK_ERROR, trace) else
    let warning_type := CALLBACK_MSG_TOO_MANY_MATCHES
    let callback_result := warnings_callback trace (warning_type, rule_string)
    let trace := trace ++ [Effect.call_warnings_callback warning_type rule_string]
    match callback_result with
    | some callback_result =>
      if PyLong_Check callback_result then
        (to_int32 (PyLong_AsLong callback_result), trace)
      else (result, trace)
    | none => (CALLBACK_ERROR, trace)

/-! ## The scan callback -/

/-- The value built for one meta entry in the loop `yr_rule_metas_foreach`;
`"i"` of `Py_BuildValue` reads a C `int`. -/
def meta_object (meta : YR_META) : PyObject :=
  if meta.type = META_TYPE_INTEGER then PyObject.Long (to_int32 meta.integer)
  else if meta.type = META_TYPE_BOOLEAN then PyBool_FromLong (to_int64 meta.integer)
  else PY_STRING meta.string

/-- Body of the loop `yr_rule_metas_foreach` of `yara_callback`. -/
def meta_step (allow_duplicate_metadata : Bool) (meta_list : PyDict) (meta : YR_META) :
    PyDict :=
  let object := meta_object meta
  if allow_duplicate_metadata then
    match PyDict_GetItemString meta_list meta.identifier with
    | some existing_item =>
      PyDict_SetItemString meta_list meta.identifier (PyList_Append existing_item object)
    | none =>
      let new_list := PyObject.List []
      let new_list := PyList_Append new_list object
      PyDict_SetItemString meta_list meta.identifier new_list
  else
    PyDict_SetItemString meta_list meta.identifier object

/-- The loop `yr_string_matches_foreach` of `yara_callback` for the string with
index `idx`; `pos` counts the matches visited. `none` is the early
`return CALLBACK_ERROR`. -/
def instances_loop (a : Alloc) (idx : Nat) :
    List YR_MATCH → Nat → List StringMatchInstance → Option (List StringMatchInstance)
  | [], _, string_instance_list => some string_instance_list
  | m :: next, pos, string_instance_list =>
    let object := PyBytes_FromStringAndSize m.data m.data_length
    match StringMatchInstance_NEW (a.string_match_instance idx pos)
        (m.base + m.offset) object m.match_length m.xor_key with
    | none => none
    | some string_match_instance =>
      instances_loop a idx next (pos + 1) (string_instance_list ++ [string_match_instance])

/-- The loop `yr_rule_strings_foreach` of `yara_callback`. `none` is the early
`return CALLBACK_ERROR`. -/
def strings_loop (a : Alloc) (context : YR_SCAN_CONTEXT) :
    List YR_STRING → List StringMatch → Option (List StringMatch)
  | [], string_list => some string_list
  | string :: rest, string_list =>
    if (context.matches_ string.idx).isEmpty then strings_loop a context rest string_list
    else if !a.string_instance_list string.idx then none
    else
      match instances_loop a string.idx (yr_string_matches_foreach context string) 0 [] with
      | none => none
      | some string_instance_list =>
        match StringMatch_NEW (a.string_match string.idx) string.identifier string.flags
            string_instance_list with
        | none => none
        | some object => strings_loop a context rest (string_list ++ [object])

/-- Result of one call of `yara_callback`: the disposition, the callback data
(with the match list as left by the call) and the effects so far. -/
structure Step where
  result : Int
  user_data : CALLBACK_DATA
  trace : List Effect

/-- The part of `yara_callback` after the `switch`, reached with a rule as
`message_data`. -/
def yara_callback_rule (rt : Runtime) (context : YR_SCAN_CONTEXT) (message : Int)
    (rule : YR_RULE) (user_data : CALLBACK_DATA) (trace : List Effect) : Step :=
  let callback := user_data.callback
  let which := user_data.which
  let result := CALLBACK_CONTINUE
  if !rt.alloc.callback_lists then
    { result := CALLBACK_ERROR, user_data := user_data, trace := trace }
  else
  let tag_list : List String :=
    (yr_rule_tags_foreach rule).foldl (fun tag_list tag => tag_list ++ [tag]) []
  let meta_list : PyDict :=
    (yr_rule_metas_foreach rule).foldl (meta_step user_data.allow_duplicate_metadata) []
  match strings_loop rt.alloc context (yr_rule_strings_foreach rule) [] with
  | none => { result := CALLBACK_ERROR, user_data := user_data, trace := trace }
  | some string_list =>
    let appended : Option (CALLBACK_DATA × List Effect) :=
      if message = CALLBACK_MSG_RULE_MATCHING then
        match Match_NEW rt.alloc.match_new rule.identifier rule.ns.name tag_list meta_list
            string_list with
        | some m =>
          some ({ user_data with matches_ := user_data.matches_ ++ [m] },
            trace ++ [Effect.append_match m])
        | none => none
      else some (user_data, trace)
    match appended with
    | none => { result := CALLBACK_ERROR, user_data := user_data, trace := trace }
    | some (user_data, trace) =>
      match callback with
      | some callback =>
        if (message = CALLBACK_MSG_RULE_MATCHING ∧ int_and which CALLBACK_MATCHES ≠ 0) ∨
            (message = CALLBACK_MSG_RULE_NOT_MATCHING ∧
              int_and which CALLBACK_NON_MATCHES ≠ 0) then
          let callback_dict : CallbackDict :=
            { matches_ := decide (message = CALLBACK_MSG_RULE_MATCHING)
              rule := rule.identifier
              ns := rule.ns.name
              tags := tag_list
              meta := meta_list
              strings := string_list }
          let callback_result := callback trace callback_dict
          let trace := trace ++ [Effect.call_callback callback_dict]
          match callback_result with
          | some callback_result =>
            if PyLong_Check callback_result then
              { result := to_int32 (PyLong_AsLong callback_result)
                user_data := user_data, trace := trace }
            else { result := result, user_data := user_data, trace := trace }
          | none => { result := CALLBACK_ERROR, user_data := user_data, trace := trace }
        else { result := result, user_data := user_data, trace := trace }
      | none => { result := result, user_data := user_data, trace := trace }

/-- An event of the scan: the `message` code together with its
`message_data`, typed by the code. -/
inductive Event
  | IMPORT_MODULE (module_import : YR_MODULE_IMPORT)
  | MODULE_IMPORTED (identifier : String) (members : List YR_OBJECT)
  | TOO_MANY_MATCHES (string : YR_STRING)
  | SCAN_FINISHED
  | RULE_NOT_MATCHING (rule : YR_RULE)
  | CONSOLE_LOG (text : String)
  | RULE_MATCHING (rule : YR_RULE)

/-- The `message` code of an event. -/
def Event.message : Event → Int
  | IMPORT_MODULE _ => CALLBACK_MSG_IMPORT_MODULE
  | MODULE_IMPORTED _ _ => CALLBACK_MSG_MODULE_IMPORTED
  | TOO_MANY_MATCHES _ => CALLBACK_MSG_TOO_MANY_MATCHES
  | SCAN_FINISHED => CALLBACK_MSG_SCAN_FINISHED
  | RULE_NOT_MATCHING _ => CALLBACK_MSG_RULE_NOT_MATCHING
  | CONSOLE_LOG _ => CALLBACK_MSG_CONSOLE_LOG
  | RULE_MATCHING _ => CALLBACK_MSG_RULE_MATCHING

/-- Function `yara_callback`. -/
def yara_callback (rt : Runtime) (context : YR_SCAN_CONTEXT) (ev : Event)
    (user_data : CALLBACK_DATA) (trace : List Effect) : Step :=
  match ev with
  | Event.IMPORT_MODULE module_import =>
    let r := handle_import_module module_import user_data trace
    { result := r.1, user_data := user_data, trace := r.2 }
  | Event.MODULE_IMPORTED identifier members =>
    let r := handle_module_imported rt identifier members user_data trace
    { result := r.1, user_data := user_data, trace := r.2 }
  | Event.TOO_MANY_MATCHES string =>
    let r := handle_too_many_matches rt context string user_data trace
    { result := r.1, user_data := user_data, trace := r.2 }
  | Event.SCAN_FINISHED =>
    { result := CALLBACK_CONTINUE, user_data := user_data, trace := trace }
  | Event.RULE_NOT_MATCHING rule =>
    if user_data.callback.isNone ∨
        int_and user_data.which CALLBACK_NON_MATCHES ≠ CALLBACK_NON_MATCHES then
      { result := CALLBACK_CONTINUE, user_data := user_data, trace := trace }
    else
      yara_callback_rule rt context CALLBACK_MSG_RULE_NOT_MATCHING rule user_data trace
  | Event.CONSOLE_LOG text =>
    let r := handle_console_log text user_data trace
    { result := r.1, user_data := user_data, trace := r.2 }
  | Event.RULE_MATCHING rule =>
    yara_callback_rule rt context CALLBACK_MSG_RULE_MATCHING rule user_data trace

/-! ## Errors -/

/-- The exception a function of the extension leaves set when it returns
`NULL`. `Pending` is a `NULL` return that sets nothing itself: what is raised
is what a host callback or a host function left pending. `YaraErrorFromErrno`
is `PyErr_SetFromErrno(YaraError)`; the payload of `YaraWarningError` is the
items of the list object it is raised with; `OverflowError` is the exception
that `PyLong_AsLongLong` sets for an integer outside the range of `long long`
(its message is the host's). -/
inductive PyErr
  | TypeError (msg : String)
  | Exception (msg : String)
  | MemoryError
  | YaraError (msg : String)
  | YaraTimeoutError (msg : String)
  | Pending
  | YaraSyntaxError (msg : String)
  | YaraWarningError (warnings : List String)
  | YaraErrorFromErrno (errno : Int)
  | OverflowError
deriving DecidableEq

/-- Function `handle_error`. -/
def handle_error (error : Int) (extra : String) : PyErr :=
  if error = ERROR_COULD_NOT_ATTACH_TO_PROCESS then PyErr.YaraError "access denied"
  else if error = ERROR_INSUFFICIENT_MEMORY then PyErr.MemoryError
  else if error = ERROR_COULD_NOT_OPEN_FILE then
    PyErr.YaraError ("could not open file \"" ++ extra ++ "\"")
  else if error = ERROR_COULD_NOT_MAP_FILE then
    PyErr.YaraError ("could not map file \"" ++ extra ++ "\" into memory")
  else if error = ERROR_INVALID_FILE then
    PyErr.YaraError ("invalid rules file \"" ++ extra ++ "\"")
  else if error = ERROR_CORRUPT_FILE then
    PyErr.YaraError ("corrupt rules file \"" ++ extra ++ "\"")
  else if error = ERROR_SCAN_TIMEOUT then PyErr.YaraTimeoutError "scanning timed out"
  else if error = ERROR_INVALID_EXTERNAL_VARIABLE_TYPE then
    PyErr.YaraError ("external variable \"" ++ extra
      ++ "\" was already defined with a different type")
  else if error = ERROR_UNSUPPORTED_FILE_VERSION then
    PyErr.YaraError ("rules file \"" ++ extra ++ "\" is incompatible with this version of YARA")
  else PyErr.YaraError ("internal error: " ++ toString error)

/-! ## The engine as seen from `Rules_match` -/

/-- A value handed to one of the engine's `define_*_variable` functions. -/
inductive ExternalValue
  | boolean (b : Bool)
  | integer (v : Int)
  | float (bits : Nat)
  | string (s : String)
deriving DecidableEq

/-- The scanner as configured by the extension: the rules it was created for,
the define calls issued so far, its flags and its timeout. -/
structure YR_SCANNER where
  rules : YR_RULES
  defines : List (String × ExternalValue)
  flags : Nat
  timeout : Int

/-- The target of a scan. -/
inductive Target
  | file (filepath : String)
  | mem (data : List Byte)
  | proc (pid : Int)

/-- What a scan would do if every event were answered with `CALLBACK_CONTINUE`:
the calls of the callback it makes, each with the scan context of that moment,
and the code it then returns. -/
structure ScanPlan where
  events : List (YR_SCAN_CONTEXT × Event)
  final : Int

/-- The engine functions called by `Rules_match`, which are not part of this
source file: the result of `yr_scanner_create`, the result of the
`yr_scanner_define_*_variable` functions, and the course of a scan. -/
structure Engine where
  yr_scanner_create : YR_RULES → Int
  yr_scanner_define_variable : YR_SCANNER → String → ExternalValue → Int
  scan : YR_SCANNER → Target → ScanPlan

/-- Outcome of delivering events: the code returned by the scan function, the
callback data and effects at its end, the events that were delivered to the
callback, in order, and the disposition that stopped the delivery (`none` when
every event was delivered and none stopped it). -/
structure ScanRun where
  error : Int
  user_data : CALLBACK_DATA
  trace : List Effect
  delivered : List Event
  stopped_by : Option Int

/-- Modelled from the spec: the engine's delivery loop, which is not part of
this source file. Events are delivered in order to `yara_callback`; a
disposition `CALLBACK_ABORT` stops delivery and the scan succeeds, a
disposition `CALLBACK_ERROR` stops delivery and the scan fails with the
callback-error code, any other disposition continues; when no event is left
the scan returns its own code. `rts n` is the host runtime during the call
number `n`; `delivered` holds the events delivered before. -/
def deliver (rts : Nat → Runtime) (final : Int) :
    List (YR_SCAN_CONTEXT × Event) → List Event → CALLBACK_DATA → List Effect → ScanRun
  | [], delivered, user_data, trace =>
    { error := final, user_data := user_data, trace := trace, delivered := delivered
      stopped_by := none }
  | (context, ev) :: rest, delivered, user_data, trace =>
    let s := yara_callback (rts delivered.length) context ev user_data trace
    if s.result = CALLBACK_ABORT then
      { error := ERROR_SUCCESS, user_data := s.user_data, trace := s.trace
        delivered := delivered ++ [ev], stopped_by := some s.result }
    else if s.result = CALLBACK_ERROR then
      { error := ERROR_CALLBACK_ERROR, user_data := s.user_data, trace := s.trace
        delivered := delivered ++ [ev], stopped_by := some s.result }
    else deliver rts final rest (delivered ++ [ev]) s.user_data s.trace

/-! ## External variables at scan time -/

/-- CPython `PyObject_IsTrue` (`1` true, `0` false). -/
def PyObject_IsTrue : PyObject → Int
  | PyObject.None => 0
  | PyObject.Bool b => if b then 1 else 0
  | PyObject.Long v => if v ≠ 0 then 1 else 0
  | PyObject.Float bits => if bits % 2 ^ 63 ≠ 0 then 1 else 0
  | PyObject.Str s => if s.length ≠ 0 then 1 else 0
  | PyObject.Bytes b => if b.length ≠ 0 then 1 else 0
  | PyObject.List xs => if xs.length ≠ 0 then 1 else 0
  | PyObject.Dict items => if items.length ≠ 0 then 1 else 0
  | PyObject.Other _ => 1

/-- CPython `PyLong_AsLongLong`: the returned value and the exception that the
call sets. For an integer object in the range of `long long` (for a `bool`, 0
or 1) it returns the value and sets nothing; for an integer outside that range
it returns `-1` and sets `OverflowError`; for another object it returns `-1`
and sets an exception of the host. -/
def PyLong_AsLongLong : PyObject → Int × Option PyErr
  | PyObject.Long v =>
    if -(2 ^ 63) ≤ v ∧ v < 2 ^ 63 then (v, none) else (-1, some PyErr.OverflowError)
  | PyObject.Bool b => (if b then 1 else 0, none)
  | _ => (-1, some PyErr.Pending)

/-- CPython `PyBool_Check`. -/
def PyBool_Check : PyObject → Bool
  | PyObject.Bool _ => true
  | _ => false

/-- CPython `PyFloat_Check`. -/
def PyFloat_Check : PyObject → Bool
  | PyObject.Float _ => true
  | _ => false

/-- CPython `PyFloat_AsDouble`: the bit pattern of the double of a float
object. -/
def PyFloat_AsDouble : PyObject → Nat
  | PyObject.Float bits => bits
  | _ => 0

/-- The macro `PY_STRING_CHECK` (`PyUnicode_Check`). -/
def PY_STRING_CHECK : PyObject → Bool
  | PyObject.Str _ => true
  | _ => false

/-- The macro `PY_STRING_TO_C` (`PyUnicode_AsUTF8`): the C string of a `str`
object, `NULL` for another object. -/
def PY_STRING_TO_C : PyObject → Option String
  | PyObject.Str s => some s
  | _ => none

/-- The object that a dictionary key is. -/
def PyKey.object : PyKey → PyObject
  | PyKey.None => PyObject.None
  | PyKey.Bool b => PyObject.Bool b
  | PyKey.Long v => PyObject.Long v
  | PyKey.Str s => PyObject.Str s
  | PyKey.Bytes b => PyObject.Bytes b
  | PyKey.Other tag => PyObject.Other tag

/-- Outcome of `process_match_externals`: the returned code, the error
indicator of the host at its return (the exception that is pending, if any)
and the scanner after the define calls. -/
structure ExternalsOutcome where
  result : Int
  err : Option PyErr
  scanner : YR_SCANNER

/-- One define call of `process_match_externals` and the test after it; the
rest of the loop is `k`. -/
def match_define (E : Engine) (scanner : YR_SCANNER) (identifier : String)
    (value : ExternalValue) (k : YR_SCANNER → ExternalsOutcome) : ExternalsOutcome :=
  let result := E.yr_scanner_define_variable scanner identifier value
  let scanner := { scanner with defines := scanner.defines ++ [(identifier, value)] }
  if result ≠ ERROR_SUCCESS ∧ result ≠ ERROR_INVALID_ARGUMENT then
    { result := result, err := some (handle_error result identifier), scanner := scanner }
  else k scanner

/-- The loop of `process_match_externals` over the items of the dictionary, in
the order of `PyDict_Next`; `err` is the error indicator of the host as the
loop finds it. The four define functions of the scanner are told apart by the
constructor of the value they are given. The exception that
`PyLong_AsLongLong` sets is not tested for: the define call is made with the
returned value and the exception stays pending until another one is set. -/
def process_match_externals_loop (E : Engine) :
    List (PyKey × PyObject) → YR_SCANNER → Option PyErr → ExternalsOutcome
  | [], scanner, err => { result := ERROR_SUCCESS, err := err, scanner := scanner }
  | (key, value) :: rest, scanner, err =>
    if !PY_STRING_CHECK key.object then
      { result := ERROR_INVALID_ARGUMENT
        err := some (PyErr.TypeError "keys of externals dict must be strings")
        scanner := scanner }
    else
      let identifier := (PY_STRING_TO_C key.object).getD ""
      if PyBool_Check value then
        match_define E scanner identifier
          (ExternalValue.boolean (decide (PyObject_IsTrue value ≠ 0)))
          (fun scanner => process_match_externals_loop E rest scanner err)
      else if PyLong_Check value then
        let v := PyLong_AsLongLong value
        match_define E scanner identifier (ExternalValue.integer v.1)
          (fun scanner => process_match_externals_loop E rest scanner (v.2.or err))
      else if PyFloat_Check value then
        match_define E scanner identifier (ExternalValue.float (PyFloat_AsDouble value))
          (fun scanner => process_match_externals_loop E rest scanner err)
      else if PY_STRING_CHECK value then
        match PY_STRING_TO_C value with
        | none => { result := ERROR_INVALID_ARGUMENT, err := some PyErr.Pending, scanner := scanner }
        | some str =>
          match_define E scanner identifier (ExternalValue.string str)
            (fun scanner => process_match_externals_loop E rest scanner err)
      else
        { result := ERROR_INVALID_ARGUMENT
          err := some (PyErr.TypeError
            "external values must be of type integer, float, boolean or string")
          scanner := scanner }

/-- Function `process_match_externals` on the items of the dictionary, called
with no exception pending. -/
def process_match_externals (E : Engine) (items : List (PyKey × PyObject))
    (scanner : YR_SCANNER) : ExternalsOutcome :=
  process_match_externals_loop E items scanner none

/-! ## `Rules.match` -/

/-- Object `Rules`; `iter_current_rule` is the index of the cursor in the rule
table. -/
structure Rules where
  externals : Option PyDict
  warnings : Option (List String)
  rules : YR_RULES
  iter_current_rule : Nat

/-- An argument that is meant to be a callable: either one, or some other
object. -/
inductive HostArg (α : Type)
  | callable (f : Callable α)
  | object (o : PyObject)

/-- CPython `PyCallable_Check`. -/
def PyCallable_Check {α : Type} : HostArg α → Bool
  | HostArg.callable _ => true
  | HostArg.object _ => false

/-- The callable behind an argument that passed `PyCallable_Check`. -/
def HostArg.get {α : Type} : HostArg α → Callable α
  | HostArg.callable f => f
  | HostArg.object _ => fun _ _ => none

/-- The keyword arguments of `Rules_match` as stored by
`PyArg_ParseTupleAndKeywords`; an argument that was not given is `none`. -/
structure MatchArgs where
  filepath : Option String
  pid : Option Int
  data : Option (List Byte)
  externals : Option PyObject
  callback : Option (HostArg CallbackDict)
  fast : Option PyObject
  timeout : Option Int
  modules_data : Option PyObject
  modules_callback : Option (HostArg PyDict)
  which_callbacks : Option Int
  warnings_callback : Option (HostArg (Int × RuleString))
  console_callback : Option (HostArg String)
  allow_duplicate_metadata : Option Bool

/-- A call of `match` with no argument at all. -/
def MatchArgs.empty : MatchArgs :=
  { filepath := none, pid := none, data := none, externals := none, callback := none
    fast := none, timeout := none, modules_data := none, modules_callback := none
    which_callbacks := none, warnings_callback := none, console_callback := none
    allow_duplicate_metadata := none }

/-- Result of `Rules_match`: the returned list or the exception, and, when a
scan was started, its target and its course. Field `pending` is the exception
that `process_match_externals` left pending although it returned success (the
`OverflowError` of `PyLong_AsLongLong`): `Rules_match` does not test for it,
and a list that it returns is returned with that exception pending. -/
structure MatchResult where
  value : Except PyErr (List Match)
  scan : Option (Target × ScanRun)
  pending : Option PyErr := none

/-- The end of `Rules_match`, from the return of the scan function on. -/
def Rules_match_result (filepath : Option String) (pid : Int) (target : Target)
    (run : ScanRun) : MatchResult :=
  let error := run.error
  let callback_data := run.user_data
  if error ≠ ERROR_SUCCESS then
    if error ≠ ERROR_CALLBACK_ERROR then
      match filepath with
      | some filepath =>
        { value := Except.error (handle_error error filepath), scan := some (target, run) }
      | none =>
        if pid ≠ -1 then
          { value := Except.error (handle_error error "<proc>"), scan := some (target, run) }
        else
          { value := Except.error (handle_error error "<data>"), scan := some (target, run) }
    else { value := Except.error PyErr.Pending, scan := some (target, run) }
  else { value := Except.ok callback_data.matches_, scan := some (target, run) }

/-- The middle of `Rules_match`, from the creation of the scanner to the
return of the scan function; `callback_data` is filled from the arguments. -/
def Rules_match_scan (E : Engine) (rts : Nat → Runtime) (object : Rules)
    (filepath : Option String) (pid : Int) (data : Option (List Byte))
    (externals : Option PyObject) (fast : Option PyObject) (timeout : Int)
    (callback_data : CALLBACK_DATA) : MatchResult :=
  if E.yr_scanner_create object.rules ≠ 0 then
    { value := Except.error (PyErr.Exception "could not create scanner"), scan := none }
  else
  let scanner : YR_SCANNER :=
    { rules := object.rules, defines := [], flags := 0, timeout := 0 }
  let processed : Except PyErr (YR_SCANNER × Option PyErr) :=
    match externals with
    | none => Except.ok (scanner, none)
    | some PyObject.None => Except.ok (scanner, none)
    | some (PyObject.Dict items) =>
      let r := process_match_externals E items scanner
      if r.result ≠ ERROR_SUCCESS then Except.error (r.err.getD PyErr.Pending)
      else Except.ok (r.scanner, r.err)
    | some _ => Except.error (PyErr.TypeError "'externals' must be a dictionary")
  match processed with
  | Except.error e => { value := Except.error e, scan := none }
  | Except.ok (scanner, pending) =>
    let scanner :=
      match fast with
      | some fast =>
        if PyObject_IsTrue fast = 1 then { scanner with flags := SCAN_FLAGS_FAST_MODE }
        else scanner
      | none => scanner
    let scanner := { scanner with timeout := timeout }
    let target : Option Target :=
      match filepath with
      | some filepath => some (Target.file filepath)
      | none =>
        match data with
        | some buf => some (Target.mem buf)
        | none => if pid ≠ -1 then some (Target.proc pid) else none
    match target with
    | none => { value := Except.error PyErr.Pending, scan := none }
    | some target =>
      let callback_data := { callback_data with matches_ := [] }
      let plan := E.scan scanner target
      { Rules_match_result filepath pid target
          (deliver rts plan.final plan.events [] callback_data []) with pending := pending }

/-- Function `Rules_match`. The argument `none` is a call whose arguments
`PyArg_ParseTupleAndKeywords` rejects. -/
def Rules_match (E : Engine) (rts : Nat → Runtime) (object : Rules)
    (args : Option MatchArgs) : MatchResult :=
  match args with
  | none => { value := Except.error PyErr.Pending, scan := none }
  | some args =>
    let filepath := args.filepath
    let data := args.data
    let pid := args.pid.getD (-1)
    let timeout := args.timeout.getD 0
    let which := args.which_callbacks.getD (CALLBACK_ALL : Nat)
    let allow_duplicate_metadata := args.allow_duplicate_metadata.getD false
    if filepath.isNone ∧ data.isNone ∧ pid = -1 then
      { value := Except.error (PyErr.TypeError "match() takes at least one argument")
        scan := none }
    else if args.callback.any (fun c => !PyCallable_Check c) then
      { value := Except.error (PyErr.TypeError "'callback' must be callable"), scan := none }
    else if args.modules_callback.any (fun c => !PyCallable_Check c) then
      { value := Except.error (PyErr.TypeError "'modules_callback' must be callable")
        scan := none }
    else if args.warnings_callback.any (fun c => !PyCallable_Check c) then
      { value := Except.error (PyErr.TypeError "'warnings_callback' must be callable")
        scan := none }
    else if args.console_callback.any (fun c => !PyCallable_Check c) then
      { value := Except.error (PyErr.TypeError "'console_callback' must be callable")
        scan := none }
    else
      match (match args.modules_data with
          | none => Except.ok none
          | some (PyObject.Dict items) => Except.ok (some items)
          | some _ => Except.error (PyErr.TypeError "'modules_data' must be a dictionary")
          : Except PyErr (Option PyDict)) with
      | Except.error e => { value := Except.error e, scan := none }
      | Except.ok modules_data =>
        let callback_data : CALLBACK_DATA :=
          { matches_ := []
            callback := args.callback.map HostArg.get
            modules_data := modules_data
            modules_callback := args.modules_callback.map HostArg.get
            warnings_callback := args.warnings_callback.map HostArg.get
            console_callback := args.console_callback.map HostArg.get
            which := which
            allow_duplicate_metadata := allow_duplicate_metadata }
        Rules_match_scan E rts object filepath pid data args.externals args.fast timeout
          callback_data

/-! ## Notions used in the statements -/

/-- Object construction succeeds in `yara_callback`: every allocation that the
function tests answers with an object. -/
def Alloc.construction_ok (a : Alloc) : Prop :=
  a.callback_lists = true ∧ a.match_new = true ∧ (∀ idx, a.string_instance_list idx = true) ∧
    (∀ idx, a.string_match idx = true) ∧ ∀ idx pos, a.string_match_instance idx pos = true

/-- The instance that `StringMatchInstance_NEW` builds for an engine match when
its allocation succeeds. -/
def instance_of_match (m : YR_MATCH) : Option StringMatchInstance :=
  StringMatchInstance_NEW true (m.base + m.offset)
    (PyBytes_FromStringAndSize m.data m.data_length) m.match_length m.xor_key

/-- The strings of a rule that have at least one match in the scan context, in
declaration order, each with one instance per engine match of the string, in
the order of the engine's list. -/
def matched_strings (context : YR_SCAN_CONTEXT) (rule : YR_RULE) : List StringMatch :=
  (rule.strings.filter (fun string => 1 ≤ (context.matches_ string.idx).length)).map
    (fun string =>
      { identifier := string.identifier
        flags := string.flags
        instances := (context.matches_ string.idx).filterMap instance_of_match })

/-- Number of invocations of the host match callback recorded in a trace. -/
def callback_calls (trace : List Effect) : Nat :=
  trace.countP (fun e => match e with
    | Effect.call_callback _ => true
    | _ => false)

/-- What the registered host callback answers to the invocation recorded by a
call effect, `pre` being the effects before it: `some none` when it raises,
`some (some r)` when it returns `r`; `none` for an effect that is no
invocation, or when no callback of that kind is registered. -/
def answer (user_data : CALLBACK_DATA) (pre : List Effect) : Effect → Option (Option PyObject)
  | Effect.call_callback d => user_data.callback.map (fun cb => cb pre d)
  | Effect.call_modules_callback d => user_data.modules_callback.map (fun cb => cb pre d)
  | Effect.call_warnings_callback t rs =>
    user_data.warnings_callback.map (fun cb => cb pre (t, rs))
  | Effect.call_console_callback s => user_data.console_callback.map (fun cb => cb pre s)
  | _ => none

/-- The disposition that the four handlers derive from the answer of a host
callback. -/
def disposition_of (callback_result : Option PyObject) : Int :=
  match callback_result with
  | some r => if PyLong_Check r then to_int32 (PyLong_AsLong r) else CALLBACK_CONTINUE
  | none => CALLBACK_ERROR

/-- Shape of a handler's outcome: either no effect was added, or the last
effect decides the disposition whenever it is an invocation of a registered
callback. -/
def answered (user_data : CALLBACK_DATA) (trace : List Effect) (result : Int)
    (after : List Effect) : Prop :=
  after = trace ∨ ∃ pre e, after = pre ++ [e] ∧ trace.length ≤ pre.length ∧
    ∀ ans, answer user_data pre e = some ans → result = disposition_of ans

/-! ## Concrete inputs -/

/-- The callback data as `Rules_match` initialises it, with an empty match
list. -/
def CALLBACK_DATA.initial : CALLBACK_DATA :=
  { matches_ := [], callback := none, modules_data := none, modules_callback := none
    warnings_callback := none, console_callback := none, which := (CALLBACK_ALL : Nat)
    allow_duplicate_metadata := false }

/-- A host callable that returns `r` whatever it is given. -/
def returns {α : Type} (r : PyObject) : Callable α := fun _ _ => some r

/-- A host callable that raises whatever it is given. -/
def raises {α : Type} : Callable α := fun _ _ => none

/-- A runtime in which no allocation fails and warnings are only reported. -/
def healthy : Runtime := { alloc := Alloc.healthy, warn_raises := false }

/-- A rule `r` with tags `a`, `b`, the meta `x = 1` declared twice around a
meta `y = "s"`, and three strings. -/
def example_rule : YR_RULE :=
  { identifier := "r", ns := { name := "default" }, tags := ["a", "b"]
    metas := [ { identifier := "x", type := META_TYPE_INTEGER, integer := 1, string := "" },
               { identifier := "y", type := META_TYPE_STRING, integer := 0, string := "s" },
               { identifier := "x", type := META_TYPE_INTEGER, integer := 1, string := "" } ]
    strings := [ { identifier := "$a", flags := 0, idx := 0, rule_idx := 0 },
                 { identifier := "$b", flags := 0, idx := 1, rule_idx := 0 },
                 { identifier := "$c", flags := 0, idx := 2, rule_idx := 0 } ]
    flags := 0 }

/-- A scan context in which string 0 has one match, string 1 none and string 2
two. -/
def example_context : YR_SCAN_CONTEXT :=
  { rules := { rules_table := [example_rule] }
    matches_ := fun idx =>
      if idx = 0 then
        [ { base := 0, offset := 3, match_length := 2, data_length := 2, data := [1, 2, 3]
            xor_key := 0 } ]
      else if idx = 2 then
        [ { base := 0, offset := 7, match_length := 1, data_length := 1, data := [9]
            xor_key := 5 },
          { base := 10, offset := 7, match_length := 1, data_length := 1, data := [9]
            xor_key := 5 } ]
      else [] }

/-- The Match that `yara_callback` builds for `example_rule` in
`example_context` when duplicate metadata is not kept. -/
def example_match : Match :=
  { rule := "r", ns := "default", tags := ["a", "b"]
    meta := [(PyKey.Str "x", PyObject.Long 1), (PyKey.Str "y", PyObject.Str "s")]
    strings := matched_strings example_context example_rule }

/-- The dictionary handed to the match callback for a RULE_MATCHING event of
`example_rule` in `example_context`. -/
def example_dict : CallbackDict :=
  { matches_ := true, rule := "r", ns := "default", tags := ["a", "b"]
    meta := [(PyKey.Str "x", PyObject.Long 1), (PyKey.Str "y", PyObject.Str "s")]
    strings := matched_strings example_context example_rule }

/-- The string `$a` of `example_rule`. -/
def example_string : YR_STRING := { identifier := "$a", flags := 0, idx := 0, rule_idx := 0 }

/-- The rules of the RULE_MATCHING events among the given events, in order. -/
def rule_matching_events (evs : List Event) : List YR_RULE :=
  evs.filterMap (fun ev => match ev with
    | Event.RULE_MATCHING rule => some rule
    | _ => none)

/-- An engine whose scanner is always created, that accepts every variable,
and whose scans follow the given plan. -/
def example_engine (plan : ScanPlan) : Engine :=
  { yr_scanner_create := fun _ => 0
    yr_scanner_define_variable := fun _ _ _ => ERROR_SUCCESS
    scan := fun _ _ => plan }

/-- A rule set holding `example_rule`. -/
def example_rules : Rules :=
  { externals := none, warnings := none, rules := { rules_table := [example_rule] }
    iter_current_rule := 0 }

/-- The tags, meta mapping and strings of a rule event that an effect hands to
the host: those of the Match appended to the result list, or those in the
dictionary passed to the match callback. -/
def Effect.materialised : Effect → Option (List String × PyDict × List StringMatch)
  | Effect.append_match m => some (m.tags, m.meta, m.strings)
  | Effect.call_callback d => some (d.tags, d.meta, d.strings)
  | _ => none

/-- The declarations of the meta key `k` in a rule, in declaration order. -/
def declarations (rule : YR_RULE) (k : String) : List YR_META :=
  rule.metas.filter (fun meta => meta.identifier = k)

/-- The entry that a list of values makes in a dictionary of lists: none for
no value, the list object otherwise. -/
def listed (xs : List PyObject) : Option PyObject :=
  match xs with
  | [] => none
  | _ :: _ => some (PyObject.List xs)

/-- The Match that `yara_callback` builds for `example_rule` in
`example_context` when duplicate metadata is kept. -/
def example_match_dup : Match :=
  { rule := "r", ns := "default", tags := ["a", "b"]
    meta := [(PyKey.Str "x", PyObject.List [PyObject.Long 1, PyObject.Long 1]),
             (PyKey.Str "y", PyObject.List [PyObject.Str "s"])]
    strings := matched_strings example_context example_rule }

/-- A match callback that answers CONTINUE to its first invocation and ABORT to
every later one. -/
def abort_on_second : Callable CallbackDict :=
  fun pre _ => some (PyObject.Long (if 1 ≤ callback_calls pre then 1 else 0))

/-- A scan that would deliver three RULE_MATCHING events and succeed. -/
def three_matches : ScanPlan :=
  { events := [(example_context, Event.RULE_MATCHING example_rule),
               (example_context, Event.RULE_MATCHING example_rule),
               (example_context, Event.RULE_MATCHING example_rule)]
    final := ERROR_SUCCESS }

/-- A scan that delivers one RULE_MATCHING event and then times out. -/
def match_then_timeout : ScanPlan :=
  { events := [(example_context, Event.RULE_MATCHING example_rule)]
    final := ERROR_SCAN_TIMEOUT }

/-- The arguments `match(data=b"", callback=abort_on_second)`. -/
def abort_args : MatchArgs :=
  { MatchArgs.empty with
    data := some [], callback := some (HostArg.callable abort_on_second) }

/-- The arguments `match(data=b"")`. -/
def data_args : MatchArgs := { MatchArgs.empty with data := some [] }

/-- The course of the scan of `three_matches` under `abort_args`. -/
def abort_run : ScanRun :=
  deliver (fun _ => healthy) three_matches.final three_matches.events []
    { CALLBACK_DATA.initial with callback := some abort_on_second } []

/-- The course of the scan of `match_then_timeout` under `data_args`. -/
def timeout_run : ScanRun :=
  deliver (fun _ => healthy) match_then_timeout.final match_then_timeout.events []
    CALLBACK_DATA.initial []

/-- An instance with matched data `01 02 ff` and xor key 5. -/
def example_instance : StringMatchInstance :=
  { offset := 0, matched_data := [1, 2, 255], matched_length := 3, xor_key := 5 }

/-! ## Comparison and hashing of `Match` -/

/-- CPython comparison operator `Py_LT`. -/
def Py_LT : Int := 0
/-- CPython comparison operator `Py_LE`. -/
def Py_LE : Int := 1
/-- CPython comparison operator `Py_EQ`. -/
def Py_EQ : Int := 2
/-- CPython comparison operator `Py_NE`. -/
def Py_NE : Int := 3
/-- CPython comparison operator `Py_GT`. -/
def Py_GT : Int := 4
/-- CPython comparison operator `Py_GE`. -/
def Py_GE : Int := 5

/-- CPython `PyObject_RichCompareBool` on two `str` objects: comparison of the
strings by code points; `-1` for an operator that does not exist. -/
def PyObject_RichCompareBool (a b : String) (op : Int) : Int :=
  if op = Py_LT then (if a < b then 1 else 0)
  else if op = Py_LE then (if a ≤ b then 1 else 0)
  else if op = Py_EQ then (if a = b then 1 else 0)
  else if op = Py_NE then (if a ≠ b then 1 else 0)
  else if op = Py_GT then (if a > b then 1 else 0)
  else if op = Py_GE then (if a ≥ b then 1 else 0)
  else -1

/-- CPython `PyObject_RichCompare` on two `str` objects: `Py_True` or
`Py_False`. -/
def PyObject_RichCompare (a b : String) (op : Int) : PyObject :=
  PyObject.Bool (decide (PyObject_RichCompareBool a b op = 1))

/-- The second operand of a comparison: a `Match` (what `PyObject_TypeCheck`
accepts) or an object of another type. -/
inductive Comparand
  | Match (m : Match)
  | Object (o : PyObject)

/-- Function `Match_richcompare`. `Except.error PyErr.Pending` is the `NULL`
returned, with nothing set, for an operator outside the six. -/
def Match_richcompare (self : Match) (other : Comparand) (op : Int) : Except PyErr PyObject :=
  let a := self
  match other with
  | Comparand.Match b =>
    if op = Py_EQ then
      if PyObject_RichCompareBool a.rule b.rule Py_EQ ≠ 0 ∧
          PyObject_RichCompareBool a.ns b.ns Py_EQ ≠ 0 then
        Except.ok (PyObject.Bool true)
      else Except.ok (PyObject.Bool false)
    else if op = Py_NE then
      if PyObject_RichCompareBool a.rule b.rule Py_NE ≠ 0 ∨
          PyObject_RichCompareBool a.ns b.ns Py_NE ≠ 0 then
        Except.ok (PyObject.Bool true)
      else Except.ok (PyObject.Bool false)
    else if op = Py_LT ∨ op = Py_LE ∨ op = Py_GT ∨ op = Py_GE then
      if PyObject_RichCompareBool a.rule b.rule Py_EQ ≠ 0 then
        Except.ok (PyObject_RichCompare a.ns b.ns op)
      else Except.ok (PyObject_RichCompare a.rule b.rule op)
    else Except.error PyErr.Pending
  | Comparand.Object _ =>
    Except.error
      (PyErr.TypeError "'Match' objects must be compared with objects of the same class")

/-- Function `Match_hash`; `hash` is `PyObject_Hash` on `str` objects, and the
sum is taken in `Py_hash_t` (64 bits). -/
def Match_hash (hash : String → Int) (self : Match) : Int :=
  to_int64 (hash self.rule + hash self.ns)

/-- The arguments `match(filepath="f", data=b"")`. -/
def both_args : MatchArgs := { MatchArgs.empty with filepath := some "f", data := some [] }

/-- A scan that delivers one RULE_MATCHING event and succeeds. -/
def one_match : ScanPlan :=
  { events := [(example_context, Event.RULE_MATCHING example_rule)], final := ERROR_SUCCESS }

/-- A hash function on strings, for examples. -/
def example_hash (s : String) : Int := s.length

/-- A runtime in which every allocation fails. -/
def exhausted : Runtime :=
  { alloc :=
      { callback_lists := false
        string_instance_list := fun _ => false
        string_match_instance := fun _ _ => false
        string_match := fun _ => false
        match_new := false
        structure_dict := false
        array_list := false
        dictionary_dict := false
        string_identifier := false
        rule_identifier := false
        namespace_identifier := false
        rule_string := false
        warning_type := false
        plaintext_buf := false }
    warn_raises := true }

/-- The course of the scan of `one_match` for a call without callbacks. -/
def one_match_run : ScanRun :=
  deliver (fun _ => healthy) one_match.final one_match.events [] CALLBACK_DATA.initial []

/-- The engine codes that `handle_error` knows by name. -/
def error_table : List Int :=
  [ERROR_COULD_NOT_ATTACH_TO_PROCESS, ERROR_INSUFFICIENT_MEMORY, ERROR_COULD_NOT_OPEN_FILE,
    ERROR_COULD_NOT_MAP_FILE, ERROR_INVALID_FILE, ERROR_CORRUPT_FILE, ERROR_SCAN_TIMEOUT,
    ERROR_INVALID_EXTERNAL_VARIABLE_TYPE, ERROR_UNSUPPORTED_FILE_VERSION]

/-! ## Compilation -/

/-- Modelled from the spec: the level `YARA_ERROR_LEVEL_ERROR` of the engine's
headers. -/
def YARA_ERROR_LEVEL_ERROR : Int := 0

/-- A stream handed to the engine: opened by `fopen(filepath, "r")` or by
`fdopen(dup(fd), "r")`. -/
inductive FILE
  | path (filepath : String)
  | fd (fd : Int)
deriving DecidableEq

/-- The arguments of one call of an add-source function of the engine:
`yr_compiler_add_file(compiler, fh, ns, file_name)` or
`yr_compiler_add_string(compiler, source, ns)`. -/
inductive Source
  | file (fh : FILE) (ns : Option String) (file_name : Option String)
  | string (source : String) (ns : Option String)
deriving DecidableEq

/-- Steps of a compilation that leave the extension, logged in program order. -/
inductive CompileEffect
  | yr_compiler_create
  | fopen (filepath : String)
  | PyObject_AsFileDescriptor (file : PyObject)
  | yr_compiler_add (source : Source)
  | call_include_callback (include_name calling_fn calling_ns : PyObject)
  | Rules_NEW
  | yr_compiler_get_rules

/-- The host object given as `include_callback`, when it is callable: given
the steps so far and its three arguments it returns an object, or raises
(`none`). -/
abbrev IncludeCallable := List CompileEffect → PyObject × PyObject × PyObject → Option PyObject

/-- The argument `include_callback`: a callable, or some other object. -/
inductive IncludeArg
  | callable (f : IncludeCallable)
  | object (o : PyObject)

/-- CPython `PyCallable_Check` on the argument `include_callback`. -/
def IncludeArg.PyCallable_Check : IncludeArg → Bool
  | IncludeArg.callable _ => true
  | IncludeArg.object _ => false

/-- The include callback installed in a compiler: the one the engine installs
at creation, none (`yr_compiler_set_include_callback(compiler, NULL, NULL,
NULL)`), or `yara_include_callback` with the host object as user data. -/
inductive IncludeSetting
  | builtin
  | disabled
  | python (callback : IncludeArg)

/-- The compiler as configured by the extension: the define calls and the
add-source calls issued so far, field `strict_escape` and the include
callback. -/
structure YR_COMPILER where
  defines : List (String × ExternalValue)
  strict_escape : Int
  include_callback : IncludeSetting
  added : List Source

/-- A diagnostic as the engine hands it to the compiler callback. -/
structure Diagnostic where
  error_level : Int
  file_name : Option String
  line_number : Int
  message : String
deriving DecidableEq

/-- What the engine calls back during one add-source call: the compiler
callback with a diagnostic, or the include callback. -/
inductive CompilerEvent
  | diagnostic (d : Diagnostic)
  | include_callback (include_name calling_rule_filename calling_rule_namespace : Option String)

/-- The course of one add-source call: the callbacks made, in order, and the
returned number of errors. -/
structure AddPlan where
  events : List CompilerEvent
  errors : Int

/-- The functions called by `yara_compile` that are not part of this source
file: the engine's compiler functions, `fopen` (`Except.error errno` is a
`NULL` return), `PyObject_AsFileDescriptor` and the allocation in
`Rules_NEW`. -/
structure CompileEnv where
  yr_compiler_create : Int
  yr_compiler_define_variable : YR_COMPILER → String → ExternalValue → Int
  yr_compiler_add : YR_COMPILER → Source → AddPlan
  yr_compiler_get_rules : YR_COMPILER → Int × YR_RULES
  fopen : String → Except Int FILE
  PyObject_AsFileDescriptor : PyObject → Int
  Rules_NEW : Bool

/-- Outcome of `process_compile_externals`: the returned code, the exception
it left set (if any) and the compiler after the define calls. -/
structure CompileExternalsOutcome where
  result : Int
  err : Option PyErr
  compiler : YR_COMPILER

/-- One define call of `process_compile_externals` and the test after it; the
rest of the loop is `k`. -/
def compile_define (E : CompileEnv) (compiler : YR_COMPILER) (identifier : String)
    (value : ExternalValue) (k : YR_COMPILER → CompileExternalsOutcome) :
    CompileExternalsOutcome :=
  let result := E.yr_compiler_define_variable compiler identifier value
  let compiler := { compiler with defines := compiler.defines ++ [(identifier, value)] }
  if result ≠ ERROR_SUCCESS then
    { result := result, err := some (handle_error result identifier), compiler := compiler }
  else k compiler

/-- The loop of `process_compile_externals` over the items of the dictionary,
in the order of `PyDict_Next`; `err` is the error indicator of the host as the
loop finds it. The four define functions of the compiler are told apart by the
constructor of the value they are given. The exception that
`PyLong_AsLongLong` sets is not tested for: the define call is made with the
returned value and the exception stays pending until another one is set. -/
def process_compile_externals_loop (E : CompileEnv) :
    List (PyKey × PyObject) → YR_COMPILER → Option PyErr → CompileExternalsOutcome
  | [], compiler, err => { result := ERROR_SUCCESS, err := err, compiler := compiler }
  | (key, value) :: rest, compiler, err =>
    if !PY_STRING_CHECK key.object then
      { result := ERROR_INVALID_ARGUMENT
        err := some (PyErr.TypeError "keys of externals dict must be strings")
        compiler := compiler }
    else
      let identifier := (PY_STRING_TO_C key.object).getD ""
      if PyBool_Check value then
        compile_define E compiler identifier
          (ExternalValue.boolean (decide (PyObject_IsTrue value ≠ 0)))
          (fun compiler => process_compile_externals_loop E rest compiler err)
      else if PyLong_Check value then
        let v := PyLong_AsLongLong value
        compile_define E compiler identifier (ExternalValue.integer v.1)
          (fun compiler => process_compile_externals_loop E rest compiler (v.2.or err))
      else if PyFloat_Check value then
        compile_define E compiler identifier (ExternalValue.float (PyFloat_AsDouble value))
          (fun compiler => process_compile_externals_loop E rest compiler err)
      else if PY_STRING_CHECK value then
        match PY_STRING_TO_C value with
        | none =>
          { result := ERROR_INVALID_ARGUMENT, err := some PyErr.Pending, compiler := compiler }
        | some str =>
          compile_define E compiler identifier (ExternalValue.string str)
            (fun compiler => process_compile_externals_loop E rest compiler err)
      else
        { result := ERROR_INVALID_ARGUMENT
          err := some (PyErr.TypeError
            "external values must be of type integer, float, boolean or string")
          compiler := compiler }

/-- Function `process_compile_externals` on the items of the dictionary,
called with no exception pending. -/
def process_compile_externals (E : CompileEnv) (items : List (PyKey × PyObject))
    (compiler : YR_COMPILER) : CompileExternalsOutcome :=
  process_compile_externals_loop E items compiler none

/-- The externals marshallers in the words of the specification: the variable
that a value is defined as, by its type; `none` for a value of none of the four
types. -/
def classify : PyObject → Option ExternalValue
  | PyObject.Bool b => some (ExternalValue.boolean b)
  | PyObject.Long v => some (ExternalValue.integer (PyLong_AsLongLong (PyObject.Long v)).1)
  | PyObject.Float bits => some (ExternalValue.float bits)
  | PyObject.Str s => some (ExternalValue.string s)
  | _ => none

/-- The exception that a marshaller leaves pending for a value that it
defines: the `OverflowError` of `PyLong_AsLongLong` for an integer outside the
range of `long long`, none for another value. -/
def overflow_of : PyObject → Option PyErr
  | PyObject.Long v => (PyLong_AsLongLong (PyObject.Long v)).2
  | _ => none

/-- The externals marshallers in the words of the specification: the define
call that a pair stands for; `none` for a pair whose key is not a string or
whose value is of none of the four types. -/
def external_of : PyKey × PyObject → Option (String × ExternalValue)
  | (PyKey.Str identifier, value) => (classify value).map (fun v => (identifier, v))
  | _ => none

/-- Modelled from the spec: the compiler that `yr_compiler_create` hands out:
nothing defined or added yet, `strict_escape` off, the engine's own include
callback installed. -/
def YR_COMPILER.fresh : YR_COMPILER :=
  { defines := [], strict_escape := 0, include_callback := IncludeSetting.builtin, added := [] }

/-- The scanner that `Rules_match` starts from. -/
def YR_SCANNER.fresh (rules : YR_RULES) : YR_SCANNER :=
  { rules := rules, defines := [], flags := 0, timeout := 0 }

/-- A compilation environment in which every engine and host call succeeds and
the engine reports nothing. -/
def example_env : CompileEnv :=
  { yr_compiler_create := ERROR_SUCCESS
    yr_compiler_define_variable := fun _ _ _ => ERROR_SUCCESS
    yr_compiler_add := fun _ _ => { events := [], errors := 0 }
    yr_compiler_get_rules := fun _ => (ERROR_SUCCESS, { rules_table := [example_rule] })
    fopen := fun filepath => Except.ok (FILE.path filepath)
    PyObject_AsFileDescriptor := fun _ => 3
    Rules_NEW := true }

/-- Two well-typed pairs of an externals mapping: a boolean and an integer. -/
def typed_pairs : List (PyKey × PyObject) :=
  [(PyKey.Str "flag", PyObject.Bool true), (PyKey.Str "count", PyObject.Long 7)]

/-- A pair whose value is of none of the four types. -/
def untyped_pair : PyKey × PyObject := (PyKey.Str "bad", PyObject.None)

/-- A well-typed pair that comes after `untyped_pair`. -/
def late_pair : PyKey × PyObject := (PyKey.Str "late", PyObject.Str "x")

/-- A pair of an externals mapping whose integer is outside the 64-bit range. -/
def overflowing_pair : PyKey × PyObject := (PyKey.Str "big", PyObject.Long (2 ^ 63))

/-! ## `yara.compile` -/

/-- The Python-side state of a compilation: the items of the list `warnings`,
the error indicator of the host (`none` when no exception is set), and the
steps so far. -/
structure CompileState where
  warnings : List String
  err : Option PyErr
  trace : List CompileEffect

/-- Function `raise_exception_on_error`, the compiler callback; its
`user_data` is the list `warnings` of the state. -/
def raise_exception_on_error (error_level : Int) (file_name : Option String)
    (line_number : Int) (message : String) (st : CompileState) : CompileState :=
  if error_level = YARA_ERROR_LEVEL_ERROR then
    match file_name with
    | some file_name =>
      { st with err := some (PyErr.YaraSyntaxError
          (file_name ++ "(" ++ toString line_number ++ "): " ++ message)) }
    | none =>
      { st with err := some (PyErr.YaraSyntaxError
          ("line " ++ toString line_number ++ ": " ++ message)) }
  else
    let warning_msg :=
      match file_name with
      | some file_name => file_name ++ "(" ++ toString line_number ++ "): " ++ message
      | none => "line " ++ toString line_number ++ ": " ++ message
    { st with warnings := st.warnings ++ [warning_msg] }

/-- CPython `PyObject_CallFunctionObjArgs` on the argument `include_callback`;
calling an object that is not callable raises. -/
def IncludeArg.call : IncludeArg → IncludeCallable
  | IncludeArg.callable f => f
  | IncludeArg.object _ => fun _ _ => none

/-- Function `yara_include_callback`: the returned C string and the state
after it. The exception that the host callable raises is dropped by
`PyErr_Restore`, which puts back the indicator fetched before the call. -/
def yara_include_callback (include_name calling_rule_filename calling_rule_namespace :
    Option String) (user_data : IncludeArg) (st : CompileState) :
    Option String × CompileState :=
  let py_incl_name :=
    match include_name with
    | some s => PY_STRING s
    | none => PyObject.None
  let py_calling_fn :=
    match calling_rule_filename with
    | some s => PY_STRING s
    | none => PyObject.None
  let py_calling_ns :=
    match calling_rule_namespace with
    | some s => PY_STRING s
    | none => PyObject.None
  let result := user_data.call st.trace (py_incl_name, py_calling_fn, py_calling_ns)
  let st := { st with trace := st.trace
    ++ [CompileEffect.call_include_callback py_incl_name py_calling_fn py_calling_ns] }
  match result with
  | some (PyObject.Str s) => (some s, st)
  | _ =>
    if st.err.isNone then
      (none, { st with err := some (PyErr.TypeError
        "'include_callback' function must return a yara rules as an ascii or unicode string") })
    else (none, st)

/-- Modelled from the spec: the callbacks that the engine makes during an
add-source call, in order: the compiler callback for a diagnostic, and for an
include the callback installed in the compiler (only `yara_include_callback`
is part of this source file). -/
def compiler_callbacks (compiler : YR_COMPILER) :
    List CompilerEvent → CompileState → CompileState
  | [], st => st
  | CompilerEvent.diagnostic d :: rest, st =>
    compiler_callbacks compiler rest
      (raise_exception_on_error d.error_level d.file_name d.line_number d.message st)
  | CompilerEvent.include_callback include_name calling_fn calling_ns :: rest, st =>
    match compiler.include_callback with
    | IncludeSetting.python user_data =>
      compiler_callbacks compiler rest
        (yara_include_callback include_name calling_fn calling_ns user_data st).2
    | _ => compiler_callbacks compiler rest st

/-- Modelled from the spec: one call of `yr_compiler_add_file` or
`yr_compiler_add_string`: the returned number of errors, the compiler and the
state after the callbacks of the call. -/
def add_source (E : CompileEnv) (compiler : YR_COMPILER) (source : Source)
    (st : CompileState) : Int × YR_COMPILER × CompileState :=
  let plan := E.yr_compiler_add compiler source
  let st := { st with trace := st.trace ++ [CompileEffect.yr_compiler_add source] }
  (plan.errors, { compiler with added := compiler.added ++ [source] },
    compiler_callbacks compiler plan.events st)

/-- The loop of `yara_compile` over the items of the dictionary `sources`. -/
def add_sources (E : CompileEnv) :
    List (PyKey × PyObject) → YR_COMPILER → CompileState → YR_COMPILER × CompileState
  | [], compiler, st => (compiler, st)
  | (key, value) :: rest, compiler, st =>
    match PY_STRING_TO_C value, PY_STRING_TO_C key.object with
    | some source, some ns =>
      let r := add_source E compiler (Source.string source (some ns)) st
      if r.1 > 0 then r.2 else add_sources E rest r.2.1 r.2.2
    | _, _ =>
      (compiler, { st with err := some (PyErr.TypeError
        "keys and values of the 'sources' dictionary must be of string type") })

/-- The loop of `yara_compile` over the items of the dictionary `filepaths`. -/
def add_filepaths (E : CompileEnv) :
    List (PyKey × PyObject) → YR_COMPILER → CompileState → YR_COMPILER × CompileState
  | [], compiler, st => (compiler, st)
  | (key, value) :: rest, compiler, st =>
    match PY_STRING_TO_C value, PY_STRING_TO_C key.object with
    | some filepath, some ns =>
      let st := { st with trace := st.trace ++ [CompileEffect.fopen filepath] }
      match E.fopen filepath with
      | Except.ok fh =>
        let r := add_source E compiler (Source.file fh (some ns) (some filepath)) st
        if r.1 > 0 then r.2 else add_filepaths E rest r.2.1 r.2.2
      | Except.error errno =>
        (compiler, { st with err := some (PyErr.YaraErrorFromErrno errno) })
    | _, _ =>
      (compiler, { st with err := some (PyErr.TypeError
        "keys and values of the filepaths dictionary must be of string type") })

/-- The keyword arguments of `yara_compile` as stored by
`PyArg_ParseTupleAndKeywords`; an argument that was not given is `none`
(`NULL`). -/
structure CompileArgs where
  filepath : Option String
  source : Option String
  file : Option PyObject
  filepaths_dict : Option PyObject
  sources_dict : Option PyObject
  includes : Option PyObject
  externals : Option PyObject
  error_on_warning : Option PyObject
  strict_escape : Option PyObject
  include_callback : Option IncludeArg

/-- A call of `compile` with no argument at all. -/
def CompileArgs.empty : CompileArgs :=
  { filepath := none, source := none, file := none, filepaths_dict := none
    sources_dict := none, includes := none, externals := none, error_on_warning := none
    strict_escape := none, include_callback := none }

/-- Result of `yara_compile`: the returned Rules object or the exception, the
compiler as it was when destroyed (`none` when none was created), the items of
the list `warnings` and the steps made. -/
structure CompileResult where
  value : Except PyErr Rules
  compiler : Option YR_COMPILER
  warnings : List String
  trace : List CompileEffect

/-- The variable `num_args` of `yara_compile`. -/
def num_args (args : CompileArgs) : Nat :=
  (if args.filepath.isSome then 1 else 0) + (if args.source.isSome then 1 else 0)
    + (if args.file.isSome then 1 else 0) + (if args.filepaths_dict.isSome then 1 else 0)
    + (if args.sources_dict.isSome then 1 else 0)
/-- CPython `PyDict_Copy`: the items of a dictionary object. -/
def PyDict_Copy : PyObject → Option PyDict
  | PyObject.Dict items => some items
  | _ => none

/-- The part of `yara_compile` that handles the argument `externals`. An error
is the exception of an early return with the compiler as it is destroyed;
otherwise the compiler, the variable `warning_error` and the exception that
`process_compile_externals` left pending although it returned success. -/
def yara_compile_externals (E : CompileEnv) (externals : Option PyObject)
    (compiler : YR_COMPILER) (warning_error : Bool) :
    Except (PyErr × YR_COMPILER) (YR_COMPILER × Bool × Option PyErr) :=
  match externals with
  | none => Except.ok (compiler, warning_error, none)
  | some PyObject.None => Except.ok (compiler, warning_error, none)
  | some (PyObject.Dict items) =>
    let r := process_compile_externals E items compiler
    if r.result ≠ ERROR_SUCCESS then Except.error (r.err.getD PyErr.Pending, r.compiler)
    else Except.ok (r.compiler, warning_error, r.err)
  | some _ => Except.error (PyErr.TypeError "'externals' must be a dictionary", compiler)

/-- The part of `yara_compile` between the creation of the compiler and the
choice of the source: the checks of `error_on_warning`, `strict_escape`,
`includes`, `include_callback` and `externals`, in that order. An error is the
exception of an early return with the compiler as it is destroyed; otherwise
the configured compiler, the variable `warning_error` and the exception left
pending by the handling of `externals`. -/
def yara_compile_options (E : CompileEnv) (args : CompileArgs) (compiler : YR_COMPILER) :
    Except (PyErr × YR_COMPILER) (YR_COMPILER × Bool × Option PyErr) :=
  match (match args.error_on_warning with
      | none => some false
      | some error_on_warning =>
        if PyBool_Check error_on_warning then
          some (decide (PyObject_IsTrue error_on_warning = 1))
        else none : Option Bool) with
  | none =>
    Except.error (PyErr.TypeError "'error_on_warning' param must be of boolean type", compiler)
  | some warning_error =>
  match (match args.strict_escape with
      | none => some compiler
      | some strict_escape =>
        if PyBool_Check strict_escape then
          some { compiler with strict_escape := PyObject_IsTrue strict_escape }
        else none : Option YR_COMPILER) with
  | none =>
    Except.error (PyErr.TypeError "'strict_escape' param must be of boolean type", compiler)
  | some compiler =>
  match (match args.includes with
      | none => some compiler
      | some includes =>
        if PyBool_Check includes then
          if PyObject_IsTrue includes = 0 then
            some { compiler with include_callback := IncludeSetting.disabled }
          else some compiler
        else none : Option YR_COMPILER) with
  | none =>
    Except.error (PyErr.TypeError "'includes' param must be of boolean type", compiler)
  | some compiler =>
  match (match args.include_callback with
      | none => some compiler
      | some include_callback =>
        if !include_callback.PyCallable_Check then none
        else some { compiler with include_callback := IncludeSetting.python include_callback }
      : Option YR_COMPILER) with
  | none => Except.error (PyErr.TypeError "'include_callback' must be callable", compiler)
  | some compiler => yara_compile_externals E args.externals compiler warning_error

/-- The part of `yara_compile` that hands the chosen source to the engine: the
chain over `filepath`, `source`, `file`, `sources` and `filepaths`. -/
def yara_compile_sources (E : CompileEnv) (args : CompileArgs) (compiler : YR_COMPILER)
    (st : CompileState) : YR_COMPILER × CompileState :=
  match args.filepath with
  | some filepath =>
    let st := { st with trace := st.trace ++ [CompileEffect.fopen filepath] }
    match E.fopen filepath with
    | Except.ok fh => (add_source E compiler (Source.file fh none (some filepath)) st).2
    | Except.error errno =>
      (compiler, { st with err := some (PyErr.YaraErrorFromErrno errno) })
  | none =>
  match args.source with
  | some source => (add_source E compiler (Source.string source none) st).2
  | none =>
  match args.file with
  | some file =>
    let fd := E.PyObject_AsFileDescriptor file
    let st := { st with trace := st.trace ++ [CompileEffect.PyObject_AsFileDescriptor file] }
    if fd ≠ -1 then (add_source E compiler (Source.file (FILE.fd fd) none none) st).2
    else (compiler, { st with err := some (PyErr.TypeError "'file' is not a file object") })
  | none =>
  match args.sources_dict with
  | some (PyObject.Dict items) => add_sources E items compiler st
  | some _ =>
    (compiler, { st with err := some (PyErr.TypeError "'sources' must be a dictionary") })
  | none =>
  match args.filepaths_dict with
  | some (PyObject.Dict items) => add_filepaths E items compiler st
  | some _ =>
    (compiler, { st with err := some (PyErr.TypeError "filepaths must be a dictionary") })
  | none => (compiler, { st with err := some (PyErr.TypeError "compile() takes 1 argument") })

/-- The end of `yara_compile`, from the test of `warning_error` on. The `NULL`
that is passed to `handle_error` as `extra` is the empty string here. -/
def yara_compile_finish (E : CompileEnv) (externals : Option PyObject) (warning_error : Bool)
    (compiler : YR_COMPILER) (st : CompileState) : CompileResult :=
  let st :=
    if warning_error = true ∧ st.warnings.length > 0 then
      { st with err := some (PyErr.YaraWarningError st.warnings) }
    else st
  match st.err with
  | some e =>
    { value := Except.error e, compiler := some compiler, warnings := st.warnings
      trace := st.trace }
  | none =>
    if E.Rules_NEW then
      let r := E.yr_compiler_get_rules compiler
      if r.1 = ERROR_SUCCESS then
        { value := Except.ok
            { rules := r.2
              iter_current_rule := 0
              warnings := some st.warnings
              externals :=
                match externals with
                | none => none
                | some PyObject.None => none
                | some externals => PyDict_Copy externals }
          compiler := some compiler
          warnings := st.warnings
          trace := st.trace ++ [CompileEffect.Rules_NEW, CompileEffect.yr_compiler_get_rules] }
      else
        { value := Except.error (handle_error r.1 ""), compiler := some compiler
          warnings := st.warnings
          trace := st.trace ++ [CompileEffect.Rules_NEW, CompileEffect.yr_compiler_get_rules] }
    else
      { value := Except.error (handle_error ERROR_INSUFFICIENT_MEMORY "")
        compiler := some compiler, warnings := st.warnings
        trace := st.trace ++ [CompileEffect.Rules_NEW] }

/-- Function `yara_compile`. The argument `none` is a call whose arguments
`PyArg_ParseTupleAndKeywords` rejects. The `NULL` that is passed to
`handle_error` as `extra` is the empty string here. -/
def yara_compile (E : CompileEnv) (args : Option CompileArgs) : CompileResult :=
  match args with
  | none => { value := Except.error PyErr.Pending, compiler := none, warnings := [], trace := [] }
  | some args =>
    if num_args args > 1 then
      { value := Except.error (PyErr.TypeError "compile is receiving too many arguments")
        compiler := none, warnings := [], trace := [] }
    else
      let error := E.yr_compiler_create
      if error ≠ ERROR_SUCCESS then
        { value := Except.error (handle_error error ""), compiler := none, warnings := []
          trace := [CompileEffect.yr_compiler_create] }
      else
        match yara_compile_options E args YR_COMPILER.fresh with
        | Except.error (e, compiler) =>
          { value := Except.error e, compiler := some compiler, warnings := []
            trace := [CompileEffect.yr_compiler_create] }
        | Except.ok (compiler, warning_error, pending) =>
          let r := yara_compile_sources E args compiler
            { warnings := [], err := pending, trace := [CompileEffect.yr_compiler_create] }
          yara_compile_finish E args.externals warning_error r.1 r.2

/-- The add-source step is reached: an add-source function of the engine is
called during the compilation. -/
def reaches_add_source (r : CompileResult) : Prop :=
  ∃ source, CompileEffect.yr_compiler_add source ∈ r.trace

/-- A source is read: a file is opened, a file object is asked for its
descriptor, or a source is handed to the engine. -/
def reads_source (r : CompileResult) : Prop :=
  ∃ eff ∈ r.trace, (∃ filepath, eff = CompileEffect.fopen filepath) ∨
    (∃ file, eff = CompileEffect.PyObject_AsFileDescriptor file) ∨
    ∃ source, eff = CompileEffect.yr_compiler_add source
/-- An engine that knows one external variable, the integer `known`: against
another type it reports a type mismatch, and a variable that was not defined at
compile time it reports as an invalid argument. -/
def picky_engine : Engine :=
  { yr_scanner_create := fun _ => 0
    yr_scanner_define_variable := fun _ identifier value =>
      if identifier = "known" then
        match value with
        | ExternalValue.integer _ => ERROR_SUCCESS
        | _ => ERROR_INVALID_EXTERNAL_VARIABLE_TYPE
      else ERROR_INVALID_ARGUMENT
    scan := fun _ _ => one_match }

/-- A compilation environment like `example_env` whose engine reports a type
conflict for the variable `known`. -/
def picky_env : CompileEnv :=
  { example_env with
    yr_compiler_define_variable := fun _ identifier _ =>
      if identifier = "known" then ERROR_INVALID_EXTERNAL_VARIABLE_TYPE else ERROR_SUCCESS }

/-- A call of `match` on in-memory data with an externals mapping that gives
`known` as a string. -/
def mismatch_args : MatchArgs :=
  { MatchArgs.empty with
    data := some []
    externals := some (PyObject.Dict
      ([(PyKey.Str "extra", PyObject.Long 1)] ++ (PyKey.Str "known", PyObject.Str "s") :: [])) }

/-- A call of `compile` on a source string with an externals mapping that
defines `known`. -/
def conflict_args : CompileArgs :=
  { CompileArgs.empty with
    source := some "rule r \x7b condition: true \x7d"
    externals := some (PyObject.Dict
      ([(PyKey.Str "extra", PyObject.Long 1)] ++ (PyKey.Str "known", PyObject.Str "s") :: [])) }

/-- A call of `match` on in-memory data with an externals mapping that gives an
integer outside the 64-bit range. -/
def overflow_match_args : MatchArgs :=
  { MatchArgs.empty with
    data := some []
    externals := some (PyObject.Dict [overflowing_pair]) }

/-- A call of `compile` on a source string with an externals mapping that gives
an integer outside the 64-bit range. -/
def overflow_compile_args : CompileArgs :=
  { CompileArgs.empty with
    source := some "rule r \x7b condition: true \x7d"
    externals := some (PyObject.Dict [overflowing_pair]) }

/-- A call of `compile` with a source string and nothing else. -/
def source_args : CompileArgs :=
  { CompileArgs.empty with source := some "rule r \x7b condition: true \x7d" }

/-- A call of `compile` with a source string and a file path. -/
def two_source_args : CompileArgs :=
  { CompileArgs.empty with source := some "rule r \x7b condition: true \x7d", filepath := some "f" }

/-! ## Streams over file-like objects -/

/-- A file-like host object with its state made explicit: the methods `read`
and `write` answer with an object, or raise (`none`), and leave a new state. -/
structure FileLike (σ : Type) where
  read : σ → Int → Option PyObject × σ
  write : σ → List Byte → Option PyObject × σ

/-- CPython `PyBytes_AsStringAndSize` with a length pointer: the buffer of a
bytes object; `none` is the result `-1` for another object. -/
def PyBytes_AsStringAndSize : PyObject → Option (List Byte)
  | PyObject.Bytes b => some b
  | _ => none

/-- The C `memcpy(ptr + offset, src, n)` on the memory `ptr`. -/
def memcpy_at (ptr : List Byte) (offset : Nat) (src : List Byte) (n : Nat) : List Byte :=
  ptr.take offset ++ memcpy (ptr.drop offset) src n

/-- Outcome of `flo_read`: the returned number of chunks, the memory at `ptr`
and the state of the file object afterwards, and the arguments of the calls of
`read` that were made, in order. -/
structure FloRead (σ : Type) where
  result : Nat
  ptr : List Byte
  user_data : σ
  calls : List Int

/-- The loop of `flo_read` with `todo` iterations left, at index `i`. -/
def flo_read_loop {σ : Type} (f : FileLike σ) (size count : Nat) :
    Nat → Nat → List Byte → σ → List Int → FloRead σ
  | 0, _, ptr, user_data, calls =>
    { result := count, ptr := ptr, user_data := user_data, calls := calls }
  | todo + 1, i, ptr, user_data, calls =>
    let r := f.read user_data (to_int64 size)
    let calls := calls ++ [to_int64 size]
    match r.1 with
    | none => { result := i, ptr := ptr, user_data := r.2, calls := calls }
    | some bytes =>
      match PyBytes_AsStringAndSize bytes with
      | none => { result := i, ptr := ptr, user_data := r.2, calls := calls }
      | some buffer =>
        if buffer.length < size then
          { result := i, ptr := ptr, user_data := r.2, calls := calls }
        else
          flo_read_loop f size count todo (i + 1) (memcpy_at ptr (i * size) buffer size) r.2
            calls

/-- Function `flo_read`; `size` and `count` are `size_t` values, `ptr` is the
memory that the destination pointer points to. The argument of `read` is
`(Py_ssize_t) size`. -/
def flo_read {σ : Type} (f : FileLike σ) (ptr : List Byte) (size count : Nat)
    (user_data : σ) : FloRead σ :=
  flo_read_loop f size count count 0 ptr user_data []

/-- Outcome of `flo_write`: the returned number of chunks, the state of the
file object afterwards, and the bytes objects that `write` was called with, in
order. -/
structure FloWrite (σ : Type) where
  result : Nat
  user_data : σ
  calls : List (List Byte)

/-- The limit `PY_SSIZE_T_MAX` of the host. -/
def PY_SSIZE_T_MAX : Nat := 2 ^ 63 - 1

/-- The conversion of the format `y#` by the host, with `PY_SSIZE_T_CLEAN`
defined: the bytes object built from the memory at `str` and the length `n`,
which is read as a `Py_ssize_t`. For a negative `n` the length is taken to be
`strlen(str)`, the number of bytes before the first zero byte (the memory at
`str` ends where the list ends), and the conversion fails (`none`) when that
exceeds `PY_SSIZE_T_MAX`. -/
def Py_BuildValue_bytes (str : List Byte) (n : Int) : Option (List Byte) :=
  if n < 0 then
    if (str.takeWhile (fun b => b ≠ 0)).length > PY_SSIZE_T_MAX then none
    else some (PyBytes_FromStringAndSize str (str.takeWhile (fun b => b ≠ 0)).length)
  else some (PyBytes_FromStringAndSize str n.toNat)

/-- The loop of `flo_write` with `todo` iterations left, at index `i`. The
length `size` reaches the format `y#` as a `Py_ssize_t`; when the argument
cannot be built, `PyObject_CallMethod` returns `NULL` without calling the
method. -/
def flo_write_loop {σ : Type} (f : FileLike σ) (ptr : List Byte) (size count : Nat) :
    Nat → Nat → σ → List (List Byte) → FloWrite σ
  | 0, _, user_data, calls => { result := count, user_data := user_data, calls := calls }
  | todo + 1, i, user_data, calls =>
    let argument := Py_BuildValue_bytes (ptr.drop (i * size)) (to_int64 size)
    if argument.isNone then { result := i, user_data := user_data, calls := calls }
    else
      let bytes := argument.getD []
      let r := f.write user_data bytes
      let calls := calls ++ [bytes]
      match r.1 with
      | none => { result := i, user_data := r.2, calls := calls }
      | some _ => flo_write_loop f ptr size count todo (i + 1) r.2 calls

/-- Function `flo_write`; `size` and `count` are `size_t` values, `ptr` is the
memory that the source pointer points to. -/
def flo_write {σ : Type} (f : FileLike σ) (ptr : List Byte) (size count : Nat)
    (user_data : σ) : FloWrite σ :=
  flo_write_loop f ptr size count count 0 user_data []

/-- The answers of successive calls of a method of a file-like object with the
given arguments, starting in state `s`: each call finds the state that the one
before left. -/
def successive {σ α : Type} (method : σ → α → Option PyObject × σ) :
    List α → σ → List (Option PyObject)
  | [], _ => []
  | a :: rest, s => (method s a).1 :: successive method rest (method s a).2

/-- The state of a file-like object after successive calls of a method with
the given arguments. -/
def state_after {σ α : Type} (method : σ → α → Option PyObject × σ) : List α → σ → σ
  | [], s => s
  | a :: rest, s => state_after method rest (method s a).2

/-- A call of `read` succeeded and returned at least `size` bytes. -/
def full_read (size : Nat) : Option PyObject → Bool
  | some (PyObject.Bytes b) => decide (size ≤ b.length)
  | _ => false

/-- The bytes that a call of `read` returned. -/
def chunk_of : Option PyObject → List Byte
  | some (PyObject.Bytes b) => b
  | _ => []

/-- Chunk `j` of the memory at `ptr`: the `size` bytes at offset `j * size`. -/
def chunk_at (ptr : List Byte) (size j : Nat) : List Byte :=
  (ptr.drop (j * size)).take size

/-- A file-like object over a list of chunks still to be read: `read` hands
out the next chunk, whatever length is asked for, and raises when none is
left; `write` always raises. -/
def chunked_source : FileLike (List (List Byte)) :=
  { read := fun s _ =>
      match s with
      | [] => (none, [])
      | c :: rest => (some (PyObject.Bytes c), rest)
    write := fun s _ => (none, s) }

/-- A file-like object that keeps the chunks written to it, and whose `write`
raises once `room` chunks are stored; `read` always raises. -/
def bounded_sink (room : Nat) : FileLike (List (List Byte)) :=
  { read := fun s _ => (none, s)
    write := fun s bytes =>
      if s.length < room then (some PyObject.None, s ++ [bytes]) else (none, s) }

/-! ## Notions used in the statements about `compile` -/

/-- The argument `error_on_warning` is given as `True`: "error on warning" is
requested. -/
def error_on_warning_requested (args : CompileArgs) : Bool :=
  match args.error_on_warning with
  | some (PyObject.Bool true) => true
  | _ => false

/-- The text of a diagnostic: `<file>(<line>): <message>`, or
`line <line>: <message>` when no file name is given. -/
def Diagnostic.text (d : Diagnostic) : String :=
  match d.file_name with
  | some file_name => file_name ++ "(" ++ toString d.line_number ++ "): " ++ d.message
  | none => "line " ++ toString d.line_number ++ ": " ++ d.message

/-- The diagnostics among the callbacks of the engine, in order. -/
def diagnostics : List CompilerEvent → List Diagnostic
  | [] => []
  | CompilerEvent.diagnostic d :: rest => d :: diagnostics rest
  | CompilerEvent.include_callback _ _ _ :: rest => diagnostics rest

/-- The texts of the diagnostics that are not of ERROR level, in order. -/
def warning_texts (events : List CompilerEvent) : List String :=
  ((diagnostics events).filter
    (fun d => decide (d.error_level ≠ YARA_ERROR_LEVEL_ERROR))).map Diagnostic.text

/-- The last diagnostic of ERROR level, if there is one. -/
def last_error (events : List CompilerEvent) : Option Diagnostic :=
  ((diagnostics events).filter
    (fun d => decide (d.error_level = YARA_ERROR_LEVEL_ERROR))).getLast?

/-- The callbacks that the engine makes during the add-source calls for the
given sources, in order, the first call finding the compiler `compiler`. -/
def emitted (E : CompileEnv) : YR_COMPILER → List Source → List CompilerEvent
  | _, [] => []
  | compiler, source :: rest =>
    (E.yr_compiler_add compiler source).events
      ++ emitted E { compiler with added := compiler.added ++ [source] } rest

/-- The engine returns a positive number of errors from every add-source call
during which it hands a diagnostic of ERROR level to the compiler callback. -/
def reports_errors (E : CompileEnv) : Prop :=
  ∀ compiler source, last_error (E.yr_compiler_add compiler source).events ≠ none →
    (E.yr_compiler_add compiler source).errors > 0

/-- What the part of `yara_compile` that hands sources to the engine does to
a compiler `compiler` and a state `st`, in terms of the sources handed over:
they are logged in the compiler, the warnings grow by the texts of the
diagnostics of other than ERROR level that the engine emitted for them, the
last diagnostic of ERROR level decides the exception when the engine reports
its errors, and no `YaraWarningError` is set. -/
def sources_outcome (E : CompileEnv) (compiler : YR_COMPILER) (st : CompileState)
    (out : YR_COMPILER × CompileState) : Prop :=
  ∃ sources, out.1 = { compiler with added := compiler.added ++ sources } ∧
    out.2.warnings = st.warnings ++ warning_texts (emitted E compiler sources) ∧
    (reports_errors E → ∀ d, last_error (emitted E compiler sources) = some d →
      out.2.err = some (PyErr.YaraSyntaxError d.text)) ∧
    ((∀ w, st.err ≠ some (PyErr.YaraWarningError w)) →
      ∀ w, out.2.err ≠ some (PyErr.YaraWarningError w))

/-- A diagnostic of warning level, without a file name. -/
def slow_warning : Diagnostic :=
  { error_level := 1, file_name := none, line_number := 1, message := "slow string" }

/-- A diagnostic of ERROR level, with a file name. -/
def syntax_error : Diagnostic :=
  { error_level := YARA_ERROR_LEVEL_ERROR, file_name := some "r.yar", line_number := 2
    message := "syntax error" }

/-- A compilation environment like `example_env` whose engine makes the given
callbacks during every add-source call and returns the given number of
errors. -/
def emitting_env (events : List CompilerEvent) (errors : Int) : CompileEnv :=
  { example_env with yr_compiler_add := fun _ _ => { events := events, errors := errors } }

/-- A call of `compile` with a source string and `error_on_warning=True`. -/
def strict_source_args : CompileArgs :=
  { source_args with error_on_warning := some (PyObject.Bool true) }

/-! ## The conversion of module data in the words of the specification -/

/-- The mapping built from pairs of key and value, in order: a later pair
replaces the value of an earlier pair with the same key. -/
def mapping_of (pairs : List (String × PyObject)) : PyDict :=
  pairs.foldl (fun d p => PyDict_SetItemString d p.1 p.2) []

mutual

/-- The conversion of a value tree in the words of the specification: an
integer converts to itself unless it is the undefined sentinel, a string to
its bytes unless absent, a float to itself unless NaN, a function (and a value
of an unlisted type) to nothing, a structure or dictionary to the mapping of
its converted members or entries, an array to the sequence of its converted
elements. -/
def reference : YR_OBJECT → Option PyObject
  | YR_OBJECT.INTEGER _ i => if i = YR_UNDEFINED then none else some (PyObject.Long i)
  | YR_OBJECT.STRING _ none => none
  | YR_OBJECT.STRING _ (some bytes) => some (PyObject.Bytes bytes)
  | YR_OBJECT.STRUCTURE _ members =>
    some (PyObject.Dict (mapping_of (reference_members members)))
  | YR_OBJECT.ARRAY _ none => some (PyObject.List [])
  | YR_OBJECT.ARRAY _ (some items) => some (PyObject.List (reference_items items))
  | YR_OBJECT.FUNCTION _ => none
  | YR_OBJECT.DICTIONARY _ none => some (PyObject.Dict [])
  | YR_OBJECT.DICTIONARY _ (some entries) =>
    some (PyObject.Dict (mapping_of (reference_entries entries)))
  | YR_OBJECT.FLOAT _ d => if isnan d then none else some (PyObject.Float d)
  | YR_OBJECT.OTHER _ _ => none

/-- The members of a structure whose value converts to something, each with
its identifier, in order. -/
def reference_members : List YR_OBJECT → List (String × PyObject)
  | [] => []
  | member :: rest =>
    match reference member with
    | some value => (member.identifier, value) :: reference_members rest
    | none => reference_members rest

/-- The elements of an array that convert to something, in order. -/
def reference_items : List (Option YR_OBJECT) → List PyObject
  | [] => []
  | none :: rest => reference_items rest
  | some object :: rest =>
    match reference object with
    | some value => value :: reference_items rest
    | none => reference_items rest

/-- The entries of a dictionary whose value converts to something, each with
its key, in order. -/
def reference_entries : List (String × Option YR_OBJECT) → List (String × PyObject)
  | [] => []
  | (_, none) :: rest => reference_entries rest
  | (key, some object) :: rest =>
    match reference object with
    | some value => (key, value) :: reference_entries rest
    | none => reference_entries rest

end

/-- The allocations of the conversion succeed. -/
def Alloc.conversion_ok (a : Alloc) : Prop :=
  a.structure_dict = true ∧ a.array_list = true ∧ a.dictionary_dict = true

/-- A value tree of a module: a structure with an integer, an undefined
integer, a function, an array with an absent element, a NaN and a string, and
a dictionary whose key `k` occurs twice. -/
def example_tree : YR_OBJECT :=
  YR_OBJECT.STRUCTURE "pe"
    [YR_OBJECT.INTEGER "sections" 3,
     YR_OBJECT.INTEGER "checksum" YR_UNDEFINED,
     YR_OBJECT.FUNCTION "imphash",
     YR_OBJECT.ARRAY "names"
       (some [none, some (YR_OBJECT.FLOAT "" 0x7FF8000000000000),
         some (YR_OBJECT.STRING "" (some [1, 2]))]),
     YR_OBJECT.DICTIONARY "version"
       (some [("k", some (YR_OBJECT.INTEGER "" 1)), ("k", some (YR_OBJECT.INTEGER "" 2))])]

/-! ## Iteration over the rules of a rule set -/

/-- Modelled from the spec: the flag `RULE_FLAGS_PRIVATE` of `yara.h`. -/
def RULE_FLAGS_PRIVATE : Nat := 0x01

/-- Modelled from the spec: the flag `RULE_FLAGS_GLOBAL` of `yara.h`. -/
def RULE_FLAGS_GLOBAL : Nat := 0x02

/-- Object `Rule`; `global_` and `private_` are its fields `global` and
`private`. -/
structure Rule where
  identifier : PyObject
  tags : PyObject
  meta : PyObject
  global_ : PyObject
  private_ : PyObject

/-- The table `Rule_members`: the names of the attributes and the fields they
read. -/
def Rule_members : List (String × (Rule → PyObject)) :=
  [("is_global", Rule.global_), ("is_private", Rule.private_),
   ("identifier", Rule.identifier), ("tags", Rule.tags), ("meta", Rule.meta)]

/-- Function `Rule_getattro`, which is `PyObject_GenericGetAttr`, for a name
that is not an attribute of every object: the type `Rule` has an empty method
table, no getset table and no instance dictionary, so the name is looked up in
`Rule_members`; `none` is `AttributeError`. -/
def Rule_getattro (self : Rule) (name : String) : Option PyObject :=
  (Rule_members.find? (fun m => m.1 = name)).map (fun m => m.2 self)

/-- Outcome of the three allocations at the start of `Rules_next`:
`PyObject_NEW`, `PyList_New` and `PyDict_New`. -/
structure NextAlloc where
  rule : Bool
  tag_list : Bool
  meta_list : Bool

/-- What a call of `Rules_next` returns: a Rule, or `NULL` with
`StopIteration` or another exception set. -/
inductive NextResult
  | rule (r : Rule)
  | StopIteration
  | error (e : PyErr)

/-- Function `Rules_next`: what it returns and the Rules object afterwards.
The cursor `iter_current_rule` is an index into the rule table; the macro
`RULE_IS_NULL` of `yara.h` holds of the entry that ends the table, which
stands at the index after the last rule. -/
def Rules_next (a : NextAlloc) (rules : Rules) : NextResult × Rules :=
  match rules.rules.rules_table[rules.iter_current_rule]? with
  | none => (NextResult.StopIteration, { rules with iter_current_rule := 0 })
  | some current =>
    if a.rule = true ∧ a.tag_list = true ∧ a.meta_list = true then
      let tag_list := (yr_rule_tags_foreach current).foldl
        (fun tag_list tag => PyList_Append tag_list (PY_STRING tag)) (PyObject.List [])
      let meta_list := (yr_rule_metas_foreach current).foldl
        (fun meta_list meta => PyDict_SetItemString meta_list meta.identifier (meta_object meta))
        []
      (NextResult.rule
        { global_ := PyBool_FromLong ((current.flags &&& RULE_FLAGS_GLOBAL : Nat) : Int)
          private_ := PyBool_FromLong ((current.flags &&& RULE_FLAGS_PRIVATE : Nat) : Int)
          identifier := PY_STRING current.identifier
          tags := tag_list
          meta := PyObject.Dict meta_list },
        { rules with iter_current_rule := rules.iter_current_rule + 1 })
    else (NextResult.error (PyErr.TypeError "Out of memory"), rules)

/-- Successive calls of `Rules_next` on one Rules object, one per given
allocation outcome: what they return, in order, and the object afterwards. -/
def Rules_next_steps : List NextAlloc → Rules → List NextResult × Rules
  | [], rules => ([], rules)
  | a :: rest, rules =>
    ((Rules_next a rules).1 :: (Rules_next_steps rest (Rules_next a rules).2).1,
      (Rules_next_steps rest (Rules_next a rules).2).2)

/-- The three allocations of `Rules_next` succeed. -/
def NextAlloc.ok (a : NextAlloc) : Prop :=
  a.rule = true ∧ a.tag_list = true ∧ a.meta_list = true

/-- The Rule object for an entry of the rule table, in the words of the
specification: its identifier, its tags in declaration order, its meta
entries as a mapping, and the two flags. -/
def Rule_of (entry : YR_RULE) : Rule :=
  { identifier := PyObject.Str entry.identifier
    tags := PyObject.List (entry.tags.map PyObject.Str)
    meta := PyObject.Dict
      (mapping_of (entry.metas.map (fun meta => (meta.identifier, meta_object meta))))
    global_ := PyObject.Bool (entry.flags.testBit 1)
    private_ := PyObject.Bool (entry.flags.testBit 0) }

/-! ## `yara.load` -/

/-- Modelled from the spec: an entry of the table of external variables of a
rule set (`YR_EXTERNAL_VARIABLE` of `yara.h`): its type, its identifier and
the members `i`, `f` (a binary64 bit pattern) and `s` of its value. -/
structure YR_EXTERNAL_VARIABLE where
  type : Int
  identifier : String
  i : Int
  f : Nat
  s : String

/-- Modelled from the spec: `EXTERNAL_VARIABLE_TYPE_FLOAT` of `yara.h`. -/
def EXTERNAL_VARIABLE_TYPE_FLOAT : Int := 1
/-- Modelled from the spec: `EXTERNAL_VARIABLE_TYPE_INTEGER` of `yara.h`. -/
def EXTERNAL_VARIABLE_TYPE_INTEGER : Int := 2
/-- Modelled from the spec: `EXTERNAL_VARIABLE_TYPE_BOOLEAN` of `yara.h`. -/
def EXTERNAL_VARIABLE_TYPE_BOOLEAN : Int := 3
/-- Modelled from the spec: `EXTERNAL_VARIABLE_TYPE_STRING` of `yara.h`. -/
def EXTERNAL_VARIABLE_TYPE_STRING : Int := 4

/-- The functions called by `yara_load` that are not part of this source
file: the allocation in `Rules_NEW`, `PyObject_HasAttrString(file, "read")`,
and the two load functions of the engine, which give a code and the loaded
rules with their table of external variables (the entries before the null
entry that ends it). -/
structure LoadEnv where
  Rules_NEW : Bool
  has_read : PyObject → Bool
  yr_rules_load : String → Int × YR_RULES × List YR_EXTERNAL_VARIABLE
  yr_rules_load_stream : PyObject → Int × YR_RULES × List YR_EXTERNAL_VARIABLE

/-- The arguments of `yara_load` as stored by `PyArg_ParseTupleAndKeywords`. -/
structure LoadArgs where
  filepath : Option String
  file : Option PyObject

/-- The loop of `yara_load` over the table of external variables. -/
def load_externals : List YR_EXTERNAL_VARIABLE → PyDict → PyDict
  | [], externals => externals
  | external :: rest, externals =>
    if external.type = EXTERNAL_VARIABLE_TYPE_BOOLEAN then
      load_externals rest
        (PyDict_SetItemString externals external.identifier
          (PyBool_FromLong (to_int64 external.i)))
    else if external.type = EXTERNAL_VARIABLE_TYPE_INTEGER then
      load_externals rest
        (PyDict_SetItemString externals external.identifier
          (PyObject.Long (to_int64 external.i)))
    else if external.type = EXTERNAL_VARIABLE_TYPE_FLOAT then
      load_externals rest
        (PyDict_SetItemString externals external.identifier (PyObject.Float external.f))
    else if external.type = EXTERNAL_VARIABLE_TYPE_STRING then
      load_externals rest
        (PyDict_SetItemString externals external.identifier (PY_STRING external.s))
    else load_externals rest externals

/-- The end of `yara_load`, after a successful load: the cursor is set to the
start of the rule table and the external variables are copied. -/
def yara_load_finish (loaded : YR_RULES) (ext_vars_table : List YR_EXTERNAL_VARIABLE) :
    Rules :=
  { rules := loaded
    warnings := none
    iter_current_rule := 0
    externals :=
      match ext_vars_table with
      | [] => none
      | table => some (load_externals table []) }

/-- Function `yara_load`. The argument `none` is a call whose arguments
`PyArg_ParseTupleAndKeywords` rejects. -/
def yara_load (E : LoadEnv) (args : Option LoadArgs) : Except PyErr Rules :=
  match args with
  | none => Except.error PyErr.Pending
  | some args =>
    match args.filepath with
    | some filepath =>
      if !E.Rules_NEW then Except.error PyErr.MemoryError
      else
        let r := E.yr_rules_load filepath
        if r.1 ≠ ERROR_SUCCESS then Except.error (handle_error r.1 filepath)
        else Except.ok (yara_load_finish r.2.1 r.2.2)
    | none =>
      if args.file.any E.has_read then
        if !E.Rules_NEW then Except.error PyErr.MemoryError
        else
          let r := E.yr_rules_load_stream (args.file.getD PyObject.None)
          if r.1 ≠ ERROR_SUCCESS then Except.error (handle_error r.1 "<file-like-object>")
          else Except.ok (yara_load_finish r.2.1 r.2.2)
      else
        Except.error
          (PyErr.TypeError "load() expects either a file path or a file-like object")

/-- A loading environment in which a file path loads a rule set holding
`example_rule`. -/
def example_load_env : LoadEnv :=
  { Rules_NEW := true
    has_read := fun _ => false
    yr_rules_load := fun _ => (ERROR_SUCCESS, { rules_table := [example_rule] }, [])
    yr_rules_load_stream := fun _ => (ERROR_INSUFFICIENT_MEMORY, { rules_table := [] }, []) }

/-- A second rule, global and with a repeated meta key, in another
namespace. -/
def second_rule : YR_RULE :=
  { identifier := "s", ns := { name := "other" }, tags := ["t"]
    metas := [{ identifier := "n", type := META_TYPE_INTEGER, integer := 2 ^ 32 + 5, string := "" },
      { identifier := "b", type := META_TYPE_BOOLEAN, integer := 7, string := "" },
      { identifier := "n", type := META_TYPE_INTEGER, integer := -3, string := "" }]
    strings := [], flags := RULE_FLAGS_GLOBAL }

/-- A freshly made rule set holding `example_rule` and `second_rule`. -/
def two_rules : Rules :=
  { externals := none, warnings := none
    rules := { rules_table := [example_rule, second_rule] }, iter_current_rule := 0 }

/-- Allocation outcomes of `Rules_next` that all succeed. -/
def NextAlloc.healthy : NextAlloc := { rule := true, tag_list := true, meta_list := true }

/-- A meta entry of integer type whose value does not fit a C `int`. -/
def wide_meta : YR_META :=
  { identifier := "n", type := META_TYPE_INTEGER, integer := 2 ^ 32 + 5, string := "" }

/-- A meta entry of integer type with a negative value. -/
def negative_meta : YR_META :=
  { identifier := "n", type := META_TYPE_INTEGER, integer := -3, string := "" }

/-- A meta entry of boolean type. -/
def boolean_meta : YR_META :=
  { identifier := "b", type := META_TYPE_BOOLEAN, integer := 7, string := "" }

/-- A meta entry of string type. -/
def string_meta : YR_META :=
  { identifier := "y", type := META_TYPE_STRING, integer := 0, string := "s" }

/-- A match in a memory block at the address `0xffffffffff600000`, which the
engine holds in its signed 64-bit field `base`, 16 bytes into the block. -/
def high_match : YR_MATCH :=
  { base := 0xffffffffff600000 - 2 ^ 64, offset := 16, match_length := 3, data_length := 3
    data := [1, 2, 3], xor_key := 0 }

/-- A file-like object in memory: the bytes stored and the position of the
next read. `write` appends the bytes it is given and answers their number,
`read` hands out the next bytes, at most as many as asked for. -/
def memory_file : FileLike (List Byte × Nat) :=
  { write := fun s bytes => (some (PyObject.Long bytes.length), (s.1 ++ bytes, s.2))
    read := fun s n =>
      (some (PyObject.Bytes ((s.1.drop s.2).take n.toNat)),
        (s.1, s.2 + ((s.1.drop s.2).take n.toNat).length)) }

/-! ## Theorems -/

theorem nat_and_two (x : Nat) : x &&& 2 = if x.testBit 1 then 2 else 0 := by
  have h := Nat.and_two_pow x 1
  simp only [pow_one] at h
  rw [h]
  cases x.testBit 1 <;> simp

theorem pattern_testBit_zero (w : Int) : (w % 2 ^ 32).toNat.testBit 0 = w.testBit 0 := by
  cases w with
  | ofNat n =>
    simp only [Int.testBit, Nat.testBit_zero, Int.ofNat_eq_coe]
    congr 1
    apply propext
    omega
  | negSucc n =>
    simp only [Int.testBit, Nat.testBit_zero]
    have h := Int.negSucc_eq n
    rw [Bool.eq_iff_iff]
    simp only [decide_eq_true_eq, Bool.not_eq_true', decide_eq_false_iff_not]
    omega

theorem pattern_testBit_one (w : Int) : (w % 2 ^ 32).toNat.testBit 1 = w.testBit 1 := by
  cases w with
  | ofNat n =>
    simp only [Int.testBit, Nat.testBit_to_div_mod, Int.ofNat_eq_coe]
    congr 1
    apply propext
    omega
  | negSucc n =>
    simp only [Int.testBit, Nat.testBit_to_div_mod]
    have h := Int.negSucc_eq n
    rw [Bool.eq_iff_iff]
    simp only [decide_eq_true_eq, Bool.not_eq_true', decide_eq_false_iff_not]
    omega

theorem int_and_matches (w : Int) : int_and w CALLBACK_MATCHES ≠ 0 ↔ w.testBit 0 = true := by
  unfold int_and CALLBACK_MATCHES
  rw [Nat.and_one_is_mod, ← pattern_testBit_zero, Nat.testBit_zero]
  simp

theorem int_and_non_matches (w : Int) :
    int_and w CALLBACK_NON_MATCHES = if w.testBit 1 then 2 else 0 := by
  unfold int_and CALLBACK_NON_MATCHES
  rw [nat_and_two, pattern_testBit_one]

theorem foldl_append_singleton {α : Type} (xs acc : List α) :
    xs.foldl (fun l x => l ++ [x]) acc = acc ++ xs := by
  induction xs generalizing acc with
  | nil => simp
  | cons x xs ih => simp [ih]

theorem instances_loop_ok (a : Alloc) (idx : Nat)
    (h : ∀ pos, a.string_match_instance idx pos = true) (ms : List YR_MATCH) (pos : Nat)
    (acc : List StringMatchInstance) :
    instances_loop a idx ms pos acc = some (acc ++ ms.filterMap instance_of_match) := by
  induction ms generalizing pos acc with
  | nil => simp [instances_loop]
  | cons m ms ih =>
    simp [instances_loop, h, ih, instance_of_match, StringMatchInstance_NEW]

theorem strings_loop_ok (a : Alloc) (context : YR_SCAN_CONTEXT) (h : a.construction_ok)
    (strings : List YR_STRING) (acc : List StringMatch) :
    strings_loop a context strings acc =
      some (acc ++ (strings.filter
        (fun string => 1 ≤ (context.matches_ string.idx).length)).map
        (fun string =>
          { identifier := string.identifier
            flags := string.flags
            instances := (context.matches_ string.idx).filterMap instance_of_match })) := by
  obtain ⟨_, _, h1, h2, h3⟩ := h
  induction strings generalizing acc with
  | nil => simp [strings_loop]
  | cons s rest ih =>
    unfold strings_loop
    by_cases he : (context.matches_ s.idx).isEmpty = true
    · have : ¬ (1 ≤ (context.matches_ s.idx).length) := by
        rw [List.isEmpty_iff] at he
        simp [he]
      simp [he, ih, List.filter_cons, this]
    · have : 1 ≤ (context.matches_ s.idx).length := by
        rw [List.isEmpty_iff] at he
        exact Nat.one_le_iff_ne_zero.mpr (fun h0 => he (List.length_eq_zero.mp h0))
      simp [he, h1, h2, instances_loop_ok a s.idx (h3 s.idx), StringMatch_NEW, ih,
        List.filter_cons, this]

/-- The strings loop of `yara_callback` when object construction succeeds. -/
theorem strings_loop_matched (a : Alloc) (context : YR_SCAN_CONTEXT) (h : a.construction_ok)
    (rule : YR_RULE) :
    strings_loop a context rule.strings [] = some (matched_strings context rule) := by
  rw [strings_loop_ok a context h]
  simp [matched_strings]

/-- C1: for a RULE_MATCHING event, object construction succeeding, exactly one
Match for the rule is appended to the end of the accumulated list, whatever the
event mask, the callback and its answer are, and the append comes before the
invocation of the callback. -/
theorem rule_matching_appends_one_match (rt : Runtime) (context : YR_SCAN_CONTEXT)
    (rule : YR_RULE) (user_data : CALLBACK_DATA) (trace : List Effect)
    (h : rt.alloc.construction_ok) :
    ∃ m : Match, m.rule = rule.identifier ∧ m.ns = rule.ns.name ∧ m.tags = rule.tags ∧
      (yara_callback rt context (Event.RULE_MATCHING rule) user_data trace).user_data.matches_
        = user_data.matches_ ++ [m] ∧
      ((yara_callback rt context (Event.RULE_MATCHING rule) user_data trace).trace
          = trace ++ [Effect.append_match m] ∨
        ∃ d, (yara_callback rt context (Event.RULE_MATCHING rule) user_data trace).trace
          = trace ++ [Effect.append_match m, Effect.call_callback d]) := by
  have hs := strings_loop_matched rt.alloc context h rule
  obtain ⟨h1, h2, -⟩ := h
  refine ⟨{ rule := rule.identifier, ns := rule.ns.name, tags := rule.tags
            meta := rule.metas.foldl (meta_step user_data.allow_duplicate_metadata) []
            strings := matched_strings context rule }, rfl, rfl, rfl, ?_⟩
  simp only [yara_callback, yara_callback_rule, h1, h2, hs, Match_NEW, foldl_append_singleton]
  simp only [Bool.not_true, Bool.false_eq_true, if_false, if_true, List.nil_append]
  cases hcb : user_data.callback with
  | none => simp
  | some cb =>
    simp only []
    split
    · split
      · split <;> simp
      · simp
    · simp

theorem callback_calls_append (t u : List Effect) :
    callback_calls (t ++ u) = callback_calls t + callback_calls u := by
  simp [callback_calls, List.countP_append]

theorem yara_callback_rule_not_invoked (rt : Runtime) (context : YR_SCAN_CONTEXT)
    (message : Int) (rule : YR_RULE) (user_data : CALLBACK_DATA) (trace : List Effect)
    (hn : ¬ (user_data.callback.isSome = true ∧
      ((message = CALLBACK_MSG_RULE_MATCHING ∧ int_and user_data.which CALLBACK_MATCHES ≠ 0) ∨
        (message = CALLBACK_MSG_RULE_NOT_MATCHING ∧
          int_and user_data.which CALLBACK_NON_MATCHES ≠ 0)))) :
    callback_calls (yara_callback_rule rt context message rule user_data trace).trace
      = callback_calls trace := by
  unfold yara_callback_rule
  simp only []
  split
  · rfl
  · split
    · rfl
    · split
      · rfl
      · rename_i ud1 tr1 happ
        have htr : callback_calls tr1 = callback_calls trace := by
          split at happ
          · split at happ
            · simp only [Option.some.injEq, Prod.mk.injEq] at happ
              rw [← happ.2, callback_calls_append]
              simp [callback_calls]
            · simp at happ
          · simp only [Option.some.injEq, Prod.mk.injEq] at happ
            rw [happ.2]
        split
        · rename_i cb hcb
          split
          · rename_i hg
            exact absurd ⟨by simp [hcb], hg⟩ hn
          · exact htr
        · exact htr

theorem yara_callback_rule_invoked (rt : Runtime) (context : YR_SCAN_CONTEXT)
    (message : Int) (rule : YR_RULE) (user_data : CALLBACK_DATA) (trace : List Effect)
    (h : rt.alloc.construction_ok) (hc : user_data.callback.isSome = true)
    (hg : (message = CALLBACK_MSG_RULE_MATCHING ∧ int_and user_data.which CALLBACK_MATCHES ≠ 0) ∨
        (message = CALLBACK_MSG_RULE_NOT_MATCHING ∧
          int_and user_data.which CALLBACK_NON_MATCHES ≠ 0)) :
    callback_calls (yara_callback_rule rt context message rule user_data trace).trace
      = callback_calls trace + 1 := by
  have hs := strings_loop_matched rt.alloc context h rule
  obtain ⟨h1, h2, -⟩ := h
  obtain ⟨cb, hcb⟩ := Option.isSome_iff_exists.mp hc
  simp only [yara_callback_rule, h1, h2, hs, Match_NEW, hcb]
  simp only [Bool.not_true, Bool.false_eq_true, if_false, if_true, hg]
  by_cases hm : message = CALLBACK_MSG_RULE_MATCHING
  · simp only [hm, if_true]
    split <;> [split; skip] <;> simp [callback_calls_append, callback_calls]
  · simp only [hm, if_false]
    split <;> [split; skip] <;> simp [callback_calls_append, callback_calls]

theorem handle_import_module_calls (mi : YR_MODULE_IMPORT) (data : CALLBACK_DATA)
    (trace : List Effect) :
    callback_calls (handle_import_module mi data trace).2 = callback_calls trace := by
  unfold handle_import_module
  split
  · rfl
  · split <;> simp [callback_calls_append, callback_calls]

theorem handle_module_imported_calls (rt : Runtime) (identifier : String)
    (members : List YR_OBJECT) (data : CALLBACK_DATA) (trace : List Effect) :
    callback_calls (handle_module_imported rt identifier members data trace).2
      = callback_calls trace := by
  unfold handle_module_imported
  split
  · rfl
  · split
    · rfl
    · simp only []
      split <;> [split; skip] <;> simp [callback_calls_append, callback_calls]

theorem handle_console_log_calls (text : String) (data : CALLBACK_DATA)
    (trace : List Effect) :
    callback_calls (handle_console_log text data trace).2 = callback_calls trace := by
  unfold handle_console_log
  simp only []
  split
  · simp [callback_calls_append, callback_calls]
  · split <;> [split; skip] <;> simp [callback_calls_append, callback_calls]

theorem handle_too_many_matches_calls (rt : Runtime) (context : YR_SCAN_CONTEXT)
    (string : YR_STRING) (data : CALLBACK_DATA) (trace : List Effect) :
    callback_calls (handle_too_many_matches rt context string data trace).2
      = callback_calls trace := by
  unfold handle_too_many_matches
  simp only []
  split
  · split <;> simp [callback_calls_append, callback_calls]
  · repeat' split
    all_goals simp [callback_calls_append, callback_calls]

/-- C2: the host match callback is invoked exactly once when a callback is
registered and the event is RULE_MATCHING with bit 0x01 of the mask set, or
RULE_NOT_MATCHING with bit 0x02 set (object construction succeeding), and it
is not invoked in any other case. -/
theorem match_callback_invoked_iff (rt : Runtime) (context : YR_SCAN_CONTEXT) (ev : Event)
    (user_data : CALLBACK_DATA) (trace : List Effect) :
    (¬ (user_data.callback.isSome = true ∧
          ((ev.message = CALLBACK_MSG_RULE_MATCHING ∧ user_data.which.testBit 0 = true) ∨
            (ev.message = CALLBACK_MSG_RULE_NOT_MATCHING ∧ user_data.which.testBit 1 = true))) →
        callback_calls (yara_callback rt context ev user_data trace).trace
          = callback_calls trace) ∧
      (rt.alloc.construction_ok →
        (callback_calls (yara_callback rt context ev user_data trace).trace
            = callback_calls trace + 1 ↔
          (user_data.callback.isSome = true ∧
            ((ev.message = CALLBACK_MSG_RULE_MATCHING ∧ user_data.which.testBit 0 = true) ∨
              (ev.message = CALLBACK_MSG_RULE_NOT_MATCHING ∧
                user_data.which.testBit 1 = true))))) := by
  have key : (¬ (user_data.callback.isSome = true ∧
          ((ev.message = CALLBACK_MSG_RULE_MATCHING ∧ user_data.which.testBit 0 = true) ∨
            (ev.message = CALLBACK_MSG_RULE_NOT_MATCHING ∧ user_data.which.testBit 1 = true))) →
        callback_calls (yara_callback rt context ev user_data trace).trace
          = callback_calls trace) ∧
      (rt.alloc.construction_ok →
        (user_data.callback.isSome = true ∧
          ((ev.message = CALLBACK_MSG_RULE_MATCHING ∧ user_data.which.testBit 0 = true) ∨
            (ev.message = CALLBACK_MSG_RULE_NOT_MATCHING ∧ user_data.which.testBit 1 = true))) →
        callback_calls (yara_callback rt context ev user_data trace).trace
          = callback_calls trace + 1) := by
    cases ev with
    | IMPORT_MODULE mi =>
      refine ⟨fun _ => handle_import_module_calls mi user_data trace, fun _ hc => ?_⟩
      simp [Event.message, CALLBACK_MSG_IMPORT_MODULE, CALLBACK_MSG_RULE_MATCHING,
        CALLBACK_MSG_RULE_NOT_MATCHING] at hc
    | MODULE_IMPORTED identifier members =>
      refine ⟨fun _ => handle_module_imported_calls rt identifier members user_data trace,
        fun _ hc => ?_⟩
      simp [Event.message, CALLBACK_MSG_MODULE_IMPORTED, CALLBACK_MSG_RULE_MATCHING,
        CALLBACK_MSG_RULE_NOT_MATCHING] at hc
    | TOO_MANY_MATCHES string =>
      refine ⟨fun _ => handle_too_many_matches_calls rt context string user_data trace,
        fun _ hc => ?_⟩
      simp [Event.message, CALLBACK_MSG_TOO_MANY_MATCHES, CALLBACK_MSG_RULE_MATCHING,
        CALLBACK_MSG_RULE_NOT_MATCHING] at hc
    | SCAN_FINISHED =>
      refine ⟨fun _ => rfl, fun _ hc => ?_⟩
      simp [Event.message, CALLBACK_MSG_SCAN_FINISHED, CALLBACK_MSG_RULE_MATCHING,
        CALLBACK_MSG_RULE_NOT_MATCHING] at hc
    | CONSOLE_LOG text =>
      refine ⟨fun _ => handle_console_log_calls text user_data trace, fun _ hc => ?_⟩
      simp [Event.message, CALLBACK_MSG_CONSOLE_LOG, CALLBACK_MSG_RULE_MATCHING,
        CALLBACK_MSG_RULE_NOT_MATCHING] at hc
    | RULE_NOT_MATCHING rule =>
      have hne : CALLBACK_MSG_RULE_NOT_MATCHING ≠ CALLBACK_MSG_RULE_MATCHING := by decide
      simp only [Event.message, hne, false_and, false_or, true_and]
      simp only [yara_callback]
      constructor
      · intro hn
        split
        · rfl
        · apply yara_callback_rule_not_invoked
          intro hc
          apply hn
          refine ⟨hc.1, ?_⟩
          rcases hc.2 with h1 | h2
          · exact absurd h1.1 hne
          · have := h2.2
            rw [int_and_non_matches] at this
            by_contra hb
            simp [hb] at this
      · intro hok hc
        have hg : int_and user_data.which CALLBACK_NON_MATCHES = CALLBACK_NON_MATCHES := by
          rw [int_and_non_matches, hc.2]
          rfl
        have hsome : ¬ (user_data.callback.isNone = true) := by
          rw [Option.isNone_iff_eq_none]
          intro h0
          rw [h0] at hc
          simp at hc
        rw [if_neg (by simp [hsome, hg])]
        apply yara_callback_rule_invoked rt context _ rule user_data trace hok hc.1
        right
        refine ⟨rfl, ?_⟩
        rw [hg]
        decide
    | RULE_MATCHING rule =>
      have hne : CALLBACK_MSG_RULE_MATCHING ≠ CALLBACK_MSG_RULE_NOT_MATCHING := by decide
      simp only [Event.message, hne, false_and, or_false, true_and]
      simp only [yara_callback]
      constructor
      · intro hn
        apply yara_callback_rule_not_invoked
        intro hc
        apply hn
        refine ⟨hc.1, ?_⟩
        rcases hc.2 with h1 | h2
        · exact (int_and_matches _).mp h1.2
        · exact absurd h2.1 hne
      · intro hok hc
        apply yara_callback_rule_invoked rt context _ rule user_data trace hok hc.1
        left
        exact ⟨rfl, (int_and_matches _).mpr hc.2⟩
  refine ⟨key.1, fun hok => ⟨fun hcount => ?_, key.2 hok⟩⟩
  by_contra hn
  have := key.1 hn
  omega

theorem answered_quiet (user_data : CALLBACK_DATA) (trace : List Effect) (result : Int)
    (e : Effect) (h : ∀ pre, answer user_data pre e = none) :
    answered user_data trace result (trace ++ [e]) := by
  right
  exact ⟨trace, e, rfl, le_refl _, fun ans ha => by simp [h] at ha⟩

theorem handle_import_module_answered (mi : YR_MODULE_IMPORT) (data : CALLBACK_DATA)
    (trace : List Effect) :
    answered data trace (handle_import_module mi data trace).1
      (handle_import_module mi data trace).2 := by
  unfold handle_import_module
  split
  · left; rfl
  · split
    · exact answered_quiet _ _ _ _ (fun _ => rfl)
    · left; rfl

theorem handle_console_log_answered (text : String) (data : CALLBACK_DATA)
    (trace : List Effect) :
    answered data trace (handle_console_log text data trace).1
      (handle_console_log text data trace).2 := by
  unfold handle_console_log
  simp only []
  split
  · exact answered_quiet _ _ _ _ (fun _ => rfl)
  · rename_i cb hcb
    right
    refine ⟨trace, Effect.call_console_callback text, ?_, le_refl _, ?_⟩
    · split <;> [split; skip] <;> rfl
    · intro ans ha
      simp only [answer, hcb, Option.map_some', Option.some.injEq] at ha
      subst ha
      unfold disposition_of
      split <;> [split; skip] <;> simp_all

theorem handle_module_imported_answered (rt : Runtime) (identifier : String)
    (members : List YR_OBJECT) (data : CALLBACK_DATA) (trace : List Effect) :
    answered data trace (handle_module_imported rt identifier members data trace).1
      (handle_module_imported rt identifier members data trace).2 := by
  unfold handle_module_imported
  split
  · left; rfl
  · rename_i cb hcb
    split
    · left; rfl
    · rename_i d hd
      right
      refine ⟨trace, Effect.call_modules_callback
        (PyDict_SetItemString d "module" (PY_STRING identifier)), ?_, le_refl _, ?_⟩
      · simp only []
        split <;> [split; skip] <;> rfl
      · intro ans ha
        simp only [answer, hcb, Option.map_some', Option.some.injEq] at ha
        subst ha
        unfold disposition_of
        simp only []
        split <;> [split; skip] <;> simp_all

theorem handle_too_many_matches_answered (rt : Runtime) (context : YR_SCAN_CONTEXT)
    (string : YR_STRING) (data : CALLBACK_DATA) (trace : List Effect) :
    answered data trace (handle_too_many_matches rt context string data trace).1
      (handle_too_many_matches rt context string data trace).2 := by
  unfold handle_too_many_matches
  simp only []
  split
  · split <;> exact answered_quiet _ _ _ _ (fun _ => rfl)
  · rename_i cb hcb
    split
    · left; rfl
    split
    · left; rfl
    split
    · left; rfl
    split
    · left; rfl
    split
    · left; rfl
    right
    refine ⟨trace, Effect.call_warnings_callback CALLBACK_MSG_TOO_MANY_MATCHES
      { ns := (context.rules.rules_table.getD string.rule_idx default).ns.name
        rule := (context.rules.rules_table.getD string.rule_idx default).identifier
        string := string.identifier }, ?_, le_refl _, ?_⟩
    · split <;> [split; skip] <;> rfl
    · intro ans ha
      simp only [answer, hcb, Option.map_some', Option.some.injEq] at ha
      subst ha
      unfold disposition_of
      split <;> [split; skip] <;> simp_all

theorem yara_callback_rule_answered (rt : Runtime) (context : YR_SCAN_CONTEXT)
    (message : Int) (rule : YR_RULE) (user_data : CALLBACK_DATA) (trace : List Effect) :
    answered user_data trace
      (yara_callback_rule rt context message rule user_data trace).result
      (yara_callback_rule rt context message rule user_data trace).trace := by
  unfold yara_callback_rule
  simp only []
  split
  · left; rfl
  split
  · left; rfl
  split
  · left; rfl
  rename_i _ sl hsl _ ud1 tr1 happ
  have htr : tr1 = trace ∨ ∃ m, tr1 = trace ++ [Effect.append_match m] := by
    split at happ
    · split at happ
      · simp only [Option.some.injEq, Prod.mk.injEq] at happ
        exact Or.inr ⟨_, happ.2.symm⟩
      · simp at happ
    · simp only [Option.some.injEq, Prod.mk.injEq] at happ
      exact Or.inl happ.2.symm
  have hlen : trace.length ≤ tr1.length := by
    rcases htr with h | ⟨m, h⟩ <;> simp [h]
  have hquiet : ∀ r, answered user_data trace r tr1 := by
    intro r
    rcases htr with h | ⟨m, h⟩
    · left; exact h
    · rw [h]; exact answered_quiet _ _ _ _ (fun _ => rfl)
  split
  · rename_i cb hcb
    split
    · right
      refine ⟨tr1, Effect.call_callback
        { matches_ := decide (message = CALLBACK_MSG_RULE_MATCHING), rule := rule.identifier
          ns := rule.ns.name
          tags := List.foldl (fun tag_list tag => tag_list ++ [tag]) [] rule.tags
          meta := List.foldl (meta_step user_data.allow_duplicate_metadata) [] rule.metas
          strings := sl }, ?h1, hlen, ?h2⟩
      case h1 => split <;> [split; skip] <;> rfl
      case h2 =>
        intro ans ha
        simp only [answer, hcb, Option.map_some', Option.some.injEq] at ha
        subst ha
        unfold disposition_of
        split <;> [split; skip] <;> simp_all
    · exact hquiet _
  · exact hquiet _

theorem yara_callback_answered (rt : Runtime) (context : YR_SCAN_CONTEXT) (ev : Event)
    (user_data : CALLBACK_DATA) (trace : List Effect) :
    answered user_data trace (yara_callback rt context ev user_data trace).result
      (yara_callback rt context ev user_data trace).trace := by
  cases ev with
  | IMPORT_MODULE mi => exact handle_import_module_answered mi user_data trace
  | MODULE_IMPORTED identifier members =>
    exact handle_module_imported_answered rt identifier members user_data trace
  | TOO_MANY_MATCHES string =>
    exact handle_too_many_matches_answered rt context string user_data trace
  | SCAN_FINISHED => left; rfl
  | CONSOLE_LOG text => exact handle_console_log_answered text user_data trace
  | RULE_NOT_MATCHING rule =>
    simp only [yara_callback]
    split
    · left; rfl
    · exact yara_callback_rule_answered rt context _ rule user_data trace
  | RULE_MATCHING rule => exact yara_callback_rule_answered rt context _ rule user_data trace

/-- Whenever a call of `yara_callback` ends with the invocation of a registered
host callback, its disposition is the one derived from the answer. -/
theorem yara_callback_disposition (rt : Runtime) (context : YR_SCAN_CONTEXT) (ev : Event)
    (user_data : CALLBACK_DATA) (trace pre : List Effect) (e : Effect)
    (ans : Option PyObject)
    (htrace : (yara_callback rt context ev user_data trace).trace = pre ++ [e])
    (hnew : trace.length ≤ pre.length) (hans : answer user_data pre e = some ans) :
    (yara_callback rt context ev user_data trace).result = disposition_of ans := by
  rcases yara_callback_answered rt context ev user_data trace with h | ⟨pre1, e1, h, _, hd⟩
  · rw [h] at htrace
    have := congrArg List.length htrace
    simp at this
    omega
  · rw [h] at htrace
    have := List.append_inj' htrace rfl
    obtain ⟨hp, he⟩ := this
    simp only [List.cons.injEq, and_true] at he
    subst hp he
    exact hd ans hans

theorem healthy_construction_ok : Alloc.healthy.construction_ok :=
  ⟨rfl, rfl, fun _ => rfl, fun _ => rfl, fun _ _ => rfl⟩

theorem to_int32_of_fits (n : Int) (h1 : -(2 ^ 31) ≤ n) (h2 : n < 2 ^ 31) : to_int32 n = n := by
  unfold to_int32
  omega

theorem disposition_of_long (n : Int) (h1 : -(2 ^ 31) ≤ n) (h2 : n < 2 ^ 31) :
    disposition_of (some (PyObject.Long n)) = n := by
  have h3 : -(2 ^ 63) ≤ n ∧ n < 2 ^ 63 := by omega
  simp only [disposition_of, PyLong_Check, PyLong_AsLong, if_true, h3, and_self]
  exact to_int32_of_fits n h1 h2

theorem disposition_of_non_integer (r : PyObject) (h : PyLong_Check r = false) :
    disposition_of (some r) = CALLBACK_CONTINUE := by
  simp [disposition_of, h]

/-- C1, at a concrete input. -/
theorem rule_matching_appends_one_match_witness :
    healthy.alloc.construction_ok ∧
      ∃ m : Match, m.rule = "r" ∧ m.ns = "default" ∧ m.tags = ["a", "b"] ∧
        (yara_callback healthy example_context (Event.RULE_MATCHING example_rule)
          CALLBACK_DATA.initial []).user_data.matches_ = [] ++ [m] ∧
        ((yara_callback healthy example_context (Event.RULE_MATCHING example_rule)
            CALLBACK_DATA.initial []).trace = [] ++ [Effect.append_match m] ∨
          ∃ d, (yara_callback healthy example_context (Event.RULE_MATCHING example_rule)
            CALLBACK_DATA.initial []).trace
              = [] ++ [Effect.append_match m, Effect.call_callback d]) :=
  ⟨healthy_construction_ok,
    rule_matching_appends_one_match healthy example_context example_rule
      CALLBACK_DATA.initial [] healthy_construction_ok⟩

/-- C2, at a concrete input: a registered callback, a RULE_MATCHING event and
the mask 3. -/
theorem match_callback_invoked_iff_witness :
    callback_calls (yara_callback healthy example_context (Event.RULE_MATCHING example_rule)
      { CALLBACK_DATA.initial with callback := some (returns PyObject.None) } []).trace
        = callback_calls [] + 1 :=
  ((match_callback_invoked_iff healthy example_context (Event.RULE_MATCHING example_rule)
    { CALLBACK_DATA.initial with callback := some (returns PyObject.None) } []).2
      healthy_construction_ok).mpr ⟨rfl, Or.inl ⟨rfl, by decide⟩⟩

/-- C3 as stated fails: a callback of each kind that returns `None` is invoked
and the handler answers CONTINUE, not ERROR. -/
theorem non_integer_answer_not_error :
    (yara_callback healthy example_context (Event.RULE_MATCHING example_rule)
        { CALLBACK_DATA.initial with callback := some (returns PyObject.None) } []).result
        ≠ CALLBACK_ERROR ∧
      (handle_module_imported healthy "pe" []
        { CALLBACK_DATA.initial with modules_callback := some (returns PyObject.None) } []).1
        ≠ CALLBACK_ERROR ∧
      (handle_too_many_matches healthy example_context
        { identifier := "$a", flags := 0, idx := 0, rule_idx := 0 }
        { CALLBACK_DATA.initial with warnings_callback := some (returns PyObject.None) } []).1
        ≠ CALLBACK_ERROR ∧
      (handle_console_log "hello"
        { CALLBACK_DATA.initial with console_callback := some (returns PyObject.None) } []).1
        ≠ CALLBACK_ERROR := by
  decide

/-- C3, amended: for each kind of host callback (match, module, warnings,
console), when the invoked callback returns a value that is not an integer,
the disposition of the handler for that event is CONTINUE. -/
theorem non_integer_answer_continues (rt : Runtime) (context : YR_SCAN_CONTEXT) (ev : Event)
    (user_data : CALLBACK_DATA) (trace pre : List Effect) (r : PyObject)
    (hnew : trace.length ≤ pre.length) (hr : PyLong_Check r = false) :
    (∀ cb d, user_data.callback = some cb →
        (yara_callback rt context ev user_data trace).trace = pre ++ [Effect.call_callback d] →
        cb pre d = some r →
        (yara_callback rt context ev user_data trace).result = CALLBACK_CONTINUE) ∧
      (∀ cb d, user_data.modules_callback = some cb →
        (yara_callback rt context ev user_data trace).trace
          = pre ++ [Effect.call_modules_callback d] →
        cb pre d = some r →
        (yara_callback rt context ev user_data trace).result = CALLBACK_CONTINUE) ∧
      (∀ cb t rs, user_data.warnings_callback = some cb →
        (yara_callback rt context ev user_data trace).trace
          = pre ++ [Effect.call_warnings_callback t rs] →
        cb pre (t, rs) = some r →
        (yara_callback rt context ev user_data trace).result = CALLBACK_CONTINUE) ∧
      (∀ cb s, user_data.console_callback = some cb →
        (yara_callback rt context ev user_data trace).trace
          = pre ++ [Effect.call_console_callback s] →
        cb pre s = some r →
        (yara_callback rt context ev user_data trace).result = CALLBACK_CONTINUE) := by
  refine ⟨fun cb d hcb htr hans => ?_, fun cb d hcb htr hans => ?_,
    fun cb t rs hcb htr hans => ?_, fun cb s hcb htr hans => ?_⟩
  all_goals
    rw [yara_callback_disposition rt context ev user_data trace pre _ (some r) htr hnew
      (by simp [answer, hcb, hans])]
    exact disposition_of_non_integer r hr

/-- C3 amended, at concrete inputs: a callback of each kind returning `None`. -/
theorem non_integer_answer_continues_witness :
    (yara_callback healthy example_context (Event.RULE_MATCHING example_rule)
        { CALLBACK_DATA.initial with callback := some (returns PyObject.None) } []).result
        = CALLBACK_CONTINUE ∧
      (yara_callback healthy example_context (Event.MODULE_IMPORTED "pe" [])
        { CALLBACK_DATA.initial with modules_callback := some (returns PyObject.None) } []).result
        = CALLBACK_CONTINUE ∧
      (yara_callback healthy example_context (Event.TOO_MANY_MATCHES example_string)
        { CALLBACK_DATA.initial with warnings_callback := some (returns PyObject.None) } []).result
        = CALLBACK_CONTINUE ∧
      (yara_callback healthy example_context (Event.CONSOLE_LOG "hello")
        { CALLBACK_DATA.initial with console_callback := some (returns PyObject.None) } []).result
        = CALLBACK_CONTINUE :=
  ⟨(non_integer_answer_continues healthy example_context (Event.RULE_MATCHING example_rule)
      { CALLBACK_DATA.initial with callback := some (returns PyObject.None) } []
      [Effect.append_match example_match] PyObject.None (by decide) rfl).1
      (returns PyObject.None) example_dict rfl rfl rfl,
    (non_integer_answer_continues healthy example_context (Event.MODULE_IMPORTED "pe" [])
      { CALLBACK_DATA.initial with modules_callback := some (returns PyObject.None) } []
      [] PyObject.None (by decide) rfl).2.1
      (returns PyObject.None) [(PyKey.Str "module", PyObject.Str "pe")] rfl rfl rfl,
    (non_integer_answer_continues healthy example_context
      (Event.TOO_MANY_MATCHES example_string)
      { CALLBACK_DATA.initial with warnings_callback := some (returns PyObject.None) } []
      [] PyObject.None (by decide) rfl).2.2.1
      (returns PyObject.None) CALLBACK_MSG_TOO_MANY_MATCHES
      { ns := "default", rule := "r", string := "$a" } rfl rfl rfl,
    (non_integer_answer_continues healthy example_context (Event.CONSOLE_LOG "hello")
      { CALLBACK_DATA.initial with console_callback := some (returns PyObject.None) } []
      [] PyObject.None (by decide) rfl).2.2.2
      (returns PyObject.None) "hello" rfl rfl rfl⟩

/-- C4 as stated fails: a match callback that returns the integer 2^32 makes
the handler answer 0, not 2^32. -/
theorem integer_answer_truncated :
    (yara_callback healthy example_context (Event.RULE_MATCHING example_rule)
        { CALLBACK_DATA.initial with callback := some (returns (PyObject.Long (2 ^ 32))) }
        []).trace
        = [Effect.append_match example_match, Effect.call_callback example_dict] ∧
      (yara_callback healthy example_context (Event.RULE_MATCHING example_rule)
        { CALLBACK_DATA.initial with callback := some (returns (PyObject.Long (2 ^ 32))) }
        []).result = 0 ∧
      (yara_callback healthy example_context (Event.RULE_MATCHING example_rule)
        { CALLBACK_DATA.initial with callback := some (returns (PyObject.Long (2 ^ 32))) }
        []).result ≠ 2 ^ 32 :=
  ⟨rfl, by decide, by decide⟩

/-- C4, amended: for each kind of host callback (match, module, warnings,
console), when the invoked callback raises the handler returns ERROR, and when
it returns an integer n that fits a C int (-2^31 ≤ n < 2^31) the handler
returns n. -/
theorem callback_answer_disposition (rt : Runtime) (context : YR_SCAN_CONTEXT) (ev : Event)
    (user_data : CALLBACK_DATA) (trace pre : List Effect)
    (hnew : trace.length ≤ pre.length) :
    (∀ cb d, user_data.callback = some cb →
        (yara_callback rt context ev user_data trace).trace = pre ++ [Effect.call_callback d] →
        (cb pre d = none →
          (yara_callback rt context ev user_data trace).result = CALLBACK_ERROR) ∧
        (∀ n : Int, -(2 ^ 31) ≤ n → n < 2 ^ 31 → cb pre d = some (PyObject.Long n) →
          (yara_callback rt context ev user_data trace).result = n)) ∧
      (∀ cb d, user_data.modules_callback = some cb →
        (yara_callback rt context ev user_data trace).trace
          = pre ++ [Effect.call_modules_callback d] →
        (cb pre d = none →
          (yara_callback rt context ev user_data trace).result = CALLBACK_ERROR) ∧
        (∀ n : Int, -(2 ^ 31) ≤ n → n < 2 ^ 31 → cb pre d = some (PyObject.Long n) →
          (yara_callback rt context ev user_data trace).result = n)) ∧
      (∀ cb t rs, user_data.warnings_callback = some cb →
        (yara_callback rt context ev user_data trace).trace
          = pre ++ [Effect.call_warnings_callback t rs] →
        (cb pre (t, rs) = none →
          (yara_callback rt context ev user_data trace).result = CALLBACK_ERROR) ∧
        (∀ n : Int, -(2 ^ 31) ≤ n → n < 2 ^ 31 → cb pre (t, rs) = some (PyObject.Long n) →
          (yara_callback rt context ev user_data trace).result = n)) ∧
      (∀ cb s, user_data.console_callback = some cb →
        (yara_callback rt context ev user_data trace).trace
          = pre ++ [Effect.call_console_callback s] →
        (cb pre s = none →
          (yara_callback rt context ev user_data trace).result = CALLBACK_ERROR) ∧
        (∀ n : Int, -(2 ^ 31) ≤ n → n < 2 ^ 31 → cb pre s = some (PyObject.Long n) →
          (yara_callback rt context ev user_data trace).result = n)) := by
  refine ⟨fun cb d hcb htr => ⟨fun hans => ?_, fun n h1 h2 hans => ?_⟩,
    fun cb d hcb htr => ⟨fun hans => ?_, fun n h1 h2 hans => ?_⟩,
    fun cb t rs hcb htr => ⟨fun hans => ?_, fun n h1 h2 hans => ?_⟩,
    fun cb s hcb htr => ⟨fun hans => ?_, fun n h1 h2 hans => ?_⟩⟩
  all_goals
    first
    | rw [yara_callback_disposition rt context ev user_data trace pre _ none htr hnew
        (by simp [answer, hcb, hans])]
      rfl
    | rw [yara_callback_disposition rt context ev user_data trace pre _
        (some (PyObject.Long n)) htr hnew (by simp [answer, hcb, hans])]
      exact disposition_of_long n h1 h2

theorem yara_callback_rule_matches (rt : Runtime) (context : YR_SCAN_CONTEXT)
    (message : Int) (rule : YR_RULE) (user_data : CALLBACK_DATA) (trace : List Effect) :
    (message ≠ CALLBACK_MSG_RULE_MATCHING →
      (yara_callback_rule rt context message rule user_data trace).user_data.matches_
        = user_data.matches_) ∧
    (message = CALLBACK_MSG_RULE_MATCHING →
      ((yara_callback_rule rt context message rule user_data trace).user_data.matches_
          = user_data.matches_ ∧
        (yara_callback_rule rt context message rule user_data trace).result = CALLBACK_ERROR) ∨
      ∃ m : Match, m.rule = rule.identifier ∧ m.ns = rule.ns.name ∧
        (yara_callback_rule rt context message rule user_data trace).user_data.matches_
          = user_data.matches_ ++ [m]) := by
  unfold yara_callback_rule
  simp only []
  split
  · exact ⟨fun _ => rfl, fun _ => Or.inl ⟨rfl, rfl⟩⟩
  split
  · exact ⟨fun _ => rfl, fun _ => Or.inl ⟨rfl, rfl⟩⟩
  split
  · exact ⟨fun _ => rfl, fun _ => Or.inl ⟨rfl, rfl⟩⟩
  rename_i _ sl hsl _ ud1 tr1 happ
  have hud : (message ≠ CALLBACK_MSG_RULE_MATCHING → ud1.matches_ = user_data.matches_) ∧
      (message = CALLBACK_MSG_RULE_MATCHING →
        ∃ m : Match, m.rule = rule.identifier ∧ m.ns = rule.ns.name ∧
          ud1.matches_ = user_data.matches_ ++ [m]) := by
    split at happ
    · rename_i hm
      split at happ
      · rename_i m hnew
        simp only [Option.some.injEq, Prod.mk.injEq] at happ
        refine ⟨fun h => absurd hm h, fun _ => ⟨m, ?_, ?_, ?_⟩⟩
        · unfold Match_NEW at hnew
          split at hnew <;> simp at hnew
          rw [← hnew]
        · unfold Match_NEW at hnew
          split at hnew <;> simp at hnew
          rw [← hnew]
        · rw [← happ.1]
      · simp at happ
    · rename_i hm
      simp only [Option.some.injEq, Prod.mk.injEq] at happ
      exact ⟨fun _ => by rw [← happ.1], fun h => absurd h hm⟩
  have hfin : ∀ s : Step, s.user_data = ud1 →
      (message ≠ CALLBACK_MSG_RULE_MATCHING → s.user_data.matches_ = user_data.matches_) ∧
      (message = CALLBACK_MSG_RULE_MATCHING →
        (s.user_data.matches_ = user_data.matches_ ∧ s.result = CALLBACK_ERROR) ∨
        ∃ m : Match, m.rule = rule.identifier ∧ m.ns = rule.ns.name ∧
          s.user_data.matches_ = user_data.matches_ ++ [m]) := by
    intro s hs
    rw [hs]
    exact ⟨hud.1, fun h => Or.inr (hud.2 h)⟩
  apply hfin
  split
  · split
    · split <;> [split; skip] <;> rfl
    · rfl
  · rfl

theorem yara_callback_matches (rt : Runtime) (context : YR_SCAN_CONTEXT) (ev : Event)
    (user_data : CALLBACK_DATA) (trace : List Effect) :
    ((yara_callback rt context ev user_data trace).result ≠ CALLBACK_ERROR →
      (yara_callback rt context ev user_data trace).user_data.matches_.map
          (fun m => (m.rule, m.ns))
        = user_data.matches_.map (fun m => (m.rule, m.ns))
          ++ (rule_matching_events [ev]).map (fun r => (r.identifier, r.ns.name))) := by
  intro hne
  cases ev with
  | RULE_MATCHING rule =>
    have h := (yara_callback_rule_matches rt context CALLBACK_MSG_RULE_MATCHING rule
      user_data trace).2 rfl
    simp only [yara_callback] at hne ⊢
    rcases h with ⟨_, h⟩ | ⟨m, h1, h2, h3⟩
    · exact absurd h hne
    · simp [h3, rule_matching_events, h1, h2]
  | RULE_NOT_MATCHING rule =>
    simp only [yara_callback]
    split
    · simp [rule_matching_events]
    · have h := (yara_callback_rule_matches rt context CALLBACK_MSG_RULE_NOT_MATCHING rule
        user_data trace).1 (by decide)
      simp [h, rule_matching_events]
  | _ => simp [yara_callback, rule_matching_events]

theorem rule_matching_events_append (xs ys : List Event) :
    rule_matching_events (xs ++ ys) = rule_matching_events xs ++ rule_matching_events ys := by
  simp [rule_matching_events, List.filterMap_append]

theorem deliver_matches (rts : Nat → Runtime) (final : Int)
    (events : List (YR_SCAN_CONTEXT × Event)) (delivered : List Event)
    (user_data : CALLBACK_DATA) (trace : List Effect) :
    ∃ new : List Event,
      (deliver rts final events delivered user_data trace).delivered = delivered ++ new ∧
      ((deliver rts final events delivered user_data trace).stopped_by = some CALLBACK_ABORT →
        (deliver rts final events delivered user_data trace).error = ERROR_SUCCESS) ∧
      ((deliver rts final events delivered user_data trace).stopped_by ≠ some CALLBACK_ERROR →
        (deliver rts final events delivered user_data trace).user_data.matches_.map
            (fun m => (m.rule, m.ns))
          = user_data.matches_.map (fun m => (m.rule, m.ns))
            ++ (rule_matching_events new).map (fun r => (r.identifier, r.ns.name))) := by
  induction events generalizing delivered user_data trace with
  | nil => exact ⟨[], by simp [deliver], by simp [deliver], by simp [deliver, rule_matching_events]⟩
  | cons ce rest ih =>
    obtain ⟨context, ev⟩ := ce
    unfold deliver
    simp only []
    split
    · rename_i habort
      refine ⟨[ev], rfl, fun _ => rfl, fun _ => ?_⟩
      apply yara_callback_matches
      rw [habort]
      decide
    · split
      · rename_i herr
        refine ⟨[ev], rfl, fun h => ?_, fun h => ?_⟩
        · simp only [herr, Option.some.injEq] at h
          exact absurd h (by decide)
        · simp only [herr, ne_eq, not_true_eq_false] at h
      · rename_i hna hne
        obtain ⟨new, h1, h2, h3⟩ := ih (delivered ++ [ev])
          (yara_callback (rts delivered.length) context ev user_data trace).user_data
          (yara_callback (rts delivered.length) context ev user_data trace).trace
        refine ⟨ev :: new, ?_, h2, fun h => ?_⟩
        · rw [h1]; simp
        · rw [h3 h, yara_callback_matches _ _ _ _ _ hne]
          have : ev :: new = [ev] ++ new := rfl
          rw [this, rule_matching_events_append]
          simp

theorem Rules_match_result_scan (filepath : Option String) (pid : Int) (target : Target)
    (run : ScanRun) : (Rules_match_result filepath pid target run).scan = some (target, run) := by
  unfold Rules_match_result
  simp only []
  split <;> [split <;> [split <;> [skip; split]; skip]; skip] <;> rfl

theorem Rules_match_result_ok (filepath : Option String) (pid : Int) (target : Target)
    (run : ScanRun) (h : run.error = ERROR_SUCCESS) :
    (Rules_match_result filepath pid target run).value = Except.ok run.user_data.matches_ := by
  simp [Rules_match_result, h]

theorem Rules_match_result_error (filepath : Option String) (pid : Int) (target : Target)
    (run : ScanRun) (h : run.error ≠ ERROR_SUCCESS) :
    ∃ e, (Rules_match_result filepath pid target run).value = Except.error e := by
  unfold Rules_match_result
  simp only [h, ne_eq, not_false_eq_true, if_true]
  split <;> [split <;> [skip; split]; skip] <;> exact ⟨_, rfl⟩

theorem Rules_match_scan_cases (E : Engine) (rts : Nat → Runtime) (object : Rules)
    (filepath : Option String) (pid : Int) (data : Option (List Byte))
    (externals : Option PyObject) (fast : Option PyObject) (timeout : Int)
    (callback_data : CALLBACK_DATA) :
    (Rules_match_scan E rts object filepath pid data externals fast timeout
        callback_data).scan = none ∨
      ∃ target final events cd pending, cd.matches_ = [] ∧
        Rules_match_scan E rts object filepath pid data externals fast timeout callback_data
          = { Rules_match_result filepath pid target (deliver rts final events [] cd []) with
              pending := pending } := by
  unfold Rules_match_scan
  simp only []
  split
  · left; rfl
  split
  · left; rfl
  split
  · left; rfl
  · right; exact ⟨_, _, _, _, _, rfl, rfl⟩

theorem Rules_match_cases (E : Engine) (rts : Nat → Runtime) (object : Rules)
    (args : Option MatchArgs) :
    (Rules_match E rts object args).scan = none ∨
      ∃ filepath pid target final events cd pending, cd.matches_ = [] ∧
        Rules_match E rts object args
          = { Rules_match_result filepath pid target (deliver rts final events [] cd []) with
              pending := pending } := by
  unfold Rules_match
  split
  · left; rfl
  simp only []
  split
  · left; rfl
  split
  · left; rfl
  split
  · left; rfl
  split
  · left; rfl
  split
  · left; rfl
  split
  · left; rfl
  · rename_i md hmd
    rcases Rules_match_scan_cases E rts object _ _ _ _ _ _ _ with
      h | ⟨t, f, evs, cd, p, h1, h2⟩
    · left; exact h
    · right; exact ⟨_, _, t, f, evs, cd, p, h1, h2⟩

/-- What a started scan determines about the result of `Rules_match`. -/
theorem Rules_match_started (E : Engine) (rts : Nat → Runtime) (object : Rules)
    (args : Option MatchArgs) (target : Target) (run : ScanRun)
    (h : (Rules_match E rts object args).scan = some (target, run)) :
    (∃ final events cd, cd.matches_ = [] ∧ run = deliver rts final events [] cd []) ∧
      (run.error = ERROR_SUCCESS →
        (Rules_match E rts object args).value = Except.ok run.user_data.matches_) ∧
      (run.error ≠ ERROR_SUCCESS →
        ∃ e, (Rules_match E rts object args).value = Except.error e) := by
  rcases Rules_match_cases E rts object args with h0 | ⟨fp, pid, t, f, evs, cd, p, h1, h2⟩
  · rw [h0] at h
    simp at h
  · rw [h2] at h
    simp only [Rules_match_result_scan, Option.some.injEq, Prod.mk.injEq] at h
    obtain ⟨_, hrun⟩ := h
    rw [h2, hrun]
    exact ⟨⟨f, evs, cd, h1, hrun.symm⟩, Rules_match_result_ok _ _ _ _,
      Rules_match_result_error _ _ _ _⟩

/-- C5: when the delivery of events is stopped by the disposition ABORT, as it
is when the host match callback returns ABORT on a RULE_MATCHING event, the
call returns a match list whose length is the number of RULE_MATCHING events
delivered up to and including the aborting one; its matches are those of
these events, in order, so that an abort on the first match returns that one
match alone. -/
theorem abort_returns_matches_so_far (E : Engine) (rts : Nat → Runtime) (object : Rules)
    (args : Option MatchArgs) (target : Target) (run : ScanRun)
    (hscan : (Rules_match E rts object args).scan = some (target, run))
    (habort : run.stopped_by = some CALLBACK_ABORT) :
    ∃ ms : List Match, (Rules_match E rts object args).value = Except.ok ms ∧
      ms.length = (rule_matching_events run.delivered).length ∧
      ms.map (fun m => (m.rule, m.ns))
        = (rule_matching_events run.delivered).map (fun r => (r.identifier, r.ns.name)) := by
  obtain ⟨⟨final, events, cd, hcd, hrun⟩, hok, -⟩ :=
    Rules_match_started E rts object args target run hscan
  obtain ⟨new, h1, h2, h3⟩ := deliver_matches rts final events [] cd []
  rw [← hrun] at h1 h2 h3
  have hmap := h3 (by rw [habort]; simp; decide)
  simp only [hcd, List.map_nil, List.nil_append] at hmap h1
  refine ⟨run.user_data.matches_, hok (h2 habort), ?_, ?_⟩
  · have := congrArg List.length hmap
    simpa [h1] using this
  · rw [hmap, h1]

/-- C6: when the scan function of the engine returns a code other than
success, `Rules_match` returns no match list but fails, however many matches
were accumulated. -/
theorem failed_scan_returns_no_list (E : Engine) (rts : Nat → Runtime) (object : Rules)
    (args : Option MatchArgs) (target : Target) (run : ScanRun)
    (hscan : (Rules_match E rts object args).scan = some (target, run))
    (herror : run.error ≠ ERROR_SUCCESS) :
    ∃ e : PyErr, (Rules_match E rts object args).value = Except.error e :=
  (Rules_match_started E rts object args target run hscan).2.2 herror

theorem PyDict_get_set (d : PyDict) (k k2 : String) (v : PyObject) :
    PyDict_GetItemString (PyDict_SetItemString d k v) k2
      = if k2 = k then some v else PyDict_GetItemString d k2 := by
  induction d with
  | nil =>
    by_cases h : k2 = k
    · simp [PyDict_SetItemString, PyDict_GetItemString, h]
    · have : ¬ (k = k2) := fun h2 => h h2.symm
      simp [PyDict_SetItemString, PyDict_GetItemString, h, this]
  | cons p rest ih =>
    obtain ⟨key, val⟩ := p
    unfold PyDict_SetItemString
    by_cases h1 : key = PyKey.Str k
    · simp only [h1, if_true]
      by_cases h : k2 = k
      · simp [PyDict_GetItemString, h]
      · have : ¬ (k = k2) := fun h2 => h h2.symm
        simp [PyDict_GetItemString, h, this]
    · simp only [h1, if_false]
      unfold PyDict_GetItemString
      by_cases h2 : key = PyKey.Str k2
      · have : ¬ (k2 = k) := by
          intro h3
          rw [h3] at h2
          exact h1 h2
        simp [h2, this]
      · simp only [h2, if_false]
        exact ih

theorem PyDict_keys_set (d : PyDict) (k : String) (v : PyObject) (key : PyKey) :
    key ∈ (PyDict_SetItemString d k v).map Prod.fst ↔
      key ∈ d.map Prod.fst ∨ key = PyKey.Str k := by
  induction d with
  | nil => simp [PyDict_SetItemString]
  | cons p rest ih =>
    obtain ⟨key1, val⟩ := p
    unfold PyDict_SetItemString
    by_cases h1 : key1 = PyKey.Str k
    · simp only [h1, if_true, List.map_cons, List.mem_cons]
      tauto
    · simp only [h1, if_false, List.map_cons, List.mem_cons, ih]
      tauto

theorem listed_append_singleton (xs : List PyObject) (x : PyObject) :
    listed (xs ++ [x]) = some (PyObject.List (xs ++ [x])) := by
  cases xs <;> rfl

/-- The meta loop with duplicates kept: under every key, the list of the
converted values of its declarations so far. -/
theorem meta_loop_duplicates (metas : List YR_META) (acc : PyDict)
    (f : String → List PyObject)
    (hacc : ∀ k, PyDict_GetItemString acc k = listed (f k)) (k : String) :
    PyDict_GetItemString (metas.foldl (meta_step true) acc) k
      = listed (f k ++ (metas.filter (fun meta => meta.identifier = k)).map meta_object) := by
  induction metas generalizing acc f with
  | nil => simpa using hacc k
  | cons m rest ih =>
    simp only [List.foldl_cons]
    have hstep : ∀ k2, PyDict_GetItemString (meta_step true acc m) k2
        = listed (if k2 = m.identifier then f k2 ++ [meta_object m] else f k2) := by
      intro k2
      unfold meta_step
      simp only [if_true]
      have hm := hacc m.identifier
      by_cases hk : k2 = m.identifier
      · subst hk
        simp only [if_true, listed_append_singleton]
        cases hf : f m.identifier with
        | nil =>
          simp only [hf, listed] at hm
          simp [hm, PyDict_get_set, PyList_Append]
        | cons x xs =>
          simp only [hf, listed] at hm
          simp [hm, PyDict_get_set, PyList_Append]
      · simp only [hk, if_false]
        cases hf : f m.identifier with
        | nil =>
          simp only [hf, listed] at hm
          simp [hm, PyDict_get_set, hk, hacc k2]
        | cons x xs =>
          simp only [hf, listed] at hm
          simp [hm, PyDict_get_set, hk, hacc k2]
    rw [ih (meta_step true acc m) _ hstep]
    by_cases hk : m.identifier = k
    · simp [List.filter_cons, hk]
    · have : ¬ (k = m.identifier) := fun h => hk h.symm
      simp [List.filter_cons, hk, this]

/-- The meta loop with duplicates overwritten: under every key the converted
value of its last declaration so far. -/
theorem meta_loop_overwrites (metas : List YR_META) (acc : PyDict) (k : String) :
    PyDict_GetItemString (metas.foldl (meta_step false) acc) k
      = match (metas.filter (fun meta => meta.identifier = k)).getLast? with
        | some meta => some (meta_object meta)
        | none => PyDict_GetItemString acc k := by
  induction metas generalizing acc with
  | nil => simp
  | cons m rest ih =>
    simp only [List.foldl_cons]
    rw [ih]
    have hf : (m :: rest).filter (fun meta => meta.identifier = k)
        = if m.identifier = k then m :: rest.filter (fun meta => meta.identifier = k)
          else rest.filter (fun meta => meta.identifier = k) := by
      simp [List.filter_cons]
    rw [hf]
    generalize rest.filter (fun meta => decide (meta.identifier = k)) = l
    by_cases hk : m.identifier = k
    · simp only [hk, if_true]
      cases l with
      | nil => simp [meta_step, PyDict_get_set, hk]
      | cons x xs =>
        simp only [List.getLast?_cons_cons]
        have : (x :: xs).getLast? = some ((x :: xs).getLast (by simp)) :=
          List.getLast?_eq_getLast _ _
        rw [this]
    · have hk2 : ¬ (k = m.identifier) := fun h => hk h.symm
      simp only [hk, if_false]
      cases l.getLast? with
      | none => simp [meta_step, PyDict_get_set, hk2]
      | some x => rfl

/-- The keys of the meta mapping after the loop with duplicates overwritten. -/
theorem meta_loop_keys (metas : List YR_META) (acc : PyDict) (key : PyKey) :
    key ∈ (metas.foldl (meta_step false) acc).map Prod.fst ↔
      key ∈ acc.map Prod.fst ∨ ∃ meta ∈ metas, key = PyKey.Str meta.identifier := by
  induction metas generalizing acc with
  | nil => simp
  | cons m rest ih =>
    simp only [List.foldl_cons, ih, meta_step, Bool.false_eq_true, if_false, PyDict_keys_set,
      List.mem_cons, exists_eq_or_imp]
    tauto

theorem meta_object_not_list (meta : YR_META) (xs : List PyObject) :
    meta_object meta ≠ PyObject.List xs := by
  unfold meta_object PyBool_FromLong PY_STRING
  split <;> [skip; split] <;> simp

theorem instances_loop_some (a : Alloc) (idx : Nat) (ms : List YR_MATCH) (pos : Nat)
    (acc l : List StringMatchInstance) (h : instances_loop a idx ms pos acc = some l) :
    l = acc ++ ms.filterMap instance_of_match := by
  induction ms generalizing pos acc with
  | nil =>
    simp only [instances_loop, Option.some.injEq] at h
    simp [h]
  | cons m ms ih =>
    unfold instances_loop at h
    simp only [] at h
    split at h
    · simp at h
    · rename_i smi hnew
      have hi : instance_of_match m = some smi := by
        unfold StringMatchInstance_NEW at hnew
        split at hnew
        · simpa [instance_of_match, StringMatchInstance_NEW] using hnew
        · simp at hnew
      rw [ih _ _ h]
      simp [List.filterMap_cons, hi]

theorem strings_loop_some (a : Alloc) (context : YR_SCAN_CONTEXT) (strings : List YR_STRING)
    (acc sl : List StringMatch) (h : strings_loop a context strings acc = some sl) :
    sl = acc ++ (strings.filter
        (fun string => 1 ≤ (context.matches_ string.idx).length)).map
        (fun string =>
          { identifier := string.identifier
            flags := string.flags
            instances := (context.matches_ string.idx).filterMap instance_of_match }) := by
  induction strings generalizing acc with
  | nil =>
    simp only [strings_loop, Option.some.injEq] at h
    simp [h]
  | cons s rest ih =>
    unfold strings_loop at h
    by_cases he : (context.matches_ s.idx).isEmpty = true
    · have : ¬ (1 ≤ (context.matches_ s.idx).length) := by
        rw [List.isEmpty_iff] at he
        simp [he]
      rw [if_pos he] at h
      rw [ih _ h]
      simp [List.filter_cons, this]
    · have : 1 ≤ (context.matches_ s.idx).length := by
        rw [List.isEmpty_iff] at he
        exact Nat.one_le_iff_ne_zero.mpr (fun h0 => he (List.length_eq_zero.mp h0))
      rw [if_neg he] at h
      split at h
      · simp at h
      · split at h
        · simp at h
        · rename_i il hil
          split at h
          · simp at h
          · rename_i object hobj
            have ho : object = { identifier := s.identifier, flags := s.flags
                                 instances := (context.matches_ s.idx).filterMap
                                   instance_of_match } := by
              unfold StringMatch_NEW at hobj
              split at hobj
              · simp only [Option.some.injEq] at hobj
                rw [← hobj, instances_loop_some _ _ _ _ _ _ hil]
                simp
              · simp at hobj
            rw [ih _ h, ho]
            simp [List.filter_cons, this]

/-- Everything that `yara_callback` hands to the host for a rule: the tags in
declaration order, the meta mapping built by the meta loop and the matched
strings. -/
theorem yara_callback_rule_materialised (rt : Runtime) (context : YR_SCAN_CONTEXT)
    (message : Int) (rule : YR_RULE) (user_data : CALLBACK_DATA) (trace : List Effect) :
    ∃ new, (yara_callback_rule rt context message rule user_data trace).trace = trace ++ new ∧
      ∀ e ∈ new, ∀ t, e.materialised = some t →
        t = (rule.tags, rule.metas.foldl (meta_step user_data.allow_duplicate_metadata) [],
          matched_strings context rule) := by
  unfold yara_callback_rule
  simp only []
  split
  · exact ⟨[], by simp, by simp⟩
  split
  · exact ⟨[], by simp, by simp⟩
  rename_i sl hsl
  have hsl2 : sl = matched_strings context rule := by
    rw [strings_loop_some _ _ _ _ _ hsl]
    simp [matched_strings]
  split
  · exact ⟨[], by simp, by simp⟩
  rename_i _ ud1 tr1 happ
  have htr : ∃ new1, tr1 = trace ++ new1 ∧ ∀ e ∈ new1, ∀ t, e.materialised = some t →
      t = (rule.tags, rule.metas.foldl (meta_step user_data.allow_duplicate_metadata) [],
        matched_strings context rule) := by
    split at happ
    · split at happ
      · rename_i m hnew
        simp only [Option.some.injEq, Prod.mk.injEq] at happ
        refine ⟨[Effect.append_match m], happ.2.symm, ?_⟩
        intro e he t ht
        simp only [List.mem_singleton] at he
        subst he
        unfold Match_NEW at hnew
        split at hnew
        · simp only [Option.some.injEq] at hnew
          simp only [Effect.materialised, Option.some.injEq] at ht
          rw [← ht, ← hnew, hsl2]
          simp [foldl_append_singleton]
        · simp at hnew
      · simp at happ
    · simp only [Option.some.injEq, Prod.mk.injEq] at happ
      exact ⟨[], by simp [happ.2], by simp⟩
  obtain ⟨new1, h1, h2⟩ := htr
  have hcall : ∀ s : Step, (s.trace = tr1 ∨ s.trace = tr1 ++ [Effect.call_callback
        { matches_ := decide (message = CALLBACK_MSG_RULE_MATCHING), rule := rule.identifier
          ns := rule.ns.name
          tags := List.foldl (fun tag_list tag => tag_list ++ [tag]) [] rule.tags
          meta := List.foldl (meta_step user_data.allow_duplicate_metadata) [] rule.metas
          strings := sl }]) →
      ∃ new, s.trace = trace ++ new ∧ ∀ e ∈ new, ∀ t, e.materialised = some t →
        t = (rule.tags, rule.metas.foldl (meta_step user_data.allow_duplicate_metadata) [],
          matched_strings context rule) := by
    intro s hs
    rcases hs with hs | hs
    · exact ⟨new1, by rw [hs, h1], h2⟩
    · refine ⟨new1 ++ [_], by rw [hs, h1, List.append_assoc], ?_⟩
      intro e he t ht
      rw [List.mem_append] at he
      rcases he with he | he
      · exact h2 e he t ht
      · simp only [List.mem_singleton] at he
        subst he
        simp only [Effect.materialised, Option.some.injEq] at ht
        rw [← ht, hsl2]
        simp [foldl_append_singleton]
  apply hcall
  split
  · split
    · right
      split <;> [split; skip] <;> rfl
    · left; rfl
  · left; rfl

theorem yara_callback_materialised (rt : Runtime) (context : YR_SCAN_CONTEXT) (rule : YR_RULE)
    (ev : Event) (hev : ev = Event.RULE_MATCHING rule ∨ ev = Event.RULE_NOT_MATCHING rule)
    (user_data : CALLBACK_DATA) (trace new : List Effect)
    (htrace : (yara_callback rt context ev user_data trace).trace = trace ++ new)
    (e : Effect) (he : e ∈ new) (t : List String × PyDict × List StringMatch)
    (ht : e.materialised = some t) :
    t = (rule.tags, rule.metas.foldl (meta_step user_data.allow_duplicate_metadata) [],
      matched_strings context rule) := by
  rcases hev with hev | hev
  · subst hev
    simp only [yara_callback] at htrace
    obtain ⟨new1, h1, h2⟩ := yara_callback_rule_materialised rt context
      CALLBACK_MSG_RULE_MATCHING rule user_data trace
    rw [h1] at htrace
    have := List.append_cancel_left htrace
    subst this
    exact h2 e he t ht
  · subst hev
    simp only [yara_callback] at htrace
    split at htrace
    · have : new = [] := by
        have := congrArg List.length htrace
        simp at this
        exact this
      subst this
      simp at he
    · obtain ⟨new1, h1, h2⟩ := yara_callback_rule_materialised rt context
        CALLBACK_MSG_RULE_NOT_MATCHING rule user_data trace
      rw [h1] at htrace
      have := List.append_cancel_left htrace
      subst this
      exact h2 e he t ht

theorem yara_callback_rule_flag (rt : Runtime) (context : YR_SCAN_CONTEXT)
    (message : Int) (rule : YR_RULE) (user_data : CALLBACK_DATA) (trace : List Effect) :
    (yara_callback_rule rt context message rule user_data trace).user_data.allow_duplicate_metadata
      = user_data.allow_duplicate_metadata := by
  unfold yara_callback_rule
  simp only []
  split
  · rfl
  split
  · rfl
  split
  · rfl
  rename_i _ ud1 tr1 happ
  have hud : ud1.allow_duplicate_metadata = user_data.allow_duplicate_metadata := by
    split at happ
    · split at happ
      · simp only [Option.some.injEq, Prod.mk.injEq] at happ
        rw [← happ.1]
      · simp at happ
    · simp only [Option.some.injEq, Prod.mk.injEq] at happ
      rw [← happ.1]
  have hfin : ∀ s : Step, s.user_data = ud1 →
      s.user_data.allow_duplicate_metadata = user_data.allow_duplicate_metadata := by
    intro s hs
    rw [hs, hud]
  apply hfin
  split
  · split
    · split <;> [split; skip] <;> rfl
    · rfl
  · rfl

theorem yara_callback_flag (rt : Runtime) (context : YR_SCAN_CONTEXT) (ev : Event)
    (user_data : CALLBACK_DATA) (trace : List Effect) :
    (yara_callback rt context ev user_data trace).user_data.allow_duplicate_metadata
      = user_data.allow_duplicate_metadata := by
  cases ev with
  | RULE_MATCHING rule => exact yara_callback_rule_flag rt context _ rule user_data trace
  | RULE_NOT_MATCHING rule =>
    simp only [yara_callback]
    split
    · rfl
    · exact yara_callback_rule_flag rt context _ rule user_data trace
  | _ => rfl

theorem deliver_flag (rts : Nat → Runtime) (final : Int)
    (events : List (YR_SCAN_CONTEXT × Event)) (delivered : List Event)
    (user_data : CALLBACK_DATA) (trace : List Effect) :
    (deliver rts final events delivered user_data trace).user_data.allow_duplicate_metadata
      = user_data.allow_duplicate_metadata := by
  induction events generalizing delivered user_data trace with
  | nil => rfl
  | cons ce rest ih =>
    obtain ⟨context, ev⟩ := ce
    unfold deliver
    simp only []
    split
    · exact yara_callback_flag _ _ _ _ _
    · split
      · exact yara_callback_flag _ _ _ _ _
      · rw [ih, yara_callback_flag]

theorem Rules_match_scan_flag (E : Engine) (rts : Nat → Runtime) (object : Rules)
    (filepath : Option String) (pid : Int) (data : Option (List Byte))
    (externals : Option PyObject) (fast : Option PyObject) (timeout : Int)
    (callback_data : CALLBACK_DATA) (target : Target) (run : ScanRun)
    (h : (Rules_match_scan E rts object filepath pid data externals fast timeout
      callback_data).scan = some (target, run)) :
    run.user_data.allow_duplicate_metadata = callback_data.allow_duplicate_metadata := by
  unfold Rules_match_scan at h
  simp only [] at h
  split at h
  · simp at h
  split at h
  · simp at h
  split at h
  · simp at h
  · rw [Rules_match_result_scan] at h
    simp only [Option.some.injEq, Prod.mk.injEq] at h
    rw [← h.2, deliver_flag]

theorem Rules_match_default_flag (E : Engine) (rts : Nat → Runtime) (object : Rules)
    (args : MatchArgs) (target : Target) (run : ScanRun)
    (hnone : args.allow_duplicate_metadata = none)
    (h : (Rules_match E rts object (some args)).scan = some (target, run)) :
    run.user_data.allow_duplicate_metadata = false := by
  unfold Rules_match at h
  simp only [] at h
  split at h
  · simp at h
  split at h
  · simp at h
  split at h
  · simp at h
  split at h
  · simp at h
  split at h
  · simp at h
  split at h
  · simp at h
  · rw [Rules_match_scan_flag E rts object _ _ _ _ _ _ _ target run h, hnone]
    rfl

/-- C7: with allow_duplicate_metadata enabled, the meta mapping materialised
for a rule holds, under every meta key declared at least once, the list of the
converted values of the declarations of that key, in declaration order. -/
theorem duplicate_metadata_kept_in_order (rt : Runtime) (context : YR_SCAN_CONTEXT)
    (rule : YR_RULE) (ev : Event)
    (hev : ev = Event.RULE_MATCHING rule ∨ ev = Event.RULE_NOT_MATCHING rule)
    (user_data : CALLBACK_DATA) (trace new : List Effect)
    (hdup : user_data.allow_duplicate_metadata = true)
    (htrace : (yara_callback rt context ev user_data trace).trace = trace ++ new)
    (e : Effect) (he : e ∈ new) (tags : List String) (meta : PyDict)
    (strings : List StringMatch) (hmat : e.materialised = some (tags, meta, strings))
    (k : String) (hk : 1 ≤ (declarations rule k).length) :
    ∃ xs : List PyObject, PyDict_GetItemString meta k = some (PyObject.List xs) ∧
      xs.length = (declarations rule k).length ∧
      xs = (declarations rule k).map meta_object := by
  have h := yara_callback_materialised rt context rule ev hev user_data trace new htrace e he
    _ hmat
  simp only [Prod.mk.injEq] at h
  obtain ⟨-, hmeta, -⟩ := h
  refine ⟨(declarations rule k).map meta_object, ?_, by simp, rfl⟩
  rw [hmeta, hdup, meta_loop_duplicates rule.metas [] (fun _ => []) (fun _ => rfl) k]
  simp only [List.nil_append]
  unfold declarations at hk ⊢
  cases hd : List.filter (fun meta => decide (meta.identifier = k)) rule.metas with
  | nil => simp [hd] at hk
  | cons x xs => rfl

/-- C8: with allow_duplicate_metadata disabled, which is what a call of match
without that argument uses, the meta mapping materialised for a rule holds,
under every declared meta key, the converted value of the last declaration of
that key, which is no list, and its keys are exactly the declared
identifiers. -/
theorem duplicate_metadata_overwritten (rt : Runtime) (context : YR_SCAN_CONTEXT)
    (rule : YR_RULE) (ev : Event)
    (hev : ev = Event.RULE_MATCHING rule ∨ ev = Event.RULE_NOT_MATCHING rule)
    (user_data : CALLBACK_DATA) (trace new : List Effect)
    (hdup : user_data.allow_duplicate_metadata = false)
    (htrace : (yara_callback rt context ev user_data trace).trace = trace ++ new)
    (e : Effect) (he : e ∈ new) (tags : List String) (meta : PyDict)
    (strings : List StringMatch) (hmat : e.materialised = some (tags, meta, strings)) :
    (∀ k : String, 1 ≤ (declarations rule k).length →
        ∃ last, (declarations rule k).getLast? = some last ∧
          PyDict_GetItemString meta k = some (meta_object last) ∧
          ∀ xs, meta_object last ≠ PyObject.List xs) ∧
      (∀ key : PyKey, key ∈ meta.map Prod.fst ↔
        ∃ m ∈ rule.metas, key = PyKey.Str m.identifier) ∧
      (∀ (E : Engine) (rts : Nat → Runtime) (object : Rules) (args : MatchArgs)
          (target : Target) (run : ScanRun),
        args.allow_duplicate_metadata = none →
        (Rules_match E rts object (some args)).scan = some (target, run) →
        run.user_data.allow_duplicate_metadata = false) := by
  have h := yara_callback_materialised rt context rule ev hev user_data trace new htrace e he
    _ hmat
  simp only [Prod.mk.injEq] at h
  obtain ⟨-, hmeta, -⟩ := h
  refine ⟨fun k hk => ?_, fun key => ?_, ?_⟩
  · unfold declarations at hk ⊢
    have hne : List.filter (fun meta => decide (meta.identifier = k)) rule.metas ≠ [] := by
      intro h0
      rw [h0] at hk
      simp at hk
    refine ⟨_, List.getLast?_eq_getLast _ hne, ?_, meta_object_not_list _⟩
    rw [hmeta, hdup, meta_loop_overwrites, List.getLast?_eq_getLast _ hne]
  · rw [hmeta, hdup, meta_loop_keys]
    simp
  · intro E rts object args target run hnone hscan
    exact Rules_match_default_flag E rts object args target run hnone hscan

theorem instance_of_match_some (m : YR_MATCH) : ∃ inst, instance_of_match m = some inst := by
  simp [instance_of_match, StringMatchInstance_NEW]

theorem filterMap_instances (ms : List YR_MATCH) :
    List.Forall₂ (fun inst m => instance_of_match m = some inst)
      (ms.filterMap instance_of_match) ms := by
  induction ms with
  | nil => simp
  | cons m ms ih =>
    obtain ⟨inst, hi⟩ := instance_of_match_some m
    rw [List.filterMap_cons, hi]
    exact List.Forall₂.cons hi ih

/-- C9: the strings sequence materialised for a rule event is the subsequence,
in declaration order, of the strings of the rule that have at least one match
in the scan context; every StringMatch in it belongs to such a string and has
a non-empty instances list with one StringMatchInstance per engine match of
the string, in the order of the engine; a string without matches does not
appear. -/
theorem strings_are_matched_strings (rt : Runtime) (context : YR_SCAN_CONTEXT)
    (rule : YR_RULE) (ev : Event)
    (hev : ev = Event.RULE_MATCHING rule ∨ ev = Event.RULE_NOT_MATCHING rule)
    (user_data : CALLBACK_DATA) (trace new : List Effect)
    (htrace : (yara_callback rt context ev user_data trace).trace = trace ++ new)
    (e : Effect) (he : e ∈ new) (tags : List String) (meta : PyDict)
    (strings : List StringMatch) (hmat : e.materialised = some (tags, meta, strings)) :
    strings = matched_strings context rule ∧
      strings.map (fun sm => (sm.identifier, sm.flags))
        = (rule.strings.filter (fun s => 1 ≤ (context.matches_ s.idx).length)).map
            (fun s => (s.identifier, s.flags)) ∧
      (∀ sm ∈ strings, sm.instances ≠ []) ∧
      (∀ sm ∈ strings, ∃ s ∈ rule.strings, sm.identifier = s.identifier ∧
        1 ≤ (context.matches_ s.idx).length ∧
        sm.instances.length = (context.matches_ s.idx).length ∧
        List.Forall₂ (fun inst m => instance_of_match m = some inst) sm.instances
          (context.matches_ s.idx)) := by
  have h := yara_callback_materialised rt context rule ev hev user_data trace new htrace e he
    _ hmat
  simp only [Prod.mk.injEq] at h
  obtain ⟨-, -, hstr⟩ := h
  have hall : ∀ sm ∈ strings, ∃ s ∈ rule.strings, sm.identifier = s.identifier ∧
      1 ≤ (context.matches_ s.idx).length ∧
      sm.instances.length = (context.matches_ s.idx).length ∧
      List.Forall₂ (fun inst m => instance_of_match m = some inst) sm.instances
        (context.matches_ s.idx) := by
    intro sm hsm
    rw [hstr, matched_strings, List.mem_map] at hsm
    obtain ⟨s, hs, hsm⟩ := hsm
    rw [List.mem_filter] at hs
    subst hsm
    exact ⟨s, hs.1, rfl, by simpa using hs.2, (filterMap_instances _).length_eq,
      filterMap_instances _⟩
  refine ⟨hstr, ?_, ?_, hall⟩
  · rw [hstr, matched_strings, List.map_map]
    rfl
  · intro sm hsm
    obtain ⟨s, -, -, h1, h2, -⟩ := hall sm hsm
    intro h0
    rw [h0] at h2
    simp at h2
    omega

theorem plaintext_loop_length (pb : List Byte) (key : Nat) (todo i : Nat) (buf : List Byte) :
    (plaintext_loop pb key todo i buf).length = buf.length := by
  induction todo generalizing i buf with
  | zero => rfl
  | succ n ih => simp [plaintext_loop, ih]

theorem plaintext_loop_get (pb : List Byte) (key : Nat) (todo i : Nat) (buf : List Byte)
    (hlen : i + todo ≤ buf.length) (j : Nat) :
    (plaintext_loop pb key todo i buf)[j]?
      = if i ≤ j ∧ j < i + todo then
          some (Fin.ofNat (((pb.getD j 0).val ^^^ key) % 2 ^ 8))
        else buf[j]? := by
  induction todo generalizing i buf with
  | zero =>
    have : ¬ (i ≤ j ∧ j < i + 0) := by omega
    unfold plaintext_loop
    rw [if_neg this]
  | succ n ih =>
    unfold plaintext_loop
    rw [ih (i + 1) _ (by simp; omega)]
    by_cases h1 : i + 1 ≤ j ∧ j < i + 1 + n
    · have h2 : i ≤ j ∧ j < i + (n + 1) := by omega
      simp [h1, h2]
    · by_cases h3 : j = i
      · subst h3
        have h2 : j ≤ j ∧ j < j + (n + 1) := by omega
        have h4 : j < buf.length := by omega
        simp [h1, h2, List.getElem?_set, h4]
      · have h2 : ¬ (i ≤ j ∧ j < i + (n + 1)) := by omega
        have h5 : ¬ (i = j) := fun h => h3 h.symm
        simp [h1, h2, List.getElem?_set, h5]

/-- C10: for an instance built by `StringMatchInstance_NEW`, `plaintext()`
returns the matched data itself when the xor key is 0 and otherwise (the buffer
being allocated) a byte sequence of the same length whose byte at every index
is the byte of the matched data XOR the key; the matched data of the instance
is the same after the call. -/
theorem plaintext_xors_every_byte (a : Alloc) (ok : Bool) (offset : Int) (data : List Byte)
    (match_length : Int) (xor_key : Nat) (inst : StringMatchInstance)
    (hnew : StringMatchInstance_NEW ok offset data match_length xor_key = some inst)
    (halloc : a.plaintext_buf = true) :
    (StringMatchInstance_plaintext a inst).2.matched_data = inst.matched_data ∧
      (inst.xor_key = 0 →
        (StringMatchInstance_plaintext a inst).1 = some inst.matched_data) ∧
      (inst.xor_key ≠ 0 →
        ∃ p : List Byte, (StringMatchInstance_plaintext a inst).1 = some p ∧
          p.length = inst.matched_data.length ∧
          ∀ i (hp : i < p.length) (hd : i < inst.matched_data.length),
            (p.get ⟨i, hp⟩).val
              = (inst.matched_data.get ⟨i, hd⟩).val ^^^ inst.xor_key.toNat) := by
  have hkey : inst.xor_key = ((xor_key % 2 ^ 8 : Nat) : Int) ∧ inst.matched_data = data := by
    unfold StringMatchInstance_NEW at hnew
    split at hnew
    · simp only [Option.some.injEq] at hnew
      rw [← hnew]
      exact ⟨rfl, rfl⟩
    · simp at hnew
  obtain ⟨hk, hd⟩ := hkey
  have hk256 : xor_key % 2 ^ 8 < 256 := Nat.mod_lt _ (by norm_num)
  have hconv : PyLong_AsUnsignedLongLong inst.xor_key = xor_key % 2 ^ 8 := by
    unfold PyLong_AsUnsignedLongLong
    rw [hk]
    have : (0 : Int) ≤ ((xor_key % 2 ^ 8 : Nat) : Int) ∧
        ((xor_key % 2 ^ 8 : Nat) : Int) < 2 ^ 64 := by
      constructor
      · exact Int.ofNat_nonneg _
      · have : ((xor_key % 2 ^ 8 : Nat) : Int) < 256 := by exact_mod_cast hk256
        omega
    rw [if_pos this]
    omega
  have htoNat : inst.xor_key.toNat = xor_key % 2 ^ 8 := by
    rw [hk]
    omega
  refine ⟨?_, ?_, ?_⟩
  · unfold StringMatchInstance_plaintext
    simp only []
    split <;> [rfl; split] <;> rfl
  · intro h0
    unfold StringMatchInstance_plaintext
    simp only [hconv]
    have : xor_key % 2 ^ 8 = 0 := by
      rw [hk] at h0
      exact_mod_cast h0
    rw [if_pos this]
  · intro hne
    have hne2 : ¬ (xor_key % 2 ^ 8 = 0) := by
      intro h0
      apply hne
      rw [hk, h0]
      rfl
    unfold StringMatchInstance_plaintext
    simp only [hconv, hne2, if_false, halloc, Bool.not_true, Bool.false_eq_true]
    have hbuf : (memcpy (calloc inst.matched_data.length) inst.matched_data
        inst.matched_data.length).length = inst.matched_data.length := by
      simp [memcpy, calloc]
    refine ⟨_, rfl, ?_, ?_⟩
    · simp [PyBytes_FromStringAndSize, plaintext_loop_length, hbuf]
    · intro i hp hdd
      have hget := plaintext_loop_get inst.matched_data (xor_key % 2 ^ 8)
        inst.matched_data.length 0
        (memcpy (calloc inst.matched_data.length) inst.matched_data inst.matched_data.length)
        (by rw [hbuf]; omega) i
      have hin : 0 ≤ i ∧ i < 0 + inst.matched_data.length := by omega
      rw [if_pos hin] at hget
      have hp2 : i < (plaintext_loop inst.matched_data (xor_key % 2 ^ 8)
          inst.matched_data.length 0
          (memcpy (calloc inst.matched_data.length) inst.matched_data
            inst.matched_data.length)).length := by
        rw [plaintext_loop_length, hbuf]
        exact hdd
      have hval : (PyBytes_FromStringAndSize (plaintext_loop inst.matched_data
          (xor_key % 2 ^ 8) inst.matched_data.length 0
          (memcpy (calloc inst.matched_data.length) inst.matched_data
            inst.matched_data.length)) inst.matched_data.length).get ⟨i, hp⟩
          = Fin.ofNat (((inst.matched_data.getD i 0).val ^^^ (xor_key % 2 ^ 8)) % 2 ^ 8) := by
        have h1 : (PyBytes_FromStringAndSize (plaintext_loop inst.matched_data
            (xor_key % 2 ^ 8) inst.matched_data.length 0
            (memcpy (calloc inst.matched_data.length) inst.matched_data
              inst.matched_data.length)) inst.matched_data.length)[i]?
            = some (Fin.ofNat
                (((inst.matched_data.getD i 0).val ^^^ (xor_key % 2 ^ 8)) % 2 ^ 8)) := by
          rw [← hget]
          simp [PyBytes_FromStringAndSize, List.getElem?_take, hdd]
        have h2 := List.getElem?_eq_getElem hp
        rw [h1] at h2
        simp only [Option.some.injEq] at h2
        simp only [List.get_eq_getElem]
        exact h2.symm
      rw [hval, htoNat]
      have hgd : inst.matched_data.getD i 0 = inst.matched_data.get ⟨i, hdd⟩ := by
        simp [List.getD_eq_getElem?_getD, List.getElem?_eq_getElem hdd]
      rw [hgd]
      have hb : (inst.matched_data.get ⟨i, hdd⟩).val < 2 ^ 8 :=
        (inst.matched_data.get ⟨i, hdd⟩).isLt
      have hx : (inst.matched_data.get ⟨i, hdd⟩).val ^^^ (xor_key % 2 ^ 8) < 2 ^ 8 :=
        Nat.xor_lt_two_pow hb (by simpa using hk256)
      have hx2 : (inst.matched_data.get ⟨i, hdd⟩).val ^^^ (xor_key % 2 ^ 8) < 256 := by
        simpa using hx
      simp only [Fin.ofNat, Nat.mod_eq_of_lt hx, Nat.mod_eq_of_lt hx2]

/-- C4 amended, at concrete inputs: a console callback that raises, and a match
callback that returns 1. -/
theorem callback_answer_disposition_witness :
    (yara_callback healthy example_context (Event.CONSOLE_LOG "hello")
        { CALLBACK_DATA.initial with console_callback := some raises } []).result
        = CALLBACK_ERROR ∧
      (yara_callback healthy example_context (Event.RULE_MATCHING example_rule)
        { CALLBACK_DATA.initial with callback := some (returns (PyObject.Long 1)) } []).result
        = 1 :=
  ⟨((callback_answer_disposition healthy example_context (Event.CONSOLE_LOG "hello")
      { CALLBACK_DATA.initial with console_callback := some raises } [] []
      (by decide)).2.2.2 raises "hello" rfl rfl).1 rfl,
    ((callback_answer_disposition healthy example_context (Event.RULE_MATCHING example_rule)
      { CALLBACK_DATA.initial with callback := some (returns (PyObject.Long 1)) } []
      [Effect.append_match example_match] (by decide)).1
      (returns (PyObject.Long 1)) example_dict rfl rfl).2 1 (by decide) (by decide) rfl⟩

/-- C5, at a concrete input: three RULE_MATCHING events, the callback aborts on
the second; the call returns two matches. -/
theorem abort_returns_matches_so_far_witness :
    (Rules_match (example_engine three_matches) (fun _ => healthy) example_rules
        (some abort_args)).scan = some (Target.mem [], abort_run) ∧
      abort_run.stopped_by = some CALLBACK_ABORT ∧
      (rule_matching_events abort_run.delivered).length = 2 ∧
      ∃ ms : List Match,
        (Rules_match (example_engine three_matches) (fun _ => healthy) example_rules
          (some abort_args)).value = Except.ok ms ∧
        ms.length = (rule_matching_events abort_run.delivered).length ∧
        ms.map (fun m => (m.rule, m.ns))
          = (rule_matching_events abort_run.delivered).map
              (fun r => (r.identifier, r.ns.name)) :=
  ⟨rfl, rfl, rfl,
    abort_returns_matches_so_far (example_engine three_matches) (fun _ => healthy)
      example_rules (some abort_args) (Target.mem []) abort_run rfl rfl⟩

/-- C6, at a concrete input: one match is accumulated, then the scan times
out; the call fails. -/
theorem failed_scan_returns_no_list_witness :
    (Rules_match (example_engine match_then_timeout) (fun _ => healthy) example_rules
        (some data_args)).scan = some (Target.mem [], timeout_run) ∧
      timeout_run.error ≠ ERROR_SUCCESS ∧
      timeout_run.user_data.matches_.length = 1 ∧
      ∃ e : PyErr,
        (Rules_match (example_engine match_then_timeout) (fun _ => healthy) example_rules
          (some data_args)).value = Except.error e :=
  ⟨rfl, by decide, rfl,
    failed_scan_returns_no_list (example_engine match_then_timeout) (fun _ => healthy)
      example_rules (some data_args) (Target.mem []) timeout_run rfl (by decide)⟩

/-- C7, at a concrete input: the meta `x = 1` declared twice yields `[1, 1]`. -/
theorem duplicate_metadata_kept_in_order_witness :
    PyDict_GetItemString example_match_dup.meta "x"
      = some (PyObject.List [PyObject.Long 1, PyObject.Long 1]) := by
  obtain ⟨xs, h1, _, h3⟩ := duplicate_metadata_kept_in_order healthy example_context
    example_rule (Event.RULE_MATCHING example_rule) (Or.inl rfl)
    { CALLBACK_DATA.initial with allow_duplicate_metadata := true } []
    [Effect.append_match example_match_dup] rfl rfl (Effect.append_match example_match_dup)
    (List.mem_singleton.mpr rfl) example_match_dup.tags example_match_dup.meta
    example_match_dup.strings rfl "x" (by decide)
  rw [h1, h3]
  rfl

/-- C8, at a concrete input: the meta `x = 1` declared twice yields `1`, and
the keys are `x` and `y`. -/
theorem duplicate_metadata_overwritten_witness :
    (∃ last, (declarations example_rule "x").getLast? = some last ∧
        PyDict_GetItemString example_match.meta "x" = some (meta_object last) ∧
        ∀ xs, meta_object last ≠ PyObject.List xs) ∧
      (PyKey.Str "y" ∈ example_match.meta.map Prod.fst ↔
        ∃ m ∈ example_rule.metas, PyKey.Str "y" = PyKey.Str m.identifier) :=
  ⟨(duplicate_metadata_overwritten healthy example_context example_rule
      (Event.RULE_MATCHING example_rule) (Or.inl rfl) CALLBACK_DATA.initial []
      [Effect.append_match example_match] rfl rfl (Effect.append_match example_match)
      (List.mem_singleton.mpr rfl) example_match.tags example_match.meta
      example_match.strings rfl).1 "x" (by decide),
    (duplicate_metadata_overwritten healthy example_context example_rule
      (Event.RULE_MATCHING example_rule) (Or.inl rfl) CALLBACK_DATA.initial []
      [Effect.append_match example_match] rfl rfl (Effect.append_match example_match)
      (List.mem_singleton.mpr rfl) example_match.tags example_match.meta
      example_match.strings rfl).2.1 (PyKey.Str "y")⟩

/-- C9, at a concrete input: of the strings `$a`, `$b`, `$c` the second has no
match; the Match holds `$a` and `$c`. -/
theorem strings_are_matched_strings_witness :
    example_match.strings.map (fun sm => (sm.identifier, sm.flags))
        = (example_rule.strings.filter
            (fun s => 1 ≤ (example_context.matches_ s.idx).length)).map
            (fun s => (s.identifier, s.flags)) ∧
      example_match.strings.map (fun sm => sm.identifier) = ["$a", "$c"] ∧
      ∀ sm ∈ example_match.strings, sm.instances ≠ [] :=
  ⟨(strings_are_matched_strings healthy example_context example_rule
      (Event.RULE_MATCHING example_rule) (Or.inl rfl) CALLBACK_DATA.initial []
      [Effect.append_match example_match] rfl (Effect.append_match example_match)
      (List.mem_singleton.mpr rfl) example_match.tags example_match.meta
      example_match.strings rfl).2.1,
    by decide,
    (strings_are_matched_strings healthy example_context example_rule
      (Event.RULE_MATCHING example_rule) (Or.inl rfl) CALLBACK_DATA.initial []
      [Effect.append_match example_match] rfl (Effect.append_match example_match)
      (List.mem_singleton.mpr rfl) example_match.tags example_match.meta
      example_match.strings rfl).2.2.1⟩

/-- C10, at a concrete input: the data `01 02 ff` with key 5. -/
theorem plaintext_xors_every_byte_witness :
    StringMatchInstance_NEW true 0 [1, 2, 255] 3 5 = some example_instance ∧
      (StringMatchInstance_plaintext Alloc.healthy example_instance).1 = some [4, 7, 250] ∧
      (StringMatchInstance_plaintext Alloc.healthy example_instance).2.matched_data
        = example_instance.matched_data ∧
      ∃ p : List Byte,
        (StringMatchInstance_plaintext Alloc.healthy example_instance).1 = some p ∧
        p.length = example_instance.matched_data.length ∧
        ∀ i (hp : i < p.length) (hd : i < example_instance.matched_data.length),
          (p.get ⟨i, hp⟩).val
            = (example_instance.matched_data.get ⟨i, hd⟩).val
              ^^^ example_instance.xor_key.toNat :=
  ⟨rfl, by decide,
    (plaintext_xors_every_byte Alloc.healthy true 0 [1, 2, 255] 3 5 example_instance rfl
      rfl).1,
    (plaintext_xors_every_byte Alloc.healthy true 0 [1, 2, 255] 3 5 example_instance rfl
      rfl).2.2 (by decide)⟩

theorem richcompare_eq (a b : Match) :
    Match_richcompare a (Comparand.Match b) Py_EQ
      = Except.ok (PyObject.Bool (decide (a.rule = b.rule ∧ a.ns = b.ns))) := by
  unfold Match_richcompare PyObject_RichCompareBool
  by_cases h1 : a.rule = b.rule <;> by_cases h2 : a.ns = b.ns <;> simp [h1, h2, Py_EQ, Py_NE, Py_LT, Py_LE, Py_GT, Py_GE]

theorem richcompare_ne (a b : Match) :
    Match_richcompare a (Comparand.Match b) Py_NE
      = Except.ok (PyObject.Bool (decide (¬ (a.rule = b.rule ∧ a.ns = b.ns)))) := by
  unfold Match_richcompare PyObject_RichCompareBool
  by_cases h1 : a.rule = b.rule <;> by_cases h2 : a.ns = b.ns <;>
    simp [h1, h2, Py_EQ, Py_NE, Py_LT, Py_LE, Py_GT, Py_GE]

theorem richcompare_lt (a b : Match) :
    Match_richcompare a (Comparand.Match b) Py_LT
      = Except.ok (PyObject.Bool (decide (toLex (a.rule, a.ns) < toLex (b.rule, b.ns)))) := by
  unfold Match_richcompare PyObject_RichCompare PyObject_RichCompareBool
  simp only [Prod.Lex.lt_iff]
  by_cases h1 : a.rule = b.rule
  · simp [h1, Py_EQ, Py_NE, Py_LT, Py_LE, Py_GT, Py_GE]
  · by_cases h3 : a.ns < b.ns <;> by_cases h4 : a.rule < b.rule <;>
      simp [h1, h3, h4, Py_EQ, Py_NE, Py_LT, Py_LE, Py_GT, Py_GE]

theorem richcompare_le (a b : Match) :
    Match_richcompare a (Comparand.Match b) Py_LE
      = Except.ok (PyObject.Bool (decide (toLex (a.rule, a.ns) ≤ toLex (b.rule, b.ns)))) := by
  unfold Match_richcompare PyObject_RichCompare PyObject_RichCompareBool
  simp only [Prod.Lex.le_iff]
  by_cases h1 : a.rule = b.rule
  · simp [h1, Py_EQ, Py_NE, Py_LT, Py_LE, Py_GT, Py_GE]
  · have h5 : a.rule ≤ b.rule ↔ a.rule < b.rule := by
      constructor
      · intro h
        exact lt_of_le_of_ne h h1
      · exact le_of_lt
    by_cases h4 : a.rule < b.rule <;>
      simp [h1, h4, h5, Py_EQ, Py_NE, Py_LT, Py_LE, Py_GT, Py_GE]

theorem richcompare_gt (a b : Match) :
    Match_richcompare a (Comparand.Match b) Py_GT
      = Except.ok (PyObject.Bool (decide (toLex (a.rule, a.ns) > toLex (b.rule, b.ns)))) := by
  unfold Match_richcompare PyObject_RichCompare PyObject_RichCompareBool
  simp only [gt_iff_lt, Prod.Lex.lt_iff]
  by_cases h1 : a.rule = b.rule
  · simp [h1, Py_EQ, Py_NE, Py_LT, Py_LE, Py_GT, Py_GE]
  · have h2 : ¬ (b.rule = a.rule) := fun h => h1 h.symm
    by_cases h4 : b.rule < a.rule <;>
      simp [h1, h2, h4, Py_EQ, Py_NE, Py_LT, Py_LE, Py_GT, Py_GE]

theorem richcompare_ge (a b : Match) :
    Match_richcompare a (Comparand.Match b) Py_GE
      = Except.ok (PyObject.Bool (decide (toLex (a.rule, a.ns) ≥ toLex (b.rule, b.ns)))) := by
  unfold Match_richcompare PyObject_RichCompare PyObject_RichCompareBool
  simp only [ge_iff_le, Prod.Lex.le_iff]
  by_cases h1 : a.rule = b.rule
  · simp [h1, Py_EQ, Py_NE, Py_LT, Py_LE, Py_GT, Py_GE]
  · have h2 : ¬ (b.rule = a.rule) := fun h => h1 h.symm
    have h5 : b.rule ≤ a.rule ↔ b.rule < a.rule := by
      constructor
      · intro h
        exact lt_of_le_of_ne h h2
      · exact le_of_lt
    by_cases h4 : b.rule < a.rule <;>
      simp [h1, h2, h4, h5, Py_EQ, Py_NE, Py_LT, Py_LE, Py_GT, Py_GE]
/-- C11: two Match instances with identical rule and identical namespace
compare equal, do not compare unequal and have the same hash, whatever their
tags, meta and strings are; and two Match instances compare equal only if
both rule and namespace are equal. -/
theorem match_identity_is_rule_and_namespace (hash : String → Int) (a b : Match) :
    (a.rule = b.rule → a.ns = b.ns →
        Match_richcompare a (Comparand.Match b) Py_EQ = Except.ok (PyObject.Bool true) ∧
        Match_richcompare a (Comparand.Match b) Py_NE = Except.ok (PyObject.Bool false) ∧
        Match_hash hash a = Match_hash hash b) ∧
      (Match_richcompare a (Comparand.Match b) Py_EQ = Except.ok (PyObject.Bool true) →
        a.rule = b.rule ∧ a.ns = b.ns) := by
  constructor
  · intro h1 h2
    refine ⟨?_, ?_, ?_⟩
    · rw [richcompare_eq]
      simp [h1, h2]
    · rw [richcompare_ne]
      simp [h1, h2]
    · simp [Match_hash, h1, h2]
  · intro h
    rw [richcompare_eq] at h
    simpa using h

/-- C11, at a concrete input: two matches of the same rule and namespace that
differ in their meta. -/
theorem match_identity_is_rule_and_namespace_witness :
    example_match.meta.length = 2 ∧
      PyDict_GetItemString example_match.meta "x" = some (PyObject.Long 1) ∧
      PyDict_GetItemString example_match_dup.meta "x"
        = some (PyObject.List [PyObject.Long 1, PyObject.Long 1]) ∧
      Match_richcompare example_match (Comparand.Match example_match_dup) Py_EQ
        = Except.ok (PyObject.Bool true) ∧
      Match_richcompare example_match (Comparand.Match example_match_dup) Py_NE
        = Except.ok (PyObject.Bool false) ∧
      Match_hash example_hash example_match = Match_hash example_hash example_match_dup :=
  ⟨rfl, rfl, rfl,
    (match_identity_is_rule_and_namespace example_hash example_match example_match_dup).1
      rfl rfl⟩

/-- C12: each of a < b, a <= b, a > b, a >= b on two Match instances is the
comparison of the pairs (rule, namespace) in lexicographic order, and exactly
one of a < b, a == b, a > b holds. -/
theorem match_order_is_lexicographic (a b : Match) :
    Match_richcompare a (Comparand.Match b) Py_LT
        = Except.ok (PyObject.Bool (decide (toLex (a.rule, a.ns) < toLex (b.rule, b.ns)))) ∧
      Match_richcompare a (Comparand.Match b) Py_LE
        = Except.ok (PyObject.Bool (decide (toLex (a.rule, a.ns) ≤ toLex (b.rule, b.ns)))) ∧
      Match_richcompare a (Comparand.Match b) Py_GT
        = Except.ok (PyObject.Bool (decide (toLex (a.rule, a.ns) > toLex (b.rule, b.ns)))) ∧
      Match_richcompare a (Comparand.Match b) Py_GE
        = Except.ok (PyObject.Bool (decide (toLex (a.rule, a.ns) ≥ toLex (b.rule, b.ns)))) ∧
      ((Match_richcompare a (Comparand.Match b) Py_LT = Except.ok (PyObject.Bool true) ∧
          Match_richcompare a (Comparand.Match b) Py_EQ ≠ Except.ok (PyObject.Bool true) ∧
          Match_richcompare a (Comparand.Match b) Py_GT ≠ Except.ok (PyObject.Bool true)) ∨
        (Match_richcompare a (Comparand.Match b) Py_LT ≠ Except.ok (PyObject.Bool true) ∧
          Match_richcompare a (Comparand.Match b) Py_EQ = Except.ok (PyObject.Bool true) ∧
          Match_richcompare a (Comparand.Match b) Py_GT ≠ Except.ok (PyObject.Bool true)) ∨
        (Match_richcompare a (Comparand.Match b) Py_LT ≠ Except.ok (PyObject.Bool true) ∧
          Match_richcompare a (Comparand.Match b) Py_EQ ≠ Except.ok (PyObject.Bool true) ∧
          Match_richcompare a (Comparand.Match b) Py_GT = Except.ok (PyObject.Bool true))) := by
  refine ⟨richcompare_lt a b, richcompare_le a b, richcompare_gt a b, richcompare_ge a b, ?_⟩
  rw [richcompare_lt, richcompare_gt, richcompare_eq]
  have heq : (a.rule = b.rule ∧ a.ns = b.ns) ↔
      toLex (a.rule, a.ns) = toLex (b.rule, b.ns) := by
    constructor
    · rintro ⟨h1, h2⟩
      rw [h1, h2]
    · intro h
      have := congrArg ofLex h
      simpa using this
  rcases lt_trichotomy (toLex (a.rule, a.ns)) (toLex (b.rule, b.ns)) with h | h | h
  · left
    have h1 : ¬ (toLex (a.rule, a.ns) = toLex (b.rule, b.ns)) := ne_of_lt h
    have h2 : ¬ (toLex (a.rule, a.ns) > toLex (b.rule, b.ns)) := not_lt_of_gt h
    simp [h, h2, heq, h1]
  · right; left
    have h1 : ¬ (toLex (a.rule, a.ns) < toLex (b.rule, b.ns)) := by rw [h]; exact lt_irrefl _
    have h2 : ¬ (toLex (a.rule, a.ns) > toLex (b.rule, b.ns)) := by rw [h]; exact lt_irrefl _
    simp [h1, h2, heq, h]
  · right; right
    have h1 : ¬ (toLex (a.rule, a.ns) = toLex (b.rule, b.ns)) := ne_of_gt h
    have h2 : ¬ (toLex (a.rule, a.ns) < toLex (b.rule, b.ns)) := not_lt_of_gt h
    simp [h, h2, heq, h1]

/-- C13: a RULE_NOT_MATCHING event with no match callback registered, or with
bit 0x02 of the mask not set, is answered with CONTINUE at once: nothing is
built (the answer is the same whatever the allocator would do), no callback is
invoked and no effect is made; and in every case a RULE_NOT_MATCHING event
leaves the accumulated match list as it was. -/
theorem not_matching_leaves_matches (rt : Runtime) (context : YR_SCAN_CONTEXT)
    (rule : YR_RULE) (user_data : CALLBACK_DATA) (trace : List Effect) :
    (user_data.callback = none ∨ user_data.which.testBit 1 = false →
        (yara_callback rt context (Event.RULE_NOT_MATCHING rule) user_data trace).result
          = CALLBACK_CONTINUE ∧
        (yara_callback rt context (Event.RULE_NOT_MATCHING rule) user_data trace).trace
          = trace ∧
        (∀ rt2 : Runtime,
          (yara_callback rt2 context (Event.RULE_NOT_MATCHING rule) user_data trace).result
            = CALLBACK_CONTINUE ∧
          (yara_callback rt2 context (Event.RULE_NOT_MATCHING rule) user_data trace).trace
            = trace)) ∧
      (yara_callback rt context (Event.RULE_NOT_MATCHING rule) user_data trace).user_data.matches_
        = user_data.matches_ := by
  have hgate : (user_data.callback = none ∨ user_data.which.testBit 1 = false) →
      (user_data.callback.isNone = true ∨
        int_and user_data.which CALLBACK_NON_MATCHES ≠ CALLBACK_NON_MATCHES) := by
    intro h
    rcases h with h | h
    · left
      simp [h]
    · right
      rw [int_and_non_matches, h]
      decide
  constructor
  · intro h
    have hg := hgate h
    have key : ∀ rt2 : Runtime,
        (yara_callback rt2 context (Event.RULE_NOT_MATCHING rule) user_data trace).result
          = CALLBACK_CONTINUE ∧
        (yara_callback rt2 context (Event.RULE_NOT_MATCHING rule) user_data trace).trace
          = trace := by
      intro rt2
      simp only [yara_callback]
      rw [if_pos hg]
      exact ⟨rfl, rfl⟩
    exact ⟨(key rt).1, (key rt).2, key⟩
  · simp only [yara_callback]
    split
    · rfl
    · exact (yara_callback_rule_matches rt context CALLBACK_MSG_RULE_NOT_MATCHING rule
        user_data trace).1 (by decide)

/-- C13, at a concrete input: no callback is registered and every allocation
would fail. -/
theorem not_matching_leaves_matches_witness :
    (yara_callback exhausted example_context (Event.RULE_NOT_MATCHING example_rule)
        CALLBACK_DATA.initial []).result = CALLBACK_CONTINUE ∧
      (yara_callback exhausted example_context (Event.RULE_NOT_MATCHING example_rule)
        CALLBACK_DATA.initial []).trace = [] :=
  ⟨((not_matching_leaves_matches exhausted example_context example_rule
      CALLBACK_DATA.initial []).1 (Or.inl rfl)).1,
    ((not_matching_leaves_matches exhausted example_context example_rule
      CALLBACK_DATA.initial []).1 (Or.inl rfl)).2.1⟩

/-- C14 as stated fails: a call of match with both a file path and in-memory
data raises nothing; the file is scanned and the matches are returned. -/
theorem both_targets_scans_file :
    both_args.filepath = some "f" ∧ both_args.data = some [] ∧
      (Rules_match (example_engine one_match) (fun _ => healthy) example_rules
        (some both_args)).scan = some (Target.file "f", one_match_run) ∧
      (∃ m, (Rules_match (example_engine one_match) (fun _ => healthy) example_rules
        (some both_args)).value = Except.ok [m]) ∧
      ∀ e, (Rules_match (example_engine one_match) (fun _ => healthy) example_rules
        (some both_args)).value ≠ Except.error e :=
  ⟨rfl, rfl, rfl, ⟨example_match, rfl⟩, fun e h => by
    have h2 : (Rules_match (example_engine one_match) (fun _ => healthy) example_rules
        (some both_args)).value = Except.ok [example_match] := rfl
    rw [h2] at h
    cases h⟩

/-- C14, amended: a call of match that supplies both a file path and in-memory
data behaves as the same call without the data: if a scan is started its
target is the file, and the data is not looked at. -/
theorem both_targets_data_ignored (E : Engine) (rts : Nat → Runtime) (object : Rules)
    (args : MatchArgs) (filepath : String) (data : List Byte)
    (hf : args.filepath = some filepath) (hd : args.data = some data) :
    Rules_match E rts object (some args)
        = Rules_match E rts object (some { args with data := none }) ∧
      ∀ target run, (Rules_match E rts object (some args)).scan = some (target, run) →
        target = Target.file filepath := by
  have heq : Rules_match E rts object (some args)
      = Rules_match E rts object (some { args with data := none }) := by
    unfold Rules_match Rules_match_scan
    simp only [hf, hd]
    rfl
  refine ⟨heq, ?_⟩
  intro target run h
  unfold Rules_match at h
  simp only [hf] at h
  split at h
  · simp at h
  split at h
  · simp at h
  split at h
  · simp at h
  split at h
  · simp at h
  split at h
  · simp at h
  split at h
  · simp at h
  unfold Rules_match_scan at h
  simp only [] at h
  split at h
  · simp at h
  split at h
  · simp at h
  · rw [Rules_match_result_scan] at h
    simp only [Option.some.injEq, Prod.mk.injEq] at h
    exact h.1.symm

/-- C14 amended, at a concrete input. -/
theorem both_targets_data_ignored_witness :
    Rules_match (example_engine one_match) (fun _ => healthy) example_rules (some both_args)
        = Rules_match (example_engine one_match) (fun _ => healthy) example_rules
          (some { both_args with data := none }) ∧
      ∀ target run,
        (Rules_match (example_engine one_match) (fun _ => healthy) example_rules
          (some both_args)).scan = some (target, run) →
        target = Target.file "f" :=
  both_targets_data_ignored (example_engine one_match) (fun _ => healthy) example_rules
    both_args "f" [] rfl rfl

theorem Rules_match_result_timeout (filepath : Option String) (pid : Int) (target : Target)
    (run : ScanRun) (h : run.error = ERROR_SCAN_TIMEOUT) :
    (Rules_match_result filepath pid target run).value
      = Except.error (PyErr.YaraTimeoutError "scanning timed out") := by
  unfold Rules_match_result
  simp only [h]
  rw [if_pos (by decide), if_pos (by decide)]
  split <;> [skip; split] <;> rfl

/-- C15: `handle_error` raises TimeoutError exactly for the scan-timeout code,
the memory error of the host for the out-of-memory code, and the generic
Error for every other code, with the message of the code that holds the given
path or identifier for the listed codes and "internal error: <code>" for a
code outside the table; and a scan that ends with the timeout code makes
match raise TimeoutError. -/
theorem handle_error_taxonomy (error : Int) (extra : String) :
    ((∃ msg, handle_error error extra = PyErr.YaraTimeoutError msg) ↔
        error = ERROR_SCAN_TIMEOUT) ∧
      handle_error ERROR_INSUFFICIENT_MEMORY extra = PyErr.MemoryError ∧
      (error ≠ ERROR_SCAN_TIMEOUT → error ≠ ERROR_INSUFFICIENT_MEMORY →
        ∃ msg, handle_error error extra = PyErr.YaraError msg) ∧
      handle_error ERROR_COULD_NOT_OPEN_FILE extra
        = PyErr.YaraError ("could not open file \"" ++ extra ++ "\"") ∧
      handle_error ERROR_COULD_NOT_MAP_FILE extra
        = PyErr.YaraError ("could not map file \"" ++ extra ++ "\" into memory") ∧
      handle_error ERROR_INVALID_FILE extra
        = PyErr.YaraError ("invalid rules file \"" ++ extra ++ "\"") ∧
      handle_error ERROR_CORRUPT_FILE extra
        = PyErr.YaraError ("corrupt rules file \"" ++ extra ++ "\"") ∧
      handle_error ERROR_UNSUPPORTED_FILE_VERSION extra
        = PyErr.YaraError
          ("rules file \"" ++ extra ++ "\" is incompatible with this version of YARA") ∧
      handle_error ERROR_INVALID_EXTERNAL_VARIABLE_TYPE extra
        = PyErr.YaraError
          ("external variable \"" ++ extra ++ "\" was already defined with a different type") ∧
      (error ∉ error_table →
        handle_error error extra = PyErr.YaraError ("internal error: " ++ toString error)) ∧
      (∀ (E : Engine) (rts : Nat → Runtime) (object : Rules) (args : Option MatchArgs)
          (target : Target) (run : ScanRun),
        (Rules_match E rts object args).scan = some (target, run) →
        run.error = ERROR_SCAN_TIMEOUT →
        (Rules_match E rts object args).value
          = Except.error (PyErr.YaraTimeoutError "scanning timed out")) := by
  refine ⟨?_, rfl, ?_, rfl, rfl, rfl, rfl, rfl, rfl, ?_, ?_⟩
  · constructor
    · rintro ⟨msg, h⟩
      unfold handle_error at h
      by_contra hne
      simp only [hne, if_false] at h
      repeat' split at h
      all_goals simp at h
    · intro h
      rw [h]
      exact ⟨_, rfl⟩
  · intro h1 h2
    unfold handle_error
    simp only [h1, h2, if_false]
    repeat' split
    all_goals exact ⟨_, rfl⟩
  · intro h
    simp only [error_table, List.mem_cons, List.mem_singleton, List.not_mem_nil, or_false,
      not_or] at h
    obtain ⟨h1, h2, h3, h4, h5, h6, h7, h8, h9⟩ := h
    simp [handle_error, h1, h2, h3, h4, h5, h6, h7, h8, h9]
  · intro E rts object args target run hscan herr
    rcases Rules_match_cases E rts object args with
      h0 | ⟨fp, pid, t, f, evs, cd, p, h1, h2⟩
    · rw [h0] at hscan
      simp at hscan
    · rw [h2] at hscan
      simp only [Rules_match_result_scan, Option.some.injEq, Prod.mk.injEq] at hscan
      rw [h2, hscan.2]
      exact Rules_match_result_timeout _ _ _ _ herr

/-- C15, at a concrete input: an unknown code, and a scan that times out. -/
theorem handle_error_taxonomy_witness :
    handle_error 31 "f" = PyErr.YaraError "internal error: 31" ∧
      (Rules_match (example_engine match_then_timeout) (fun _ => healthy) example_rules
        (some data_args)).value
        = Except.error (PyErr.YaraTimeoutError "scanning timed out") :=
  ⟨(handle_error_taxonomy 31 "f").2.2.2.2.2.2.2.2.2.1 (by decide),
    (handle_error_taxonomy 31 "f").2.2.2.2.2.2.2.2.2.2 (example_engine match_then_timeout)
      (fun _ => healthy) example_rules (some data_args) (Target.mem []) timeout_run rfl rfl⟩

/-! ## The externals marshallers -/

theorem process_match_externals_loop_cons_some (E : Engine) (key : PyKey) (value : PyObject)
    (rest : List (PyKey × PyObject)) (scanner : YR_SCANNER) (err : Option PyErr)
    (identifier : String) (v : ExternalValue)
    (h : external_of (key, value) = some (identifier, v)) :
    process_match_externals_loop E ((key, value) :: rest) scanner err =
      match_define E scanner identifier v
        (fun scanner => process_match_externals_loop E rest scanner
          ((overflow_of value).or err)) := by
  cases key <;> cases value <;>
    simp [external_of, classify] at h <;>
    obtain ⟨h1, h2⟩ := h <;> subst h1 <;> subst h2 <;>
    simp [process_match_externals_loop, PY_STRING_CHECK, PyKey.object, PyBool_Check,
      PyLong_Check, PyFloat_Check, PY_STRING_TO_C, PyFloat_AsDouble, overflow_of]
  rename_i s b
  cases b <;> simp [PyObject_IsTrue]

theorem process_match_externals_loop_cons_none (E : Engine) (key : PyKey) (value : PyObject)
    (rest : List (PyKey × PyObject)) (scanner : YR_SCANNER) (err : Option PyErr)
    (h : external_of (key, value) = none) :
    (process_match_externals_loop E ((key, value) :: rest) scanner err).result
        = ERROR_INVALID_ARGUMENT ∧
    (process_match_externals_loop E ((key, value) :: rest) scanner err).scanner = scanner ∧
    ((process_match_externals_loop E ((key, value) :: rest) scanner err).err =
        some (PyErr.TypeError "keys of externals dict must be strings") ∨
      (process_match_externals_loop E ((key, value) :: rest) scanner err).err =
        some (PyErr.TypeError
          "external values must be of type integer, float, boolean or string")) := by
  cases key <;> cases value <;>
    simp [external_of, classify] at h <;>
    simp [process_match_externals_loop, PY_STRING_CHECK, PyKey.object, PyBool_Check,
      PyLong_Check, PyFloat_Check, PY_STRING_TO_C, PyFloat_AsDouble]

/-- A pair that the marshaller rejects is rejected whatever comes after it and
whatever exception is pending. -/
theorem process_match_externals_loop_rejected (E : Engine) (key : PyKey) (value : PyObject)
    (rest rest2 : List (PyKey × PyObject)) (scanner : YR_SCANNER) (err err2 : Option PyErr)
    (h : external_of (key, value) = none) :
    process_match_externals_loop E ((key, value) :: rest) scanner err =
      process_match_externals_loop E ((key, value) :: rest2) scanner err2 := by
  cases key <;> cases value <;>
    simp [external_of, classify] at h <;>
    simp [process_match_externals_loop, PY_STRING_CHECK, PyKey.object, PyBool_Check,
      PyLong_Check, PyFloat_Check, PY_STRING_TO_C, PyFloat_AsDouble]

theorem process_match_externals_loop_append (E : Engine) (pre rest : List (PyKey × PyObject)) :
    ∀ (scanner : YR_SCANNER) (err : Option PyErr),
    process_match_externals_loop E (pre ++ rest) scanner err =
      if (process_match_externals_loop E pre scanner err).result = ERROR_SUCCESS then
        process_match_externals_loop E rest
          (process_match_externals_loop E pre scanner err).scanner
          (process_match_externals_loop E pre scanner err).err
      else process_match_externals_loop E pre scanner err := by
  induction pre with
  | nil => intro scanner err; simp [process_match_externals_loop]
  | cons item pre ih =>
    intro scanner err
    obtain ⟨key, value⟩ := item
    cases h : external_of (key, value) with
    | none =>
      obtain ⟨h1, _, _⟩ := process_match_externals_loop_cons_none E key value pre scanner err h
      have hne : ERROR_INVALID_ARGUMENT ≠ ERROR_SUCCESS := by decide
      rw [h1, if_neg hne]
      simp only [List.cons_append]
      exact process_match_externals_loop_rejected E key value _ _ scanner err err h
    | some iv =>
      obtain ⟨identifier, v⟩ := iv
      simp only [List.cons_append]
      rw [process_match_externals_loop_cons_some E key value (pre ++ rest) scanner err
          identifier v h,
        process_match_externals_loop_cons_some E key value pre scanner err identifier v h]
      unfold match_define
      simp only []
      split
      · rename_i hh
        rw [if_neg hh.1]
      · rw [ih]

theorem process_match_externals_loop_defines (E : Engine) (items : List (PyKey × PyObject)) :
    ∀ (scanner : YR_SCANNER) (err : Option PyErr),
    ∃ n, n ≤ items.length ∧ (∀ item ∈ items.take n, external_of item ≠ none) ∧
      (process_match_externals_loop E items scanner err).scanner.defines =
        scanner.defines ++ (items.take n).filterMap external_of ∧
      ((process_match_externals_loop E items scanner err).result = ERROR_SUCCESS
        → n = items.length) := by
  induction items with
  | nil => intro scanner err; exact ⟨0, by simp [process_match_externals_loop]⟩
  | cons item items ih =>
    intro scanner err
    obtain ⟨key, value⟩ := item
    cases h : external_of (key, value) with
    | none =>
      obtain ⟨h1, h2, _⟩ := process_match_externals_loop_cons_none E key value items scanner
        err h
      refine ⟨0, by simp, by simp, by simp [h2], ?_⟩
      rw [h1]; intro hc; exact absurd hc (by decide)
    | some iv =>
      obtain ⟨identifier, v⟩ := iv
      rw [process_match_externals_loop_cons_some E key value items scanner err identifier v h]
      unfold match_define
      simp only []
      split
      · rename_i hh
        refine ⟨1, by simp, by simp [h], by simp [h], ?_⟩
        intro hc; exact absurd hc hh.1
      · obtain ⟨n, hn, hall, hdef, hres⟩ := ih
          { scanner with defines := scanner.defines ++ [(identifier, v)] }
          ((overflow_of value).or err)
        refine ⟨n + 1, by simp [hn], ?_, ?_, ?_⟩
        · intro item hitem
          simp only [List.take_succ_cons, List.mem_cons] at hitem
          rcases hitem with rfl | hitem
          · simp [h]
          · exact hall item hitem
        · rw [hdef]; simp [h]
        · intro hc; simp [hres hc]

/-- The exception that is pending when the marshaller is entered changes
neither the returned code nor the define calls, and it is still pending at the
return unless the marshaller sets one itself. -/
theorem process_match_externals_loop_pending (E : Engine) (items : List (PyKey × PyObject)) :
    ∀ (scanner : YR_SCANNER) (err : Option PyErr),
      (process_match_externals_loop E items scanner err).result =
        (process_match_externals_loop E items scanner none).result ∧
      (process_match_externals_loop E items scanner err).scanner =
        (process_match_externals_loop E items scanner none).scanner ∧
      (process_match_externals_loop E items scanner err).err =
        ((process_match_externals_loop E items scanner none).err).or err := by
  induction items with
  | nil => intro scanner err; simp [process_match_externals_loop]
  | cons item items ih =>
    intro scanner err
    obtain ⟨key, value⟩ := item
    cases h : external_of (key, value) with
    | none =>
      rw [process_match_externals_loop_rejected E key value items items scanner err none h]
      obtain ⟨_, _, h3⟩ := process_match_externals_loop_cons_none E key value items scanner
        none h
      refine ⟨rfl, rfl, ?_⟩
      rcases h3 with h3 | h3 <;> rw [h3] <;> rfl
    | some iv =>
      obtain ⟨identifier, v⟩ := iv
      rw [process_match_externals_loop_cons_some E key value items scanner err identifier v h,
        process_match_externals_loop_cons_some E key value items scanner none identifier v h]
      unfold match_define
      simp only []
      split
      · exact ⟨rfl, rfl, rfl⟩
      · obtain ⟨a1, a2, a3⟩ := ih
          { scanner with defines := scanner.defines ++ [(identifier, v)] }
          ((overflow_of value).or err)
        obtain ⟨b1, b2, b3⟩ := ih
          { scanner with defines := scanner.defines ++ [(identifier, v)] }
          ((overflow_of value).or none)
        refine ⟨by rw [a1, b1], by rw [a2, b2], ?_⟩
        rw [a3, b3]
        cases (process_match_externals_loop E items
          { scanner with defines := scanner.defines ++ [(identifier, v)] } none).err <;>
          cases overflow_of value <;> cases err <;> rfl

theorem process_compile_externals_loop_cons_some (E : CompileEnv) (key : PyKey) (value : PyObject)
    (rest : List (PyKey × PyObject)) (compiler : YR_COMPILER) (err : Option PyErr)
    (identifier : String) (v : ExternalValue)
    (h : external_of (key, value) = some (identifier, v)) :
    process_compile_externals_loop E ((key, value) :: rest) compiler err =
      compile_define E compiler identifier v
        (fun compiler => process_compile_externals_loop E rest compiler
          ((overflow_of value).or err)) := by
  cases key <;> cases value <;>
    simp [external_of, classify] at h <;>
    obtain ⟨h1, h2⟩ := h <;> subst h1 <;> subst h2 <;>
    simp [process_compile_externals_loop, PY_STRING_CHECK, PyKey.object, PyBool_Check,
      PyLong_Check, PyFloat_Check, PY_STRING_TO_C, PyFloat_AsDouble, overflow_of]
  rename_i s b
  cases b <;> simp [PyObject_IsTrue]

theorem process_compile_externals_loop_cons_none (E : CompileEnv) (key : PyKey) (value : PyObject)
    (rest : List (PyKey × PyObject)) (compiler : YR_COMPILER) (err : Option PyErr)
    (h : external_of (key, value) = none) :
    (process_compile_externals_loop E ((key, value) :: rest) compiler err).result
        = ERROR_INVALID_ARGUMENT ∧
    (process_compile_externals_loop E ((key, value) :: rest) compiler err).compiler = compiler ∧
    ((process_compile_externals_loop E ((key, value) :: rest) compiler err).err =
        some (PyErr.TypeError "keys of externals dict must be strings") ∨
      (process_compile_externals_loop E ((key, value) :: rest) compiler err).err =
        some (PyErr.TypeError
          "external values must be of type integer, float, boolean or string")) := by
  cases key <;> cases value <;>
    simp [external_of, classify] at h <;>
    simp [process_compile_externals_loop, PY_STRING_CHECK, PyKey.object, PyBool_Check,
      PyLong_Check, PyFloat_Check, PY_STRING_TO_C, PyFloat_AsDouble]

/-- A pair that the marshaller rejects is rejected whatever comes after it and
whatever exception is pending. -/
theorem process_compile_externals_loop_rejected (E : CompileEnv) (key : PyKey) (value : PyObject)
    (rest rest2 : List (PyKey × PyObject)) (compiler : YR_COMPILER) (err err2 : Option PyErr)
    (h : external_of (key, value) = none) :
    process_compile_externals_loop E ((key, value) :: rest) compiler err =
      process_compile_externals_loop E ((key, value) :: rest2) compiler err2 := by
  cases key <;> cases value <;>
    simp [external_of, classify] at h <;>
    simp [process_compile_externals_loop, PY_STRING_CHECK, PyKey.object, PyBool_Check,
      PyLong_Check, PyFloat_Check, PY_STRING_TO_C, PyFloat_AsDouble]

theorem process_compile_externals_loop_append (E : CompileEnv)
    (pre rest : List (PyKey × PyObject)) :
    ∀ (compiler : YR_COMPILER) (err : Option PyErr),
    process_compile_externals_loop E (pre ++ rest) compiler err =
      if (process_compile_externals_loop E pre compiler err).result = ERROR_SUCCESS then
        process_compile_externals_loop E rest
          (process_compile_externals_loop E pre compiler err).compiler
          (process_compile_externals_loop E pre compiler err).err
      else process_compile_externals_loop E pre compiler err := by
  induction pre with
  | nil => intro compiler err; simp [process_compile_externals_loop]
  | cons item pre ih =>
    intro compiler err
    obtain ⟨key, value⟩ := item
    cases h : external_of (key, value) with
    | none =>
      obtain ⟨h1, _, _⟩ := process_compile_externals_loop_cons_none E key value pre compiler err h
      have hne : ERROR_INVALID_ARGUMENT ≠ ERROR_SUCCESS := by decide
      rw [h1, if_neg hne]
      simp only [List.cons_append]
      exact process_compile_externals_loop_rejected E key value _ _ compiler err err h
    | some iv =>
      obtain ⟨identifier, v⟩ := iv
      simp only [List.cons_append]
      rw [process_compile_externals_loop_cons_some E key value (pre ++ rest) compiler err
          identifier v h,
        process_compile_externals_loop_cons_some E key value pre compiler err identifier v h]
      unfold compile_define
      simp only []
      split
      · rfl
      · rw [ih]

theorem process_compile_externals_loop_defines (E : CompileEnv) (items : List (PyKey × PyObject)) :
    ∀ (compiler : YR_COMPILER) (err : Option PyErr),
    ∃ n, n ≤ items.length ∧ (∀ item ∈ items.take n, external_of item ≠ none) ∧
      (process_compile_externals_loop E items compiler err).compiler.defines =
        compiler.defines ++ (items.take n).filterMap external_of ∧
      ((process_compile_externals_loop E items compiler err).result = ERROR_SUCCESS
        → n = items.length) := by
  induction items with
  | nil => intro compiler err; exact ⟨0, by simp [process_compile_externals_loop]⟩
  | cons item items ih =>
    intro compiler err
    obtain ⟨key, value⟩ := item
    cases h : external_of (key, value) with
    | none =>
      obtain ⟨h1, h2, _⟩ := process_compile_externals_loop_cons_none E key value items compiler
        err h
      refine ⟨0, by simp, by simp, by simp [h2], ?_⟩
      rw [h1]; intro hc; exact absurd hc (by decide)
    | some iv =>
      obtain ⟨identifier, v⟩ := iv
      rw [process_compile_externals_loop_cons_some E key value items compiler err identifier v h]
      unfold compile_define
      simp only []
      split
      · rename_i hh
        refine ⟨1, by simp, by simp [h], by simp [h], ?_⟩
        intro hc; exact absurd hc hh
      · obtain ⟨n, hn, hall, hdef, hres⟩ := ih
          { compiler with defines := compiler.defines ++ [(identifier, v)] }
          ((overflow_of value).or err)
        refine ⟨n + 1, by simp [hn], ?_, ?_, ?_⟩
        · intro item hitem
          simp only [List.take_succ_cons, List.mem_cons] at hitem
          rcases hitem with rfl | hitem
          · simp [h]
          · exact hall item hitem
        · rw [hdef]; simp [h]
        · intro hc; simp [hres hc]

/-- The exception that is pending when the marshaller is entered changes
neither the returned code nor the define calls, and it is still pending at the
return unless the marshaller sets one itself. -/
theorem process_compile_externals_loop_pending (E : CompileEnv) (items : List (PyKey × PyObject)) :
    ∀ (compiler : YR_COMPILER) (err : Option PyErr),
      (process_compile_externals_loop E items compiler err).result =
        (process_compile_externals_loop E items compiler none).result ∧
      (process_compile_externals_loop E items compiler err).compiler =
        (process_compile_externals_loop E items compiler none).compiler ∧
      (process_compile_externals_loop E items compiler err).err =
        ((process_compile_externals_loop E items compiler none).err).or err := by
  induction items with
  | nil => intro compiler err; simp [process_compile_externals_loop]
  | cons item items ih =>
    intro compiler err
    obtain ⟨key, value⟩ := item
    cases h : external_of (key, value) with
    | none =>
      rw [process_compile_externals_loop_rejected E key value items items compiler err none h]
      obtain ⟨_, _, h3⟩ := process_compile_externals_loop_cons_none E key value items compiler
        none h
      refine ⟨rfl, rfl, ?_⟩
      rcases h3 with h3 | h3 <;> rw [h3] <;> rfl
    | some iv =>
      obtain ⟨identifier, v⟩ := iv
      rw [process_compile_externals_loop_cons_some E key value items compiler err identifier v h,
        process_compile_externals_loop_cons_some E key value items compiler none identifier v h]
      unfold compile_define
      simp only []
      split
      · exact ⟨rfl, rfl, rfl⟩
      · obtain ⟨a1, a2, a3⟩ := ih
          { compiler with defines := compiler.defines ++ [(identifier, v)] }
          ((overflow_of value).or err)
        obtain ⟨b1, b2, b3⟩ := ih
          { compiler with defines := compiler.defines ++ [(identifier, v)] }
          ((overflow_of value).or none)
        refine ⟨by rw [a1, b1], by rw [a2, b2], ?_⟩
        rw [a3, b3]
        cases (process_compile_externals_loop E items
          { compiler with defines := compiler.defines ++ [(identifier, v)] } none).err <;>
          cases overflow_of value <;> cases err <;> rfl

theorem process_match_externals_defines (E : Engine) (items : List (PyKey × PyObject))
    (scanner : YR_SCANNER) :
    ∃ n, n ≤ items.length ∧ (∀ item ∈ items.take n, external_of item ≠ none) ∧
      (process_match_externals E items scanner).scanner.defines =
        scanner.defines ++ (items.take n).filterMap external_of ∧
      ((process_match_externals E items scanner).result = ERROR_SUCCESS → n = items.length) :=
  process_match_externals_loop_defines E items scanner none

theorem process_compile_externals_defines (E : CompileEnv) (items : List (PyKey × PyObject))
    (compiler : YR_COMPILER) :
    ∃ n, n ≤ items.length ∧ (∀ item ∈ items.take n, external_of item ≠ none) ∧
      (process_compile_externals E items compiler).compiler.defines =
        compiler.defines ++ (items.take n).filterMap external_of ∧
      ((process_compile_externals E items compiler).result = ERROR_SUCCESS
        → n = items.length) :=
  process_compile_externals_loop_defines E items compiler none

/-- C16: both externals marshallers issue their define calls for a prefix of
the pairs, in order, each pair defined as the variable its type stands for in
the order boolean, integer, float, string (a boolean as a boolean variable, an
integer as an integer variable carrying `PyLong_AsLongLong` of it, which is
the integer itself in the 64-bit range); they return success only when every
pair was defined. A pair whose key is no string or whose value is of none of
the four types makes them fail: what was defined is what the pairs before it
defined, and when those were processed with success the returned code is
invalid-argument with a `TypeError` set. -/
theorem externals_classified_in_order (E : Engine) (C : CompileEnv)
    (pre post : List (PyKey × PyObject)) (bad : PyKey × PyObject)
    (scanner : YR_SCANNER) (compiler : YR_COMPILER) (h : external_of bad = none) :
    (∀ b, classify (PyObject.Bool b) = some (ExternalValue.boolean b)) ∧
    (∀ v : Int, -(2 ^ 63) ≤ v → v < 2 ^ 63 →
      classify (PyObject.Long v) = some (ExternalValue.integer v)) ∧
    (∀ items : List (PyKey × PyObject),
      (∃ n, n ≤ items.length ∧ (∀ item ∈ items.take n, external_of item ≠ none) ∧
        (process_match_externals E items scanner).scanner.defines =
          scanner.defines ++ (items.take n).filterMap external_of ∧
        ((process_match_externals E items scanner).result = ERROR_SUCCESS
          → n = items.length)) ∧
      (∃ n, n ≤ items.length ∧ (∀ item ∈ items.take n, external_of item ≠ none) ∧
        (process_compile_externals C items compiler).compiler.defines =
          compiler.defines ++ (items.take n).filterMap external_of ∧
        ((process_compile_externals C items compiler).result = ERROR_SUCCESS
          → n = items.length))) ∧
    ((process_match_externals E (pre ++ bad :: post) scanner).scanner =
        (process_match_externals E pre scanner).scanner ∧
      (process_match_externals E (pre ++ bad :: post) scanner).result ≠ ERROR_SUCCESS ∧
      ((process_match_externals E pre scanner).result = ERROR_SUCCESS →
        (process_match_externals E (pre ++ bad :: post) scanner).result
          = ERROR_INVALID_ARGUMENT ∧
        ((process_match_externals E (pre ++ bad :: post) scanner).err =
            some (PyErr.TypeError "keys of externals dict must be strings") ∨
          (process_match_externals E (pre ++ bad :: post) scanner).err =
            some (PyErr.TypeError
              "external values must be of type integer, float, boolean or string")))) ∧
    ((process_compile_externals C (pre ++ bad :: post) compiler).compiler =
        (process_compile_externals C pre compiler).compiler ∧
      (process_compile_externals C (pre ++ bad :: post) compiler).result ≠ ERROR_SUCCESS ∧
      ((process_compile_externals C pre compiler).result = ERROR_SUCCESS →
        (process_compile_externals C (pre ++ bad :: post) compiler).result
          = ERROR_INVALID_ARGUMENT ∧
        ((process_compile_externals C (pre ++ bad :: post) compiler).err =
            some (PyErr.TypeError "keys of externals dict must be strings") ∨
          (process_compile_externals C (pre ++ bad :: post) compiler).err =
            some (PyErr.TypeError
              "external values must be of type integer, float, boolean or string")))) := by
  obtain ⟨key, value⟩ := bad
  have hne : ERROR_INVALID_ARGUMENT ≠ ERROR_SUCCESS := by decide
  refine ⟨fun b => rfl, ?_, fun items => ⟨process_match_externals_defines E items scanner,
    process_compile_externals_defines C items compiler⟩, ?_, ?_⟩
  · intro v h1 h2
    simp only [classify, PyLong_AsLongLong]
    rw [if_pos ⟨h1, h2⟩]
  · unfold process_match_externals
    rw [process_match_externals_loop_append]
    by_cases hs : (process_match_externals_loop E pre scanner none).result = ERROR_SUCCESS
    · rw [if_pos hs]
      obtain ⟨h1, h2, h3⟩ := process_match_externals_loop_cons_none E key value post
        (process_match_externals_loop E pre scanner none).scanner
        (process_match_externals_loop E pre scanner none).err h
      refine ⟨h2, ?_, fun _ => ⟨h1, h3⟩⟩
      rw [h1]; exact hne
    · rw [if_neg hs]
      exact ⟨rfl, hs, fun hc => absurd hc hs⟩
  · unfold process_compile_externals
    rw [process_compile_externals_loop_append]
    by_cases hs : (process_compile_externals_loop C pre compiler none).result = ERROR_SUCCESS
    · rw [if_pos hs]
      obtain ⟨h1, h2, h3⟩ := process_compile_externals_loop_cons_none C key value post
        (process_compile_externals_loop C pre compiler none).compiler
        (process_compile_externals_loop C pre compiler none).err h
      refine ⟨h2, ?_, fun _ => ⟨h1, h3⟩⟩
      rw [h1]; exact hne
    · rw [if_neg hs]
      exact ⟨rfl, hs, fun hc => absurd hc hs⟩

/-- C16, at a mapping with a boolean, an integer, a value of no accepted type
and a string, in that order: both marshallers define the boolean as a boolean
variable and the integer as an integer variable, then fail with the
invalid-argument code; the string after the rejected pair is never defined. -/
theorem externals_classified_in_order_witness :
    external_of untyped_pair = none ∧
    (process_match_externals (example_engine one_match)
        (typed_pairs ++ untyped_pair :: [late_pair])
        (YR_SCANNER.fresh example_rules.rules)).scanner.defines =
      [("flag", ExternalValue.boolean true), ("count", ExternalValue.integer 7)] ∧
    (process_match_externals (example_engine one_match)
        (typed_pairs ++ untyped_pair :: [late_pair])
        (YR_SCANNER.fresh example_rules.rules)).result = ERROR_INVALID_ARGUMENT ∧
    (process_compile_externals example_env (typed_pairs ++ untyped_pair :: [late_pair])
        YR_COMPILER.fresh).compiler.defines =
      [("flag", ExternalValue.boolean true), ("count", ExternalValue.integer 7)] ∧
    (process_compile_externals example_env (typed_pairs ++ untyped_pair :: [late_pair])
        YR_COMPILER.fresh).result = ERROR_INVALID_ARGUMENT :=
  have t := externals_classified_in_order (example_engine one_match) example_env typed_pairs
    [late_pair] untyped_pair (YR_SCANNER.fresh example_rules.rules) YR_COMPILER.fresh rfl
  ⟨rfl, by rw [t.2.2.2.1.1]; rfl, (t.2.2.2.1.2.2 rfl).1, by rw [t.2.2.2.2.1]; rfl,
    (t.2.2.2.2.2.2 rfl).1⟩

theorem overflow_of_cases (value : PyObject) :
    overflow_of value = none ∨ overflow_of value = some PyErr.OverflowError := by
  cases value <;> simp [overflow_of, PyLong_AsLongLong]
  split <;> simp

theorem overflow_of_long (n : Int) :
    overflow_of (PyObject.Long n) = none ↔ (-(2 ^ 63) ≤ n ∧ n < 2 ^ 63) := by
  simp only [overflow_of, PyLong_AsLongLong]
  split <;> simp_all

/-- At scan time, when the engine answers every define call with success or
invalid-argument: a mapping of well-typed pairs is processed with success, and
the exception pending at the return is the one pending at the entry unless an
integer of the mapping did not fit, in which case it is `OverflowError`. -/
theorem process_match_externals_loop_tolerant (E : Engine)
    (htol : ∀ s id w, E.yr_scanner_define_variable s id w = ERROR_SUCCESS ∨
      E.yr_scanner_define_variable s id w = ERROR_INVALID_ARGUMENT)
    (items : List (PyKey × PyObject)) :
    ∀ (scanner : YR_SCANNER) (err : Option PyErr),
      (∀ item ∈ items, external_of item ≠ none) →
      (process_match_externals_loop E items scanner err).result = ERROR_SUCCESS ∧
      (process_match_externals_loop E items scanner err).scanner.defines =
        scanner.defines ++ items.filterMap external_of ∧
      ((∀ item ∈ items, overflow_of item.2 = none) →
        (process_match_externals_loop E items scanner err).err = err) ∧
      ((∃ item ∈ items, overflow_of item.2 ≠ none) →
        (process_match_externals_loop E items scanner err).err = some PyErr.OverflowError) := by
  induction items with
  | nil =>
    intro scanner err _
    refine ⟨by simp [process_match_externals_loop], by simp [process_match_externals_loop],
      fun _ => by simp [process_match_externals_loop], ?_⟩
    rintro ⟨item, hitem, _⟩
    cases hitem
  | cons item items ih =>
    intro scanner err hall
    obtain ⟨key, value⟩ := item
    cases h : external_of (key, value) with
    | none => exact absurd h (hall (key, value) (List.mem_cons_self _ _))
    | some iv =>
      obtain ⟨identifier, v⟩ := iv
      rw [process_match_externals_loop_cons_some E key value items scanner err identifier v h]
      unfold match_define
      simp only []
      have hno : ¬(E.yr_scanner_define_variable scanner identifier v ≠ ERROR_SUCCESS ∧
          E.yr_scanner_define_variable scanner identifier v ≠ ERROR_INVALID_ARGUMENT) := by
        rcases htol scanner identifier v with h1 | h1 <;> simp [h1]
      rw [if_neg hno]
      obtain ⟨h1, h2, h3, h4⟩ := ih
        { scanner with defines := scanner.defines ++ [(identifier, v)] }
        ((overflow_of value).or err)
        (fun item hitem => hall item (List.mem_cons_of_mem _ hitem))
      refine ⟨h1, ?_, ?_, ?_⟩
      · rw [h2]; simp [h]
      · intro hnone
        have hv : overflow_of value = none := hnone (key, value) (List.mem_cons_self _ _)
        rw [h3 (fun item hitem => hnone item (List.mem_cons_of_mem _ hitem)), hv]
        rfl
      · rintro ⟨item, hitem, hsome⟩
        by_cases hrest : ∃ item ∈ items, overflow_of item.2 ≠ none
        · exact h4 hrest
        · have hnone : ∀ item ∈ items, overflow_of item.2 = none := by
            intro it hit
            by_contra hc
            exact hrest ⟨it, hit, hc⟩
          rw [h3 hnone]
          rcases List.mem_cons.mp hitem with rfl | hitem
          · rcases overflow_of_cases value with hv | hv
            · exact absurd hv hsome
            · rw [hv]
              rfl
          · exact absurd (hnone item hitem) hsome

theorem process_match_externals_hard (E : Engine) (pre rest : List (PyKey × PyObject))
    (key : PyKey) (value : PyObject) (identifier : String) (v : ExternalValue)
    (h : external_of (key, value) = some (identifier, v)) (scanner : YR_SCANNER) (e : Int)
    (hpre : (process_match_externals E pre scanner).result = ERROR_SUCCESS)
    (hdef : E.yr_scanner_define_variable (process_match_externals E pre scanner).scanner
      identifier v = e)
    (h1 : e ≠ ERROR_SUCCESS) (h2 : e ≠ ERROR_INVALID_ARGUMENT) :
    process_match_externals E (pre ++ (key, value) :: rest) scanner =
      { result := e, err := some (handle_error e identifier)
        scanner := { (process_match_externals E pre scanner).scanner with
          defines := (process_match_externals E pre scanner).scanner.defines
            ++ [(identifier, v)] } } := by
  unfold process_match_externals at hpre hdef ⊢
  rw [process_match_externals_loop_append, if_pos hpre,
    process_match_externals_loop_cons_some E key value rest _ _ identifier v h]
  unfold match_define
  simp only []
  rw [hdef, if_pos ⟨h1, h2⟩]

theorem process_compile_externals_hard (E : CompileEnv) (pre rest : List (PyKey × PyObject))
    (key : PyKey) (value : PyObject) (identifier : String) (v : ExternalValue)
    (h : external_of (key, value) = some (identifier, v)) (compiler : YR_COMPILER) (e : Int)
    (hpre : (process_compile_externals E pre compiler).result = ERROR_SUCCESS)
    (hdef : E.yr_compiler_define_variable (process_compile_externals E pre compiler).compiler
      identifier v = e)
    (h1 : e ≠ ERROR_SUCCESS) :
    process_compile_externals E (pre ++ (key, value) :: rest) compiler =
      { result := e, err := some (handle_error e identifier)
        compiler := { (process_compile_externals E pre compiler).compiler with
          defines := (process_compile_externals E pre compiler).compiler.defines
            ++ [(identifier, v)] } } := by
  unfold process_compile_externals at hpre hdef ⊢
  rw [process_compile_externals_loop_append, if_pos hpre,
    process_compile_externals_loop_cons_some E key value rest _ _ identifier v h]
  unfold compile_define
  simp only []
  rw [hdef, if_pos h1]

/-- A call of `Rules_match` is rejected by a check of its arguments with a
`TypeError`, or it is the creation of the scanner and what follows. -/
theorem Rules_match_validated (E : Engine) (rts : Nat → Runtime) (object : Rules)
    (args : MatchArgs) :
    (∃ msg, Rules_match E rts object (some args) =
        { value := Except.error (PyErr.TypeError msg), scan := none }) ∨
      ∃ cd, Rules_match E rts object (some args) =
        Rules_match_scan E rts object args.filepath (args.pid.getD (-1)) args.data
          args.externals args.fast (args.timeout.getD 0) cd := by
  unfold Rules_match
  simp only []
  split
  · left; exact ⟨_, rfl⟩
  split
  · left; exact ⟨_, rfl⟩
  split
  · left; exact ⟨_, rfl⟩
  split
  · left; exact ⟨_, rfl⟩
  split
  · left; exact ⟨_, rfl⟩
  split
  · rename_i e he
    left
    split at he
    · cases he
    · cases he
    · cases he; exact ⟨_, rfl⟩
  · right; exact ⟨_, rfl⟩

theorem Rules_match_scan_hard (E : Engine) (rts : Nat → Runtime) (object : Rules)
    (filepath : Option String) (pid : Int) (data : Option (List Byte))
    (items : List (PyKey × PyObject)) (fast : Option PyObject) (timeout : Int)
    (callback_data : CALLBACK_DATA) (e : PyErr)
    (hc : E.yr_scanner_create object.rules = 0)
    (hr : (process_match_externals E items (YR_SCANNER.fresh object.rules)).result
      ≠ ERROR_SUCCESS)
    (he : (process_match_externals E items (YR_SCANNER.fresh object.rules)).err = some e) :
    Rules_match_scan E rts object filepath pid data (some (PyObject.Dict items)) fast timeout
      callback_data = { value := Except.error e, scan := none } := by
  unfold Rules_match_scan
  simp only []
  rw [if_neg (by simp [hc])]
  unfold YR_SCANNER.fresh at hr he
  rw [if_pos hr, he]
  rfl

/-- The checks of the four option arguments of `yara_compile` either reject
the call with a `TypeError`, or hand a compiler with the same define and
add-source calls to the handling of `externals`. -/
theorem yara_compile_options_cases (E : CompileEnv) (args : CompileArgs)
    (compiler : YR_COMPILER) :
    (∃ msg c, yara_compile_options E args compiler = Except.error (PyErr.TypeError msg, c)) ∨
      ∃ c warning_error, c.defines = compiler.defines ∧ c.added = compiler.added ∧
        yara_compile_options E args compiler =
          yara_compile_externals E args.externals c warning_error := by
  unfold yara_compile_options
  split
  · left; exact ⟨_, _, rfl⟩
  split
  · left; exact ⟨_, _, rfl⟩
  rename_i c1 hc1
  split
  · left; exact ⟨_, _, rfl⟩
  rename_i c2 hc2
  split
  · left; exact ⟨_, _, rfl⟩
  rename_i c3 hc3
  right
  refine ⟨c3, _, ?_, ?_, rfl⟩
  · have e1 : c1.defines = compiler.defines := by
      split at hc1
      · cases hc1; rfl
      · split at hc1
        · cases hc1; rfl
        · cases hc1
    have e2 : c2.defines = c1.defines := by
      split at hc2
      · cases hc2; rfl
      · split at hc2
        · split at hc2 <;> cases hc2 <;> rfl
        · cases hc2
    have e3 : c3.defines = c2.defines := by
      split at hc3
      · cases hc3; rfl
      · split at hc3
        · cases hc3
        · cases hc3; rfl
    rw [e3, e2, e1]
  · have e1 : c1.added = compiler.added := by
      split at hc1
      · cases hc1; rfl
      · split at hc1
        · cases hc1; rfl
        · cases hc1
    have e2 : c2.added = c1.added := by
      split at hc2
      · cases hc2; rfl
      · split at hc2
        · split at hc2 <;> cases hc2 <;> rfl
        · cases hc2
    have e3 : c3.added = c2.added := by
      split at hc3
      · cases hc3; rfl
      · split at hc3
        · cases hc3
        · cases hc3; rfl
    rw [e3, e2, e1]

theorem yara_compile_externals_hard (E : CompileEnv) (items : List (PyKey × PyObject))
    (compiler : YR_COMPILER) (warning_error : Bool) (e : PyErr)
    (hr : (process_compile_externals E items compiler).result ≠ ERROR_SUCCESS)
    (he : (process_compile_externals E items compiler).err = some e) :
    yara_compile_externals E (some (PyObject.Dict items)) compiler warning_error =
      Except.error (e, (process_compile_externals E items compiler).compiler) := by
  unfold yara_compile_externals
  simp only []
  rw [if_pos hr, he]
  rfl

/-- A list that `Rules_match` returns after processing a dictionary of
externals is returned with the exception pending that the marshaller left. -/
theorem Rules_match_scan_pending (E : Engine) (rts : Nat → Runtime) (object : Rules)
    (filepath : Option String) (pid : Int) (data : Option (List Byte))
    (items : List (PyKey × PyObject)) (fast : Option PyObject) (timeout : Int)
    (callback_data : CALLBACK_DATA) (target : Target) (run : ScanRun)
    (h : (Rules_match_scan E rts object filepath pid data (some (PyObject.Dict items)) fast
      timeout callback_data).scan = some (target, run)) :
    (Rules_match_scan E rts object filepath pid data (some (PyObject.Dict items)) fast timeout
      callback_data).pending =
        (process_match_externals E items (YR_SCANNER.fresh object.rules)).err := by
  unfold Rules_match_scan at h ⊢
  unfold YR_SCANNER.fresh
  simp only [] at h ⊢
  by_cases hc : E.yr_scanner_create object.rules ≠ 0
  · rw [if_pos hc] at h
    cases h
  · rw [if_neg hc] at h ⊢
    by_cases hr : (process_match_externals E items
        { rules := object.rules, defines := [], flags := 0, timeout := 0 }).result
        ≠ ERROR_SUCCESS
    · rw [if_pos hr] at h
      cases h
    · rw [if_neg hr] at h ⊢
      simp only [] at h ⊢
      split at h
      · cases h
      · rfl

/-- C17: for a well-typed pair of an externals mapping. At scan time: when the
engine answers the define call with invalid-argument (the variable was not
defined at compile time) the marshaller goes on with the remaining pairs as if
the call had succeeded: it returns what the remaining pairs make it return,
and a mapping of well-typed pairs whose define calls are all answered with
success or invalid-argument is processed with success. No exception is set for
the pair that was passed over; the one exception that can be pending at a
successful return is the `OverflowError` that `PyLong_AsLongLong` sets for an
integer outside the 64-bit range, which the marshaller does not test for, and
a list that `match` returns is then returned with it pending. When the engine
answers with another error the marshaller stops with that code and the
exception `handle_error` makes of it, the pairs after it are not processed,
and the call of `match` fails without starting a scan, with that exception
unless a check of its arguments rejected the call with a `TypeError` before.
At compile time every answer other than success stops the marshaller with that
code and its exception, and `compile` fails without reading a source. -/
theorem scan_externals_tolerate_undefined (E : Engine) (C : CompileEnv)
    (rts : Nat → Runtime) (object : Rules) (pre rest : List (PyKey × PyObject))
    (key : PyKey) (value : PyObject) (identifier : String) (v : ExternalValue)
    (h : external_of (key, value) = some (identifier, v)) :
    (∀ scanner, E.yr_scanner_define_variable scanner identifier v = ERROR_INVALID_ARGUMENT →
      (process_match_externals E ((key, value) :: rest) scanner).result =
        (process_match_externals E rest
          { scanner with defines := scanner.defines ++ [(identifier, v)] }).result ∧
      (process_match_externals E ((key, value) :: rest) scanner).scanner =
        (process_match_externals E rest
          { scanner with defines := scanner.defines ++ [(identifier, v)] }).scanner ∧
      (process_match_externals E ((key, value) :: rest) scanner).err =
        ((process_match_externals E rest
          { scanner with defines := scanner.defines ++ [(identifier, v)] }).err).or
            (overflow_of value) ∧
      (overflow_of value = none →
        process_match_externals E ((key, value) :: rest) scanner =
          process_match_externals E rest
            { scanner with defines := scanner.defines ++ [(identifier, v)] })) ∧
    (∀ items scanner, (∀ item ∈ items, external_of item ≠ none) →
      (∀ s id w, E.yr_scanner_define_variable s id w = ERROR_SUCCESS ∨
        E.yr_scanner_define_variable s id w = ERROR_INVALID_ARGUMENT) →
      (process_match_externals E items scanner).result = ERROR_SUCCESS ∧
      ((∀ item ∈ items, overflow_of item.2 = none) →
        (process_match_externals E items scanner).err = none) ∧
      ((∃ item ∈ items, overflow_of item.2 ≠ none) →
        (process_match_externals E items scanner).err = some PyErr.OverflowError) ∧
      (process_match_externals E items scanner).scanner.defines =
        scanner.defines ++ items.filterMap external_of) ∧
    (∀ scanner e, (process_match_externals E pre scanner).result = ERROR_SUCCESS →
      E.yr_scanner_define_variable (process_match_externals E pre scanner).scanner
        identifier v = e →
      e ≠ ERROR_SUCCESS → e ≠ ERROR_INVALID_ARGUMENT →
      process_match_externals E (pre ++ (key, value) :: rest) scanner =
        { result := e, err := some (handle_error e identifier)
          scanner := { (process_match_externals E pre scanner).scanner with
            defines := (process_match_externals E pre scanner).scanner.defines
              ++ [(identifier, v)] } }) ∧
    (∀ args e, args.externals = some (PyObject.Dict (pre ++ (key, value) :: rest)) →
      E.yr_scanner_create object.rules = 0 →
      (process_match_externals E pre (YR_SCANNER.fresh object.rules)).result = ERROR_SUCCESS →
      E.yr_scanner_define_variable
        (process_match_externals E pre (YR_SCANNER.fresh object.rules)).scanner
        identifier v = e →
      e ≠ ERROR_SUCCESS → e ≠ ERROR_INVALID_ARGUMENT →
      (Rules_match E rts object (some args)).scan = none ∧
      ((Rules_match E rts object (some args)).value = Except.error (handle_error e identifier) ∨
        ∃ msg, (Rules_match E rts object (some args)).value
          = Except.error (PyErr.TypeError msg))) ∧
    (∀ compiler e, (process_compile_externals C pre compiler).result = ERROR_SUCCESS →
      C.yr_compiler_define_variable (process_compile_externals C pre compiler).compiler
        identifier v = e →
      e ≠ ERROR_SUCCESS →
      process_compile_externals C (pre ++ (key, value) :: rest) compiler =
        { result := e, err := some (handle_error e identifier)
          compiler := { (process_compile_externals C pre compiler).compiler with
            defines := (process_compile_externals C pre compiler).compiler.defines
              ++ [(identifier, v)] } }) ∧
    (∀ args e, args.externals = some (PyObject.Dict (pre ++ (key, value) :: rest)) →
      num_args args ≤ 1 → C.yr_compiler_create = ERROR_SUCCESS →
      (∀ c, (process_compile_externals C pre c).result = ERROR_SUCCESS) →
      (∀ c, C.yr_compiler_define_variable c identifier v = e) →
      e ≠ ERROR_SUCCESS →
      (yara_compile C (some args)).trace = [CompileEffect.yr_compiler_create] ∧
      ((yara_compile C (some args)).value = Except.error (handle_error e identifier) ∨
        ∃ msg, (yara_compile C (some args)).value = Except.error (PyErr.TypeError msg))) ∧
    ((∀ n : Int, overflow_of (PyObject.Long n) = none ↔ (-(2 ^ 63) ≤ n ∧ n < 2 ^ 63)) ∧
      ∀ o, (∀ n : Int, o ≠ PyObject.Long n) → overflow_of o = none) ∧
    (∀ args items target run, args.externals = some (PyObject.Dict items) →
      (Rules_match E rts object (some args)).scan = some (target, run) →
      (Rules_match E rts object (some args)).pending =
        (process_match_externals E items (YR_SCANNER.fresh object.rules)).err) := by
  refine ⟨?_, ?_, ?_, ?_, ?_, ?_, ⟨overflow_of_long, ?_⟩, ?_⟩
  · intro scanner hdef
    unfold process_match_externals
    rw [process_match_externals_loop_cons_some E key value rest scanner none identifier v h]
    unfold match_define
    simp only []
    rw [hdef, if_neg (by simp), Option.or_none]
    obtain ⟨a1, a2, a3⟩ := process_match_externals_loop_pending E rest
      { scanner with defines := scanner.defines ++ [(identifier, v)] } (overflow_of value)
    refine ⟨a1, a2, a3, ?_⟩
    intro hv
    rw [hv]
  · intro items scanner hall htol
    obtain ⟨t1, t2, t3, t4⟩ :=
      process_match_externals_loop_tolerant E htol items scanner none hall
    exact ⟨t1, t3, t4, t2⟩
  · intro scanner e hpre hdef h1 h2
    exact process_match_externals_hard E pre rest key value identifier v h scanner e hpre hdef
      h1 h2
  · intro args e hext hc hpre hdef h1 h2
    have hp := process_match_externals_hard E pre rest key value identifier v h
      (YR_SCANNER.fresh object.rules) e hpre hdef h1 h2
    rcases Rules_match_validated E rts object args with ⟨msg, hm⟩ | ⟨cd, hm⟩
    · rw [hm]
      exact ⟨rfl, Or.inr ⟨msg, rfl⟩⟩
    · rw [hm, hext, Rules_match_scan_hard E rts object _ _ _ _ _ _ cd (handle_error e identifier)
        hc (by rw [hp]; exact h1) (by rw [hp])]
      exact ⟨rfl, Or.inl rfl⟩
  · intro compiler e hpre hdef h1
    exact process_compile_externals_hard C pre rest key value identifier v h compiler e hpre
      hdef h1
  · intro args e hext hn hc hpre hdef h1
    unfold yara_compile
    simp only []
    rw [if_neg (by omega), if_neg (by simp [hc])]
    rcases yara_compile_options_cases C args YR_COMPILER.fresh with
      ⟨msg, c, ho⟩ | ⟨c, we, _, _, ho⟩
    · rw [ho]
      exact ⟨rfl, Or.inr ⟨msg, rfl⟩⟩
    · have hp := process_compile_externals_hard C pre rest key value identifier v h c e
        (hpre c) (hdef _) h1
      rw [ho, hext, yara_compile_externals_hard C _ c we (handle_error e identifier)
        (by rw [hp]; exact h1) (by rw [hp])]
      exact ⟨rfl, Or.inl rfl⟩
  · intro o ho
    cases o <;> first | rfl | exact absurd rfl (ho _)
  · intro args items target run hext hscan
    rcases Rules_match_validated E rts object args with ⟨msg, hm⟩ | ⟨cd, hm⟩
    · rw [hm] at hscan
      cases hscan
    · rw [hm, hext] at hscan ⊢
      exact Rules_match_scan_pending E rts object _ _ _ items _ _ cd target run hscan

/-- C17, at a mapping that gives an integer `extra`, which the rules do not
declare, and then `known` as a string where the rules declare an integer: at
scan time `extra` is passed over, `known` stops the marshaller, and `match`
raises the type-mismatch error without scanning; at compile time the conflict
on `known` makes `compile` raise the same error without reading the source.
And at a mapping that gives the integer `2 ^ 63`: the marshaller defines it as
`-1` and returns success with `OverflowError` pending; `match` returns its list
with that exception pending, and `compile` raises it. -/
theorem scan_externals_tolerate_undefined_witness :
    external_of (PyKey.Str "known", PyObject.Str "s")
      = some ("known", ExternalValue.string "s") ∧
    (process_match_externals picky_engine [(PyKey.Str "extra", PyObject.Long 1)]
      (YR_SCANNER.fresh example_rules.rules)).result = ERROR_SUCCESS ∧
    (Rules_match picky_engine (fun _ => healthy) example_rules (some mismatch_args)).scan
      = none ∧
    (Rules_match picky_engine (fun _ => healthy) example_rules (some mismatch_args)).value
      = Except.error (PyErr.YaraError
          "external variable \"known\" was already defined with a different type") ∧
    (yara_compile picky_env (some conflict_args)).trace = [CompileEffect.yr_compiler_create] ∧
    (yara_compile picky_env (some conflict_args)).value
      = Except.error (PyErr.YaraError
          "external variable \"known\" was already defined with a different type") ∧
    (process_match_externals (example_engine one_match) [overflowing_pair]
      (YR_SCANNER.fresh example_rules.rules)).result = ERROR_SUCCESS ∧
    (process_match_externals (example_engine one_match) [overflowing_pair]
      (YR_SCANNER.fresh example_rules.rules)).err = some PyErr.OverflowError ∧
    (process_match_externals (example_engine one_match) [overflowing_pair]
      (YR_SCANNER.fresh example_rules.rules)).scanner.defines
      = [("big", ExternalValue.integer (-1))] ∧
    (∃ ms, (Rules_match (example_engine one_match) (fun _ => healthy) example_rules
      (some overflow_match_args)).value = Except.ok ms) ∧
    (Rules_match (example_engine one_match) (fun _ => healthy) example_rules
      (some overflow_match_args)).pending = some PyErr.OverflowError ∧
    (yara_compile example_env (some overflow_compile_args)).value
      = Except.error PyErr.OverflowError :=
  have t := scan_externals_tolerate_undefined picky_engine picky_env (fun _ => healthy)
    example_rules [(PyKey.Str "extra", PyObject.Long 1)] [] (PyKey.Str "known")
    (PyObject.Str "s") "known" (ExternalValue.string "s") rfl
  have ts := t.2.2.2.1 mismatch_args ERROR_INVALID_EXTERNAL_VARIABLE_TYPE rfl rfl rfl rfl
    (by decide) (by decide)
  have tc := t.2.2.2.2.2.1 conflict_args ERROR_INVALID_EXTERNAL_VARIABLE_TYPE rfl (by decide)
    rfl (fun _ => rfl) (fun _ => rfl) (by decide)
  have tv := (scan_externals_tolerate_undefined (example_engine one_match) picky_env
    (fun _ => healthy) example_rules [] [] (PyKey.Str "known") (PyObject.Str "s") "known"
    (ExternalValue.string "s") rfl).2.1 [overflowing_pair]
    (YR_SCANNER.fresh example_rules.rules)
    (fun item hi => by
      rw [List.mem_singleton.mp hi]
      intro hc
      cases hc)
    (fun _ _ _ => Or.inl rfl)
  ⟨rfl, rfl, ts.1, rfl, tc.1, rfl, tv.1,
    tv.2.2.1 ⟨overflowing_pair, List.mem_singleton.mpr rfl, by
      intro hc
      cases hc⟩,
    by rw [tv.2.2.2]; rfl, ⟨_, rfl⟩, rfl, rfl⟩

/-! ## The sources of `compile` -/

theorem num_args_zero (args : CompileArgs) (h : num_args args = 0) :
    args.filepath = none ∧ args.source = none ∧ args.file = none ∧
      args.filepaths_dict = none ∧ args.sources_dict = none := by
  unfold num_args at h
  cases h1 : args.filepath <;> cases h2 : args.source <;> cases h3 : args.file <;>
    cases h4 : args.filepaths_dict <;> cases h5 : args.sources_dict <;>
    simp [h1, h2, h3, h4, h5] at h ⊢

theorem yara_compile_sources_none (E : CompileEnv) (args : CompileArgs)
    (compiler : YR_COMPILER) (st : CompileState) (h : num_args args = 0) :
    yara_compile_sources E args compiler st =
      (compiler, { st with err := some (PyErr.TypeError "compile() takes 1 argument") }) := by
  obtain ⟨h1, h2, h3, h4, h5⟩ := num_args_zero args h
  unfold yara_compile_sources
  rw [h1, h2, h3, h4, h5]

theorem yara_compile_finish_error (E : CompileEnv) (externals : Option PyObject)
    (warning_error : Bool) (compiler : YR_COMPILER) (st : CompileState) (e : PyErr)
    (hw : st.warnings = []) (he : st.err = some e) :
    yara_compile_finish E externals warning_error compiler st =
      { value := Except.error e, compiler := some compiler, warnings := [], trace := st.trace } := by
  unfold yara_compile_finish
  simp only []
  rw [if_neg (by simp [hw]), he, hw]

theorem process_compile_externals_loop_accepted (E : CompileEnv)
    (hacc : ∀ c id v, E.yr_compiler_define_variable c id v = ERROR_SUCCESS)
    (items : List (PyKey × PyObject)) :
    ∀ (compiler : YR_COMPILER) (err : Option PyErr),
      (process_compile_externals_loop E items compiler err).result = ERROR_SUCCESS ∨
      ∃ msg, (process_compile_externals_loop E items compiler err).err
        = some (PyErr.TypeError msg) := by
  induction items with
  | nil => intro compiler err; left; simp [process_compile_externals_loop]
  | cons item items ih =>
    intro compiler err
    obtain ⟨key, value⟩ := item
    cases h : external_of (key, value) with
    | none =>
      obtain ⟨_, _, h3⟩ := process_compile_externals_loop_cons_none E key value items compiler
        err h
      right
      rcases h3 with h3 | h3
      · exact ⟨_, h3⟩
      · exact ⟨_, h3⟩
    | some iv =>
      obtain ⟨identifier, v⟩ := iv
      rw [process_compile_externals_loop_cons_some E key value items compiler err identifier v
        h]
      unfold compile_define
      simp only []
      rw [if_neg (by simp [hacc])]
      exact ih _ _

theorem process_compile_externals_accepted (E : CompileEnv)
    (hacc : ∀ c id v, E.yr_compiler_define_variable c id v = ERROR_SUCCESS)
    (items : List (PyKey × PyObject)) (compiler : YR_COMPILER) :
    (process_compile_externals E items compiler).result = ERROR_SUCCESS ∨
      ∃ msg, (process_compile_externals E items compiler).err = some (PyErr.TypeError msg) :=
  process_compile_externals_loop_accepted E hacc items compiler none

theorem yara_compile_options_accepted (E : CompileEnv)
    (hacc : ∀ c id v, E.yr_compiler_define_variable c id v = ERROR_SUCCESS)
    (args : CompileArgs) (compiler c : YR_COMPILER) (e : PyErr)
    (h : yara_compile_options E args compiler = Except.error (e, c)) :
    ∃ msg, e = PyErr.TypeError msg := by
  rcases yara_compile_options_cases E args compiler with ⟨msg, c2, ho⟩ | ⟨c2, we, _, _, ho⟩
  · rw [ho] at h
    cases h
    exact ⟨msg, rfl⟩
  · rw [ho] at h
    unfold yara_compile_externals at h
    split at h
    · cases h
    · cases h
    · rename_i items _
      simp only [] at h
      split at h
      · rcases process_compile_externals_accepted E hacc items c2 with hr | ⟨msg, hm⟩
        · rename_i hne
          exact absurd hr hne
        · rw [hm] at h
          cases h
          exact ⟨msg, rfl⟩
      · cases h
    · cases h
      exact ⟨_, rfl⟩

/-- What `yara_compile` does when none of the five sources is given: it fails
having made no step beyond the creation of the compiler. -/
theorem yara_compile_no_source (E : CompileEnv) (args : CompileArgs)
    (h : num_args args = 0) :
    (∃ e, (yara_compile E (some args)).value = Except.error e) ∧
      (yara_compile E (some args)).trace = [CompileEffect.yr_compiler_create] ∧
      (E.yr_compiler_create = ERROR_SUCCESS →
        (∀ c id v, E.yr_compiler_define_variable c id v = ERROR_SUCCESS) →
        ∃ msg, (yara_compile E (some args)).value = Except.error (PyErr.TypeError msg)) ∧
      (E.yr_compiler_create = ERROR_SUCCESS →
        ∀ c warning_error pending,
          yara_compile_options E args YR_COMPILER.fresh
            = Except.ok (c, warning_error, pending) →
          (yara_compile E (some args)).value =
            Except.error (PyErr.TypeError "compile() takes 1 argument")) := by
  unfold yara_compile
  simp only []
  rw [if_neg (by omega)]
  by_cases hc : E.yr_compiler_create = ERROR_SUCCESS
  · rw [if_neg (by simp [hc])]
    cases ho : yara_compile_options E args YR_COMPILER.fresh with
    | error ec =>
      obtain ⟨e, c⟩ := ec
      refine ⟨⟨e, rfl⟩, rfl, ?_, ?_⟩
      · intro _ hacc
        obtain ⟨msg, hm⟩ := yara_compile_options_accepted E hacc args _ c e ho
        exact ⟨msg, by rw [hm]⟩
      · intro _ c2 we p hh
        cases hh
    | ok cw =>
      obtain ⟨c, we, p⟩ := cw
      simp only []
      rw [yara_compile_sources_none E args c _ h,
        yara_compile_finish_error E args.externals we c _
          (PyErr.TypeError "compile() takes 1 argument") rfl rfl]
      exact ⟨⟨_, rfl⟩, rfl, fun _ _ => ⟨_, rfl⟩, fun _ _ _ _ _ => rfl⟩
  · rw [if_pos hc]
    exact ⟨⟨_, rfl⟩, rfl, fun h1 => absurd h1 hc, fun h1 => absurd h1 hc⟩

/-- C20: a call of `compile` that gives more than one of `filepath`, `source`,
`file`, `filepaths`, `sources` raises `TypeError` ("compile is receiving too
many arguments") before any step is made: no compiler is created, no file
opened, no source handed to the engine. A call that gives none of them always
fails, without opening a file or handing a source to the engine; the exception
is a `TypeError` whenever the engine creates the compiler and accepts the
external variables, and it is "compile() takes 1 argument" whenever the
compiler is created and the option arguments and externals are accepted. A
call in which an add-source function of the engine is called gives exactly one
of the five. -/
theorem compile_takes_one_source (E : CompileEnv) (args : CompileArgs) :
    (num_args args > 1 →
      (yara_compile E (some args)).value =
        Except.error (PyErr.TypeError "compile is receiving too many arguments") ∧
      (yara_compile E (some args)).trace = [] ∧
      (yara_compile E (some args)).compiler = none ∧
      ¬ reads_source (yara_compile E (some args))) ∧
    (num_args args = 0 →
      (∃ e, (yara_compile E (some args)).value = Except.error e) ∧
      ¬ reads_source (yara_compile E (some args)) ∧
      ¬ reaches_add_source (yara_compile E (some args)) ∧
      (E.yr_compiler_create = ERROR_SUCCESS →
        (∀ c id v, E.yr_compiler_define_variable c id v = ERROR_SUCCESS) →
        ∃ msg, (yara_compile E (some args)).value = Except.error (PyErr.TypeError msg)) ∧
      (E.yr_compiler_create = ERROR_SUCCESS →
        ∀ c warning_error pending,
          yara_compile_options E args YR_COMPILER.fresh
            = Except.ok (c, warning_error, pending) →
          (yara_compile E (some args)).value =
            Except.error (PyErr.TypeError "compile() takes 1 argument"))) ∧
    (reaches_add_source (yara_compile E (some args)) → num_args args = 1) := by
  have many : num_args args > 1 →
      yara_compile E (some args) =
        { value := Except.error (PyErr.TypeError "compile is receiving too many arguments")
          compiler := none, warnings := [], trace := [] } := by
    intro h
    unfold yara_compile
    simp only []
    rw [if_pos h]
  have noread : ∀ r : CompileResult,
      r.trace = [] ∨ r.trace = [CompileEffect.yr_compiler_create] →
      ¬ reads_source r ∧ ¬ reaches_add_source r := by
    intro r hr
    constructor
    · rintro ⟨eff, hmem, hk⟩
      rcases hr with hr | hr
      · rw [hr] at hmem
        cases hmem
      · rw [hr, List.mem_singleton] at hmem
        subst hmem
        rcases hk with ⟨_, hk⟩ | ⟨_, hk⟩ | ⟨_, hk⟩ <;> cases hk
    · rintro ⟨source, hmem⟩
      rcases hr with hr | hr
      · rw [hr] at hmem
        cases hmem
      · rw [hr, List.mem_singleton] at hmem
        cases hmem
  refine ⟨?_, ?_, ?_⟩
  · intro h
    rw [many h]
    exact ⟨rfl, rfl, rfl, (noread _ (Or.inl rfl)).1⟩
  · intro h
    obtain ⟨h1, h2, h3, h4⟩ := yara_compile_no_source E args h
    exact ⟨h1, (noread _ (Or.inr h2)).1, (noread _ (Or.inr h2)).2, h3, h4⟩
  · intro hreach
    by_contra hne
    rcases Nat.lt_or_gt_of_ne hne with hlt | hgt
    · have h0 : num_args args = 0 := by omega
      exact (noread _ (Or.inr (yara_compile_no_source E args h0).2.1)).2 hreach
    · have ht : (yara_compile E (some args)).trace = [] := by rw [many hgt]
      exact (noread _ (Or.inl ht)).2 hreach

/-- C20, at three calls in an environment where every engine call succeeds: a
source string and a file path together are rejected before anything is done;
no argument at all is rejected with "compile() takes 1 argument"; and the call
with the source string alone, which hands it to the engine, counts one
source. -/
theorem compile_takes_one_source_witness :
    num_args two_source_args > 1 ∧
    (yara_compile example_env (some two_source_args)).value =
      Except.error (PyErr.TypeError "compile is receiving too many arguments") ∧
    (yara_compile example_env (some two_source_args)).trace = [] ∧
    num_args CompileArgs.empty = 0 ∧
    (yara_compile example_env (some CompileArgs.empty)).value =
      Except.error (PyErr.TypeError "compile() takes 1 argument") ∧
    reaches_add_source (yara_compile example_env (some source_args)) ∧
    num_args source_args = 1 :=
  have hreach : reaches_add_source (yara_compile example_env (some source_args)) :=
    ⟨Source.string "rule r \x7b condition: true \x7d" none, by
      simp [yara_compile, source_args, CompileArgs.empty, num_args, example_env,
        yara_compile_options, yara_compile_externals, yara_compile_sources, add_source,
        yara_compile_finish, compiler_callbacks, ERROR_SUCCESS]⟩
  ⟨by decide,
    ((compile_takes_one_source example_env two_source_args).1 (by decide)).1,
    ((compile_takes_one_source example_env two_source_args).1 (by decide)).2.1,
    by decide,
    ((compile_takes_one_source example_env CompileArgs.empty).2.1 (by decide)).2.2.2.2 rfl
      YR_COMPILER.fresh false none rfl,
    hreach,
    (compile_takes_one_source example_env source_args).2.2 hreach⟩

/-! ## The stream shims -/

theorem memcpy_at_eq (ptr src : List Byte) (offset n : Nat) :
    memcpy_at ptr offset src n = (ptr.take offset ++ src.take n) ++ ptr.drop (offset + n) := by
  simp only [memcpy_at, memcpy, List.drop_drop, List.append_assoc]

theorem memcpy_at_length (ptr src : List Byte) (offset n : Nat)
    (h : offset + n ≤ ptr.length) (hs : n ≤ src.length) :
    (memcpy_at ptr offset src n).length = ptr.length := by
  rw [memcpy_at_eq]
  simp only [List.length_append, List.length_take, List.length_drop]
  omega

theorem memcpy_at_take (ptr src : List Byte) (offset n : Nat)
    (h : offset + n ≤ ptr.length) (hs : n ≤ src.length) :
    (memcpy_at ptr offset src n).take (offset + n) = ptr.take offset ++ src.take n := by
  rw [memcpy_at_eq]
  have hl : (ptr.take offset ++ src.take n).length = offset + n := by
    simp only [List.length_append, List.length_take]
    omega
  rw [← hl, List.take_left]

theorem memcpy_at_drop (ptr src : List Byte) (offset n m : Nat)
    (h : offset + n ≤ ptr.length) (hs : n ≤ src.length) (hm : offset + n ≤ m) :
    (memcpy_at ptr offset src n).drop m = ptr.drop m := by
  rw [memcpy_at_eq]
  have hl : (ptr.take offset ++ src.take n).length = offset + n := by
    simp only [List.length_append, List.length_take]
    omega
  obtain ⟨k, rfl⟩ := Nat.exists_eq_add_of_le hm
  rw [← hl, List.drop_append, List.drop_drop, hl]

theorem full_read_iff (size : Nat) (a : Option PyObject) :
    full_read size a = true ↔ ∃ b, a = some (PyObject.Bytes b) ∧ size ≤ b.length := by
  cases a with
  | none => simp [full_read]
  | some o => cases o <;> simp [full_read]

/-- The loop of `flo_read` stops at the first call of `read` that is not a
full read: what it returns, the calls it made, the state it leaves and the
memory it wrote, in terms of the answers of the successive calls. -/
theorem flo_read_loop_spec {σ : Type} (f : FileLike σ) (size count : Nat) :
    ∀ (todo i : Nat) (ptr : List Byte) (s : σ) (calls : List Int), i + todo = count →
      (flo_read_loop f size count todo i ptr s calls).result =
        i + ((successive f.read (List.replicate todo (to_int64 size)) s).takeWhile
          (full_read size)).length ∧
      (flo_read_loop f size count todo i ptr s calls).calls =
        calls ++ List.replicate (min todo
          (((successive f.read (List.replicate todo (to_int64 size)) s).takeWhile
            (full_read size)).length + 1)) (to_int64 size) ∧
      (flo_read_loop f size count todo i ptr s calls).user_data =
        state_after f.read (List.replicate (min todo
          (((successive f.read (List.replicate todo (to_int64 size)) s).takeWhile
            (full_read size)).length + 1)) (to_int64 size)) s ∧
      ((i + todo) * size ≤ ptr.length →
        (flo_read_loop f size count todo i ptr s calls).ptr =
          ptr.take (i * size) ++
            (((successive f.read (List.replicate todo (to_int64 size)) s).takeWhile
              (full_read size)).map (fun a => (chunk_of a).take size)).flatten ++
            ptr.drop ((i + ((successive f.read (List.replicate todo (to_int64 size))
              s).takeWhile (full_read size)).length) * size)) := by
  intro todo
  induction todo with
  | zero =>
    intro i ptr s calls hi
    simp [flo_read_loop, successive, state_after, ← hi]
  | succ todo ih =>
    intro i ptr s calls hi
    simp only [List.replicate_succ, successive]
    by_cases hfull : full_read size (f.read s (to_int64 size)).1 = true
    · obtain ⟨b, hb, hsize⟩ := (full_read_iff _ _).mp hfull
      rw [List.takeWhile_cons_of_pos hfull]
      have hstep : flo_read_loop f size count (todo + 1) i ptr s calls =
          flo_read_loop f size count todo (i + 1) (memcpy_at ptr (i * size) b size)
            (f.read s (to_int64 size)).2 (calls ++ [to_int64 size]) := by
        simp only [flo_read_loop, hb, PyBytes_AsStringAndSize]
        rw [if_neg (by omega)]
      obtain ⟨h1, h2, h3, h4⟩ := ih (i + 1) (memcpy_at ptr (i * size) b size)
        (f.read s (to_int64 size)).2 (calls ++ [to_int64 size]) (by omega)
      rw [hstep]
      refine ⟨?_, ?_, ?_, ?_⟩
      · rw [h1]; simp only [List.length_cons]; omega
      · rw [h2]
        simp only [List.length_cons, List.append_assoc, List.singleton_append]
        rw [Nat.succ_min_succ, List.replicate_succ]
      · rw [h3]
        simp only [List.length_cons]
        rw [Nat.succ_min_succ, List.replicate_succ]
        rfl
      · intro hlen
        have hmul2 : (i + (todo + 1)) * size = i * size + size + todo * size := by ring
        have hoff : i * size + size ≤ ptr.length := by rw [hmul2] at hlen; omega
        have hlen2 : (memcpy_at ptr (i * size) b size).length = ptr.length :=
          memcpy_at_length ptr b (i * size) size hoff hsize
        have hi1 : (i + 1) * size = i * size + size := by ring
        rw [h4 (by rw [hlen2]; calc (i + 1 + todo) * size = (i + (todo + 1)) * size := by ring
              _ ≤ ptr.length := hlen)]
        simp only [List.length_cons, List.map_cons, List.flatten_cons, hb, chunk_of]
        rw [hi1, memcpy_at_take ptr b (i * size) size hoff hsize,
          memcpy_at_drop ptr b (i * size) size _ hoff hsize (by
            rw [← hi1]; exact Nat.mul_le_mul_right size (by omega))]
        simp only [List.append_assoc]
        congr 3
        ring_nf
    · have hstep : flo_read_loop f size count (todo + 1) i ptr s calls =
          { result := i, ptr := ptr, user_data := (f.read s (to_int64 size)).2
            calls := calls ++ [to_int64 size] } := by
        simp only [flo_read_loop]
        cases hr : (f.read s (to_int64 size)).1 with
        | none => rfl
        | some o =>
          cases o with
          | Bytes b =>
            simp only [PyBytes_AsStringAndSize]
            rw [hr] at hfull
            simp only [full_read, decide_eq_true_eq, not_le] at hfull
            rw [if_pos hfull]
          | _ => rfl
      rw [List.takeWhile_cons_of_neg hfull, hstep]
      simp [state_after]

theorem successive_length {σ α : Type} (method : σ → α → Option PyObject × σ)
    (args : List α) : ∀ s, (successive method args s).length = args.length := by
  induction args with
  | nil => intro s; rfl
  | cons a rest ih => intro s; simp [successive, ih]

theorem takeWhile_length_spec {α : Type} (p : α → Bool) (l : List α) :
    (l.takeWhile p).length ≤ l.length ∧
      ((l.takeWhile p).length = l.length ↔ ∀ a ∈ l, p a = true) ∧
      ((l.takeWhile p).length < l.length →
        ∃ a, l[(l.takeWhile p).length]? = some a ∧ p a = false) ∧
      (∀ j, j < (l.takeWhile p).length → ∃ a, l[j]? = some a ∧ p a = true) ∧
      l.takeWhile p = l.take (l.takeWhile p).length := by
  induction l with
  | nil => simp
  | cons x xs ih =>
    obtain ⟨h1, h2, h3, h4, h5⟩ := ih
    by_cases hp : p x = true
    · rw [List.takeWhile_cons_of_pos hp]
      refine ⟨by simp [h1], ?_, ?_, ?_, ?_⟩
      · simp only [List.length_cons, Nat.add_right_cancel_iff, List.mem_cons, forall_eq_or_imp,
          hp, true_and]
        exact h2
      · intro hlt
        simp only [List.length_cons, Nat.add_lt_add_iff_right] at hlt
        simpa using h3 hlt
      · intro j hj
        cases j with
        | zero => exact ⟨x, by simp, hp⟩
        | succ j =>
          simp only [List.length_cons, Nat.add_lt_add_iff_right] at hj
          simpa using h4 j hj
      · simp only [List.length_cons, List.take_succ_cons]
        rw [← h5]
    · rw [List.takeWhile_cons_of_neg hp]
      refine ⟨by simp, ?_, ?_, ?_, by simp⟩
      · simp only [List.length_nil, List.length_cons, List.mem_cons, forall_eq_or_imp]
        constructor
        · intro h; omega
        · intro h; exact absurd h.1 hp
      · intro _
        exact ⟨x, by simp, by simpa using hp⟩
      · intro j hj
        simp at hj

theorem flatten_uniform_chunk {α : Type} (size : Nat) (rest : List α) :
    ∀ (L : List (List α)) (j : Nat), (∀ l ∈ L, l.length = size) → ∀ l, L[j]? = some l →
      ((L.flatten ++ rest).drop (j * size)).take size = l := by
  intro L
  induction L with
  | nil => intro j _ l hl; simp at hl
  | cons x xs ih =>
    intro j hall l hl
    have hx : x.length = size := hall x (List.mem_cons_self _ _)
    cases j with
    | zero =>
      simp only [List.getElem?_cons_zero, Option.some.injEq] at hl
      subst hl
      simp only [Nat.zero_mul, List.drop_zero, List.flatten_cons, List.append_assoc]
      rw [← hx, List.take_left]
    | succ j =>
      simp only [List.getElem?_cons_succ] at hl
      have e : (j + 1) * size = x.length + j * size := by rw [hx]; ring
      simp only [List.flatten_cons, List.append_assoc]
      rw [e, ← List.drop_drop, List.drop_left]
      exact ih j (fun l hl => hall l (List.mem_cons_of_mem _ hl)) l hl

/-- C18: `flo_read` on a file-like object in state `s`, with `answers` the
answers of `count` successive calls of `read` with `(Py_ssize_t) size` (which
is `size` below `2 ^ 63`). It returns `count` exactly when each of them is a
full read (it succeeded and returned a bytes object of at least `size` bytes);
otherwise it returns the index below `count` of the first answer that is not a
full read, every answer before it being one, and it made `result + 1` calls of
`read`, none after the failed one. When the destination holds `count` chunks,
chunk `j` of the destination is the first `size` bytes of answer `j` for every
`j` below the result, and the destination as a whole is those chunks followed
by its former content from offset `result * size` on. -/
theorem flo_read_counts_full_chunks {σ : Type} (f : FileLike σ) (ptr : List Byte)
    (size count : Nat) (s : σ) :
    (size < 2 ^ 63 → to_int64 size = size) ∧
    (flo_read f ptr size count s).result ≤ count ∧
    ((flo_read f ptr size count s).result = count ↔
      ∀ a ∈ successive f.read (List.replicate count (to_int64 size)) s,
        full_read size a = true) ∧
    ((flo_read f ptr size count s).result < count →
      (∃ a, (successive f.read (List.replicate count (to_int64 size)) s)[
          (flo_read f ptr size count s).result]? = some a ∧ full_read size a = false) ∧
      (flo_read f ptr size count s).calls =
        List.replicate ((flo_read f ptr size count s).result + 1) (to_int64 size)) ∧
    ((flo_read f ptr size count s).result = count →
      (flo_read f ptr size count s).calls = List.replicate count (to_int64 size)) ∧
    (∀ j, j < (flo_read f ptr size count s).result →
      ∃ a, (successive f.read (List.replicate count (to_int64 size)) s)[j]? = some a ∧
        full_read size a = true) ∧
    (flo_read f ptr size count s).user_data =
      state_after f.read (flo_read f ptr size count s).calls s ∧
    (count * size ≤ ptr.length →
      (flo_read f ptr size count s).ptr =
        (((successive f.read (List.replicate count (to_int64 size)) s).take
          (flo_read f ptr size count s).result).map (fun a => (chunk_of a).take size)).flatten
          ++ ptr.drop ((flo_read f ptr size count s).result * size) ∧
      ∀ j, j < (flo_read f ptr size count s).result →
        ∀ a, (successive f.read (List.replicate count (to_int64 size)) s)[j]? = some a →
          chunk_at (flo_read f ptr size count s).ptr size j = (chunk_of a).take size) := by
  obtain ⟨h1, h2, h3, h4⟩ := flo_read_loop_spec f size count count 0 ptr s [] (by omega)
  obtain ⟨t1, t2, t3, t4, t5⟩ := takeWhile_length_spec (full_read size)
    (successive f.read (List.replicate count (to_int64 size)) s)
  have hlen : (successive f.read (List.replicate count (to_int64 size)) s).length = count := by
    rw [successive_length, List.length_replicate]
  rw [hlen] at t1 t2 t3
  simp only [Nat.zero_add, List.nil_append, Nat.zero_mul, List.take_zero] at h1 h2 h3 h4
  have hres : (flo_read f ptr size count s).result =
      ((successive f.read (List.replicate count (to_int64 size)) s).takeWhile
        (full_read size)).length := h1
  have hcalls : (flo_read f ptr size count s).calls = List.replicate (min count
      (((successive f.read (List.replicate count (to_int64 size)) s).takeWhile
        (full_read size)).length + 1)) (to_int64 size) := h2
  have hstate : (flo_read f ptr size count s).user_data = state_after f.read
      (List.replicate (min count
        (((successive f.read (List.replicate count (to_int64 size)) s).takeWhile
          (full_read size)).length + 1)) (to_int64 size)) s := h3
  have hptr : count * size ≤ ptr.length → (flo_read f ptr size count s).ptr =
      (((successive f.read (List.replicate count (to_int64 size)) s).takeWhile
        (full_read size)).map (fun a => (chunk_of a).take size)).flatten ++
      ptr.drop (((successive f.read (List.replicate count (to_int64 size)) s).takeWhile
        (full_read size)).length * size) := h4
  rw [← hres] at t1 t2 t3 t4 hcalls hstate
  refine ⟨?_, t1, t2, ?_, ?_, t4, ?_, ?_⟩
  · intro hs
    unfold to_int64
    have h0 : (0 : Int) ≤ (size : Int) := Int.ofNat_nonneg size
    have hlt : (size : Int) < 2 ^ 63 := by exact_mod_cast hs
    rw [Int.emod_eq_of_lt (by omega) (by omega)]
    omega
  · intro hlt
    refine ⟨t3 hlt, ?_⟩
    rw [hcalls, Nat.min_eq_right (by omega)]
  · intro heq
    rw [hcalls, Nat.min_eq_left (by omega)]
  · rw [hstate, hcalls]
  · intro hbuf
    have hp := hptr hbuf
    rw [← hres] at hp
    rw [t5, ← hres] at hp
    refine ⟨hp, ?_⟩
    intro j hj a ha
    unfold chunk_at
    rw [hp]
    apply flatten_uniform_chunk size _ _ j
    · intro l hl
      simp only [List.mem_map] at hl
      obtain ⟨a2, ha2, rfl⟩ := hl
      have hmem : a2 ∈ (successive f.read (List.replicate count (to_int64 size)) s).takeWhile
          (full_read size) := by
        rw [t5, ← hres]; exact ha2
      obtain ⟨b, hb, hsz⟩ := (full_read_iff size a2).mp (List.mem_takeWhile_imp hmem)
      rw [hb]
      simp only [chunk_of, List.length_take]
      omega
    · rw [List.getElem?_map, List.getElem?_take_of_lt hj, ha]
      rfl

/-- C18, at a source that hands out the chunks `[1, 2, 3]`, `[4]` and
`[6, 7]` when asked for three chunks of two bytes into six zero bytes: the
second read is short, so `flo_read` returns 1 after two calls of `read`, and
the destination holds the first two bytes of the first chunk at offset 0. -/
theorem flo_read_counts_full_chunks_witness :
    3 * 2 ≤ (List.replicate 6 (0 : Byte)).length ∧
    (flo_read chunked_source (List.replicate 6 0) 2 3 [[1, 2, 3], [4], [6, 7]]).result = 1 ∧
    (flo_read chunked_source (List.replicate 6 0) 2 3 [[1, 2, 3], [4], [6, 7]]).calls
      = [2, 2] ∧
    (flo_read chunked_source (List.replicate 6 0) 2 3 [[1, 2, 3], [4], [6, 7]]).ptr
      = [1, 2, 0, 0, 0, 0] ∧
    chunk_at (flo_read chunked_source (List.replicate 6 0) 2 3 [[1, 2, 3], [4], [6, 7]]).ptr
      2 0 = (chunk_of (some (PyObject.Bytes [1, 2, 3]))).take 2 :=
  have t := flo_read_counts_full_chunks chunked_source (List.replicate 6 0) 2 3
    [[1, 2, 3], [4], [6, 7]]
  ⟨by decide, by decide, by decide, by decide,
    (t.2.2.2.2.2.2.2 (by decide)).2 0 (by decide) (some (PyObject.Bytes [1, 2, 3])) rfl⟩

theorem Py_BuildValue_bytes_chunk (ptr : List Byte) (size j : Nat) (hs : size < 2 ^ 63) :
    Py_BuildValue_bytes (ptr.drop (j * size)) (to_int64 size) = some (chunk_at ptr size j) := by
  have hto : to_int64 (size : Int) = (size : Int) := by
    unfold to_int64
    omega
  unfold Py_BuildValue_bytes
  rw [hto, if_neg (by omega), Int.toNat_ofNat]
  rfl

theorem Py_BuildValue_bytes_cstring (str : List Byte) (n : Int) (hn : n < 0)
    (hlen : (str.takeWhile (fun b => b ≠ 0)).length < 2 ^ 63) :
    Py_BuildValue_bytes str n = some (str.takeWhile (fun b => b ≠ 0)) := by
  unfold Py_BuildValue_bytes PY_SSIZE_T_MAX
  rw [if_pos hn, if_neg (by omega)]
  unfold PyBytes_FromStringAndSize
  rw [← (takeWhile_length_spec (fun b => decide (b ≠ 0)) str).2.2.2.2]

/-- The loop of `flo_write` when the argument of `write` can be built for
every chunk, `g j` being the bytes object built for chunk `j`: it stops at the
first call of `write` that raises. -/
theorem flo_write_loop_spec_of {σ : Type} (f : FileLike σ) (ptr : List Byte)
    (size count : Nat) (g : Nat → List Byte)
    (hg : ∀ j, Py_BuildValue_bytes (ptr.drop (j * size)) (to_int64 size) = some (g j)) :
    ∀ (todo i : Nat) (s : σ) (calls : List (List Byte)), i + todo = count →
      (flo_write_loop f ptr size count todo i s calls).result =
        i + ((successive f.write ((List.range' i todo).map g) s).takeWhile
          Option.isSome).length ∧
      (flo_write_loop f ptr size count todo i s calls).calls =
        calls ++ ((List.range' i todo).map g).take
          (((successive f.write ((List.range' i todo).map g) s).takeWhile
            Option.isSome).length + 1) ∧
      (flo_write_loop f ptr size count todo i s calls).user_data =
        state_after f.write (((List.range' i todo).map g).take
          (((successive f.write ((List.range' i todo).map g) s).takeWhile
            Option.isSome).length + 1)) s := by
  intro todo
  induction todo with
  | zero =>
    intro i s calls hi
    simp [flo_write_loop, successive, state_after, ← hi]
  | succ todo ih =>
    intro i s calls hi
    simp only [List.range'_succ, List.map_cons, successive]
    cases hw : (f.write s (g i)).1 with
    | none =>
      have hstep : flo_write_loop f ptr size count (todo + 1) i s calls =
          { result := i, user_data := (f.write s (g i)).2, calls := calls ++ [g i] } := by
        rw [flo_write_loop]
        simp only [hg i, Option.isNone_some, Option.getD_some]
        rw [hw]
        rfl
      rw [hstep, List.takeWhile_cons_of_neg (by simp)]
      simp [state_after]
    | some o =>
      have hstep : flo_write_loop f ptr size count (todo + 1) i s calls =
          flo_write_loop f ptr size count todo (i + 1) (f.write s (g i)).2
            (calls ++ [g i]) := by
        rw [flo_write_loop]
        simp only [hg i, Option.isNone_some, Option.getD_some]
        rw [hw]
        rfl
      obtain ⟨h1, h2, h3⟩ := ih (i + 1) (f.write s (g i)).2 (calls ++ [g i]) (by omega)
      rw [hstep, List.takeWhile_cons_of_pos (by simp)]
      refine ⟨?_, ?_, ?_⟩
      · rw [h1]; simp only [List.length_cons]; omega
      · rw [h2]
        simp only [List.length_cons, List.take_succ_cons, List.append_assoc,
          List.singleton_append]
      · rw [h3]
        simp only [List.length_cons, List.take_succ_cons, state_after]

/-- The loop of `flo_write` for a size below `2 ^ 63`: the bytes object built
for chunk `j` holds the `size` bytes at offset `j * size`. -/
theorem flo_write_loop_spec {σ : Type} (f : FileLike σ) (ptr : List Byte) (size count : Nat)
    (hs : size < 2 ^ 63) :
    ∀ (todo i : Nat) (s : σ) (calls : List (List Byte)), i + todo = count →
      (flo_write_loop f ptr size count todo i s calls).result =
        i + ((successive f.write ((List.range' i todo).map (chunk_at ptr size)) s).takeWhile
          Option.isSome).length ∧
      (flo_write_loop f ptr size count todo i s calls).calls =
        calls ++ ((List.range' i todo).map (chunk_at ptr size)).take
          (((successive f.write ((List.range' i todo).map (chunk_at ptr size)) s).takeWhile
            Option.isSome).length + 1) ∧
      (flo_write_loop f ptr size count todo i s calls).user_data =
        state_after f.write (((List.range' i todo).map (chunk_at ptr size)).take
          (((successive f.write ((List.range' i todo).map (chunk_at ptr size)) s).takeWhile
            Option.isSome).length + 1)) s :=
  flo_write_loop_spec_of f ptr size count (chunk_at ptr size)
    (fun j => Py_BuildValue_bytes_chunk ptr size j hs)

/-- The calls of `write` that the loop of `flo_write` finds made stay the
first ones. -/
theorem flo_write_loop_calls {σ : Type} (f : FileLike σ) (ptr : List Byte)
    (size count : Nat) :
    ∀ (todo i : Nat) (s : σ) (calls : List (List Byte)),
      ∃ more, (flo_write_loop f ptr size count todo i s calls).calls = calls ++ more := by
  intro todo
  induction todo with
  | zero => intro i s calls; exact ⟨[], by simp [flo_write_loop]⟩
  | succ todo ih =>
    intro i s calls
    rw [flo_write_loop]
    cases Py_BuildValue_bytes (ptr.drop (i * size)) (to_int64 size) with
    | none => exact ⟨[], by simp⟩
    | some bytes =>
      simp only [Option.isNone_some, Option.getD_some]
      cases (f.write s bytes).1 with
      | none => exact ⟨[bytes], rfl⟩
      | some o =>
        obtain ⟨more, hm⟩ := ih (i + 1) (f.write s bytes).2 (calls ++ [bytes])
        exact ⟨bytes :: more, by
          show (flo_write_loop f ptr size count todo (i + 1) (f.write s bytes).2
            (calls ++ [bytes])).calls = calls ++ bytes :: more
          rw [hm]; simp⟩

/-- For a size whose conversion to `Py_ssize_t` is negative, the first call of
`write` is made with the bytes before the first zero byte of the source. -/
theorem flo_write_first_call_cstring {σ : Type} (f : FileLike σ) (ptr : List Byte)
    (size count : Nat) (s : σ) (hs : to_int64 size < 0) (hc : 0 < count)
    (hlen : (ptr.takeWhile (fun b => b ≠ 0)).length < 2 ^ 63) :
    (flo_write f ptr size count s).calls.head? = some (ptr.takeWhile (fun b => b ≠ 0)) := by
  obtain ⟨n, rfl⟩ := Nat.exists_eq_succ_of_ne_zero (Nat.pos_iff_ne_zero.mp hc)
  have hb : Py_BuildValue_bytes (ptr.drop (0 * size)) (to_int64 size)
      = some (ptr.takeWhile (fun b => b ≠ 0)) := by
    rw [Nat.zero_mul, List.drop_zero]
    exact Py_BuildValue_bytes_cstring ptr _ hs hlen
  unfold flo_write
  rw [flo_write_loop]
  simp only [hb, Option.isNone_some, Option.getD_some]
  cases (f.write s (ptr.takeWhile (fun b => b ≠ 0))).1 with
  | none => rfl
  | some o =>
    obtain ⟨more, hm⟩ := flo_write_loop_calls f ptr size (n + 1) n (0 + 1)
      (f.write s (ptr.takeWhile (fun b => b ≠ 0))).2 ([] ++ [ptr.takeWhile (fun b => b ≠ 0)])
    show (flo_write_loop f ptr size (n + 1) n (0 + 1)
      (f.write s (ptr.takeWhile (fun b => b ≠ 0))).2
      ([] ++ [ptr.takeWhile (fun b => b ≠ 0)])).calls.head? = _
    rw [hm]
    rfl

/-- C19: `flo_write` on a file-like object in state `s`, for a size below
`2 ^ 63`, with `answers` the answers of successive calls of `write` with the
chunks 0, 1, ..., `count - 1` of the source (chunk `j` is the `size` bytes at
offset `j * size`). The calls of `write` that it makes are, in order, calls
with chunks 0, 1, ... of the source, each of exactly `size` bytes when the
source holds `count` chunks. It returns `count` exactly when all `count` calls
succeed, and then made them all; otherwise it returns the index below `count`
of the first call that raised, every call before it having succeeded, and made
`result + 1` calls, none after the failed one. A size from `2 ^ 63` on, which
no source in memory has, reaches the host as a negative `Py_ssize_t`: `write`
is still called, and when the source holds a zero byte the first call gets the
bytes before the first zero byte instead of `size` bytes. -/
theorem flo_write_one_call_per_chunk {σ : Type} (f : FileLike σ) (ptr : List Byte)
    (size count : Nat) (s : σ) :
    (size < 2 ^ 63 →
      (flo_write f ptr size count s).result ≤ count ∧
      ((flo_write f ptr size count s).result = count ↔
        ∀ a ∈ successive f.write ((List.range count).map (chunk_at ptr size)) s,
          a.isSome = true) ∧
      ((flo_write f ptr size count s).result < count →
        (successive f.write ((List.range count).map (chunk_at ptr size)) s)[
          (flo_write f ptr size count s).result]? = some none ∧
        (flo_write f ptr size count s).calls =
          ((List.range count).map (chunk_at ptr size)).take
            ((flo_write f ptr size count s).result + 1)) ∧
      ((flo_write f ptr size count s).result = count →
        (flo_write f ptr size count s).calls = (List.range count).map (chunk_at ptr size)) ∧
      (∀ j, j < (flo_write f ptr size count s).result →
        ∃ o, (successive f.write ((List.range count).map (chunk_at ptr size)) s)[j]?
          = some (some o)) ∧
      (∀ j b, (flo_write f ptr size count s).calls[j]? = some b →
        b = chunk_at ptr size j ∧ (count * size ≤ ptr.length → b.length = size)) ∧
      (flo_write f ptr size count s).calls.length =
        min count ((flo_write f ptr size count s).result + 1) ∧
      (flo_write f ptr size count s).user_data =
        state_after f.write (flo_write f ptr size count s).calls s) ∧
    (2 ^ 63 ≤ size → size < 2 ^ 64 → 0 < count → (0 : Byte) ∈ ptr →
      (ptr.takeWhile (fun b => b ≠ 0)).length < 2 ^ 63 →
      (flo_write f ptr size count s).calls.head? = some (ptr.takeWhile (fun b => b ≠ 0))) := by
  constructor
  · intro hsize
    obtain ⟨h1, h2, h3⟩ := flo_write_loop_spec f ptr size count hsize count 0 s [] (by omega)
    rw [← List.range_eq_range'] at h1 h2 h3
    obtain ⟨t1, t2, t3, t4, _⟩ := takeWhile_length_spec Option.isSome
      (successive f.write ((List.range count).map (chunk_at ptr size)) s)
    have hlen : (successive f.write ((List.range count).map (chunk_at ptr size)) s).length
        = count := by
      rw [successive_length, List.length_map, List.length_range]
    rw [hlen] at t1 t2 t3
    simp only [Nat.zero_add, List.nil_append] at h1 h2 h3
    have hres : (flo_write f ptr size count s).result =
        ((successive f.write ((List.range count).map (chunk_at ptr size)) s).takeWhile
          Option.isSome).length := h1
    have hcalls : (flo_write f ptr size count s).calls =
        ((List.range count).map (chunk_at ptr size)).take
          (((successive f.write ((List.range count).map (chunk_at ptr size)) s).takeWhile
            Option.isSome).length + 1) := h2
    have hstate : (flo_write f ptr size count s).user_data =
        state_after f.write (((List.range count).map (chunk_at ptr size)).take
          (((successive f.write ((List.range count).map (chunk_at ptr size)) s).takeWhile
            Option.isSome).length + 1)) s := h3
    rw [← hres] at t1 t2 t3 t4 hcalls hstate
    refine ⟨t1, t2, ?_, ?_, ?_, ?_, ?_, ?_⟩
    · intro hlt
      obtain ⟨a, ha, hn⟩ := t3 hlt
      cases a with
      | none => exact ⟨ha, hcalls⟩
      | some o => simp at hn
    · intro heq
      rw [hcalls, List.take_of_length_le]
      rw [List.length_map, List.length_range]
      omega
    · intro j hj
      obtain ⟨a, ha, hp⟩ := t4 j hj
      cases a with
      | none => simp at hp
      | some o => exact ⟨o, ha⟩
    · intro j b hb
      rw [hcalls, List.getElem?_take] at hb
      split at hb
      · rename_i hjlt
        rw [List.getElem?_map] at hb
        cases hr : (List.range count)[j]? with
        | none => rw [hr] at hb; simp at hb
        | some k =>
          rw [hr] at hb
          simp only [Option.map_some', Option.some.injEq] at hb
          have hjc : j < count := by
            by_contra hge
            rw [List.getElem?_eq_none (by rw [List.length_range]; omega)] at hr
            cases hr
          rw [List.getElem?_range hjc] at hr
          cases hr
          refine ⟨hb.symm, ?_⟩
          intro hbuf
          rw [← hb]
          simp only [chunk_at, List.length_take, List.length_drop]
          have : (j + 1) * size ≤ count * size := Nat.mul_le_mul_right size (by omega)
          have e : (j + 1) * size = j * size + size := by ring
          omega
      · cases hb
    · rw [hcalls, List.length_take, List.length_map, List.length_range, Nat.min_comm]
    · rw [hstate, hcalls]
  · intro h1 h2 hc _ hlen
    have hs : to_int64 size < 0 := by
      unfold to_int64
      have hge : (2 : Int) ^ 63 ≤ (size : Int) := by exact_mod_cast h1
      have hlt : (size : Int) < 2 ^ 64 := by exact_mod_cast h2
      have e : ((size : Int) + 2 ^ 63) % 2 ^ 64 = (size : Int) + 2 ^ 63 - 2 ^ 64 := by
        rw [Int.emod_eq_sub_self_emod, Int.emod_eq_of_lt (by omega) (by omega)]
      rw [e]
      omega
    exact flo_write_first_call_cstring f ptr size count s hs hc hlen

/-- C19, at a sink that takes one chunk and then raises, for three chunks of
two bytes from `[1, 2, 3, 4, 5, 6]`: the first write gets `[1, 2]`, the second
gets `[3, 4]` and raises, so `flo_write` returns 1 and the third chunk is never
written. And for one chunk of size `2 ^ 63` from `[1, 2, 0, 3]`: `write` is
called with `[1, 2]`. -/
theorem flo_write_one_call_per_chunk_witness :
    (2 : Nat) < 2 ^ 63 ∧
    (flo_write (bounded_sink 1) [1, 2, 3, 4, 5, 6] 2 3 []).result = 1 ∧
    (flo_write (bounded_sink 1) [1, 2, 3, 4, 5, 6] 2 3 []).calls = [[1, 2], [3, 4]] ∧
    (flo_write (bounded_sink 1) [1, 2, 3, 4, 5, 6] 2 3 []).user_data = [[1, 2]] ∧
    (flo_write (bounded_sink 1) [1, 2, 3, 4, 5, 6] 2 3 []).calls.length =
      min 3 ((flo_write (bounded_sink 1) [1, 2, 3, 4, 5, 6] 2 3 []).result + 1) ∧
    (flo_write (bounded_sink 1) [1, 2, 0, 3] (2 ^ 63) 1 []).calls.head? = some [1, 2] :=
  have t := (flo_write_one_call_per_chunk (bounded_sink 1) [1, 2, 3, 4, 5, 6] 2 3 []).1
    (by decide)
  have t2 := (flo_write_one_call_per_chunk (bounded_sink 1) [1, 2, 0, 3] (2 ^ 63) 1 []).2
    (by decide) (by decide) (by decide) (by decide) (by decide)
  ⟨by decide, by decide, by decide, by decide, t.2.2.2.2.2.2.1, t2⟩

/-! ## Diagnostics of a compilation -/

theorem raise_exception_on_error_error (d : Diagnostic) (st : CompileState)
    (h : d.error_level = YARA_ERROR_LEVEL_ERROR) :
    raise_exception_on_error d.error_level d.file_name d.line_number d.message st =
      { st with err := some (PyErr.YaraSyntaxError d.text) } := by
  obtain ⟨error_level, file_name, line_number, message⟩ := d
  simp only at h
  cases file_name <;> simp [raise_exception_on_error, Diagnostic.text, h]

theorem raise_exception_on_error_warning (d : Diagnostic) (st : CompileState)
    (h : d.error_level ≠ YARA_ERROR_LEVEL_ERROR) :
    raise_exception_on_error d.error_level d.file_name d.line_number d.message st =
      { st with warnings := st.warnings ++ [d.text] } := by
  obtain ⟨error_level, file_name, line_number, message⟩ := d
  simp only at h
  cases file_name <;> simp [raise_exception_on_error, Diagnostic.text, h]

theorem yara_include_callback_state (include_name calling_fn calling_ns : Option String)
    (user_data : IncludeArg) (st : CompileState) :
    (yara_include_callback include_name calling_fn calling_ns user_data st).2.warnings
        = st.warnings ∧
      (∀ x, st.err = some x →
        (yara_include_callback include_name calling_fn calling_ns user_data st).2.err
          = some x) ∧
      ((yara_include_callback include_name calling_fn calling_ns user_data st).2.err = st.err ∨
        ∃ msg, (yara_include_callback include_name calling_fn calling_ns user_data st).2.err
          = some (PyErr.TypeError msg)) := by
  unfold yara_include_callback
  simp only []
  split
  · exact ⟨rfl, fun x hx => hx, Or.inl rfl⟩
  · split
    · rename_i hnone
      refine ⟨rfl, ?_, Or.inr ⟨_, rfl⟩⟩
      intro x hx
      rw [hx] at hnone
      simp at hnone
    · exact ⟨rfl, fun x hx => hx, Or.inl rfl⟩

theorem diagnostics_append (a b : List CompilerEvent) :
    diagnostics (a ++ b) = diagnostics a ++ diagnostics b := by
  induction a with
  | nil => rfl
  | cons e rest ih => cases e <;> simp [diagnostics, ih]

theorem warning_texts_append (a b : List CompilerEvent) :
    warning_texts (a ++ b) = warning_texts a ++ warning_texts b := by
  simp [warning_texts, diagnostics_append]

theorem last_error_append (a b : List CompilerEvent) :
    last_error (a ++ b) = (last_error b).or (last_error a) := by
  simp only [last_error, diagnostics_append, List.filter_append]
  generalize (diagnostics a).filter _ = x
  generalize (diagnostics b).filter _ = y
  cases hy : y.getLast? with
  | none =>
    rw [List.getLast?_eq_none_iff] at hy
    subst hy
    simp
  | some d =>
    rw [List.getLast?_append, hy]

theorem last_error_cons_diagnostic (d : Diagnostic) (rest : List CompilerEvent) :
    last_error (CompilerEvent.diagnostic d :: rest) =
      (last_error rest).or
        (if d.error_level = YARA_ERROR_LEVEL_ERROR then some d else none) := by
  have h := last_error_append [CompilerEvent.diagnostic d] rest
  simp only [List.singleton_append] at h
  rw [h]
  congr 1
  simp only [last_error, diagnostics]
  by_cases hd : d.error_level = YARA_ERROR_LEVEL_ERROR
  · simp [hd]
  · simp [hd]

theorem last_error_cons_include (a b c : Option String) (rest : List CompilerEvent) :
    last_error (CompilerEvent.include_callback a b c :: rest) = last_error rest := by
  simp [last_error, diagnostics]

theorem warning_texts_cons_diagnostic (d : Diagnostic) (rest : List CompilerEvent) :
    warning_texts (CompilerEvent.diagnostic d :: rest) =
      (if d.error_level = YARA_ERROR_LEVEL_ERROR then [] else [d.text])
        ++ warning_texts rest := by
  by_cases hd : d.error_level = YARA_ERROR_LEVEL_ERROR
  · simp [warning_texts, diagnostics, hd]
  · simp [warning_texts, diagnostics, hd]

theorem warning_texts_cons_include (a b c : Option String) (rest : List CompilerEvent) :
    warning_texts (CompilerEvent.include_callback a b c :: rest) = warning_texts rest := by
  simp [warning_texts, diagnostics]

/-- The state after the callbacks of an add-source call: the warnings grow by
the texts of the diagnostics that are not of ERROR level; a pending exception
stays when no diagnostic of ERROR level comes; the last diagnostic of ERROR
level decides the exception; and no `YaraWarningError` is set. -/
theorem compiler_callbacks_state (compiler : YR_COMPILER) (events : List CompilerEvent) :
    ∀ st : CompileState,
      (compiler_callbacks compiler events st).warnings = st.warnings ++ warning_texts events ∧
      (last_error events = none → ∀ x, st.err = some x →
        (compiler_callbacks compiler events st).err = some x) ∧
      (∀ d, last_error events = some d →
        (compiler_callbacks compiler events st).err = some (PyErr.YaraSyntaxError d.text)) ∧
      ((∀ w, st.err ≠ some (PyErr.YaraWarningError w)) →
        ∀ w, (compiler_callbacks compiler events st).err ≠ some (PyErr.YaraWarningError w)) := by
  induction events with
  | nil =>
    intro st
    refine ⟨by simp [compiler_callbacks, warning_texts, diagnostics], fun _ x hx => hx, ?_,
      fun h => h⟩
    intro d hd
    simp [last_error, diagnostics] at hd
  | cons e rest ih =>
    intro st
    cases e with
    | diagnostic d =>
      simp only [compiler_callbacks]
      rw [last_error_cons_diagnostic, warning_texts_cons_diagnostic]
      by_cases hd : d.error_level = YARA_ERROR_LEVEL_ERROR
      · rw [raise_exception_on_error_error d st hd]
        obtain ⟨h1, h2, h3, h4⟩ := ih { st with err := some (PyErr.YaraSyntaxError d.text) }
        simp only [if_pos hd, List.nil_append]
        refine ⟨h1, ?_, ?_, ?_⟩
        · intro hnone
          cases hl : last_error rest <;> rw [hl] at hnone <;> simp at hnone
        · intro d2 hd2
          cases hl : last_error rest with
          | none =>
            rw [hl] at hd2
            simp only [Option.or, Option.some.injEq] at hd2
            subst hd2
            exact h2 hl _ rfl
          | some d3 =>
            rw [hl] at hd2
            simp only [Option.or, Option.some.injEq] at hd2
            subst hd2
            exact h3 d3 hl
        · intro _
          exact h4 (by intro w hw; cases hw)
      · rw [raise_exception_on_error_warning d st hd]
        obtain ⟨h1, h2, h3, h4⟩ := ih { st with warnings := st.warnings ++ [d.text] }
        simp only [if_neg hd, Option.or_none]
        refine ⟨?_, h2, h3, h4⟩
        rw [h1]
        simp
    | include_callback a b c =>
      simp only [compiler_callbacks]
      rw [last_error_cons_include, warning_texts_cons_include]
      cases hs : compiler.include_callback with
      | python user_data =>
        simp only []
        obtain ⟨i1, i2, i3⟩ := yara_include_callback_state a b c user_data st
        obtain ⟨h1, h2, h3, h4⟩ := ih (yara_include_callback a b c user_data st).2
        refine ⟨by rw [h1, i1], ?_, h3, ?_⟩
        · intro hnone x hx
          exact h2 hnone x (i2 x hx)
        · intro hst
          apply h4
          intro w hw
          rcases i3 with i3 | ⟨msg, i3⟩
          · rw [i3] at hw
            exact hst w hw
          · rw [i3] at hw
            cases hw
      | builtin => exact ih st
      | disabled => exact ih st

theorem sources_outcome_none (E : CompileEnv) (compiler : YR_COMPILER) (st : CompileState)
    (trace : List CompileEffect) (e : PyErr) (he : ∀ w, e ≠ PyErr.YaraWarningError w) :
    sources_outcome E compiler st (compiler, { st with err := some e, trace := trace }) := by
  refine ⟨[], ?_, ?_, ?_, ?_⟩
  · simp
  · simp [emitted, warning_texts, diagnostics]
  · intro _ d hd
    simp [emitted, last_error, diagnostics] at hd
  · intro _ w hw
    simp only [Option.some.injEq] at hw
    exact he w hw

theorem sources_outcome_single (E : CompileEnv) (compiler : YR_COMPILER) (source : Source)
    (st : CompileState) :
    sources_outcome E compiler st (add_source E compiler source st).2 := by
  obtain ⟨h1, _, h3, h4⟩ := compiler_callbacks_state compiler
    (E.yr_compiler_add compiler source).events
    { st with trace := st.trace ++ [CompileEffect.yr_compiler_add source] }
  refine ⟨[source], rfl, ?_, ?_, ?_⟩
  · simp only [emitted, List.append_nil]
    exact h1
  · intro _ d hd
    simp only [emitted, List.append_nil] at hd
    exact h3 d hd
  · intro hst
    exact h4 hst

theorem sources_outcome_cons (E : CompileEnv) (compiler : YR_COMPILER) (source : Source)
    (st : CompileState) (out : YR_COMPILER × CompileState)
    (hle : ¬ (add_source E compiler source st).1 > 0)
    (h : sources_outcome E (add_source E compiler source st).2.1
      (add_source E compiler source st).2.2 out) :
    sources_outcome E compiler st out := by
  obtain ⟨h1, _, _, h4⟩ := compiler_callbacks_state compiler
    (E.yr_compiler_add compiler source).events
    { st with trace := st.trace ++ [CompileEffect.yr_compiler_add source] }
  obtain ⟨sources, s1, s2, s3, s4⟩ := h
  refine ⟨source :: sources, ?_, ?_, ?_, ?_⟩
  · rw [s1]
    simp [add_source]
  · rw [s2]
    simp only [emitted, warning_texts_append]
    have : (add_source E compiler source st).2.2.warnings =
        st.warnings ++ warning_texts (E.yr_compiler_add compiler source).events := h1
    rw [this, List.append_assoc]
    rfl
  · intro hrep d hd
    simp only [emitted, last_error_append] at hd
    have hnone : last_error (E.yr_compiler_add compiler source).events = none := by
      by_contra hne
      exact hle (hrep compiler source hne)
    rw [hnone, Option.or_none] at hd
    exact s3 hrep d hd
  · intro hst
    exact s4 (h4 hst)

theorem add_sources_outcome (E : CompileEnv) (items : List (PyKey × PyObject)) :
    ∀ (compiler : YR_COMPILER) (st : CompileState),
      sources_outcome E compiler st (add_sources E items compiler st) := by
  induction items with
  | nil =>
    intro compiler st
    exact ⟨[], by simp [add_sources], by simp [add_sources, emitted, warning_texts, diagnostics],
      by intro _ d hd; simp [emitted, last_error, diagnostics] at hd, fun h => h⟩
  | cons item items ih =>
    intro compiler st
    obtain ⟨key, value⟩ := item
    cases hv : PY_STRING_TO_C value with
    | none =>
      simp only [add_sources, hv]
      exact sources_outcome_none E compiler st st.trace _ (by intro w hw; cases hw)
    | some source =>
      cases hk : PY_STRING_TO_C key.object with
      | none =>
        simp only [add_sources, hv, hk]
        exact sources_outcome_none E compiler st st.trace _ (by intro w hw; cases hw)
      | some ns =>
        simp only [add_sources, hv, hk]
        split
        · exact sources_outcome_single E compiler _ st
        · rename_i hle
          exact sources_outcome_cons E compiler _ st _ hle (ih _ _)

theorem add_filepaths_outcome (E : CompileEnv) (items : List (PyKey × PyObject)) :
    ∀ (compiler : YR_COMPILER) (st : CompileState),
      sources_outcome E compiler st (add_filepaths E items compiler st) := by
  induction items with
  | nil =>
    intro compiler st
    exact ⟨[], by simp [add_filepaths],
      by simp [add_filepaths, emitted, warning_texts, diagnostics],
      by intro _ d hd; simp [emitted, last_error, diagnostics] at hd, fun h => h⟩
  | cons item items ih =>
    intro compiler st
    obtain ⟨key, value⟩ := item
    cases hv : PY_STRING_TO_C value with
    | none =>
      simp only [add_filepaths, hv]
      exact sources_outcome_none E compiler st st.trace _ (by intro w hw; cases hw)
    | some filepath =>
      cases hk : PY_STRING_TO_C key.object with
      | none =>
        simp only [add_filepaths, hv, hk]
        exact sources_outcome_none E compiler st st.trace _ (by intro w hw; cases hw)
      | some ns =>
        simp only [add_filepaths, hv, hk]
        cases hf : E.fopen filepath with
        | error errno =>
          simp only []
          exact sources_outcome_none E compiler st _ _ (by intro w hw; cases hw)
        | ok fh =>
          simp only []
          have hlog : ∀ out, sources_outcome E compiler
              { st with trace := st.trace ++ [CompileEffect.fopen filepath] } out →
              sources_outcome E compiler st out := fun out h => h
          split
          · exact hlog _ (sources_outcome_single E compiler _ _)
          · rename_i hle
            exact hlog _ (sources_outcome_cons E compiler _ _ _ hle (ih _ _))

theorem yara_compile_sources_outcome (E : CompileEnv) (args : CompileArgs)
    (compiler : YR_COMPILER) (st : CompileState) :
    sources_outcome E compiler st (yara_compile_sources E args compiler st) := by
  have hlog : ∀ trace out, sources_outcome E compiler { st with trace := trace } out →
      sources_outcome E compiler st out := fun _ out h => h
  unfold yara_compile_sources
  split
  · simp only []
    split
    · exact hlog _ _ (sources_outcome_single E compiler _ _)
    · exact sources_outcome_none E compiler st _ _ (by intro w hw; cases hw)
  split
  · exact sources_outcome_single E compiler _ st
  split
  · simp only []
    split
    · exact hlog _ _ (sources_outcome_single E compiler _ _)
    · exact sources_outcome_none E compiler st _ _ (by intro w hw; cases hw)
  split
  · exact add_sources_outcome E _ compiler st
  · exact sources_outcome_none E compiler st st.trace _ (by intro w hw; cases hw)
  split
  · exact add_filepaths_outcome E _ compiler st
  · exact sources_outcome_none E compiler st st.trace _ (by intro w hw; cases hw)
  · exact sources_outcome_none E compiler st st.trace _ (by intro w hw; cases hw)

theorem handle_error_not_warning (error : Int) (extra : String) (w : List String) :
    handle_error error extra ≠ PyErr.YaraWarningError w := by
  unfold handle_error
  intro h
  repeat' split at h
  all_goals cases h

theorem overflow_of_not_warning (value : PyObject) (err : Option PyErr)
    (herr : ∀ w, err ≠ some (PyErr.YaraWarningError w)) :
    ∀ w, (overflow_of value).or err ≠ some (PyErr.YaraWarningError w) := by
  intro w
  rcases overflow_of_cases value with h | h
  · rw [h]
    exact herr w
  · rw [h]
    intro hc
    cases hc

theorem process_compile_externals_loop_added (E : CompileEnv)
    (items : List (PyKey × PyObject)) :
    ∀ (compiler : YR_COMPILER) (err : Option PyErr),
      (∀ w, err ≠ some (PyErr.YaraWarningError w)) →
      (process_compile_externals_loop E items compiler err).compiler.added = compiler.added ∧
      ∀ w, (process_compile_externals_loop E items compiler err).err
        ≠ some (PyErr.YaraWarningError w) := by
  induction items with
  | nil =>
    intro compiler err herr
    exact ⟨by simp [process_compile_externals_loop],
      by simpa [process_compile_externals_loop] using herr⟩
  | cons item items ih =>
    intro compiler err herr
    obtain ⟨key, value⟩ := item
    cases h : external_of (key, value) with
    | none =>
      obtain ⟨_, h2, h3⟩ := process_compile_externals_loop_cons_none E key value items compiler
        err h
      refine ⟨by rw [h2], ?_⟩
      intro w hw
      rcases h3 with h3 | h3 <;> rw [h3] at hw <;> cases hw
    | some iv =>
      obtain ⟨identifier, v⟩ := iv
      rw [process_compile_externals_loop_cons_some E key value items compiler err identifier v
        h]
      unfold compile_define
      simp only []
      split
      · refine ⟨rfl, ?_⟩
        intro w hw
        simp only [Option.some.injEq] at hw
        exact handle_error_not_warning _ _ w hw
      · exact ih _ _ (overflow_of_not_warning value err herr)

theorem process_compile_externals_added (E : CompileEnv) (items : List (PyKey × PyObject))
    (compiler : YR_COMPILER) :
    (process_compile_externals E items compiler).compiler.added = compiler.added ∧
      (∀ w, (process_compile_externals E items compiler).err
        ≠ some (PyErr.YaraWarningError w)) ∧
      ∀ w, (process_compile_externals E items compiler).err.getD PyErr.Pending
        ≠ PyErr.YaraWarningError w := by
  obtain ⟨h1, h2⟩ := process_compile_externals_loop_added E items compiler none
    (fun w hw => by cases hw)
  refine ⟨h1, h2, ?_⟩
  intro w hw
  unfold process_compile_externals at hw
  cases herr : (process_compile_externals_loop E items compiler none).err with
  | none =>
    rw [herr] at hw
    cases hw
  | some e =>
    rw [herr] at hw
    simp only [Option.getD_some] at hw
    rw [hw] at herr
    exact h2 w herr

theorem yara_compile_externals_spec (E : CompileEnv) (externals : Option PyObject)
    (compiler : YR_COMPILER) (warning_error : Bool) :
    (∀ c we p, yara_compile_externals E externals compiler warning_error
        = Except.ok (c, we, p) →
      we = warning_error ∧ c.added = compiler.added ∧
        ∀ w, p ≠ some (PyErr.YaraWarningError w)) ∧
    (∀ e c, yara_compile_externals E externals compiler warning_error = Except.error (e, c) →
      c.added = compiler.added ∧ ∀ w, e ≠ PyErr.YaraWarningError w) := by
  unfold yara_compile_externals
  split
  · exact ⟨fun c we p h => (by cases h; exact ⟨rfl, rfl, fun w hw => by cases hw⟩),
      fun e c h => (by cases h)⟩
  · exact ⟨fun c we p h => (by cases h; exact ⟨rfl, rfl, fun w hw => by cases hw⟩),
      fun e c h => (by cases h)⟩
  · rename_i items
    obtain ⟨p1, p2, p3⟩ := process_compile_externals_added E items compiler
    simp only []
    split
    · refine ⟨fun c we p h => (by cases h), fun e c h => ?_⟩
      cases h
      exact ⟨p1, p3⟩
    · refine ⟨fun c we p h => ?_, fun e c h => (by cases h)⟩
      cases h
      exact ⟨rfl, p1, p2⟩
  · refine ⟨fun c we p h => (by cases h), fun e c h => ?_⟩
    cases h
    exact ⟨rfl, fun w hw => by cases hw⟩

theorem yara_compile_options_spec (E : CompileEnv) (args : CompileArgs)
    (compiler : YR_COMPILER) :
    (∀ c we p, yara_compile_options E args compiler = Except.ok (c, we, p) →
      we = error_on_warning_requested args ∧ c.added = compiler.added ∧
        ∀ w, p ≠ some (PyErr.YaraWarningError w)) ∧
    (∀ e c, yara_compile_options E args compiler = Except.error (e, c) →
      c.added = compiler.added ∧ ∀ w, e ≠ PyErr.YaraWarningError w) := by
  unfold yara_compile_options
  split
  · refine ⟨fun c we p h => (by cases h), fun e c h => ?_⟩
    cases h
    exact ⟨rfl, fun w hw => by cases hw⟩
  rename_i warning_error hwe
  have hreq : warning_error = error_on_warning_requested args := by
    unfold error_on_warning_requested
    split at hwe
    · rename_i hnone
      rw [hnone]
      cases hwe
      rfl
    · rename_i o ho
      rw [ho]
      cases o <;> simp [PyBool_Check] at hwe
      rename_i b
      cases b <;> simp [PyObject_IsTrue] at hwe <;> subst hwe <;> rfl
  split
  · refine ⟨fun c we p h => (by cases h), fun e c h => ?_⟩
    cases h
    exact ⟨rfl, fun w hw => by cases hw⟩
  rename_i c1 hc1
  have e1 : c1.added = compiler.added := by
    split at hc1
    · cases hc1; rfl
    · split at hc1
      · cases hc1; rfl
      · cases hc1
  split
  · refine ⟨fun c we p h => (by cases h), fun e c h => ?_⟩
    cases h
    exact ⟨e1, fun w hw => by cases hw⟩
  rename_i c2 hc2
  have e2 : c2.added = c1.added := by
    split at hc2
    · cases hc2; rfl
    · split at hc2
      · split at hc2 <;> cases hc2 <;> rfl
      · cases hc2
  split
  · refine ⟨fun c we p h => (by cases h), fun e c h => ?_⟩
    cases h
    exact ⟨by rw [e2, e1], fun w hw => by cases hw⟩
  rename_i c3 hc3
  have e3 : c3.added = c2.added := by
    split at hc3
    · cases hc3; rfl
    · split at hc3
      · cases hc3
      · cases hc3; rfl
  obtain ⟨x1, x2⟩ := yara_compile_externals_spec E args.externals c3 warning_error
  constructor
  · intro c we p h
    obtain ⟨y1, y2, y3⟩ := x1 c we p h
    exact ⟨by rw [y1, hreq], by rw [y2, e3, e2, e1], y3⟩
  · intro e c h
    obtain ⟨y1, y2⟩ := x2 e c h
    exact ⟨by rw [y1, e3, e2, e1], y2⟩

/-- The course of `yara_compile`: it returns early with an exception, with no
warning and no source handed to the engine, or it is the end of the function
after the sources were handed to a compiler that had none, with the exception
pending that the handling of `externals` left. -/
theorem yara_compile_shape (E : CompileEnv) (args : CompileArgs) :
    ((yara_compile E (some args)).warnings = [] ∧
      (∃ e, (yara_compile E (some args)).value = Except.error e ∧
        ∀ w, e ≠ PyErr.YaraWarningError w) ∧
      ∀ c, (yara_compile E (some args)).compiler = some c → c.added = []) ∨
    ∃ c p, c.added = [] ∧ (∀ w, p ≠ some (PyErr.YaraWarningError w)) ∧
      yara_compile E (some args) =
        yara_compile_finish E args.externals (error_on_warning_requested args)
          (yara_compile_sources E args c
            { warnings := [], err := p, trace := [CompileEffect.yr_compiler_create] }).1
          (yara_compile_sources E args c
            { warnings := [], err := p, trace := [CompileEffect.yr_compiler_create] }).2 := by
  unfold yara_compile
  simp only []
  split
  · left
    exact ⟨rfl, ⟨_, rfl, fun w hw => by cases hw⟩, fun c hc => by cases hc⟩
  split
  · left
    exact ⟨rfl, ⟨_, rfl, fun w hw => handle_error_not_warning _ _ w hw⟩, fun c hc => by cases hc⟩
  obtain ⟨o1, o2⟩ := yara_compile_options_spec E args YR_COMPILER.fresh
  split
  · rename_i e c hopt
    obtain ⟨a1, a2⟩ := o2 e c hopt
    left
    refine ⟨rfl, ⟨e, rfl, a2⟩, ?_⟩
    intro c2 hc2
    cases hc2
    rw [a1]
    rfl
  · rename_i c we p hopt
    obtain ⟨a1, a2, a3⟩ := o1 c we p hopt
    right
    refine ⟨c, p, by rw [a2]; rfl, a3, ?_⟩
    rw [a1]

theorem yara_compile_finish_fields (E : CompileEnv) (externals : Option PyObject)
    (warning_error : Bool) (compiler : YR_COMPILER) (st : CompileState) :
    (yara_compile_finish E externals warning_error compiler st).warnings = st.warnings ∧
      (yara_compile_finish E externals warning_error compiler st).compiler = some compiler := by
  unfold yara_compile_finish
  simp only []
  by_cases hw : warning_error = true ∧ st.warnings.length > 0
  · rw [if_pos hw]
    exact ⟨rfl, rfl⟩
  · rw [if_neg hw]
    cases st.err with
    | some e => exact ⟨rfl, rfl⟩
    | none =>
      simp only []
      by_cases hn : E.Rules_NEW = true
      · rw [if_pos hn]
        by_cases hg : (E.yr_compiler_get_rules compiler).1 = ERROR_SUCCESS
        · rw [if_pos hg]
          exact ⟨rfl, rfl⟩
        · rw [if_neg hg]
          exact ⟨rfl, rfl⟩
      · rw [if_neg hn]
        exact ⟨rfl, rfl⟩

theorem yara_compile_finish_escalated (E : CompileEnv) (externals : Option PyObject)
    (compiler : YR_COMPILER) (st : CompileState) (h : st.warnings ≠ []) :
    (yara_compile_finish E externals true compiler st).value =
      Except.error (PyErr.YaraWarningError st.warnings) := by
  unfold yara_compile_finish
  have hlen : st.warnings.length > 0 := List.length_pos.mpr h
  rw [if_pos (show true = true ∧ st.warnings.length > 0 from ⟨rfl, hlen⟩)]

theorem yara_compile_finish_plain (E : CompileEnv) (externals : Option PyObject)
    (warning_error : Bool) (compiler : YR_COMPILER) (st : CompileState)
    (h : warning_error = false ∨ st.warnings = []) :
    (∀ e, st.err = some e →
      (yara_compile_finish E externals warning_error compiler st).value = Except.error e) ∧
    (st.err = none →
      (E.Rules_NEW = true ∧ (E.yr_compiler_get_rules compiler).1 = ERROR_SUCCESS ∧
        ∃ rules, (yara_compile_finish E externals warning_error compiler st).value
            = Except.ok rules ∧
          rules.warnings = some st.warnings ∧
          rules.rules = (E.yr_compiler_get_rules compiler).2 ∧
          rules.iter_current_rule = 0) ∨
      ((E.Rules_NEW = false ∨ (E.yr_compiler_get_rules compiler).1 ≠ ERROR_SUCCESS) ∧
        ∃ e, (yara_compile_finish E externals warning_error compiler st).value
            = Except.error e ∧ ∀ w, e ≠ PyErr.YaraWarningError w)) := by
  have hno : ¬ (warning_error = true ∧ st.warnings.length > 0) := by
    rintro ⟨h1, h2⟩
    rcases h with h | h
    · rw [h] at h1
      cases h1
    · rw [h] at h2
      simp at h2
  unfold yara_compile_finish
  simp only []
  rw [if_neg hno]
  constructor
  · intro e he
    rw [he]
  · intro hnone
    rw [hnone]
    simp only []
    by_cases hn : E.Rules_NEW = true
    · rw [if_pos hn]
      by_cases hg : (E.yr_compiler_get_rules compiler).1 = ERROR_SUCCESS
      · rw [if_pos hg]
        exact Or.inl ⟨hn, hg, _, rfl, rfl, rfl, rfl⟩
      · rw [if_neg hg]
        exact Or.inr ⟨Or.inr hg, _, rfl, fun w hw => handle_error_not_warning _ _ w hw⟩
    · rw [if_neg hn]
      exact Or.inr ⟨Or.inl (by simpa using hn), _, rfl,
        fun w hw => handle_error_not_warning _ _ w hw⟩

/-- The list `warnings` at the end of `yara_compile` holds the texts of the
diagnostics of other than ERROR level that the engine emitted for the sources
handed to it, in order. -/
theorem yara_compile_warnings (E : CompileEnv) (args : CompileArgs) (c : YR_COMPILER)
    (hc : (yara_compile E (some args)).compiler = some c) :
    (yara_compile E (some args)).warnings =
      warning_texts (emitted E { c with added := [] } c.added) := by
  rcases yara_compile_shape E args with ⟨h1, _, h3⟩ | ⟨c0, p0, h0, hp0, hfin⟩
  · rw [h1, h3 c hc]
    rfl
  · obtain ⟨sources, s1, s2, _, _⟩ := yara_compile_sources_outcome E args c0
      { warnings := [], err := p0, trace := [CompileEffect.yr_compiler_create] }
    obtain ⟨f1, f2⟩ := yara_compile_finish_fields E args.externals
      (error_on_warning_requested args)
      (yara_compile_sources E args c0
        { warnings := [], err := p0, trace := [CompileEffect.yr_compiler_create] }).1
      (yara_compile_sources E args c0
        { warnings := [], err := p0, trace := [CompileEffect.yr_compiler_create] }).2
    rw [hfin] at hc ⊢
    rw [f2] at hc
    cases hc
    rw [f1, s2, s1, h0]
    simp only [List.nil_append]
    have : ({ c0 with added := sources } : YR_COMPILER) = { c0 with added := [] ++ sources } := by
      simp
    have hc0 : ({ c0 with added := [] } : YR_COMPILER) = c0 := by
      cases c0
      simp only at h0
      subst h0
      rfl
    simp only [hc0]

/-- C21: with `error_on_warning=True`, `compile` returns a Rules object only
if the list of warnings is empty at the end, and with a non-empty list it
raises `YaraWarningError` whose payload is that list. Otherwise `compile`
never raises `YaraWarningError`, a Rules object that it returns carries the
list of warnings as it is, and whether the end of the function fails does not
depend on the warnings. In every case the list of warnings holds the texts of
the diagnostics of other than ERROR level that the engine emitted for the
sources handed to it, in order. -/
theorem warnings_escalated_when_requested (E : CompileEnv) (args : CompileArgs) :
    (error_on_warning_requested args = true →
      (∀ rules, (yara_compile E (some args)).value = Except.ok rules →
        (yara_compile E (some args)).warnings = []) ∧
      ((yara_compile E (some args)).warnings ≠ [] →
        (yara_compile E (some args)).value =
          Except.error (PyErr.YaraWarningError (yara_compile E (some args)).warnings))) ∧
    (error_on_warning_requested args = false →
      (∀ w, (yara_compile E (some args)).value ≠ Except.error (PyErr.YaraWarningError w)) ∧
      (∀ rules, (yara_compile E (some args)).value = Except.ok rules →
        rules.warnings = some (yara_compile E (some args)).warnings) ∧
      ∀ externals compiler st w,
        ((∃ e, (yara_compile_finish E externals false compiler st).value = Except.error e) ↔
          ∃ e, (yara_compile_finish E externals false compiler { st with warnings := w }).value
            = Except.error e)) ∧
    (∀ c, (yara_compile E (some args)).compiler = some c →
      (yara_compile E (some args)).warnings =
        warning_texts (emitted E { c with added := [] } c.added)) := by
  refine ⟨?_, ?_, fun c hc => yara_compile_warnings E args c hc⟩
  · intro hreq
    rcases yara_compile_shape E args with ⟨h1, ⟨e, he, _⟩, _⟩ | ⟨c0, p0, _, hp0, hfin⟩
    · refine ⟨fun _ _ => h1, fun hne => absurd h1 hne⟩
    · obtain ⟨f1, _⟩ := yara_compile_finish_fields E args.externals
        (error_on_warning_requested args)
        (yara_compile_sources E args c0
          { warnings := [], err := p0, trace := [CompileEffect.yr_compiler_create] }).1
        (yara_compile_sources E args c0
          { warnings := [], err := p0, trace := [CompileEffect.yr_compiler_create] }).2
      rw [hfin, f1, hreq]
      have hesc := yara_compile_finish_escalated E args.externals
        (yara_compile_sources E args c0
          { warnings := [], err := p0, trace := [CompileEffect.yr_compiler_create] }).1
        (yara_compile_sources E args c0
          { warnings := [], err := p0, trace := [CompileEffect.yr_compiler_create] }).2
      constructor
      · intro rules hok
        by_contra hne
        rw [hesc hne] at hok
        cases hok
      · exact hesc
  · intro hreq
    have hfinish : ∀ externals compiler (st : CompileState),
        (∃ e, (yara_compile_finish E externals false compiler st).value = Except.error e) ↔
          (st.err ≠ none ∨ E.Rules_NEW = false ∨
            (E.yr_compiler_get_rules compiler).1 ≠ ERROR_SUCCESS) := by
      intro externals compiler st
      obtain ⟨p1, p2⟩ := yara_compile_finish_plain E externals false compiler st (Or.inl rfl)
      constructor
      · rintro ⟨e, he⟩
        by_contra hcon
        simp only [not_or, not_not] at hcon
        obtain ⟨c1, c2, c3⟩ := hcon
        rcases p2 c1 with ⟨_, _, rules, hr, _⟩ | ⟨hbad, _⟩
        · rw [hr] at he
          cases he
        · rcases hbad with hbad | hbad
          · exact c2 hbad
          · exact hbad c3
      · intro hcase
        cases herr : st.err with
        | some e => exact ⟨e, p1 e herr⟩
        | none =>
          rcases p2 herr with ⟨hn, hg, _⟩ | ⟨_, e, he, _⟩
          · rcases hcase with hcase | hcase | hcase
            · exact absurd herr hcase
            · rw [hn] at hcase
              cases hcase
            · exact absurd hg hcase
          · exact ⟨e, he⟩
    refine ⟨?_, ?_, ?_⟩
    · intro w hw
      rcases yara_compile_shape E args with ⟨_, ⟨e, he, hnw⟩, _⟩ | ⟨c0, p0, _, hp0, hfin⟩
      · rw [he] at hw
        cases hw
        exact hnw w rfl
      · obtain ⟨sources, _, _, _, s4⟩ := yara_compile_sources_outcome E args c0
          { warnings := [], err := p0, trace := [CompileEffect.yr_compiler_create] }
        obtain ⟨p1, p2⟩ := yara_compile_finish_plain E args.externals false
          (yara_compile_sources E args c0
            { warnings := [], err := p0, trace := [CompileEffect.yr_compiler_create] }).1
          (yara_compile_sources E args c0
            { warnings := [], err := p0, trace := [CompileEffect.yr_compiler_create] }).2
          (Or.inl rfl)
        rw [hfin, hreq] at hw
        cases herr : (yara_compile_sources E args c0
            { warnings := [], err := p0, trace := [CompileEffect.yr_compiler_create] }).2.err with
        | some e =>
          rw [p1 e herr] at hw
          cases hw
          exact s4 hp0 w herr
        | none =>
          rcases p2 herr with ⟨_, _, rules, hr, _⟩ | ⟨_, e, he, hnw⟩
          · rw [hr] at hw
            cases hw
          · rw [he] at hw
            cases hw
            exact hnw w rfl
    · intro rules hok
      rcases yara_compile_shape E args with ⟨_, ⟨e, he, _⟩, _⟩ | ⟨c0, p0, _, hp0, hfin⟩
      · rw [he] at hok
        cases hok
      · obtain ⟨f1, _⟩ := yara_compile_finish_fields E args.externals
          (error_on_warning_requested args)
          (yara_compile_sources E args c0
            { warnings := [], err := p0, trace := [CompileEffect.yr_compiler_create] }).1
          (yara_compile_sources E args c0
            { warnings := [], err := p0, trace := [CompileEffect.yr_compiler_create] }).2
        obtain ⟨p1, p2⟩ := yara_compile_finish_plain E args.externals false
          (yara_compile_sources E args c0
            { warnings := [], err := p0, trace := [CompileEffect.yr_compiler_create] }).1
          (yara_compile_sources E args c0
            { warnings := [], err := p0, trace := [CompileEffect.yr_compiler_create] }).2
          (Or.inl rfl)
        rw [hfin, f1]
        rw [hfin, hreq] at hok
        cases herr : (yara_compile_sources E args c0
            { warnings := [], err := p0, trace := [CompileEffect.yr_compiler_create] }).2.err with
        | some e =>
          rw [p1 e herr] at hok
          cases hok
        | none =>
          rcases p2 herr with ⟨_, _, rules2, hr, hw2, _⟩ | ⟨_, e, he, _⟩
          · rw [hr] at hok
            cases hok
            exact hw2
          · rw [he] at hok
            cases hok
    · intro externals compiler st w
      rw [hfinish externals compiler st, hfinish externals compiler { st with warnings := w }]

/-- C21, in an environment whose engine emits one warning and no error for
the source: with `error_on_warning=True` the call raises `YaraWarningError`
carrying the warning, and without it the call returns a Rules object that
carries the warning. -/
theorem warnings_escalated_when_requested_witness :
    error_on_warning_requested strict_source_args = true ∧
    (yara_compile (emitting_env [CompilerEvent.diagnostic slow_warning] 0)
        (some strict_source_args)).value =
      Except.error (PyErr.YaraWarningError ["line 1: slow string"]) ∧
    error_on_warning_requested source_args = false ∧
    (∀ rules, (yara_compile (emitting_env [CompilerEvent.diagnostic slow_warning] 0)
        (some source_args)).value = Except.ok rules →
      rules.warnings = some ["line 1: slow string"]) ∧
    (∃ rules, (yara_compile (emitting_env [CompilerEvent.diagnostic slow_warning] 0)
        (some source_args)).value = Except.ok rules) :=
  have hw : (yara_compile (emitting_env [CompilerEvent.diagnostic slow_warning] 0)
      (some strict_source_args)).warnings = ["line 1: slow string"] := by decide
  have hw2 : (yara_compile (emitting_env [CompilerEvent.diagnostic slow_warning] 0)
      (some source_args)).warnings = ["line 1: slow string"] := by decide
  ⟨rfl,
    by
      have t := ((warnings_escalated_when_requested
        (emitting_env [CompilerEvent.diagnostic slow_warning] 0) strict_source_args).1 rfl).2
      rw [hw] at t
      exact t (by simp),
    rfl,
    fun rules hok => by
      have t := ((warnings_escalated_when_requested
        (emitting_env [CompilerEvent.diagnostic slow_warning] 0) source_args).2.1 rfl).2.1
        rules hok
      rw [hw2] at t
      exact t,
    ⟨_, rfl⟩⟩

/-- C22 as stated fails: the engine emits a warning and then a diagnostic of
ERROR level for the source, and "error on warning" is requested; `compile`
raises `YaraWarningError` with the warning, not `YaraSyntaxError`. -/
theorem error_diagnostic_hidden_by_warnings :
    last_error (emitted
        (emitting_env [CompilerEvent.diagnostic slow_warning,
          CompilerEvent.diagnostic syntax_error] 1)
        YR_COMPILER.fresh [Source.string "rule r \x7b condition: true \x7d" none])
      = some syntax_error ∧
    error_on_warning_requested strict_source_args = true ∧
    (yara_compile
        (emitting_env [CompilerEvent.diagnostic slow_warning,
          CompilerEvent.diagnostic syntax_error] 1)
        (some strict_source_args)).value =
      Except.error (PyErr.YaraWarningError ["line 1: slow string"]) ∧
    ∀ msg, (yara_compile
        (emitting_env [CompilerEvent.diagnostic slow_warning,
          CompilerEvent.diagnostic syntax_error] 1)
        (some strict_source_args)).value ≠ Except.error (PyErr.YaraSyntaxError msg) :=
  ⟨by decide, rfl, rfl, fun msg h => by
    have h2 : (yara_compile
        (emitting_env [CompilerEvent.diagnostic slow_warning,
          CompilerEvent.diagnostic syntax_error] 1)
        (some strict_source_args)).value =
      Except.error (PyErr.YaraWarningError ["line 1: slow string"]) := rfl
    rw [h2] at h
    cases h⟩

/-- C22, amended: when the engine emits a diagnostic of ERROR level for the
sources handed to it (and returns a positive number of errors from that
add-source call), `compile` fails. It raises `YaraSyntaxError` with the text
of the last such diagnostic when "error on warning" is not requested or the
list of warnings is empty; when it is requested and the list of warnings is
not empty, it raises `YaraWarningError` with that list instead. -/
theorem error_diagnostic_fails_compile (E : CompileEnv) (args : CompileArgs)
    (c : YR_COMPILER) (d : Diagnostic) (hE : reports_errors E)
    (hc : (yara_compile E (some args)).compiler = some c)
    (hd : last_error (emitted E { c with added := [] } c.added) = some d) :
    (∃ e, (yara_compile E (some args)).value = Except.error e) ∧
    (error_on_warning_requested args = false ∨ (yara_compile E (some args)).warnings = [] →
      (yara_compile E (some args)).value = Except.error (PyErr.YaraSyntaxError d.text)) ∧
    (error_on_warning_requested args = true → (yara_compile E (some args)).warnings ≠ [] →
      (yara_compile E (some args)).value =
        Except.error (PyErr.YaraWarningError (yara_compile E (some args)).warnings)) := by
  rcases yara_compile_shape E args with ⟨_, _, h3⟩ | ⟨c0, p0, h0, hp0, hfin⟩
  · rw [h3 c hc] at hd
    simp [emitted, last_error, diagnostics] at hd
  · obtain ⟨sources, s1, _, s3, _⟩ := yara_compile_sources_outcome E args c0
      { warnings := [], err := p0, trace := [CompileEffect.yr_compiler_create] }
    obtain ⟨f1, f2⟩ := yara_compile_finish_fields E args.externals
      (error_on_warning_requested args)
      (yara_compile_sources E args c0
        { warnings := [], err := p0, trace := [CompileEffect.yr_compiler_create] }).1
      (yara_compile_sources E args c0
        { warnings := [], err := p0, trace := [CompileEffect.yr_compiler_create] }).2
    have hc0 : ({ c0 with added := [] } : YR_COMPILER) = c0 := by
      cases c0
      simp only at h0
      subst h0
      rfl
    rw [hfin, f2] at hc
    cases hc
    rw [s1, h0] at hd
    simp only [List.nil_append, hc0] at hd
    have herr := s3 hE d hd
    rw [hfin, f1]
    have hsyn : error_on_warning_requested args = false ∨
        (yara_compile_sources E args c0
          { warnings := [], err := p0, trace := [CompileEffect.yr_compiler_create] }).2.warnings
          = [] →
        (yara_compile_finish E args.externals (error_on_warning_requested args)
          (yara_compile_sources E args c0
            { warnings := [], err := p0, trace := [CompileEffect.yr_compiler_create] }).1
          (yara_compile_sources E args c0
            { warnings := [], err := p0, trace := [CompileEffect.yr_compiler_create] }).2).value
          = Except.error (PyErr.YaraSyntaxError d.text) := by
      intro hcase
      exact (yara_compile_finish_plain E args.externals _ _ _ hcase).1 _ herr
    have hesc : error_on_warning_requested args = true →
        (yara_compile_sources E args c0
          { warnings := [], err := p0, trace := [CompileEffect.yr_compiler_create] }).2.warnings
          ≠ [] →
        (yara_compile_finish E args.externals (error_on_warning_requested args)
          (yara_compile_sources E args c0
            { warnings := [], err := p0, trace := [CompileEffect.yr_compiler_create] }).1
          (yara_compile_sources E args c0
            { warnings := [], err := p0, trace := [CompileEffect.yr_compiler_create] }).2).value
          = Except.error (PyErr.YaraWarningError (yara_compile_sources E args c0
            { warnings := [], err := p0, trace := [CompileEffect.yr_compiler_create]
              }).2.warnings) := by
      intro hreq hne
      rw [hreq]
      exact yara_compile_finish_escalated E args.externals _ _ hne
    refine ⟨?_, hsyn, hesc⟩
    by_cases hreq : error_on_warning_requested args = true
    · by_cases hw : (yara_compile_sources E args c0
          { warnings := [], err := p0, trace := [CompileEffect.yr_compiler_create] }).2.warnings
          = []
      · exact ⟨_, hsyn (Or.inr hw)⟩
      · exact ⟨_, hesc hreq hw⟩
    · exact ⟨_, hsyn (Or.inl (by simpa using hreq))⟩

/-- C22 amended, in an environment whose engine emits a warning and then a
diagnostic of ERROR level for the source: without "error on warning" the
call raises `YaraSyntaxError` with the text of the diagnostic. -/
theorem error_diagnostic_fails_compile_witness :
    reports_errors (emitting_env [CompilerEvent.diagnostic slow_warning,
      CompilerEvent.diagnostic syntax_error] 1) ∧
    (yara_compile
        (emitting_env [CompilerEvent.diagnostic slow_warning,
          CompilerEvent.diagnostic syntax_error] 1)
        (some source_args)).value =
      Except.error (PyErr.YaraSyntaxError "r.yar(2): syntax error") :=
  have hrep : reports_errors (emitting_env [CompilerEvent.diagnostic slow_warning,
      CompilerEvent.diagnostic syntax_error] 1) := fun _ _ _ => by
    show (1 : Int) > 0
    decide
  ⟨hrep,
    (error_diagnostic_fails_compile
      (emitting_env [CompilerEvent.diagnostic slow_warning,
        CompilerEvent.diagnostic syntax_error] 1)
      source_args
      { YR_COMPILER.fresh with added := [Source.string "rule r \x7b condition: true \x7d" none] }
      syntax_error hrep rfl (by decide)).2.1 (Or.inl rfl)⟩

/-- C23: the compiler callback, for every diagnostic and state. A diagnostic of
ERROR level sets `YaraSyntaxError` with the text `<file>(<line>): <message>`,
or `line <line>: <message>` when no file name is given, and leaves the list of
warnings as it is; a diagnostic of another level appends that text to the end
of the list of warnings and leaves the error indicator as it is. So the list
of warnings at the end of `compile`, which is the one attached to a returned
Rules object, holds the texts of the diagnostics of other than ERROR level
that the engine emitted for the sources handed to it, in order. -/
theorem diagnostics_raise_or_accumulate (E : CompileEnv) (args : CompileArgs)
    (d : Diagnostic) (st : CompileState) :
    (d.error_level = YARA_ERROR_LEVEL_ERROR →
      raise_exception_on_error d.error_level d.file_name d.line_number d.message st =
        { st with err := some (PyErr.YaraSyntaxError d.text) }) ∧
    (d.error_level ≠ YARA_ERROR_LEVEL_ERROR →
      raise_exception_on_error d.error_level d.file_name d.line_number d.message st =
        { st with warnings := st.warnings ++ [d.text] }) ∧
    (∀ file_name, d.file_name = some file_name →
      d.text = file_name ++ "(" ++ toString d.line_number ++ "): " ++ d.message) ∧
    (d.file_name = none → d.text = "line " ++ toString d.line_number ++ ": " ++ d.message) ∧
    (∀ c, (yara_compile E (some args)).compiler = some c →
      (yara_compile E (some args)).warnings =
        warning_texts (emitted E { c with added := [] } c.added)) ∧
    (∀ rules, (yara_compile E (some args)).value = Except.ok rules →
      rules.warnings = some (yara_compile E (some args)).warnings) := by
  refine ⟨raise_exception_on_error_error d st, raise_exception_on_error_warning d st, ?_, ?_,
    fun c hc => yara_compile_warnings E args c hc, ?_⟩
  · intro file_name hf
    unfold Diagnostic.text
    rw [hf]
  · intro hf
    unfold Diagnostic.text
    rw [hf]
  · intro rules hok
    rcases yara_compile_shape E args with ⟨_, ⟨e, he, _⟩, _⟩ | ⟨c0, p0, _, hp0, hfin⟩
    · rw [he] at hok
      cases hok
    · obtain ⟨f1, _⟩ := yara_compile_finish_fields E args.externals
        (error_on_warning_requested args)
        (yara_compile_sources E args c0
          { warnings := [], err := p0, trace := [CompileEffect.yr_compiler_create] }).1
        (yara_compile_sources E args c0
          { warnings := [], err := p0, trace := [CompileEffect.yr_compiler_create] }).2
      rw [hfin, f1]
      rw [hfin] at hok
      by_cases hcase : error_on_warning_requested args = false ∨
          (yara_compile_sources E args c0
            { warnings := [], err := p0, trace := [CompileEffect.yr_compiler_create]
              }).2.warnings = []
      · obtain ⟨p1, p2⟩ := yara_compile_finish_plain E args.externals
          (error_on_warning_requested args) _ _ hcase
        cases herr : (yara_compile_sources E args c0
            { warnings := [], err := p0, trace := [CompileEffect.yr_compiler_create] }).2.err with
        | some e =>
          rw [p1 e herr] at hok
          cases hok
        | none =>
          rcases p2 herr with ⟨_, _, rules2, hr, hw2, _⟩ | ⟨_, e, he, _⟩
          · rw [hr] at hok
            cases hok
            exact hw2
          · rw [he] at hok
            cases hok
      · simp only [not_or, Bool.not_eq_false] at hcase
        rw [hcase.1, yara_compile_finish_escalated E args.externals _ _ hcase.2] at hok
        cases hok

/-- C23, at a warning without file name, an error with file name, and a
compilation whose engine emits a warning, an error-free include request and a
second warning. -/
theorem diagnostics_raise_or_accumulate_witness :
    (raise_exception_on_error syntax_error.error_level syntax_error.file_name
        syntax_error.line_number syntax_error.message
        { warnings := ["w"], err := none, trace := [] } =
      { warnings := ["w"], err := some (PyErr.YaraSyntaxError "r.yar(2): syntax error")
        trace := [] }) ∧
    (raise_exception_on_error slow_warning.error_level slow_warning.file_name
        slow_warning.line_number slow_warning.message
        { warnings := ["w"], err := none, trace := [] } =
      { warnings := ["w", "line 1: slow string"], err := none, trace := [] }) ∧
    (∀ rules, (yara_compile (emitting_env [CompilerEvent.diagnostic slow_warning,
          CompilerEvent.include_callback (some "i.yar") none none,
          CompilerEvent.diagnostic { slow_warning with line_number := 7 }] 0)
        (some source_args)).value = Except.ok rules →
      rules.warnings = some ["line 1: slow string", "line 7: slow string"]) :=
  have t := diagnostics_raise_or_accumulate
    (emitting_env [CompilerEvent.diagnostic slow_warning,
      CompilerEvent.include_callback (some "i.yar") none none,
      CompilerEvent.diagnostic { slow_warning with line_number := 7 }] 0) source_args
  ⟨(t syntax_error { warnings := ["w"], err := none, trace := [] }).1 rfl,
    (t slow_warning { warnings := ["w"], err := none, trace := [] }).2.1 (by decide),
    fun rules hok => (t slow_warning { warnings := [], err := none, trace := [] }).2.2.2.2.2
      rules hok⟩

/-! ## Conversion of module data -/

mutual

theorem convert_object_to_python_reference (a : Alloc) (h : a.conversion_ok) :
    ∀ object, convert_object_to_python a object = reference object
  | YR_OBJECT.INTEGER _ i => by
    by_cases hi : i = YR_UNDEFINED <;> simp [convert_object_to_python, reference, hi]
  | YR_OBJECT.STRING _ none => by simp [convert_object_to_python, reference]
  | YR_OBJECT.STRING _ (some bytes) => by
    simp [convert_object_to_python, reference, PyBytes_FromStringAndSize]
  | YR_OBJECT.STRUCTURE _ members => by
    simp only [convert_object_to_python, reference, h.1, if_true, mapping_of]
    rw [convert_members_reference a h members []]
  | YR_OBJECT.ARRAY _ none => by simp [convert_object_to_python, reference, h.2.1]
  | YR_OBJECT.ARRAY _ (some items) => by
    simp only [convert_object_to_python, reference, h.2.1, if_true]
    rw [convert_items_reference a h items []]
    rfl
  | YR_OBJECT.FUNCTION _ => by simp [convert_object_to_python, reference]
  | YR_OBJECT.DICTIONARY _ none => by simp [convert_object_to_python, reference, h.2.2]
  | YR_OBJECT.DICTIONARY _ (some entries) => by
    simp only [convert_object_to_python, reference, h.2.2, if_true, mapping_of]
    rw [convert_entries_reference a h entries []]
  | YR_OBJECT.FLOAT _ d => by
    by_cases hd : isnan d = true <;> simp [convert_object_to_python, reference, hd]
  | YR_OBJECT.OTHER _ _ => by simp [convert_object_to_python, reference]

theorem convert_members_reference (a : Alloc) (h : a.conversion_ok) :
    ∀ (members : List YR_OBJECT) (py_dict : PyDict),
      convert_members a members py_dict =
        (reference_members members).foldl (fun d p => PyDict_SetItemString d p.1 p.2) py_dict
  | [], py_dict => by simp [convert_members, reference_members]
  | member :: rest, py_dict => by
    simp only [convert_members, reference_members]
    rw [convert_object_to_python_reference a h member]
    cases reference member with
    | none => exact convert_members_reference a h rest py_dict
    | some value =>
      simp only [List.foldl_cons]
      exact convert_members_reference a h rest _

theorem convert_items_reference (a : Alloc) (h : a.conversion_ok) :
    ∀ (items : List (Option YR_OBJECT)) (py_list : List PyObject),
      convert_items a items py_list = py_list ++ reference_items items
  | [], py_list => by simp [convert_items, reference_items]
  | none :: rest, py_list => by
    simp only [convert_items, reference_items]
    exact convert_items_reference a h rest py_list
  | some object :: rest, py_list => by
    simp only [convert_items, reference_items]
    rw [convert_object_to_python_reference a h object]
    cases reference object with
    | none => exact convert_items_reference a h rest py_list
    | some value =>
      simp only []
      rw [convert_items_reference a h rest _]
      simp

theorem convert_entries_reference (a : Alloc) (h : a.conversion_ok) :
    ∀ (entries : List (String × Option YR_OBJECT)) (py_dict : PyDict),
      convert_entries a entries py_dict =
        (reference_entries entries).foldl (fun d p => PyDict_SetItemString d p.1 p.2) py_dict
  | [], py_dict => by simp [convert_entries, reference_entries]
  | (_, none) :: rest, py_dict => by
    simp only [convert_entries, reference_entries]
    exact convert_entries_reference a h rest py_dict
  | (key, some object) :: rest, py_dict => by
    simp only [convert_entries, reference_entries]
    rw [convert_object_to_python_reference a h object]
    cases reference object with
    | none => exact convert_entries_reference a h rest py_dict
    | some value =>
      simp only [List.foldl_cons]
      exact convert_entries_reference a h rest _

end

theorem reference_members_filterMap (members : List YR_OBJECT) :
    reference_members members =
      members.filterMap (fun m => (reference m).map (fun v => (m.identifier, v))) := by
  induction members with
  | nil => simp [reference_members]
  | cons m rest ih =>
    simp only [reference_members, List.filterMap_cons]
    cases reference m <;> simp [ih]

theorem reference_items_filterMap (items : List (Option YR_OBJECT)) :
    reference_items items = items.filterMap (fun o => o.bind reference) := by
  induction items with
  | nil => simp [reference_items]
  | cons o rest ih =>
    cases o with
    | none => simp [reference_items, ih]
    | some object =>
      simp only [reference_items, List.filterMap_cons, Option.some_bind]
      cases reference object <;> simp [ih]

theorem reference_entries_filterMap (entries : List (String × Option YR_OBJECT)) :
    reference_entries entries =
      entries.filterMap (fun e => (e.2.bind reference).map (fun v => (e.1, v))) := by
  induction entries with
  | nil => simp [reference_entries]
  | cons e rest ih =>
    obtain ⟨key, o⟩ := e
    cases o with
    | none => simp [reference_entries, ih]
    | some object =>
      simp only [reference_entries, List.filterMap_cons, Option.some_bind]
      cases reference object <;> simp [ih]

theorem mapping_lookup (pairs : List (String × PyObject)) (k : String) :
    ∀ acc : PyDict,
      PyDict_GetItemString (pairs.foldl (fun d p => PyDict_SetItemString d p.1 p.2) acc) k =
        match (pairs.filter (fun p => decide (p.1 = k))).getLast? with
        | some p => some p.2
        | none => PyDict_GetItemString acc k := by
  induction pairs with
  | nil => intro acc; simp
  | cons p rest ih =>
    intro acc
    simp only [List.foldl_cons]
    rw [ih]
    by_cases hp : p.1 = k
    · rw [List.filter_cons_of_pos (by simpa using hp), List.getLast?_cons]
      cases hl : (rest.filter (fun p => decide (p.1 = k))).getLast? with
      | none => simp [PyDict_get_set, hp]
      | some q => simp
    · rw [List.filter_cons_of_neg (by simpa using hp)]
      cases hl : (rest.filter (fun p => decide (p.1 = k))).getLast? with
      | none =>
        simp only [PyDict_get_set]
        rw [if_neg (fun h => hp h.symm)]
      | some q => simp

theorem mapping_keys (pairs : List (String × PyObject)) (key : PyKey) :
    ∀ acc : PyDict,
      key ∈ (pairs.foldl (fun d p => PyDict_SetItemString d p.1 p.2) acc).map Prod.fst ↔
        key ∈ acc.map Prod.fst ∨ ∃ p ∈ pairs, key = PyKey.Str p.1 := by
  induction pairs with
  | nil => intro acc; simp
  | cons p rest ih =>
    intro acc
    simp only [List.foldl_cons, ih, PyDict_keys_set, List.mem_cons, exists_eq_or_imp]
    tauto

/-- C24: the conversion of a value tree is a total function, so it ends on
every tree, and when its three allocations succeed it is the conversion in the
words of the specification: `reference`, whose lists of converted members,
elements and entries are the sub-values that convert to something, in order
(a `NULL` element converts to nothing), and whose mappings hold exactly the
keys of those members or entries, each with the value of the last one of that
key. A structure, an array and a dictionary always convert to a dictionary, a
list and a dictionary. -/
theorem conversion_equals_reference (a : Alloc) (h : a.conversion_ok) (object : YR_OBJECT) :
    convert_object_to_python a object = reference object ∧
    (∀ members, convert_structure_to_python a members =
      some (mapping_of (reference_members members))) ∧
    (∀ items, convert_array_to_python a items = some (reference_items (items.getD []))) ∧
    (∀ entries, convert_dictionary_to_python a entries =
      some (mapping_of (reference_entries (entries.getD [])))) ∧
    (∀ members, reference_members members =
      members.filterMap (fun m => (reference m).map (fun v => (m.identifier, v)))) ∧
    (∀ items, reference_items items = items.filterMap (fun o => o.bind reference)) ∧
    (∀ entries, reference_entries entries =
      entries.filterMap (fun e => (e.2.bind reference).map (fun v => (e.1, v)))) ∧
    (∀ pairs k, PyDict_GetItemString (mapping_of pairs) k =
      ((pairs.filter (fun p => decide (p.1 = k))).getLast?).map Prod.snd) ∧
    (∀ pairs key, key ∈ (mapping_of pairs).map Prod.fst ↔ ∃ p ∈ pairs, key = PyKey.Str p.1) ∧
    (∀ identifier members, ∃ d,
      convert_object_to_python a (YR_OBJECT.STRUCTURE identifier members)
        = some (PyObject.Dict d)) ∧
    (∀ identifier items, ∃ l,
      convert_object_to_python a (YR_OBJECT.ARRAY identifier items) = some (PyObject.List l)) ∧
    (∀ identifier entries, ∃ d,
      convert_object_to_python a (YR_OBJECT.DICTIONARY identifier entries)
        = some (PyObject.Dict d)) := by
  refine ⟨convert_object_to_python_reference a h object, ?_, ?_, ?_,
    reference_members_filterMap, reference_items_filterMap, reference_entries_filterMap,
    ?_, ?_, ?_, ?_, ?_⟩
  · intro members
    simp only [convert_structure_to_python, h.1, if_true, mapping_of]
    rw [convert_members_reference a h members []]
  · intro items
    cases items with
    | none => simp [convert_array_to_python, h.2.1, reference_items]
    | some objects =>
      simp only [convert_array_to_python, h.2.1, if_true, Option.getD_some]
      rw [convert_items_reference a h objects []]
      rfl
  · intro entries
    cases entries with
    | none => simp [convert_dictionary_to_python, h.2.2, reference_entries, mapping_of]
    | some objects =>
      simp only [convert_dictionary_to_python, h.2.2, if_true, Option.getD_some, mapping_of]
      rw [convert_entries_reference a h objects []]
  · intro pairs k
    unfold mapping_of
    rw [mapping_lookup pairs k []]
    cases (pairs.filter (fun p => decide (p.1 = k))).getLast? <;> simp [PyDict_GetItemString]
  · intro pairs key
    unfold mapping_of
    rw [mapping_keys pairs key []]
    simp
  · intro identifier members
    rw [convert_object_to_python_reference a h]
    exact ⟨_, rfl⟩
  · intro identifier items
    rw [convert_object_to_python_reference a h]
    cases items <;> exact ⟨_, rfl⟩
  · intro identifier entries
    rw [convert_object_to_python_reference a h]
    cases entries <;> exact ⟨_, rfl⟩

/-- C24, at `example_tree`: the undefined integer, the function, the absent
element and the NaN are left out, and the second entry of key `k` replaces the
first. -/
theorem conversion_equals_reference_witness :
    Alloc.healthy.conversion_ok ∧
    convert_object_to_python Alloc.healthy example_tree =
      some (PyObject.Dict
        [(PyKey.Str "sections", PyObject.Long 3),
         (PyKey.Str "names", PyObject.List [PyObject.Bytes [1, 2]]),
         (PyKey.Str "version", PyObject.Dict [(PyKey.Str "k", PyObject.Long 2)])]) :=
  ⟨⟨rfl, rfl, rfl⟩,
    (conversion_equals_reference Alloc.healthy ⟨rfl, rfl, rfl⟩ example_tree).1.trans (by
      simp [example_tree, reference, reference_members, reference_items, reference_entries,
        mapping_of, PyDict_SetItemString, YR_OBJECT.identifier, YR_UNDEFINED, to_int64, isnan])⟩

/-! ## Iteration over the rules -/

theorem tags_loop (tags : List String) (acc : List PyObject) :
    tags.foldl (fun tag_list tag => PyList_Append tag_list (PY_STRING tag)) (PyObject.List acc)
      = PyObject.List (acc ++ tags.map PyObject.Str) := by
  induction tags generalizing acc with
  | nil => simp
  | cons t rest ih =>
    simp only [List.foldl_cons]
    have hstep : PyList_Append (PyObject.List acc) (PY_STRING t)
        = PyObject.List (acc ++ [PyObject.Str t]) := rfl
    rw [hstep, ih]
    simp

theorem metas_loop (metas : List YR_META) :
    metas.foldl
        (fun meta_list meta => PyDict_SetItemString meta_list meta.identifier (meta_object meta))
        []
      = mapping_of (metas.map (fun meta => (meta.identifier, meta_object meta))) := by
  unfold mapping_of
  rw [List.foldl_map]

theorem flag_global (flags : Nat) :
    PyBool_FromLong ((flags &&& RULE_FLAGS_GLOBAL : Nat) : Int)
      = PyObject.Bool (flags.testBit 1) := by
  unfold PyBool_FromLong RULE_FLAGS_GLOBAL
  rw [nat_and_two]
  cases flags.testBit 1 <;> simp

theorem flag_private (flags : Nat) :
    PyBool_FromLong ((flags &&& RULE_FLAGS_PRIVATE : Nat) : Int)
      = PyObject.Bool (flags.testBit 0) := by
  unfold PyBool_FromLong RULE_FLAGS_PRIVATE
  rw [Nat.and_one_is_mod, Nat.testBit_zero]
  rcases Nat.mod_two_eq_zero_or_one flags with h | h <;> simp [h]

/-- A call of `Rules_next` with the cursor at a rule and the allocations
succeeding returns the Rule of that entry and moves the cursor on by one. -/
theorem Rules_next_rule (a : NextAlloc) (rules : Rules) (entry : YR_RULE) (ha : a.ok)
    (h : rules.rules.rules_table[rules.iter_current_rule]? = some entry) :
    Rules_next a rules =
      (NextResult.rule (Rule_of entry),
        { rules with iter_current_rule := rules.iter_current_rule + 1 }) := by
  unfold Rules_next
  rw [h]
  simp only []
  have ha2 : a.rule = true ∧ a.tag_list = true ∧ a.meta_list = true := ha
  rw [if_pos ha2]
  simp only [yr_rule_tags_foreach, yr_rule_metas_foreach]
  rw [tags_loop, metas_loop, flag_global, flag_private]
  rfl

/-- A call of `Rules_next` with the cursor at the entry that ends the table
signals the end of the iteration and puts the cursor at the first entry. -/
theorem Rules_next_stop (a : NextAlloc) (rules : Rules)
    (h : rules.rules.rules_table.length ≤ rules.iter_current_rule) :
    Rules_next a rules = (NextResult.StopIteration, { rules with iter_current_rule := 0 }) := by
  unfold Rules_next
  rw [List.getElem?_eq_none h]

theorem Rules_next_table (a : NextAlloc) (rules : Rules) :
    (Rules_next a rules).2.rules = rules.rules ∧
      (rules.iter_current_rule ≤ rules.rules.rules_table.length →
        (Rules_next a rules).2.iter_current_rule ≤ rules.rules.rules_table.length) ∧
      ((Rules_next a rules).1 = NextResult.StopIteration →
        (Rules_next a rules).2.iter_current_rule = 0) := by
  unfold Rules_next
  cases h : rules.rules.rules_table[rules.iter_current_rule]? with
  | none => exact ⟨rfl, fun _ => Nat.zero_le _, fun _ => rfl⟩
  | some entry =>
    have hlt : rules.iter_current_rule < rules.rules.rules_table.length := by
      by_contra hge
      rw [List.getElem?_eq_none (by omega)] at h
      cases h
    simp only []
    split
    · exact ⟨rfl, fun _ => hlt, fun hs => by cases hs⟩
    · exact ⟨rfl, fun hle => hle, fun hs => by cases hs⟩

/-- An iteration from the cursor `k`: with the allocations succeeding, the
steps up to the end of the table return the Rules of the entries from `k` on,
in order, the next step signals the end, and the cursor is back at the first
entry. -/
theorem Rules_next_steps_from (table : List YR_RULE) :
    ∀ (todo : Nat) (allocs : List NextAlloc) (rules : Rules),
      rules.rules.rules_table = table →
      rules.iter_current_rule + todo = table.length →
      allocs.length = todo + 1 → (∀ a ∈ allocs, a.ok) →
      (Rules_next_steps allocs rules).1 =
        (table.drop rules.iter_current_rule).map (fun entry => NextResult.rule (Rule_of entry))
          ++ [NextResult.StopIteration] ∧
      (Rules_next_steps allocs rules).2 = { rules with iter_current_rule := 0 } := by
  intro todo
  induction todo with
  | zero =>
    intro allocs rules ht hk hlen hok
    match allocs, hlen with
    | [a], _ =>
      simp only [Rules_next_steps]
      rw [Rules_next_stop a rules (by rw [ht]; omega)]
      rw [List.drop_eq_nil_of_le (by omega)]
      exact ⟨rfl, rfl⟩
  | succ todo ih =>
    intro allocs rules ht hk hlen hok
    match allocs, hlen with
    | a :: rest, hlen =>
      have hlt : rules.iter_current_rule < table.length := by omega
      have hentry : rules.rules.rules_table[rules.iter_current_rule]? =
          some (table[rules.iter_current_rule]) := by
        rw [List.getElem?_eq_some_iff]
        exact ⟨by rw [ht]; exact hlt, by simp [ht]⟩
      simp only [Rules_next_steps]
      rw [Rules_next_rule a rules _ (hok a (List.mem_cons_self _ _)) hentry]
      obtain ⟨h1, h2⟩ := ih rest { rules with iter_current_rule := rules.iter_current_rule + 1 }
        ht (by simp only; omega) (by simpa using hlen)
        (fun b hb => hok b (List.mem_cons_of_mem _ hb))
      simp only [] at h1 h2
      rw [h1, h2]
      refine ⟨?_, rfl⟩
      rw [List.drop_eq_getElem_cons hlt]
      rfl

theorem Rules_next_inv (a : NextAlloc) (rules : Rules) (r : Rule)
    (h : (Rules_next a rules).1 = NextResult.rule r) :
    ∃ entry, rules.rules.rules_table[rules.iter_current_rule]? = some entry ∧ a.ok ∧
      r = Rule_of entry := by
  cases hentry : rules.rules.rules_table[rules.iter_current_rule]? with
  | none =>
    have hge : rules.rules.rules_table.length ≤ rules.iter_current_rule := by
      by_contra hlt
      rw [List.getElem?_eq_getElem (by omega)] at hentry
      cases hentry
    rw [Rules_next_stop a rules hge] at h
    cases h
  | some entry =>
    by_cases ha : a.ok
    · rw [Rules_next_rule a rules entry ha hentry] at h
      simp only [NextResult.rule.injEq] at h
      exact ⟨entry, rfl, ha, h.symm⟩
    · unfold Rules_next at h
      rw [hentry] at h
      simp only [] at h
      have ha2 : ¬ (a.rule = true ∧ a.tag_list = true ∧ a.meta_list = true) := ha
      rw [if_neg ha2] at h
      cases h

theorem Rules_next_steps_append (first second : List NextAlloc) :
    ∀ rules : Rules,
      Rules_next_steps (first ++ second) rules =
        ((Rules_next_steps first rules).1
            ++ (Rules_next_steps second (Rules_next_steps first rules).2).1,
          (Rules_next_steps second (Rules_next_steps first rules).2).2) := by
  induction first with
  | nil => intro rules; simp [Rules_next_steps]
  | cons a rest ih =>
    intro rules
    have hstep : Rules_next_steps (a :: rest ++ second) rules =
        ((Rules_next a rules).1 :: (Rules_next_steps (rest ++ second) (Rules_next a rules).2).1,
          (Rules_next_steps (rest ++ second) (Rules_next a rules).2).2) := rfl
    rw [hstep, ih]
    rfl

theorem Rules_next_steps_table (allocs : List NextAlloc) :
    ∀ rules : Rules,
      (Rules_next_steps allocs rules).2.rules = rules.rules ∧
      (rules.iter_current_rule ≤ rules.rules.rules_table.length →
        (Rules_next_steps allocs rules).2.iter_current_rule ≤ rules.rules.rules_table.length) := by
  induction allocs with
  | nil => intro rules; exact ⟨rfl, fun h => h⟩
  | cons a rest ih =>
    intro rules
    obtain ⟨n1, n2, _⟩ := Rules_next_table a rules
    obtain ⟨s1, s2⟩ := ih (Rules_next a rules).2
    simp only [Rules_next_steps]
    refine ⟨by rw [s1, n1], ?_⟩
    intro hle
    rw [n1] at s2
    exact s2 (n2 hle)

/-- The first steps of an iteration: with the allocations succeeding, `k`
steps that stay within the table return the Rules of the next `k` entries and
leave the cursor `k` entries further. -/
theorem Rules_next_steps_prefix (table : List YR_RULE) :
    ∀ (allocs : List NextAlloc) (rules : Rules),
      rules.rules.rules_table = table →
      rules.iter_current_rule + allocs.length ≤ table.length → (∀ a ∈ allocs, a.ok) →
      (Rules_next_steps allocs rules).1 =
        ((table.drop rules.iter_current_rule).take allocs.length).map
          (fun entry => NextResult.rule (Rule_of entry)) ∧
      (Rules_next_steps allocs rules).2 =
        { rules with iter_current_rule := rules.iter_current_rule + allocs.length } := by
  intro allocs
  induction allocs with
  | nil =>
    intro rules _ _ _
    exact ⟨by simp [Rules_next_steps], rfl⟩
  | cons a rest ih =>
    intro rules ht hk hok
    simp only [List.length_cons] at hk
    have hlt : rules.iter_current_rule < table.length := by omega
    have hentry : rules.rules.rules_table[rules.iter_current_rule]? =
        some (table[rules.iter_current_rule]) := by
      rw [List.getElem?_eq_some_iff]
      exact ⟨by rw [ht]; exact hlt, by simp [ht]⟩
    simp only [Rules_next_steps]
    rw [Rules_next_rule a rules _ (hok a (List.mem_cons_self _ _)) hentry]
    obtain ⟨h1, h2⟩ := ih { rules with iter_current_rule := rules.iter_current_rule + 1 }
      ht (by simp only; omega) (fun b hb => hok b (List.mem_cons_of_mem _ hb))
    simp only [] at h1 h2
    rw [h1, h2]
    refine ⟨?_, ?_⟩
    · rw [List.drop_eq_getElem_cons hlt]
      rfl
    · simp only [List.length_cons]
      congr 1
      omega

theorem yara_compile_fresh (E : CompileEnv) (args : CompileArgs) (rules : Rules)
    (h : (yara_compile E (some args)).value = Except.ok rules) :
    rules.iter_current_rule = 0 := by
  rcases yara_compile_shape E args with ⟨_, ⟨e, he, _⟩, _⟩ | ⟨c0, p0, _, _, hfin⟩
  · rw [he] at h
    cases h
  · rw [hfin] at h
    by_cases hcase : error_on_warning_requested args = false ∨
        (yara_compile_sources E args c0
          { warnings := [], err := p0, trace := [CompileEffect.yr_compiler_create]
            }).2.warnings = []
    · obtain ⟨p1, p2⟩ := yara_compile_finish_plain E args.externals
        (error_on_warning_requested args) _ _ hcase
      cases herr : (yara_compile_sources E args c0
          { warnings := [], err := p0, trace := [CompileEffect.yr_compiler_create] }).2.err with
      | some e =>
        rw [p1 e herr] at h
        cases h
      | none =>
        rcases p2 herr with ⟨_, _, rules2, hr, _, _, hcur⟩ | ⟨_, e, he, _⟩
        · rw [hr] at h
          cases h
          exact hcur
        · rw [he] at h
          cases h
    · simp only [not_or, Bool.not_eq_false] at hcase
      rw [hcase.1, yara_compile_finish_escalated E args.externals _ _ hcase.2] at h
      cases h

theorem yara_load_fresh (E : LoadEnv) (args : Option LoadArgs) (rules : Rules)
    (h : yara_load E args = Except.ok rules) : rules.iter_current_rule = 0 := by
  unfold yara_load at h
  split at h
  · cases h
  · split at h
    · split at h
      · cases h
      · simp only [] at h
        split at h
        · cases h
        · cases h
          rfl
    · split at h
      · split at h
        · cases h
        · simp only [] at h
          split at h
          · cases h
          · cases h
            rfl
      · cases h

/-- C25: on a rule set whose cursor is at the first entry of its table of `n`
rules, as it is on every rule set that `compile` or `load` returns, `n + 1`
successive calls of `Rules_next` whose allocations succeed return the Rules of
the entries 0, 1, ..., `n - 1` in that order, each with the identifier of its
entry and the tags of its entry in declaration order, and then signal the end
of the iteration. -/
theorem iteration_yields_table_in_order (rules : Rules) (allocs : List NextAlloc)
    (hfresh : rules.iter_current_rule = 0)
    (hlen : allocs.length = rules.rules.rules_table.length + 1) (hok : ∀ a ∈ allocs, a.ok) :
    (Rules_next_steps allocs rules).1 =
      rules.rules.rules_table.map (fun entry => NextResult.rule (Rule_of entry))
        ++ [NextResult.StopIteration] ∧
    (∀ (j : Nat) (entry : YR_RULE), rules.rules.rules_table[j]? = some entry →
      (Rules_next_steps allocs rules).1[j]? = some (NextResult.rule (Rule_of entry)) ∧
      (Rule_of entry).identifier = PyObject.Str entry.identifier ∧
      (Rule_of entry).tags = PyObject.List (entry.tags.map PyObject.Str)) ∧
    (Rules_next_steps allocs rules).1[rules.rules.rules_table.length]?
      = some NextResult.StopIteration ∧
    (∀ (E : CompileEnv) (args : CompileArgs) (compiled : Rules),
      (yara_compile E (some args)).value = Except.ok compiled →
      compiled.iter_current_rule = 0) ∧
    (∀ (E : LoadEnv) (args : Option LoadArgs) (loaded : Rules),
      yara_load E args = Except.ok loaded → loaded.iter_current_rule = 0) := by
  obtain ⟨h1, _⟩ := Rules_next_steps_from rules.rules.rules_table
    rules.rules.rules_table.length allocs rules rfl (by omega) hlen hok
  rw [hfresh, List.drop_zero] at h1
  refine ⟨h1, ?_, ?_, fun E args compiled h => yara_compile_fresh E args compiled h,
    fun E args loaded h => yara_load_fresh E args loaded h⟩
  · intro j entry hj
    refine ⟨?_, rfl, rfl⟩
    have hlt : j < rules.rules.rules_table.length := by
      by_contra hge
      rw [List.getElem?_eq_none (by omega)] at hj
      cases hj
    have hlt2 : j < (rules.rules.rules_table.map
        (fun entry => NextResult.rule (Rule_of entry))).length := by
      rw [List.length_map]
      exact hlt
    rw [h1, List.getElem?_append_left hlt2, List.getElem?_map, hj]
    rfl
  · have hge : (rules.rules.rules_table.map
        (fun entry => NextResult.rule (Rule_of entry))).length
        ≤ rules.rules.rules_table.length := by
      rw [List.length_map]
    rw [h1, List.getElem?_append_right hge, List.length_map, Nat.sub_self]
    rfl

/-- C25, at a rule set of two rules: three steps return the Rule of the first
entry, the Rule of the second entry, and the end of the iteration. -/
theorem iteration_yields_table_in_order_witness :
    two_rules.iter_current_rule = 0 ∧
    (Rules_next_steps [NextAlloc.healthy, NextAlloc.healthy, NextAlloc.healthy] two_rules).1 =
      [NextResult.rule (Rule_of example_rule), NextResult.rule (Rule_of second_rule),
        NextResult.StopIteration] ∧
    (Rule_of second_rule).identifier = PyObject.Str "s" ∧
    (Rule_of example_rule).tags = PyObject.List [PyObject.Str "a", PyObject.Str "b"] :=
  ⟨rfl,
    (iteration_yields_table_in_order two_rules
      [NextAlloc.healthy, NextAlloc.healthy, NextAlloc.healthy] rfl rfl
      (fun a ha => by
        simp only [List.mem_cons, List.mem_singleton, List.not_mem_nil, or_false, or_self] at ha
        subst ha
        exact ⟨rfl, rfl, rfl⟩)).1,
    rfl, rfl⟩

/-- C26 as stated fails: the Rule that the first step of an iteration returns
for `example_rule`, whose namespace is `default`, has no attribute
`namespace`. -/
theorem rule_has_no_namespace :
    (Rules_next NextAlloc.healthy two_rules).1 = NextResult.rule (Rule_of example_rule) ∧
    example_rule.ns.name = "default" ∧
    Rule_getattro (Rule_of example_rule) "namespace" = none :=
  ⟨(congrArg Prod.fst (Rules_next_rule NextAlloc.healthy two_rules example_rule
    ⟨rfl, rfl, rfl⟩ rfl)), rfl, rfl⟩

/-- C26, amended: a Rule that a step of the iteration returns has the five
attributes `identifier`, `tags`, `meta`, `is_global` and `is_private`, those of
the entry of the rule table at the cursor: its identifier, its tags in
declaration order, its meta entries as a mapping, and true for `is_global` and
`is_private` exactly when the GLOBAL and the PRIVATE bit of its flags are set.
It has no attribute of another name, `namespace` included. -/
theorem rule_carries_five_attributes (a : NextAlloc) (rules : Rules) (r : Rule)
    (h : (Rules_next a rules).1 = NextResult.rule r) :
    ∃ entry, rules.rules.rules_table[rules.iter_current_rule]? = some entry ∧
      Rule_getattro r "identifier" = some (PyObject.Str entry.identifier) ∧
      Rule_getattro r "tags" = some (PyObject.List (entry.tags.map PyObject.Str)) ∧
      Rule_getattro r "meta" = some (PyObject.Dict
        (mapping_of (entry.metas.map (fun meta => (meta.identifier, meta_object meta))))) ∧
      Rule_getattro r "is_global" =
        some (PyObject.Bool (decide (entry.flags &&& RULE_FLAGS_GLOBAL ≠ 0))) ∧
      Rule_getattro r "is_private" =
        some (PyObject.Bool (decide (entry.flags &&& RULE_FLAGS_PRIVATE ≠ 0))) ∧
      Rule_getattro r "namespace" = none ∧
      ∀ name, name ∉ ["is_global", "is_private", "identifier", "tags", "meta"] →
        Rule_getattro r name = none := by
  obtain ⟨entry, hentry, _, hr⟩ := Rules_next_inv a rules r h
  subst hr
  have hg : entry.flags.testBit 1 = decide (entry.flags &&& RULE_FLAGS_GLOBAL ≠ 0) := by
    unfold RULE_FLAGS_GLOBAL
    rw [nat_and_two]
    cases entry.flags.testBit 1 <;> simp
  have hp : entry.flags.testBit 0 = decide (entry.flags &&& RULE_FLAGS_PRIVATE ≠ 0) := by
    unfold RULE_FLAGS_PRIVATE
    rw [Nat.and_one_is_mod, Nat.testBit_zero]
    rcases Nat.mod_two_eq_zero_or_one entry.flags with h2 | h2 <;> simp [h2]
  refine ⟨entry, hentry, rfl, rfl, rfl, ?_, ?_, rfl, ?_⟩
  · rw [← hg]
    rfl
  · rw [← hp]
    rfl
  · intro name hname
    simp only [List.mem_cons, List.mem_singleton, List.not_mem_nil, or_false, not_or] at hname
    obtain ⟨n1, n2, n3, n4, n5⟩ := hname
    simp [Rule_getattro, Rule_members, List.find?, Ne.symm n1, Ne.symm n2, Ne.symm n3,
      Ne.symm n4, Ne.symm n5]

/-- C26 amended, at the second step of an iteration over `two_rules`: the Rule
is that of `second_rule`, which is global and not private. -/
theorem rule_carries_five_attributes_witness :
    (Rules_next NextAlloc.healthy { two_rules with iter_current_rule := 1 }).1
      = NextResult.rule (Rule_of second_rule) ∧
    ∃ entry, entry = second_rule ∧
      Rule_getattro (Rule_of second_rule) "identifier" = some (PyObject.Str entry.identifier) ∧
      Rule_getattro (Rule_of second_rule) "is_global" = some (PyObject.Bool true) ∧
      Rule_getattro (Rule_of second_rule) "is_private" = some (PyObject.Bool false) ∧
      Rule_getattro (Rule_of second_rule) "namespace" = none :=
  have hstep : (Rules_next NextAlloc.healthy { two_rules with iter_current_rule := 1 }).1
      = NextResult.rule (Rule_of second_rule) :=
    congrArg Prod.fst (Rules_next_rule NextAlloc.healthy { two_rules with iter_current_rule := 1 }
      second_rule ⟨rfl, rfl, rfl⟩ rfl)
  ⟨hstep, by
    obtain ⟨entry, hentry, h1, _, _, h4, h5, h6, _⟩ := rule_carries_five_attributes
      NextAlloc.healthy { two_rules with iter_current_rule := 1 } (Rule_of second_rule) hstep
    have he : entry = second_rule := by
      have : ({ two_rules with iter_current_rule := 1 } : Rules).rules.rules_table[
          ({ two_rules with iter_current_rule := 1 } : Rules).iter_current_rule]?
          = some second_rule := rfl
      rw [this] at hentry
      cases hentry
      rfl
    subst he
    exact ⟨_, rfl, h1, rfl, rfl, h6⟩⟩

theorem meta_step_overwrite :
    (fun (meta_list : PyDict) (meta : YR_META) =>
        PyDict_SetItemString meta_list meta.identifier (meta_object meta)) = meta_step false := by
  funext meta_list meta
  simp [meta_step]

/-- C29: the value built for a meta entry, which is the same code in
`yara_callback` and in `Rules_next`. An entry of integer type with value `v`
gives the integer `v` reduced to a C `int`, which is `v` itself in the signed
32-bit range; an entry of boolean type with a 64-bit value gives true exactly
when the value is not zero; every other entry gives its string. These values
are what the meta mapping of a Match (or of the dictionary handed to the match
callback) and of a Rule hold: under a key the value of its last declaration,
or, when duplicate metadata is kept, the list of the values of all its
declarations. -/
theorem meta_values_converted (meta : YR_META) :
    (meta.type = META_TYPE_INTEGER →
      meta_object meta = PyObject.Long (to_int32 meta.integer) ∧
      (-(2 ^ 31) ≤ meta.integer → meta.integer < 2 ^ 31 →
        meta_object meta = PyObject.Long meta.integer)) ∧
    (meta.type = META_TYPE_BOOLEAN → -(2 ^ 63) ≤ meta.integer → meta.integer < 2 ^ 63 →
      meta_object meta = PyObject.Bool (decide (meta.integer ≠ 0))) ∧
    (meta.type ≠ META_TYPE_INTEGER → meta.type ≠ META_TYPE_BOOLEAN →
      meta_object meta = PyObject.Str meta.string) ∧
    (∀ (rt : Runtime) (context : YR_SCAN_CONTEXT) (rule : YR_RULE) (ev : Event)
        (user_data : CALLBACK_DATA) (trace new : List Effect) (e : Effect)
        (tags : List String) (m : PyDict) (strings : List StringMatch),
      (ev = Event.RULE_MATCHING rule ∨ ev = Event.RULE_NOT_MATCHING rule) →
      (yara_callback rt context ev user_data trace).trace = trace ++ new → e ∈ new →
      e.materialised = some (tags, m, strings) →
      (user_data.allow_duplicate_metadata = false →
        ∀ k, PyDict_GetItemString m k = ((declarations rule k).getLast?).map meta_object) ∧
      (user_data.allow_duplicate_metadata = true →
        ∀ k, PyDict_GetItemString m k = listed ((declarations rule k).map meta_object))) ∧
    (∀ (a : NextAlloc) (rules : Rules) (r : Rule),
      (Rules_next a rules).1 = NextResult.rule r →
      ∃ entry d, rules.rules.rules_table[rules.iter_current_rule]? = some entry ∧
        r.meta = PyObject.Dict d ∧
        ∀ k, PyDict_GetItemString d k = ((declarations entry k).getLast?).map meta_object) := by
  refine ⟨?_, ?_, ?_, ?_, ?_⟩
  · intro ht
    have h1 : meta_object meta = PyObject.Long (to_int32 meta.integer) := by
      unfold meta_object
      rw [if_pos ht]
    refine ⟨h1, fun hlo hhi => ?_⟩
    rw [h1, to_int32_of_fits meta.integer hlo hhi]
  · intro ht hlo hhi
    have hne : meta.type ≠ META_TYPE_INTEGER := by
      rw [ht]
      decide
    unfold meta_object
    rw [if_neg hne, if_pos ht]
    unfold PyBool_FromLong
    have h64 : to_int64 meta.integer = meta.integer := by
      unfold to_int64
      omega
    rw [h64]
  · intro h1 h2
    unfold meta_object
    rw [if_neg h1, if_neg h2]
    rfl
  · intro rt context rule ev user_data trace new e tags m strings hev htrace he hmat
    have h := yara_callback_materialised rt context rule ev hev user_data trace new htrace e he
      _ hmat
    simp only [Prod.mk.injEq] at h
    obtain ⟨-, hmeta, -⟩ := h
    constructor
    · intro hdup k
      rw [hmeta, hdup, meta_loop_overwrites]
      unfold declarations
      cases (rule.metas.filter (fun meta => decide (meta.identifier = k))).getLast? <;>
        simp [PyDict_GetItemString]
    · intro hdup k
      rw [hmeta, hdup, meta_loop_duplicates rule.metas [] (fun _ => []) (fun _ => rfl) k]
      rfl
  · intro a rules r h
    obtain ⟨entry, hentry, _, hr⟩ := Rules_next_inv a rules r h
    refine ⟨entry, _, hentry, by rw [hr]; rfl, ?_⟩
    intro k
    rw [← metas_loop, meta_step_overwrite, meta_loop_overwrites]
    unfold declarations
    cases (entry.metas.filter (fun meta => decide (meta.identifier = k))).getLast? <;>
      simp [PyDict_GetItemString]

/-- C29, at four meta entries: the integer `2 ^ 32 + 5` is reduced to 5, the
integer -3 is kept, the boolean entry with value 7 is true, and the string
entry gives its string. -/
theorem meta_values_converted_witness :
    meta_object wide_meta = PyObject.Long 5 ∧
    meta_object negative_meta = PyObject.Long (-3) ∧
    meta_object boolean_meta = PyObject.Bool true ∧
    meta_object string_meta = PyObject.Str "s" :=
  ⟨((meta_values_converted wide_meta).1 rfl).1,
    ((meta_values_converted negative_meta).1 rfl).2 (by decide) (by decide),
    (meta_values_converted boolean_meta).2.1 rfl (by decide) (by decide),
    (meta_values_converted string_meta).2.2.1 (by decide) (by decide)⟩

/-- C30: the cursor of a rule set. A call of `Rules_next`, and so any number
of calls, leaves the rule table as it is and a cursor that is within the table
or at the entry that ends it there; a call that signals the end of the
iteration leaves the cursor at the first entry; so on a rule set with the cursor
at the first entry, an iteration run to its end followed by a second one
returns the same sequence of Rules twice; and after an iteration abandoned
after `k` Rules the cursor is at entry `k`, and the next iteration returns the
Rules of the entries from `k` on. A rule set that `load` returns has the cursor
at the first entry. -/
theorem iteration_cursor_on_rule_set (rules : Rules)
    (hcursor : rules.iter_current_rule ≤ rules.rules.rules_table.length) :
    (∀ allocs : List NextAlloc,
      (Rules_next_steps allocs rules).2.rules = rules.rules ∧
      (Rules_next_steps allocs rules).2.iter_current_rule ≤ rules.rules.rules_table.length) ∧
    (∀ a : NextAlloc, (Rules_next a rules).1 = NextResult.StopIteration →
      (Rules_next a rules).2.iter_current_rule = 0) ∧
    (∀ first second : List NextAlloc, rules.iter_current_rule = 0 →
      first.length = rules.rules.rules_table.length + 1 →
      second.length = rules.rules.rules_table.length + 1 →
      (∀ a ∈ first, a.ok) → (∀ a ∈ second, a.ok) →
      (Rules_next_steps (first ++ second) rules).1 =
        (rules.rules.rules_table.map (fun entry => NextResult.rule (Rule_of entry))
            ++ [NextResult.StopIteration])
          ++ (rules.rules.rules_table.map (fun entry => NextResult.rule (Rule_of entry))
            ++ [NextResult.StopIteration])) ∧
    (∀ (k : Nat) (first second : List NextAlloc), rules.iter_current_rule = 0 →
      k < rules.rules.rules_table.length → first.length = k →
      second.length = rules.rules.rules_table.length - k + 1 →
      (∀ a ∈ first, a.ok) → (∀ a ∈ second, a.ok) →
      (Rules_next_steps first rules).1 =
        (rules.rules.rules_table.take k).map (fun entry => NextResult.rule (Rule_of entry)) ∧
      (Rules_next_steps first rules).2.iter_current_rule = k ∧
      (Rules_next_steps second (Rules_next_steps first rules).2).1 =
        (rules.rules.rules_table.drop k).map (fun entry => NextResult.rule (Rule_of entry))
          ++ [NextResult.StopIteration]) ∧
    (∀ (E : LoadEnv) (args : Option LoadArgs) (loaded : Rules),
      yara_load E args = Except.ok loaded → loaded.iter_current_rule = 0) := by
  refine ⟨?_, ?_, ?_, ?_, fun E args loaded h => yara_load_fresh E args loaded h⟩
  · intro allocs
    obtain ⟨s1, s2⟩ := Rules_next_steps_table allocs rules
    exact ⟨s1, s2 hcursor⟩
  · intro a h
    exact (Rules_next_table a rules).2.2 h
  · intro first second hfresh hl1 hl2 hok1 hok2
    obtain ⟨f1, f2⟩ := Rules_next_steps_from rules.rules.rules_table
      rules.rules.rules_table.length first rules rfl (by omega) hl1 hok1
    rw [hfresh, List.drop_zero] at f1
    have hsame : ({ rules with iter_current_rule := 0 } : Rules) = rules := by
      cases rules
      simp only at hfresh
      subst hfresh
      rfl
    rw [hsame] at f2
    obtain ⟨g1, _⟩ := Rules_next_steps_from rules.rules.rules_table
      rules.rules.rules_table.length second rules rfl (by omega) hl2 hok2
    rw [hfresh, List.drop_zero] at g1
    rw [Rules_next_steps_append, f2, f1]
    simp only []
    rw [g1]
  · intro k first second hfresh hk hl1 hl2 hok1 hok2
    obtain ⟨p1, p2⟩ := Rules_next_steps_prefix rules.rules.rules_table first rules rfl
      (by omega) hok1
    rw [hfresh, List.drop_zero, hl1] at p1
    rw [hfresh, hl1, Nat.zero_add] at p2
    obtain ⟨f1, _⟩ := Rules_next_steps_from rules.rules.rules_table
      (rules.rules.rules_table.length - k) second { rules with iter_current_rule := k } rfl
      (by simp only; omega) hl2 hok2
    refine ⟨p1, by rw [p2], ?_⟩
    rw [p2]
    exact f1

/-- C30, at a rule set of two rules: an iteration abandoned after one Rule
leaves the cursor at entry 1, and the next iteration returns the Rule of the
second entry only and then signals the end. -/
theorem iteration_cursor_on_rule_set_witness :
    two_rules.iter_current_rule ≤ two_rules.rules.rules_table.length ∧
    (Rules_next_steps [NextAlloc.healthy] two_rules).2.iter_current_rule = 1 ∧
    (Rules_next_steps [NextAlloc.healthy, NextAlloc.healthy]
        (Rules_next_steps [NextAlloc.healthy] two_rules).2).1 =
      [NextResult.rule (Rule_of second_rule), NextResult.StopIteration] :=
  have hok : ∀ l : List NextAlloc, (∀ a ∈ l, a = NextAlloc.healthy) → ∀ a ∈ l, a.ok :=
    fun l hl a ha => by
      rw [hl a ha]
      exact ⟨rfl, rfl, rfl⟩
  have t := (iteration_cursor_on_rule_set two_rules (by decide)).2.2.2.1 1
    [NextAlloc.healthy] [NextAlloc.healthy, NextAlloc.healthy] rfl (by decide) rfl rfl
    (hok _ (by simp)) (hok _ (by simp))
  ⟨by decide, t.2.1, t.2.2⟩

/-! ## Match instances -/

/-- C27: the instance built for an engine match. Its offset is the sum of base
and offset converted by `PyLong_FromLongLong`, that is read as a signed 64-bit
integer: it is the unsigned value `(b + o) mod 2 ^ 64` only when that is below
`2 ^ 63`, and it is that value less `2 ^ 64`, a negative integer, otherwise, as
for `high_match`. The matched length is the engine's 32-bit length, the xor
key the engine's 8-bit key, the matched data the first `data_length` captured
bytes; these are the instances that `yara_callback` collects for the matches of
a string. -/
theorem match_offset_is_signed (m : YR_MATCH) :
    instance_of_match m = some
      { offset := to_int64 (m.base + m.offset)
        matched_data := m.data.take m.data_length
        matched_length := to_int32 m.match_length
        xor_key := ((m.xor_key % 2 ^ 8 : Nat) : Int) } ∧
    ((m.base + m.offset) % 2 ^ 64 < 2 ^ 63 →
      to_int64 (m.base + m.offset) = (m.base + m.offset) % 2 ^ 64) ∧
    (2 ^ 63 ≤ (m.base + m.offset) % 2 ^ 64 →
      to_int64 (m.base + m.offset) = (m.base + m.offset) % 2 ^ 64 - 2 ^ 64 ∧
      to_int64 (m.base + m.offset) < 0) ∧
    (-(2 ^ 31) ≤ m.match_length → m.match_length < 2 ^ 31 →
      to_int32 m.match_length = m.match_length) ∧
    (m.xor_key < 2 ^ 8 → ((m.xor_key % 2 ^ 8 : Nat) : Int) = m.xor_key) ∧
    (instance_of_match high_match =
      some { offset := -10485744, matched_data := [1, 2, 3], matched_length := 3,
             xor_key := 0 }) ∧
    ((high_match.base + high_match.offset) % 2 ^ 64 = 18446744073699065872) ∧
    (∀ (a : Alloc) (idx : Nat) (ms : List YR_MATCH) (pos : Nat)
        (acc : List StringMatchInstance),
      (∀ pos, a.string_match_instance idx pos = true) →
      instances_loop a idx ms pos acc = some (acc ++ ms.filterMap instance_of_match)) := by
  refine ⟨?_, ?_, ?_, ?_, ?_, rfl, by decide, ?_⟩
  · unfold instance_of_match StringMatchInstance_NEW
    rw [if_pos rfl]
    have h1 : to_int64 ((to_uint64 (m.base + m.offset) : Nat) : Int)
        = to_int64 (m.base + m.offset) := by
      unfold to_int64 to_uint64
      have hnn : 0 ≤ (m.base + m.offset) % 2 ^ 64 := Int.emod_nonneg _ (by decide)
      rw [Int.toNat_of_nonneg hnn]
      omega
    simp only [PyBytes_FromStringAndSize, to_uint8]
    rw [h1]
  · intro h
    unfold to_int64
    omega
  · intro h
    unfold to_int64
    constructor <;> omega
  · intro h1 h2
    exact to_int32_of_fits _ h1 h2
  · intro h
    rw [Nat.mod_eq_of_lt h]
  · intro a idx ms pos acc h
    exact instances_loop_ok a idx h ms pos acc

/-- C27, at `high_match`: the sum of base and offset is
`0xffffffffff600010` as an unsigned 64-bit value, and the offset of the
instance is that value less `2 ^ 64`. -/
theorem match_offset_is_signed_witness :
    (2 : Int) ^ 63 ≤ (high_match.base + high_match.offset) % 2 ^ 64 ∧
    to_int64 (high_match.base + high_match.offset) = 18446744073699065872 - 2 ^ 64 ∧
    to_int64 (high_match.base + high_match.offset) < 0 :=
  have t := (match_offset_is_signed high_match).2.2.1 (by decide)
  ⟨by decide, by rw [t.1]; decide, t.2⟩

/-! ## Stream round trip -/

/-- Successive calls of a `write` that always succeeds and appends what it is
given all succeed, and leave the arguments stored in order. -/
theorem successive_appending_write {σ : Type} (sink : FileLike σ) (stored : σ → List Byte)
    (hwrite : ∀ s bytes, (sink.write s bytes).1.isSome = true ∧
      stored (sink.write s bytes).2 = stored s ++ bytes) :
    ∀ (args : List (List Byte)) (s : σ),
      (successive sink.write args s).takeWhile Option.isSome = successive sink.write args s ∧
      stored (state_after sink.write args s) = stored s ++ args.flatten := by
  intro args
  induction args with
  | nil => intro s; simp [successive, state_after]
  | cons a rest ih =>
    intro s
    obtain ⟨h1, h2⟩ := hwrite s a
    obtain ⟨i1, i2⟩ := ih (sink.write s a).2
    constructor
    · simp only [successive]
      rw [List.takeWhile_cons_of_pos h1, i1]
    · simp only [state_after, List.flatten_cons]
      rw [i2, h2, List.append_assoc]

/-- The chunks `i`, `i + 1`, ... of a buffer, one after the other, are the
bytes of the buffer from offset `i * size` on. -/
theorem chunks_flatten (buf : List Byte) (size : Nat) :
    ∀ (n i : Nat), ((List.range' i n).map (chunk_at buf size)).flatten =
      (buf.drop (i * size)).take (n * size) := by
  intro n
  induction n with
  | zero => intro i; simp
  | succ n ih =>
    intro i
    rw [List.range'_succ, List.map_cons, List.flatten_cons, ih (i + 1)]
    have e1 : (n + 1) * size = size + n * size := by ring
    have e2 : (i + 1) * size = i * size + size := by ring
    rw [e1, List.take_add, List.drop_drop, e2]
    rfl

/-- Successive calls of `read` on a source that hands out its unread bytes in
order return the chunks of these bytes, one per call. -/
theorem successive_sequential_read {τ : Type} (source : FileLike τ) (unread : τ → List Byte)
    (hread : ∀ (t : τ) (n : Nat),
      (source.read t (n : Int)).1 = some (PyObject.Bytes ((unread t).take n)) ∧
      unread (source.read t (n : Int)).2 = (unread t).drop n)
    (data : List Byte) (size : Nat) :
    ∀ (todo i : Nat) (t : τ), unread t = data.drop (i * size) →
      successive source.read (List.replicate todo (size : Int)) t =
        (List.range' i todo).map (fun j => some (PyObject.Bytes (chunk_at data size j))) := by
  intro todo
  induction todo with
  | zero => intro i t _; rfl
  | succ todo ih =>
    intro i t ht
    obtain ⟨h1, h2⟩ := hread t size
    have hnext : unread (source.read t (size : Int)).2 = data.drop ((i + 1) * size) := by
      rw [h2, ht, List.drop_drop]
      congr 1
      ring
    rw [List.replicate_succ, List.range'_succ, List.map_cons]
    simp only [successive]
    rw [ih (i + 1) _ hnext, h1, ht]
    rfl

/-- Every chunk of a buffer of `size * count` bytes is a full chunk. -/
theorem chunk_at_length (buf : List Byte) (size count j : Nat)
    (hbuf : buf.length = size * count) (hj : j < count) :
    (chunk_at buf size j).length = size := by
  unfold chunk_at
  rw [List.length_take, List.length_drop, hbuf]
  have h : size * (j + 1) ≤ size * count := Nat.mul_le_mul_left _ hj
  have e1 : size * (j + 1) = j * size + size := by ring
  omega

/-- C28: stream round trip. Take a buffer of `size * count` bytes (in memory,
so of fewer than `2 ^ 63` bytes), a sink whose `write` always succeeds and
appends the bytes it is given to what it has stored, and a source whose `read`
hands out its unread bytes in order, as many as asked for, the unread bytes
being those that `flo_write` stored. Then `flo_write` returns `count` and
leaves the buffer stored after the former content of the sink, `flo_read`
returns `count`, and the destination of `size * count` bytes that it filled is
equal to the buffer. -/
theorem stream_round_trip {σ τ : Type} (sink : FileLike σ) (stored : σ → List Byte)
    (source : FileLike τ) (unread : τ → List Byte) (buf dest : List Byte) (size count : Nat)
    (s : σ) (t : τ)
    (hbuf : buf.length = size * count) (hmem : buf.length < 2 ^ 63)
    (hdest : dest.length = size * count)
    (hwrite : ∀ s bytes, (sink.write s bytes).1.isSome = true ∧
      stored (sink.write s bytes).2 = stored s ++ bytes)
    (hread : ∀ (t : τ) (n : Nat),
      (source.read t (n : Int)).1 = some (PyObject.Bytes ((unread t).take n)) ∧
      unread (source.read t (n : Int)).2 = (unread t).drop n)
    (hsource : stored s ++ unread t = stored (flo_write sink buf size count s).user_data) :
    (flo_write sink buf size count s).result = count ∧
    stored (flo_write sink buf size count s).user_data = stored s ++ buf ∧
    (flo_read source dest size count t).result = count ∧
    (flo_read source dest size count t).ptr = buf := by
  rcases Nat.eq_zero_or_pos count with hc | hc
  · subst hc
    have hb : buf = [] := List.eq_nil_of_length_eq_zero (by rw [hbuf]; rfl)
    have hd : dest = [] := List.eq_nil_of_length_eq_zero (by rw [hdest]; rfl)
    subst hb
    subst hd
    refine ⟨rfl, ?_, rfl, rfl⟩
    rw [List.append_nil]
    rfl
  · have hsize : size < 2 ^ 63 := by
      have h : size * 1 ≤ size * count := Nat.mul_le_mul_left _ hc
      omega
    have hto : to_int64 (size : Int) = (size : Int) := by
      unfold to_int64
      omega
    have hall : buf.take (count * size) = buf := by
      apply List.take_of_length_le
      rw [hbuf, Nat.mul_comm]
    -- the write
    obtain ⟨w1, _, w3⟩ := flo_write_loop_spec sink buf size count hsize count 0 s [] (by omega)
    obtain ⟨a1, a2⟩ := successive_appending_write sink stored hwrite
      ((List.range' 0 count).map (chunk_at buf size)) s
    have hwlen : ((successive sink.write ((List.range' 0 count).map (chunk_at buf size))
        s).takeWhile Option.isSome).length = count := by
      rw [a1, successive_length, List.length_map, List.length_range']
    have hflat : ((List.range' 0 count).map (chunk_at buf size)).flatten = buf := by
      rw [chunks_flatten buf size count 0, Nat.zero_mul, List.drop_zero, hall]
    have hstored : stored (flo_write sink buf size count s).user_data = stored s ++ buf := by
      unfold flo_write
      rw [w3, hwlen, List.take_of_length_le (by rw [List.length_map, List.length_range']; omega),
        a2, hflat]
    have hunread : unread t = buf.drop (0 * size) := by
      rw [Nat.zero_mul, List.drop_zero]
      exact List.append_cancel_left (hsource.trans hstored)
    -- the read
    obtain ⟨r1, _, _, r4⟩ := flo_read_loop_spec source size count count 0 dest t [] (by omega)
    have hanswers := successive_sequential_read source unread hread buf size count 0 t hunread
    rw [hto] at r1 r4
    rw [hanswers] at r1 r4
    have hfull : ((List.range' 0 count).map
        (fun j => some (PyObject.Bytes (chunk_at buf size j)))).takeWhile (full_read size) =
        (List.range' 0 count).map (fun j => some (PyObject.Bytes (chunk_at buf size j))) := by
      rw [List.takeWhile_eq_self_iff]
      intro a ha
      obtain ⟨j, hj, rfl⟩ := List.mem_map.mp ha
      have hjc : j < count := by
        have := (List.mem_range'_1.mp hj).2
        omega
      rw [full_read_iff]
      exact ⟨_, rfl, (chunk_at_length buf size count j hbuf hjc).ge⟩
    rw [hfull] at r1 r4
    rw [List.length_map, List.length_range'] at r1 r4
    have hchunks : ((List.range' 0 count).map
        (fun j => some (PyObject.Bytes (chunk_at buf size j)))).map
          (fun a => (chunk_of a).take size) = (List.range' 0 count).map (chunk_at buf size) := by
      rw [List.map_map]
      apply List.map_congr_left
      intro j _
      show (chunk_at buf size j).take size = chunk_at buf size j
      unfold chunk_at
      rw [List.take_take, Nat.min_self]
    refine ⟨?_, hstored, ?_, ?_⟩
    · unfold flo_write
      rw [w1, hwlen, Nat.zero_add]
    · unfold flo_read
      rw [r1, Nat.zero_add]
    · unfold flo_read
      rw [r4 (by rw [hdest, Nat.zero_add, Nat.mul_comm]), hchunks, hflat, Nat.zero_mul,
        List.take_zero, List.nil_append, Nat.zero_add,
        List.drop_of_length_le (by rw [hdest, Nat.mul_comm]), List.append_nil]

/-- C28, for the six bytes `1 .. 6` written to an empty `memory_file` as three
chunks of two bytes and read back from its start into a zeroed destination. -/
theorem stream_round_trip_witness :
    (flo_write memory_file [1, 2, 3, 4, 5, 6] 2 3 ([], 0)).result = 3 ∧
    (flo_write memory_file [1, 2, 3, 4, 5, 6] 2 3 ([], 0)).user_data.1 =
      [] ++ [1, 2, 3, 4, 5, 6] ∧
    (flo_read memory_file [0, 0, 0, 0, 0, 0] 2 3 ([1, 2, 3, 4, 5, 6], 0)).result = 3 ∧
    (flo_read memory_file [0, 0, 0, 0, 0, 0] 2 3 ([1, 2, 3, 4, 5, 6], 0)).ptr =
      [1, 2, 3, 4, 5, 6] :=
  stream_round_trip memory_file (fun s => s.1) memory_file (fun s => s.1.drop s.2)
    [1, 2, 3, 4, 5, 6] [0, 0, 0, 0, 0, 0] 2 3 ([], 0) ([1, 2, 3, 4, 5, 6], 0)
    (by decide) (by decide) (by decide)
    (fun _ _ => ⟨rfl, rfl⟩)
    (fun t n => ⟨rfl, by
      show List.drop (t.2 + ((t.1.drop t.2).take (n : Int).toNat).length) t.1 =
        (t.1.drop t.2).drop n
      rw [Int.toNat_ofNat, List.length_take, List.length_drop, List.drop_drop]
      rcases Nat.le_total n (t.1.length - t.2) with h | h
      · rw [Nat.min_eq_left h, Nat.add_comm]
      · rw [Nat.min_eq_right h, List.drop_of_length_le (by omega),
          List.drop_of_length_le (by omega)]⟩)
    rfl

end YaraPython
